import Mathlib

/-!
# WAV / RF64 codec (`juce_WavAudioFormat.cpp`, `juce_AudioFormatFileHelpers.h`)

A shallow embedding of the chunk reader (`WavAudioFormatReader::doRead`), of the
metadata chunk decoders of `WavFileHelpers`, and of the header writer
(`WavAudioFormatWriter::writeHeader`), followed by theorems about them.

Conventions.
* A byte is a `Nat`; every read from a stream reduces it modulo 256.
* A C++ `int`, `short`, `uint32` ... read from a stream is kept as its unsigned
  bit pattern (a `Nat` below `2^w`); the signed reading is taken explicitly with
  `toInt32`, `toInt16`, ... exactly where the source converts.
* Loops whose termination depends on the stream take a `fuel` argument and fail
  with `ReadError.outOfFuel` when it runs out.
* Integer division by zero (and `INT_MIN / -1`) is a trap in C++; the embedding
  returns `ReadError.divisionByZero` (`ReadError.divisionOverflow`).
-/

namespace juce

/-! ## Machine integers -/

/-- Signed reading of a 32-bit pattern (`(int) x`). -/
def toInt32 (n : Nat) : Int :=
  if n % 4294967296 < 2147483648 then ((n % 4294967296 : Nat) : Int)
  else ((n % 4294967296 : Nat) : Int) - 4294967296

/-- Signed reading of a 16-bit pattern (`short`). -/
def toInt16 (n : Nat) : Int :=
  if n % 65536 < 32768 then ((n % 65536 : Nat) : Int) else ((n % 65536 : Nat) : Int) - 65536

/-- Signed reading of an 8-bit pattern (`int8`). -/
def toInt8 (n : Nat) : Int :=
  if n % 256 < 128 then ((n % 256 : Nat) : Int) else ((n % 256 : Nat) : Int) - 256

/-- Signed reading of a 64-bit pattern (`int64`). -/
def toInt64 (n : Nat) : Int :=
  if n % 18446744073709551616 < 9223372036854775808 then ((n % 18446744073709551616 : Nat) : Int)
  else ((n % 18446744073709551616 : Nat) : Int) - 18446744073709551616

/-- Conversion to `unsigned int` / `uint32`: the value modulo `2^32`. -/
def toUInt32 (i : Int) : Nat := (i % 4294967296).toNat

/-- Conversion to `uint64`: the value modulo `2^64`. -/
def toUInt64 (i : Int) : Nat := (i % 18446744073709551616).toNat

/-- Little-endian value of a byte sequence (`ByteOrder::littleEndianInt`,
`littleEndianShort`, `littleEndianInt64` according to the number of bytes). -/
def littleEndian : List Nat → Nat
  | [] => 0
  | b :: bs => b % 256 + 256 * littleEndian bs

/-- The `width` little-endian bytes of `v` (`OutputStream::writeInt`, `writeShort`,
`writeInt64` store the value modulo `2^(8*width)`). -/
def toLittleEndian : Nat → Nat → List Nat
  | 0, _ => []
  | width + 1, v => v % 256 :: toLittleEndian width (v / 256)

namespace WavFileHelpers

/-- Four-character chunk tag as the little-endian integer of its characters
(`chunkName`). -/
def chunkName (name : String) : Nat :=
  littleEndian ((name.toList.take 4).map Char.toNat)

end WavFileHelpers

/-! ## Collaborators that are outside the two source files -/

/-- Modelled from the spec: `String` construction from raw bytes
(`String::fromUTF8`, `String::createStringFromData`, `MemoryBlock::toString`) is not
part of the sources. The text stops at the first zero byte or at the end of the
given bytes; each byte is taken as one code point, which is exact for ASCII. -/
def stringFromBytes (bytes : List Nat) : String :=
  String.mk ((bytes.takeWhile (fun b => b != 0)).map Char.ofNat)

/-- Modelled from the spec: `StringPairArray`, the ordered mapping from string key
to string value with unique keys (section 3, MetadataMap), is not part of the
sources. Keys are compared exactly. -/
abbrev StringPairArray := List (String × String)

namespace StringPairArray

/-- The call `values.set (key, value)`: replace the value of an existing key, else
append a new pair. -/
def set : StringPairArray → String → String → StringPairArray
  | [], key, value => [(key, value)]
  | (k, v) :: rest, key, value =>
      if k = key then (k, value) :: rest else (k, v) :: set rest key value

/-- A sequence of `values.set (key, value)` calls, in order. -/
def setAll (values : StringPairArray) (entries : List (String × String)) : StringPairArray :=
  entries.foldl (fun v e => set v e.1 e.2) values

/-- The call `values.getValue (key, defaultValue)`. -/
def getValue : StringPairArray → String → String → String
  | [], _, defaultValue => defaultValue
  | (k, v) :: rest, key, defaultValue =>
      if k = key then v else getValue rest key defaultValue

/-- The call `values.containsKey (key)`. -/
def containsKey (values : StringPairArray) (key : String) : Bool :=
  values.any (fun p => p.1 == key)

/-- The call `values.size()`. -/
def size (values : StringPairArray) : Nat := values.length

end StringPairArray

/-- Modelled from the spec: `InputStream` (here with the behaviour of a
`MemoryInputStream`) is the seekable byte source of section 6; it is not part of the
sources. A read past the end returns fewer bytes, a read at the end returns none and
leaves the position where it is, and `setPosition` clamps to the stream length. -/
structure InputStream where
  data : List Nat
  position : Nat
deriving DecidableEq, Repr

namespace InputStream

/-- The call `getTotalLength()`. -/
def getTotalLength (s : InputStream) : Nat := s.data.length

/-- The call `getPosition()`. -/
def getPosition (s : InputStream) : Nat := s.position

/-- The call `isExhausted()`: the position has reached the end. -/
def isExhausted (s : InputStream) : Bool := decide (s.data.length ≤ s.position)

/-- The call `setPosition (pos)`: clamped to `[0, length]`. -/
def setPosition (s : InputStream) (pos : Int) : InputStream :=
  { s with position := min pos.toNat s.data.length }

/-- The call `read (buffer, n)`: the bytes obtained (at most `n`, none when `n <= 0`)
and the stream advanced by their number. -/
def read (s : InputStream) (n : Int) : List Nat × InputStream :=
  let bytes := ((s.data.drop s.position).take n.toNat).map (fun b => b % 256)
  (bytes, { s with position := s.position + bytes.length })

/-- The call `readInt()`: four bytes little-endian, or 0 when fewer are left. -/
def readInt (s : InputStream) : Nat × InputStream :=
  let r := s.read 4
  (if r.1.length = 4 then littleEndian r.1 else 0, r.2)

/-- The call `readShort()`: two bytes little-endian, or 0 when fewer are left. -/
def readShort (s : InputStream) : Nat × InputStream :=
  let r := s.read 2
  (if r.1.length = 2 then littleEndian r.1 else 0, r.2)

/-- The call `readInt64()`: eight bytes little-endian, or 0 when fewer are left. -/
def readInt64 (s : InputStream) : Nat × InputStream :=
  let r := s.read 8
  (if r.1.length = 8 then littleEndian r.1 else 0, r.2)

/-- The call `skipNextBytes (n)`. -/
def skipNextBytes (s : InputStream) (n : Int) : InputStream := (s.read n).2

/-- The call `readIntoMemoryBlock (block, numBytes)`: the bytes appended to the
block; a negative count means everything up to the end of the stream. -/
def readIntoMemoryBlock (s : InputStream) (numBytes : Int) : List Nat × InputStream :=
  if numBytes < 0 then s.read (s.data.length : Nat) else s.read numBytes

end InputStream

/-- Collaborators whose behaviour is neither in the sources nor expressible over
integers: the text form of a 32-bit float (`String (float)`, given its bit pattern)
the ISRC code the XML parser extracts from an `axml` chunk body (empty when the
document does not have the expected shape), `MetadataChunk::isMetadataChunk()`
as a predicate on the chunk tag, and the numbers `String::getLargeIntValue()`,
`String::getIntValue()` and `String::getFloatValue()` read from a text (the last one
as the bit pattern of the 32-bit float). -/
structure Collaborators where
  floatToString : Nat → String
  axmlISRC : String → String
  isMetadataChunk : Nat → Bool
  getLargeIntValue : String → Int
  getIntValue : String → Int
  getFloatValue : String → Nat

/-- Modelled from the spec: `AudioChannelSet`, reduced to the ordered list of
channel roles of section 4.2 (role numbers as in `AudioChannelSet::ChannelType`:
left = 1, right = 2, centre = 3, LFE = 4, leftSurround = 5, rightSurround = 6,
leftCentre = 7, rightCentre = 8, discreteChannel0 = 128). -/
abbrev AudioChannelSet := List Nat

namespace AudioChannelSet

/-- The first discrete channel role, `AudioChannelSet::discreteChannel0`. -/
def discreteChannel0 : Nat := 128

/-- The layout `AudioChannelSet::mono()`. -/
def mono : AudioChannelSet := [3]

/-- The layout `AudioChannelSet::stereo()`. -/
def stereo : AudioChannelSet := [1, 2]

/-- The layout `AudioChannelSet::discreteChannels (n)`. -/
def discreteChannels (n : Nat) : AudioChannelSet := (List.range n).map (fun i => 128 + i)

/-- The layout `AudioChannelSet::canonicalChannelSet (n)`, used here for `n <= 2`. -/
def canonicalChannelSet (n : Nat) : AudioChannelSet :=
  if n = 1 then mono else if n = 2 then stereo else discreteChannels n

/-- The call `isDiscreteLayout()`: no role below `discreteChannel0`. -/
def isDiscreteLayout (s : AudioChannelSet) : Bool := s.all (fun c => decide (128 ≤ c))

end AudioChannelSet

namespace WavFileHelpers

/-- The function `canonicalWavChannelSet`. -/
def canonicalWavChannelSet (numChannels : Int) : AudioChannelSet :=
  if numChannels = 1 then AudioChannelSet.mono
  else if numChannels = 2 then AudioChannelSet.stereo
  else if numChannels = 3 then [1, 2, 3]
  else if numChannels = 4 then [1, 2, 5, 6]
  else if numChannels = 5 then [1, 2, 3, 5, 6]
  else if numChannels = 6 then [1, 2, 3, 4, 5, 6]
  else if numChannels = 7 then [1, 2, 3, 5, 6, 7, 8]
  else if numChannels = 8 then [1, 2, 3, 4, 5, 6, 7, 8]
  else AudioChannelSet.discreteChannels numChannels.toNat

/-- Bytes `[off, off + n)` of a zero-initialised buffer into which `buf` was read:
positions beyond the bytes read hold 0 (`HeapBlock::calloc`, `zerostruct`). -/
def field (buf : List Nat) (off n : Nat) : List Nat :=
  (List.range n).map (fun i => buf.getD (off + i) 0)

/-- Little-endian `uint32` at offset `off` of the buffer. -/
def u32At (buf : List Nat) (off : Nat) : Nat := littleEndian (field buf off 4)

/-- Little-endian `uint16` at offset `off` of the buffer. -/
def u16At (buf : List Nat) (off : Nat) : Nat := littleEndian (field buf off 2)


/-! ### Metadata chunk decoders

A decoder that only calls `values.set` is given as the list of its `(key, value)`
calls in program order (`entries`), applied by `StringPairArray.setAll`. -/

/-- The `set` calls of `BWAVChunk::copyTo (values, totalSize)` on the
zero-initialised buffer holding the bytes `buf` (packed layout: description 0,
originator 256, originatorRef 288, originationDate 320, originationTime 330,
timeRefLow 338, timeRefHigh 342, codingHistory 602). -/
def BWAVChunk.entries (buf : List Nat) (totalSize : Int) : List (String × String) :=
  [("bwav description", stringFromBytes (field buf 0 256)),
   ("bwav originator", stringFromBytes (field buf 256 32)),
   ("bwav originator ref", stringFromBytes (field buf 288 32)),
   ("bwav origination date", stringFromBytes (field buf 320 10)),
   ("bwav origination time", stringFromBytes (field buf 330 8)),
   ("bwav time reference", toString (toInt64 (u32At buf 342 * 4294967296 + u32At buf 338))),
   ("bwav coding history", stringFromBytes ((buf.drop 602).take (totalSize - 602).toNat))]

/-- The decoder `BWAVChunk::copyTo (values, totalSize)`. -/
def BWAVChunk.copyTo (values : StringPairArray) (buf : List Nat) (totalSize : Int) :
    StringPairArray :=
  values.setAll (BWAVChunk.entries buf totalSize)

/-- The six `setValue (values, i, name, loops[i].field)` calls of one loop record. -/
def SMPLChunk.loopEntries (buf : List Nat) (i : Nat) : List (String × String) :=
  [("Loop" ++ toString i ++ "Identifier", toString (u32At buf (36 + 24 * i))),
   ("Loop" ++ toString i ++ "Type", toString (u32At buf (36 + 24 * i + 4))),
   ("Loop" ++ toString i ++ "Start", toString (u32At buf (36 + 24 * i + 8))),
   ("Loop" ++ toString i ++ "End", toString (u32At buf (36 + 24 * i + 12))),
   ("Loop" ++ toString i ++ "Fraction", toString (u32At buf (36 + 24 * i + 16))),
   ("Loop" ++ toString i ++ "PlayCount", toString (u32At buf (36 + 24 * i + 20)))]

/-- The indices whose body the loop `for (int i = 0; i < (int) numSampleLoops; ++i)`
of `SMPLChunk::copyTo` executes, from index `i` on with `remaining` iterations left
before `i` reaches the count: the loop breaks as soon as the end of record `i`, at
offset `36 + 24 * (i + 1)`, lies beyond `totalSize`. -/
def SMPLChunk.loopIndices (totalSize : Int) : Nat → Nat → List Nat
  | 0, _ => []
  | remaining + 1, i =>
      if 36 + 24 * ((i : Int) + 1) > totalSize then []
      else i :: SMPLChunk.loopIndices totalSize remaining (i + 1)

/-- The nine `setValue` calls of `SMPLChunk::copyTo` that precede its loop. -/
def SMPLChunk.headerEntries (buf : List Nat) : List (String × String) :=
  [("Manufacturer", toString (u32At buf 0)),
   ("Product", toString (u32At buf 4)),
   ("SamplePeriod", toString (u32At buf 8)),
   ("MidiUnityNote", toString (u32At buf 12)),
   ("MidiPitchFraction", toString (u32At buf 16)),
   ("SmpteFormat", toString (u32At buf 20)),
   ("SmpteOffset", toString (u32At buf 24)),
   ("NumSampleLoops", toString (u32At buf 28)),
   ("SamplerData", toString (u32At buf 32))]

/-- The `set` calls of `SMPLChunk::copyTo (values, totalSize)`. -/
def SMPLChunk.entries (buf : List Nat) (totalSize : Int) : List (String × String) :=
  SMPLChunk.headerEntries buf
  ++ (SMPLChunk.loopIndices totalSize (toInt32 (u32At buf 28)).toNat 0).flatMap
       (SMPLChunk.loopEntries buf)

/-- The decoder `SMPLChunk::copyTo (values, totalSize)`. -/
def SMPLChunk.copyTo (values : StringPairArray) (buf : List Nat) (totalSize : Int) :
    StringPairArray :=
  values.setAll (SMPLChunk.entries buf totalSize)

/-- The `set` calls of `InstChunk::copyTo (values)`: seven signed bytes. -/
def InstChunk.entries (buf : List Nat) : List (String × String) :=
  [("MidiUnityNote", toString (toInt8 (buf.getD 0 0))),
   ("Detune", toString (toInt8 (buf.getD 1 0))),
   ("Gain", toString (toInt8 (buf.getD 2 0))),
   ("LowNote", toString (toInt8 (buf.getD 3 0))),
   ("HighNote", toString (toInt8 (buf.getD 4 0))),
   ("LowVelocity", toString (toInt8 (buf.getD 5 0))),
   ("HighVelocity", toString (toInt8 (buf.getD 6 0)))]

/-- The decoder `InstChunk::copyTo (values)`. -/
def InstChunk.copyTo (values : StringPairArray) (buf : List Nat) : StringPairArray :=
  values.setAll (InstChunk.entries buf)

/-- The six `setValue (values, i, name, cues[i].field)` calls of one cue record. -/
def CueChunk.cueEntries (buf : List Nat) (i : Nat) : List (String × String) :=
  [("Cue" ++ toString i ++ "Identifier", toString (u32At buf (4 + 24 * i))),
   ("Cue" ++ toString i ++ "Order", toString (u32At buf (4 + 24 * i + 4))),
   ("Cue" ++ toString i ++ "ChunkID", toString (u32At buf (4 + 24 * i + 8))),
   ("Cue" ++ toString i ++ "ChunkStart", toString (u32At buf (4 + 24 * i + 12))),
   ("Cue" ++ toString i ++ "BlockStart", toString (u32At buf (4 + 24 * i + 16))),
   ("Cue" ++ toString i ++ "Offset", toString (u32At buf (4 + 24 * i + 20)))]

/-- The indices whose body the loop `for (int i = 0; i < (int) numCues; ++i)` of
`CueChunk::copyTo` executes: it breaks as soon as the end of record `i`, at offset
`4 + 24 * (i + 1)`, lies beyond `totalSize`. -/
def CueChunk.cueIndices (totalSize : Int) : Nat → Nat → List Nat
  | 0, _ => []
  | remaining + 1, i =>
      if 4 + 24 * ((i : Int) + 1) > totalSize then []
      else i :: CueChunk.cueIndices totalSize remaining (i + 1)

/-- The `set` calls of `CueChunk::copyTo (values, totalSize)`. -/
def CueChunk.entries (buf : List Nat) (totalSize : Int) : List (String × String) :=
  ("NumCuePoints", toString (u32At buf 0))
  :: (CueChunk.cueIndices totalSize (toInt32 (u32At buf 0)).toNat 0).flatMap (CueChunk.cueEntries buf)

/-- The decoder `CueChunk::copyTo (values, totalSize)`. -/
def CueChunk.copyTo (values : StringPairArray) (buf : List Nat) (totalSize : Int) :
    StringPairArray :=
  values.setAll (CueChunk.entries buf totalSize)

/-- The table `ListInfoChunk::types`, in source order. -/
def ListInfoChunk.types : List String :=
  ["IARL", "IART", "IBSU", "ICNM", "CMNT", "COMM", "ICMT", "ICMS", "ICOP", "ICDS",
   "ICNT", "ICRP", "ICRD", "IDIT", "ICAS", "IDIM", "DIRC", "IDST", "IDPI", "IEDT",
   "IAS8", "CODE", "TCDO", "IENG", "IAS5", "IAS1", "IAS4", "GENR", "IKEY", "LANG",
   "TLEN", "ILGT", "LOCA", "ILIU", "ILGU", "IMED", "IMBI", "IMBU", "IMIT", "IMIU",
   "IMUS", "IAS9", "PRT2", "TORG", "PRT1", "IPRO", "IPRD", "IPDS", "ISDT", "RATE",
   "AGES", "IRTD", "IRIP", "ISGN", "IAS2", "IAS7", "ISHP", "IAS6", "ISFT", "DISP",
   "ISRC", "ISRF", "ISTR", "STAR", "TCOD", "STAT", "ISBJ", "TAPE", "ITCH", "IAS3",
   "ISMP", "INAM", "IPRT", "TRCK", "TURL", "VMAJ", "VMIN", "TVER", "IWMU", "IWRI",
   "YEAR"]

/-- Modelled from the spec: `CharacterFunctions::toUpperCase` is not part of the
sources; only the ASCII letters change. -/
def toUpperCase (c : Nat) : Nat := if 97 ≤ c ∧ c ≤ 122 then c - 32 else c

/-- The function `ListInfoChunk::isMatchingTypeIgnoringCase (value, name)`: byte `i`
of the tag, upper-cased, equals character `i` of the name, for `i` in 0..3. -/
def ListInfoChunk.isMatchingTypeIgnoringCase (value : Nat) (name : String) : Bool :=
  (List.range 4).all (fun i =>
    decide ((name.toList.getD i (Char.ofNat 0)).toNat = toUpperCase ((value / 256 ^ i) % 256)))

/-- The loop `while (input.getPosition() < chunkEnd)` of
`ListInfoChunk::addToMetadata`. -/
def ListInfoChunk.addToMetadata (chunkEnd : Int) :
    Nat → StringPairArray → InputStream → Except Unit (StringPairArray × InputStream)
  | 0, _, _ => .error ()
  | fuel + 1, values, input =>
      if (input.getPosition : Int) < chunkEnd then
        let r1 := input.readInt
        let infoType := r1.1
        let infoLength : Int := chunkEnd - (r1.2.getPosition : Int)
        if infoLength > 0 then
          let r2 := r1.2.readInt
          let infoLength2 : Int := min infoLength (toInt32 r2.1)
          if infoLength2 ≤ 0 then .ok (values, r2.2)
          else
            match ListInfoChunk.types.find? (fun t => isMatchingTypeIgnoringCase infoType t) with
            | some t =>
                let r3 := r2.2.readIntoMemoryBlock infoLength2
                ListInfoChunk.addToMetadata chunkEnd fuel (values.setAll [(t, stringFromBytes r3.1)]) r3.2
            | none => ListInfoChunk.addToMetadata chunkEnd fuel values r2.2
        else ListInfoChunk.addToMetadata chunkEnd fuel values r1.2
      else .ok (values, input)

/-- The value `setBoolFlag` stores for a flag mask. -/
def AcidChunk.boolFlag (flags mask : Nat) : String :=
  if (flags / mask) % 2 = 1 then "1" else "0"

/-- The `set` calls of `AcidChunk (input, length).addToMetadata (values)` on the
zeroed record into which `buf` was read (flags 0, rootNote 4, numBeats 12,
meterDenominator 16, meterNumerator 18, tempo 20). -/
def AcidChunk.entries (ext : Collaborators) (buf : List Nat) : List (String × String) :=
  [("acid one shot", AcidChunk.boolFlag (u32At buf 0) 1),
   ("acid root set", AcidChunk.boolFlag (u32At buf 0) 2),
   ("acid stretch", AcidChunk.boolFlag (u32At buf 0) 4),
   ("acid disk based", AcidChunk.boolFlag (u32At buf 0) 8),
   ("acidizer flag", AcidChunk.boolFlag (u32At buf 0) 16)]
  ++ (if (u32At buf 0 / 2) % 2 = 1 then [("acid root note", toString (u16At buf 4))] else [])
  ++ [("acid beats", toString (u32At buf 12)),
      ("acid denominator", toString (u16At buf 16)),
      ("acid numerator", toString (u16At buf 18)),
      ("acid tempo", ext.floatToString (u32At buf 20))]

/-- The decoder `AcidChunk (input, length).addToMetadata (values)`. -/
def AcidChunk.addToMetadata (ext : Collaborators) (values : StringPairArray)
    (buf : List Nat) : StringPairArray :=
  values.setAll (AcidChunk.entries ext buf)

/-- The decoder `AXMLChunk::addToMetadata (destValues, source)`. -/
def AXMLChunk.addToMetadata (ext : Collaborators) (destValues : StringPairArray)
    (source : String) : StringPairArray :=
  let code := ext.axmlISRC source
  destValues.setAll (if code = "" then [] else [("ISRC", code)])

/-- The sub-format GUID of an extensible `fmt ` chunk (`ExtensibleWavSubFormat`). -/
structure ExtensibleWavSubFormat where
  data1 : Nat
  data2 : Nat
  data3 : Nat
  data4 : List Nat
deriving DecidableEq, Repr

/-- The constant `pcmFormat`. -/
def pcmFormat : ExtensibleWavSubFormat :=
  { data1 := 1, data2 := 0, data3 := 16, data4 := [128, 0, 0, 170, 0, 56, 155, 113] }

/-- The constant `IEEEFloatFormat`. -/
def IEEEFloatFormat : ExtensibleWavSubFormat :=
  { data1 := 3, data2 := 0, data3 := 16, data4 := [128, 0, 0, 170, 0, 56, 155, 113] }

/-- The constant `ambisonicFormat`. -/
def ambisonicFormat : ExtensibleWavSubFormat :=
  { data1 := 1, data2 := 1825, data3 := 4563, data4 := [134, 68, 200, 193, 202, 0, 0, 0] }

end WavFileHelpers

/-! ## The reader -/

/-- Modelled from the spec: `AudioFormatReader::MetadataChunk`, a stored chunk (tag
and body bytes) of a chunk collection; it is declared outside the sources. -/
structure MetadataChunk where
  name : Nat
  data : List Nat
deriving DecidableEq, Repr

/-- Modelled from the spec: `ChunkCollection::getOrCreateChunkWithName (name)`
followed by `readIntoMemoryBlock (chunk->data, ...)`: the bytes are appended to the
body of the stored chunk with that tag, which is created at the end when absent. -/
def ChunkCollection.store : List MetadataChunk → Nat → List Nat → List MetadataChunk
  | [], name, bytes => [{ name := name, data := bytes }]
  | c :: rest, name, bytes =>
      if c.name = name then { c with data := c.data ++ bytes } :: rest
      else c :: ChunkCollection.store rest name bytes

/-- How a run of the reader can fail to produce a result. -/
inductive ReadError where
  | divisionByZero
  | divisionOverflow
  | outOfFuel
deriving DecidableEq, Repr

/-- The fields of `WavAudioFormatReader` (with those it inherits from
`AudioFormatReader`); the defaults are the in-class initialisers. -/
structure WavAudioFormatReader where
  input : InputStream
  sampleRate : Int := 0
  bitsPerSample : Nat := 0
  lengthInSamples : Int := 0
  numChannels : Nat := 0
  usesFloatingPointData : Bool := false
  metadataValues : StringPairArray := []
  chunkCollection : List MetadataChunk := []
  id3Data : List Nat := []
  bwavChunkStart : Nat := 0
  bwavSize : Nat := 0
  dataChunkStart : Nat := 0
  dataLength : Int := 0
  bytesPerFrame : Int := 0
  isRF64 : Bool := false
  isSubformatOggVorbis : Bool := false
  channelLayout : AudioChannelSet := []
  thumbnailOnly : Bool := false
deriving DecidableEq, Repr

/-- The reader together with the local counters of `doRead`. -/
structure ChunkLoopState where
  reader : WavAudioFormatReader
  cueNoteIndex : Nat := 0
  cueLabelIndex : Nat := 0
  cueRegionIndex : Nat := 0
deriving DecidableEq, Repr

/-- How one pass through the body of the chunk loop ends: at the closing
`setPosition (chunkEnd)`, at the `break`, or at the `return` of the Ogg-Vorbis
branch. -/
inductive Flow where
  | next (st : ChunkLoopState)
  | brk (st : ChunkLoopState)
  | ret (st : ChunkLoopState)
deriving DecidableEq, Repr

namespace WavAudioFormatReader

open WavFileHelpers

/-- Modelled from the spec: the set bits of the 32-bit mask in ascending order, each
bit `b` giving channel role `b + 1` (the `BigInteger` walk of
`getChannelLayoutFromMask`; `BigInteger` is outside the sources). -/
def maskChannels (dwChannelMask : Nat) : AudioChannelSet :=
  ((List.range 32).filter (fun b => decide ((dwChannelMask / 2 ^ b) % 2 = 1))).map (fun b => b + 1)

/-- The function `getChannelLayoutFromMask (dwChannelMask, totalNumChannels)`. -/
def getChannelLayoutFromMask (dwChannelMask : Nat) (totalNumChannels : Nat) : AudioChannelSet :=
  let wavFileChannelLayout := maskChannels dwChannelMask
  if (wavFileChannelLayout.length : Int) ≠ toInt32 totalNumChannels then
    if totalNumChannels ≤ 2 ∧ dwChannelMask % 4294967296 = 0 then
      AudioChannelSet.canonicalChannelSet totalNumChannels
    else
      wavFileChannelLayout ++
        (List.range ((toInt32 totalNumChannels).toNat - wavFileChannelLayout.length)).map
          (fun i => AudioChannelSet.discreteChannel0 + i)
  else wavFileChannelLayout

/-- The six `readInt`/`readShort` calls at the head of the `fmt ` branch and the
computation of `bytesPerFrame` and `bitsPerSample` that follows them. The result is
the 16-bit format tag and the updated reader. -/
def readFmtGeometry (r : WavAudioFormatReader) : Except ReadError (Nat × WavAudioFormatReader) :=
  let f := r.input.readShort
  let c := f.2.readShort
  let sr := c.2.readInt
  let bps := sr.2.readInt
  let b := (bps.2.skipNextBytes 2).readShort
  let format := f.1
  let numChannels := toUInt32 (toInt16 c.1)
  let sampleRate := toInt32 sr.1
  let bytesPerSec := toInt32 bps.1
  let bitsPerSample := toUInt32 (toInt16 b.1)
  if bitsPerSample > 64 then
    if sampleRate = 0 then .error .divisionByZero
    else if bytesPerSec = -2147483648 ∧ sampleRate = -1 then .error .divisionOverflow
    else
      let bytesPerFrame := Int.tdiv bytesPerSec sampleRate
      if numChannels = 0 then .error .divisionByZero
      else
        .ok (format, { r with input := b.2, numChannels := numChannels, sampleRate := sampleRate,
                              bytesPerFrame := bytesPerFrame,
                              bitsPerSample := (8 * toUInt32 bytesPerFrame) % 4294967296 / numChannels })
  else
    .ok (format, { r with input := b.2, numChannels := numChannels, sampleRate := sampleRate,
                          bitsPerSample := bitsPerSample,
                          bytesPerFrame := (((numChannels * bitsPerSample) % 4294967296 / 8 : Nat) : Int) })

/-- The sixteen bytes of the sub-format GUID as read by the extensible branch; bytes
of `data4` that the stream no longer holds are taken as 0. -/
def readSubFormat (input : InputStream) : ExtensibleWavSubFormat × InputStream :=
  let d1 := input.readInt
  let d2 := d1.2.readShort
  let d3 := d2.2.readShort
  let d4 := d3.2.read 8
  ({ data1 := d1.1, data2 := d2.1, data3 := d3.1, data4 := field d4.1 0 8 }, d4.2)

/-- The branch `if (chunkType == chunkName ("fmt "))` after its geometry part: the
decision on the format tag. -/
def fmtFormat (r : WavAudioFormatReader) (format length streamStartPos : Nat) :
    WavAudioFormatReader × Bool :=
  if format = 3 then ({ r with usesFloatingPointData := true }, false)
  else if format = 65534 then
    if length < 40 then ({ r with bytesPerFrame := 0 }, false)
    else
      let m := (r.input.skipNextBytes 4).readInt
      let channelMask := m.1
      let values := r.metadataValues.setAll [("ChannelMask", toString (toInt32 channelMask))]
      let layout := getChannelLayoutFromMask channelMask r.numChannels
      let g := readSubFormat m.2
      let r1 := { r with input := g.2, metadataValues := values, channelLayout := layout }
      if g.1 = IEEEFloatFormat then ({ r1 with usesFloatingPointData := true }, false)
      else if g.1 ≠ pcmFormat ∧ g.1 ≠ ambisonicFormat then ({ r1 with bytesPerFrame := 0 }, false)
      else (r1, false)
  else if format = 26447 ∨ format = 26448 ∨ format = 26449
      ∨ format = 26479 ∨ format = 26480 ∨ format = 26481 then
    ({ r with isSubformatOggVorbis := true, sampleRate := 0,
              input := r.input.setPosition streamStartPos }, true)
  else if format ≠ 1 then ({ r with bytesPerFrame := 0 }, false)
  else (r, false)

/-- The branch `else if (chunkType == chunkName ("data"))`. -/
def dataChunk (r : WavAudioFormatReader) (length : Nat) : WavAudioFormatReader :=
  let dataLength : Int := if r.isRF64 then r.dataLength else (length : Int)
  { r with dataLength := dataLength, dataChunkStart := r.input.getPosition,
           lengthInSamples := if r.bytesPerFrame > 0 then Int.tdiv dataLength r.bytesPerFrame else 0 }

/-- One pass through the body of the loop of the `adtl` branch: the sub-chunk header,
the `labl`/`note` or `ltxt` record, and the closing `setPosition (adtlChunkEnd)`. -/
def adtlSubChunk (st : ChunkLoopState) : ChunkLoopState :=
  let t := st.reader.input.readInt
  let l := t.2.readInt
  let adtlChunkType := t.1
  let adtlLength := l.1
  let adtlChunkEnd := l.2.getPosition + (adtlLength + adtlLength % 2) % 4294967296
  let st1 : ChunkLoopState :=
    if adtlChunkType = chunkName "labl" ∨ adtlChunkType = chunkName "note" then
      let pfx := if adtlChunkType = chunkName "labl" then "CueLabel" ++ toString st.cueLabelIndex
                 else "CueNote" ++ toString st.cueNoteIndex
      let identifier := l.2.readInt
      let stringLength := toInt32 (toUInt32 (toInt32 adtlLength - 4))
      let textBlock := identifier.2.readIntoMemoryBlock stringLength
      { st with reader := { st.reader with
                  input := textBlock.2,
                  metadataValues := st.reader.metadataValues.setAll
                    [(pfx ++ "Identifier", toString identifier.1),
                     (pfx ++ "Text", stringFromBytes textBlock.1)] },
                cueLabelIndex := if adtlChunkType = chunkName "labl" then st.cueLabelIndex + 1
                                 else st.cueLabelIndex,
                cueNoteIndex := if adtlChunkType = chunkName "labl" then st.cueNoteIndex
                                else st.cueNoteIndex + 1 }
    else if adtlChunkType = chunkName "ltxt" then
      let pfx := "CueRegion" ++ toString st.cueRegionIndex
      let identifier := l.2.readInt
      let sampleLength := identifier.2.readInt
      let purpose := sampleLength.2.readInt
      let country := purpose.2.readShort
      let language := country.2.readShort
      let dialect := language.2.readShort
      let codePage := dialect.2.readShort
      let stringLength := toInt32 (toUInt32 ((adtlLength : Int) - 20))
      let textBlock := codePage.2.readIntoMemoryBlock stringLength
      { st with reader := { st.reader with
                  input := textBlock.2,
                  metadataValues := st.reader.metadataValues.setAll
                    [(pfx ++ "Identifier", toString identifier.1),
                     (pfx ++ "SampleLength", toString sampleLength.1),
                     (pfx ++ "Purpose", toString purpose.1),
                     (pfx ++ "Country", toString country.1),
                     (pfx ++ "Language", toString language.1),
                     (pfx ++ "Dialect", toString dialect.1),
                     (pfx ++ "CodePage", toString codePage.1),
                     (pfx ++ "Text", stringFromBytes textBlock.1)] },
                cueRegionIndex := st.cueRegionIndex + 1 }
    else { st with reader := { st.reader with input := l.2 } }
  { st1 with reader := { st1.reader with input := st1.reader.input.setPosition adtlChunkEnd } }

/-- The loop `while (input->getPosition() < chunkEnd)` of the `adtl` branch. -/
def adtlLoop (chunkEnd : Nat) : Nat → ChunkLoopState → Except ReadError ChunkLoopState
  | 0, _ => .error .outOfFuel
  | fuel + 1, st =>
      if st.reader.input.getPosition < chunkEnd then adtlLoop chunkEnd fuel (adtlSubChunk st)
      else .ok st

/-- The bytes a chunk decoder finds in its zero-initialised `HeapBlock` after
`input->read (block, (int) length)`. -/
def readBlock (input : InputStream) (length : Nat) : List Nat × InputStream :=
  input.read (toInt32 length)

/-- What the head of the chunk loop body leaves: the tag, the declared length, the
end offset `chunkEnd`, and the reader after the optional copy of the body into the
chunk collection. -/
structure ChunkHeader where
  chunkType : Nat
  length : Nat
  chunkEnd : Nat
  reader : WavAudioFormatReader
deriving DecidableEq, Repr

/-- The head of the chunk loop body: `readInt` twice, `chunkEnd`, and the block
`if (!thumbnailOnly && storeChunks)`. -/
def readChunkHeader (storeChunks : Bool) (r : WavAudioFormatReader) : ChunkHeader :=
  let t := r.input.readInt
  let l := t.2.readInt
  let chunkType := t.1
  let length := l.1
  let chunkEnd := l.2.getPosition + length + length % 2
  let r0 : WavAudioFormatReader :=
    if ¬ r.thumbnailOnly ∧ storeChunks then
      let chunkStart := l.2.getPosition
      let body := l.2.readIntoMemoryBlock (length : Int)
      { r with input := body.2.setPosition chunkStart,
               chunkCollection := ChunkCollection.store r.chunkCollection chunkType body.1 }
    else { r with input := l.2 }
  { chunkType := chunkType, length := length, chunkEnd := chunkEnd, reader := r0 }

/-- The closing `input->setPosition (chunkEnd)` of the chunk loop body. -/
def seekToChunkEnd (st : ChunkLoopState) (r : WavAudioFormatReader) (chunkEnd : Nat) : Flow :=
  .next { st with reader := { r with input := r.input.setPosition chunkEnd } }

/-- The branch `if (chunkType == chunkName ("fmt "))`. -/
def fmtChunk (st : ChunkLoopState) (h : ChunkHeader) (streamStartPos : Nat) :
    Except ReadError Flow :=
  match readFmtGeometry h.reader with
  | .error e => .error e
  | .ok g =>
      let d := fmtFormat g.2 g.1 h.length streamStartPos
      if d.2 then .ok (.ret { st with reader := d.1 }) else .ok (seekToChunkEnd st d.1 h.chunkEnd)

/-- The branch `else if (chunkType == chunkName ("LIST"))`. -/
def listChunk (fuel : Nat) (st : ChunkLoopState) (h : ChunkHeader) : Except ReadError Flow :=
  let sub := h.reader.input.readInt
  let subChunkType := sub.1
  if subChunkType = chunkName "info" ∨ subChunkType = chunkName "INFO" then
    match ListInfoChunk.addToMetadata (h.chunkEnd : Int) fuel h.reader.metadataValues sub.2 with
    | .error _ => .error .outOfFuel
    | .ok v => .ok (seekToChunkEnd st { h.reader with input := v.2, metadataValues := v.1 } h.chunkEnd)
  else if subChunkType = chunkName "adtl" then
    match adtlLoop h.chunkEnd fuel { st with reader := { h.reader with input := sub.2 } } with
    | .error e => .error e
    | .ok st1 => .ok (seekToChunkEnd st1 st1.reader h.chunkEnd)
  else .ok (seekToChunkEnd st { h.reader with input := sub.2 } h.chunkEnd)

/-- The branches of the chunk loop body that decode a metadata chunk without a loop
over the stream (`ID3 `, `iXML`, `bext`, `smpl`, `inst`/`INST`, `cue `, `axml`,
`acid`, `Trkn`): the reader after the branch, or `none` for any other tag. -/
def metadataChunk (ext : Collaborators) (storeChunks : Bool) (h : ChunkHeader) :
    Option WavAudioFormatReader :=
  let r0 := h.reader
  let length := h.length
  if h.chunkType = chunkName "ID3 " then
    if r0.thumbnailOnly ∨ storeChunks then
      let b := r0.input.readIntoMemoryBlock (length : Int)
      some { r0 with input := b.2, id3Data := r0.id3Data ++ b.1 }
    else some r0
  else if h.chunkType = chunkName "iXML" then
    let b := r0.input.readIntoMemoryBlock (length : Int)
    if b.1 ≠ [] then
      some { r0 with input := b.2, metadataValues := r0.metadataValues.setAll [("iXML", stringFromBytes b.1)] }
    else some { r0 with input := b.2 }
  else if h.chunkType = chunkName "bext" then
    let b := readBlock r0.input length
    some { r0 with input := b.2, bwavChunkStart := r0.input.getPosition, bwavSize := length,
                   metadataValues := BWAVChunk.copyTo r0.metadataValues b.1 (toInt32 length) }
  else if h.chunkType = chunkName "smpl" then
    let b := readBlock r0.input length
    some { r0 with input := b.2,
                   metadataValues := SMPLChunk.copyTo r0.metadataValues b.1 (toInt32 length) }
  else if h.chunkType = chunkName "inst" ∨ h.chunkType = chunkName "INST" then
    let b := readBlock r0.input length
    some { r0 with input := b.2, metadataValues := InstChunk.copyTo r0.metadataValues b.1 }
  else if h.chunkType = chunkName "cue " then
    let b := readBlock r0.input length
    some { r0 with input := b.2,
                   metadataValues := CueChunk.copyTo r0.metadataValues b.1 (toInt32 length) }
  else if h.chunkType = chunkName "axml" then
    let b := r0.input.readIntoMemoryBlock (length : Int)
    some { r0 with input := b.2,
                   metadataValues := AXMLChunk.addToMetadata ext r0.metadataValues (stringFromBytes b.1) }
  else if h.chunkType = chunkName "acid" then
    let b := r0.input.read (min 24 length : Nat)
    some { r0 with input := b.2, metadataValues := AcidChunk.addToMetadata ext r0.metadataValues b.1 }
  else if h.chunkType = chunkName "Trkn" then
    let b := r0.input.readIntoMemoryBlock (length : Int)
    some { r0 with input := b.2,
                   metadataValues := r0.metadataValues.setAll [("tracktion loop info", stringFromBytes b.1)] }
  else none

/-- One pass through the body of the loop
`while ((uint64) input->getPosition() < end && ! input->isExhausted())`: the chunk
header, the dispatch on the tag (the tags are pairwise distinct, so the order of the
tests is immaterial), and the closing `input->setPosition (chunkEnd)`. -/
def chunk (ext : Collaborators) (storeChunks : Bool) (streamStartPos : Nat) (fuel : Nat)
    (st : ChunkLoopState) : Except ReadError Flow :=
  let h := readChunkHeader storeChunks st.reader
  if h.chunkType = chunkName "fmt " then fmtChunk st h streamStartPos
  else if h.chunkType = chunkName "data" then
    .ok (seekToChunkEnd st (dataChunk h.reader h.length) h.chunkEnd)
  else if h.chunkType = chunkName "LIST" then listChunk fuel st h
  else
    match metadataChunk ext storeChunks h with
    | some r => .ok (seekToChunkEnd st r h.chunkEnd)
    | none =>
        if h.chunkEnd ≤ h.reader.input.getPosition then .ok (.brk { st with reader := h.reader })
        else .ok (seekToChunkEnd st h.reader h.chunkEnd)

/-- The loop `while ((uint64) input->getPosition() < end && ! input->isExhausted())`.
The result says whether `doRead` returned from inside the loop. -/
def chunkLoop (ext : Collaborators) (storeChunks : Bool) (streamStartPos : Nat) (end_ : Nat)
    (n : Nat) : Nat → ChunkLoopState → Except ReadError (Bool × ChunkLoopState)
  | 0, _ => .error .outOfFuel
  | fuel + 1, st =>
      if st.reader.input.getPosition < end_ ∧ ¬ st.reader.input.isExhausted then
        match chunk ext storeChunks streamStartPos n st with
        | .error e => .error e
        | .ok (.next st1) => chunkLoop ext storeChunks streamStartPos end_ n fuel st1
        | .ok (.brk st1) => .ok (false, st1)
        | .ok (.ret st1) => .ok (true, st1)
      else .ok (false, st)

/-- The four statements that close `doRead`: the cue counters and the
`MetaDataSource` marker. -/
def finishMetadata (st : ChunkLoopState) : WavAudioFormatReader :=
  let v0 := st.reader.metadataValues
  let v1 := if st.cueLabelIndex > 0 then v0.set "NumCueLabels" (toString st.cueLabelIndex) else v0
  let v2 := if st.cueNoteIndex > 0 then v1.set "NumCueNotes" (toString st.cueNoteIndex) else v1
  let v3 := if st.cueRegionIndex > 0 then v2.set "NumCueRegions" (toString st.cueRegionIndex) else v2
  let v4 := if v3.size > 0 then v3.set "MetaDataSource" "WAV" else v3
  { st.reader with metadataValues := v4 }

/-- The chunk loop of `doRead` followed by its closing statements, which are skipped
when the loop returned. -/
def runChunkLoop (ext : Collaborators) (storeChunks : Bool) (streamStartPos : Nat) (end_ : Nat)
    (fuel : Nat) (r : WavAudioFormatReader) : Except ReadError WavAudioFormatReader :=
  match chunkLoop ext storeChunks streamStartPos end_ fuel fuel { reader := r } with
  | .error e => .error e
  | .ok (true, st) => .ok st.reader
  | .ok (false, st) => .ok (finishMetadata st)

/-- The part of `doRead` from `auto startOfRIFFChunk = input->getPosition()` on, with
`end_` as set by the branch on the first tag. -/
def doReadWave (ext : Collaborators) (r : WavAudioFormatReader) (storeChunks : Bool)
    (streamStartPos : Nat) (end_ : Nat) (fuel : Nat) : Except ReadError WavAudioFormatReader :=
  let startOfRIFFChunk := r.input.getPosition
  let w := r.input.readInt
  if w.1 = chunkName "WAVE" then
    if r.isRF64 then
      let d := w.2.readInt
      if d.1 = chunkName "ds64" then
        let l := d.2.readInt
        let length := l.1
        if length < 28 then .ok { r with input := l.2 }
        else
          let chunkEnd := l.2.getPosition + length + length % 2
          let len := l.2.readInt64
          let dl := len.2.readInt64
          runChunkLoop ext storeChunks streamStartPos
            ((len.1 + startOfRIFFChunk) % 18446744073709551616) fuel
            { r with input := dl.2.setPosition chunkEnd, dataLength := toInt64 dl.1 }
      else runChunkLoop ext storeChunks streamStartPos end_ fuel { r with input := d.2 }
    else runChunkLoop ext storeChunks streamStartPos end_ fuel { r with input := w.2 }
  else .ok (finishMetadata { reader := { r with input := w.2 } })

/-- The method `doRead (in, storeChunks)`; `fuel` bounds the number of passes of each
of its loops. -/
def doRead (ext : Collaborators) (r : WavAudioFormatReader) (storeChunks : Bool) (fuel : Nat) :
    Except ReadError WavAudioFormatReader :=
  let streamStartPos := r.input.getPosition
  let first := r.input.readInt
  let firstChunkType := first.1
  if firstChunkType = chunkName "RF64" then
    doReadWave ext { r with input := first.2.skipNextBytes 4, isRF64 := true } storeChunks
      streamStartPos 0 fuel
  else if firstChunkType = chunkName "RIFF" then
    let len := first.2.readInt
    doReadWave ext { r with input := len.2 } storeChunks streamStartPos
      ((len.1 + len.2.getPosition) % 18446744073709551616) fuel
  else .ok { r with input := first.2 }

/-- The constructor `WavAudioFormatReader (in)`: `doRead (in, false)` on a fresh
reader. -/
def create (ext : Collaborators) (input : InputStream) (fuel : Nat) :
    Except ReadError WavAudioFormatReader :=
  doRead ext { input := input } false fuel

/-- The method `readWithChunkStorage (thumbnailOnly_)`. -/
def readWithChunkStorage (ext : Collaborators) (r : WavAudioFormatReader) (thumbnailOnly_ : Bool)
    (fuel : Nat) : Except ReadError WavAudioFormatReader :=
  doRead ext { r with thumbnailOnly := thumbnailOnly_, input := r.input.setPosition 0 } true fuel

end WavAudioFormatReader

namespace WavAudioFormat

/-- The acceptance test of `WavAudioFormat::createReaderFor`. -/
def isAcceptable (r : WavAudioFormatReader) : Bool :=
  decide (r.sampleRate > 0 ∧ r.numChannels > 0 ∧ r.bytesPerFrame > 0 ∧ r.bitsPerSample ≤ 32)

/-- The function `WavAudioFormat::createReaderFor (sourceStream, ...)` in a build
without `JUCE_USE_OGGVORBIS`: the reader, or `none` for the null pointer. -/
def createReaderFor (ext : Collaborators) (sourceStream : InputStream) (fuel : Nat) :
    Except ReadError (Option WavAudioFormatReader) :=
  match WavAudioFormatReader.create ext sourceStream fuel with
  | .error e => .error e
  | .ok r => if isAcceptable r then .ok (some r) else .ok none

end WavAudioFormat

deriving instance DecidableEq for Except

/-! ## The writer -/

/-- Modelled from the spec: `OutputStream`, the seekable byte sink of section 6 (with
the behaviour of a `MemoryOutputStream` when `seekable` holds and `capacity` is
`none`); it is not part of the sources. A write replaces the bytes at the position
and extends the data as needed; it is rejected as a whole when the data would grow
beyond `capacity`. -/
structure OutputStream where
  data : List Nat
  position : Nat
  seekable : Bool := true
  capacity : Option Nat := none
deriving DecidableEq, Repr

namespace OutputStream

/-- The data after `bytes` have been stored at offset `pos`. A gap between the end of
the data and `pos`, which `setPosition` never leaves, would be filled with zeros. -/
def overlay (data : List Nat) (pos : Nat) (bytes : List Nat) : List Nat :=
  data.take pos ++ List.replicate (pos - data.length) 0 ++ bytes ++ data.drop (pos + bytes.length)

/-- The call `write (bytes, n)` with its success flag. -/
def write (out : OutputStream) (bytes : List Nat) : Bool × OutputStream :=
  let newData := overlay out.data out.position bytes
  let fits : Bool := match out.capacity with
    | some c => decide (newData.length ≤ c)
    | none => true
  if fits then (true, { out with data := newData, position := out.position + bytes.length })
  else (false, out)

/-- The call `getPosition()`. -/
def getPosition (out : OutputStream) : Nat := out.position

/-- The call `setPosition (pos)` with its success flag: a seekable sink accepts every
position up to the end of the data. -/
def setPosition (out : OutputStream) (pos : Int) : Bool × OutputStream :=
  if out.seekable ∧ 0 ≤ pos ∧ pos ≤ (out.data.length : Int) then
    (true, { out with position := pos.toNat })
  else (false, out)

/-- The call `writeByte (b)`. -/
def writeByte (out : OutputStream) (b : Nat) : OutputStream := (out.write [b % 256]).2

/-- The call `writeShort (v)`: the low 16 bits, little-endian. -/
def writeShort (out : OutputStream) (v : Nat) : OutputStream := (out.write (toLittleEndian 2 v)).2

/-- The call `writeInt (v)`: the low 32 bits, little-endian. -/
def writeInt (out : OutputStream) (v : Nat) : OutputStream := (out.write (toLittleEndian 4 v)).2

/-- The call `writeInt64 (v)`: the low 64 bits, little-endian. -/
def writeInt64 (out : OutputStream) (v : Nat) : OutputStream := (out.write (toLittleEndian 8 v)).2

/-- The call `writeRepeatedByte (b, n)`. -/
def writeRepeatedByte (out : OutputStream) (b n : Nat) : OutputStream :=
  (out.write (List.replicate n (b % 256))).2

end OutputStream

/-- Modelled from the spec: the conversion of one 32-bit sample to its on-disk form
for the configured bit depth (8-bit unsigned, 16/24/32-bit little-endian), done by
`AudioData` converters that are outside the sources. -/
def encodeSample (bitsPerSample : Nat) (v : Int) : List Nat :=
  if bitsPerSample = 8 then [toUInt32 (128 + v / 16777216) % 256]
  else if bitsPerSample = 16 then toLittleEndian 2 (toUInt32 (v / 65536))
  else if bitsPerSample = 24 then toLittleEndian 3 (toUInt32 (v / 256))
  else toLittleEndian 4 (toUInt32 v)

/-- Modelled from the spec: `WriteHelper::write`, the interleaving of `numSamples`
frames of `numChannels` planar channels (section 4.5, step 2); a channel that is
missing or too short contributes zero samples. -/
def interleave (bitsPerSample numChannels : Nat) (data : List (List Int)) (numSamples : Nat) :
    List Nat :=
  (List.range numSamples).flatMap (fun i =>
    (List.range numChannels).flatMap (fun ch => encodeSample bitsPerSample ((data.getD ch []).getD i 0)))

/-- The fields of `WavAudioFormatWriter` (with those it inherits from
`AudioFormatWriter`). The nine blocks `bwavChunk` ... `trckChunk`, which the
constructor fills from the metadata and which no method reads, are not represented.
`doNotPadHeaderSize` stands for the build macro `JUCE_WAV_DO_NOT_PAD_HEADER_SIZE`. -/
structure WavAudioFormatWriter where
  output : OutputStream
  sampleRate : Nat
  numChannels : Nat
  bitsPerSample : Nat
  channelLayout : AudioChannelSet
  usesFloatingPointData : Bool := false
  lengthInSamples : Nat := 0
  bytesWritten : Nat := 0
  headerPosition : Nat := 0
  writeFailed : Bool := false
  chunkCollection : Option (List MetadataChunk) := none
  doNotPadHeaderSize : Bool := false
deriving DecidableEq, Repr

namespace WavAudioFormatWriter

open WavFileHelpers

/-- The function `chunkSize (data)`. -/
def chunkSize (data : List Nat) : Nat := if data.length > 0 then 8 + data.length else 0

/-- The call `writeChunkHeader (chunkType, size)`. -/
def writeChunkHeader (out : OutputStream) (chunkType size : Nat) : OutputStream :=
  (out.writeInt chunkType).writeInt size

/-- The call `writeChunk (data, chunkType, size)`. -/
def writeChunk (out : OutputStream) (data : List Nat) (chunkType : Nat) (size : Nat) : OutputStream :=
  if data.length > 0 then
    ((writeChunkHeader out chunkType (if size ≠ 0 then size else data.length)).write
      (data.map (fun b => b % 256))).2
  else out

/-- The function `getChannelMaskFromChannelLayout`. Roles above 32 do not occur in
a layout that `isChannelLayoutSupported` accepts and is not discrete. -/
def getChannelMaskFromChannelLayout (channelLayout : AudioChannelSet) : Nat :=
  if AudioChannelSet.isDiscreteLayout channelLayout then 0
  else if channelLayout = AudioChannelSet.mono ∨ channelLayout = AudioChannelSet.stereo then 0
  else (channelLayout.foldl (fun m c => m ||| 2 ^ (c - 1)) 0) % 4294967296

/-- The first loop of `writeHeader` over the stored chunks: a metadata chunk with an
odd body gets a zero byte appended, in the collection itself. -/
def padStoredChunks (ext : Collaborators) (chunks : List MetadataChunk) : List MetadataChunk :=
  chunks.map (fun c =>
    if ext.isMetadataChunk c.name ∧ c.data.length % 2 = 1 then { c with data := c.data ++ [0] } else c)

/-- The sum of `chunkSize (chunk->data)` over the stored metadata chunks. -/
def storedChunksSize (ext : Collaborators) (chunks : List MetadataChunk) : Nat :=
  (chunks.map (fun c => if ext.isMetadataChunk c.name then chunkSize c.data else 0)).sum

/-- The second loop of `writeHeader` over the stored chunks: each metadata chunk is
written, an `inst` chunk with declared size 7. -/
def writeStoredChunks (ext : Collaborators) : List MetadataChunk → OutputStream → OutputStream
  | [], out => out
  | c :: rest, out =>
      if ext.isMetadataChunk c.name then
        writeStoredChunks ext rest
          (writeChunk out c.data c.name (if c.name = chunkName "inst" then 7 else 0))
      else writeStoredChunks ext rest out

/-- The conversion `(int) x` of a non-negative `double`; a value that does not fit
is given the x86 result `0x80000000`. -/
def doubleToInt (x : Nat) : Nat := if x < 2147483648 then x else 2147483648

/-- The value of `riffChunkSize` in `writeHeader`, for the audio size and the summed
`chunkSize` of the stored metadata chunks. -/
def riffChunkSize (audioDataSize stored : Nat) : Int :=
  let size0 : Int := toInt64 ((4 + 8 + 40 + 8 + audioDataSize + audioDataSize % 2) % 18446744073709551616)
  let size1 : Int := size0 + (stored : Int) + (8 + 28)
  size1 + size1 % 2

/-- The part of `writeHeader` from the top tag to the end of the `JUNK` or `ds64`
chunk. -/
def writeFraming (out : OutputStream) (isRF64 isWaveFmtEx doNotPadHeaderSize : Bool)
    (riffSize : Int) (audioDataSize : Nat) : OutputStream :=
  let out2 := if isRF64 then writeChunkHeader out (chunkName "RF64") 4294967295
              else writeChunkHeader out (chunkName "RIFF") (toUInt32 riffSize)
  let out3 := out2.writeInt (chunkName "WAVE")
  if ¬ isRF64 then
    if ¬ doNotPadHeaderSize then
      (writeChunkHeader out3 (chunkName "JUNK") (28 + (if isWaveFmtEx then 0 else 24))).writeRepeatedByte
        0 (28 + (if isWaveFmtEx then 0 else 24))
    else out3
  else
    (((writeChunkHeader out3 (chunkName "ds64") 28).writeInt64 (toUInt64 riffSize)).writeInt64
      audioDataSize).writeRepeatedByte 0 12

/-- The part of `writeHeader` that writes the `fmt ` chunk. -/
def writeFmt (out : OutputStream) (isWaveFmtEx : Bool)
    (numChannels sampleRate bitsPerSample bytesPerFrame channelMask : Nat) : OutputStream :=
  let out5 :=
    if isWaveFmtEx then (writeChunkHeader out (chunkName "fmt ") 40).writeShort 65534
    else (writeChunkHeader out (chunkName "fmt ") 16).writeShort (if bitsPerSample < 32 then 1 else 3)
  let out6 := ((((out5.writeShort numChannels).writeInt (doubleToInt sampleRate)).writeInt
    (doubleToInt (bytesPerFrame * sampleRate))).writeShort bytesPerFrame).writeShort bitsPerSample
  if isWaveFmtEx then
    let subFormat := if bitsPerSample < 32 then pcmFormat else IEEEFloatFormat
    (((((((out6.writeShort 22).writeShort bitsPerSample).writeInt channelMask).writeInt
      subFormat.data1).writeShort subFormat.data2).writeShort subFormat.data3).write subFormat.data4).2
  else out6

/-- The part of `writeHeader` after the seek back to the header position. -/
def writeHeaderBody (ext : Collaborators) (w : WavAudioFormatWriter) (out : OutputStream) :
    WavAudioFormatWriter :=
  let bytesPerFrame := (w.numChannels * w.bitsPerSample) % 4294967296 / 8
  let audioDataSize := (bytesPerFrame * w.lengthInSamples) % 18446744073709551616
  let channelMask := getChannelMaskFromChannelLayout w.channelLayout
  let isRF64 : Bool := decide (w.bytesWritten ≥ 4294967296)
  let isWaveFmtEx : Bool := isRF64 || decide (channelMask ≠ 0)
  let chunks : List MetadataChunk := match w.chunkCollection with
    | some c => padStoredChunks ext c
    | none => []
  let riffSize := riffChunkSize audioDataSize (storedChunksSize ext chunks)
  let out4 := writeFraming out isRF64 isWaveFmtEx w.doNotPadHeaderSize riffSize audioDataSize
  let out7 := writeFmt out4 isWaveFmtEx w.numChannels w.sampleRate w.bitsPerSample bytesPerFrame
    channelMask
  let out8 := writeStoredChunks ext chunks out7
  let out9 := writeChunkHeader out8 (chunkName "data")
    (if isRF64 then 4294967295 else w.lengthInSamples * bytesPerFrame)
  { w with output := out9, chunkCollection := w.chunkCollection.map (padStoredChunks ext),
           usesFloatingPointData := decide (w.bitsPerSample = 32) }

/-- The method `writeHeader (chunkCollection_)`. -/
def writeHeader (ext : Collaborators) (w : WavAudioFormatWriter)
    (chunkCollection_ : Option (List MetadataChunk)) : WavAudioFormatWriter :=
  let w0 : WavAudioFormatWriter := match chunkCollection_ with
    | some c => { w with chunkCollection := some c }
    | none => w
  let out0 := if w0.bytesWritten % 2 ≠ 0 then w0.output.writeByte 0 else w0.output
  if w0.headerPosition ≠ out0.getPosition then
    let seek := out0.setPosition (w0.headerPosition : Int)
    if ¬ seek.1 then { w0 with output := out0 } else writeHeaderBody ext w0 seek.2
  else writeHeaderBody ext w0 out0

/-- The constructor `WavAudioFormatWriter (out, rate, channelLayoutToUse, bits,
metadataValues, chunkCollection_)`. -/
def create (ext : Collaborators) (out : OutputStream) (rate : Nat)
    (channelLayoutToUse : AudioChannelSet) (bits : Nat) (_metadataValues : StringPairArray)
    (chunkCollection_ : Option (List MetadataChunk)) (doNotPadHeaderSize : Bool) :
    WavAudioFormatWriter :=
  writeHeader ext
    { output := out, sampleRate := rate, numChannels := channelLayoutToUse.length,
      bitsPerSample := bits, channelLayout := channelLayoutToUse,
      headerPosition := out.getPosition, chunkCollection := chunkCollection_,
      doNotPadHeaderSize := doNotPadHeaderSize }
    chunkCollection_

/-- The method `write (data, numSamples)` with its result. -/
def write (ext : Collaborators) (w : WavAudioFormatWriter) (data : List (List Int))
    (numSamples : Nat) : Bool × WavAudioFormatWriter :=
  if w.writeFailed then (false, w)
  else
    let bytes := w.numChannels * numSamples * w.bitsPerSample / 8
    let tempBlock :=
      if w.bitsPerSample = 8 ∨ w.bitsPerSample = 16 ∨ w.bitsPerSample = 24 ∨ w.bitsPerSample = 32 then
        interleave w.bitsPerSample w.numChannels data numSamples
      else List.replicate bytes 0
    let o := w.output.write tempBlock
    if ¬ o.1 then (false, { writeHeader ext { w with output := o.2 } none with writeFailed := true })
    else (true, { w with output := o.2, bytesWritten := w.bytesWritten + bytes,
                         lengthInSamples := w.lengthInSamples + numSamples })

/-- The method `flush()` with its result. -/
def flush (ext : Collaborators) (w : WavAudioFormatWriter) : Bool × WavAudioFormatWriter :=
  let lastWritePos := w.output.getPosition
  let w1 := writeHeader ext w none
  let seek := w1.output.setPosition (lastWritePos : Int)
  if seek.1 then (true, { w1 with output := seek.2 }) else (false, w1)

/-- The destructor `~WavAudioFormatWriter()`. -/
def close (ext : Collaborators) (w : WavAudioFormatWriter) : WavAudioFormatWriter :=
  writeHeader ext w none

end WavAudioFormatWriter

namespace WavAudioFormat

/-- The list `getPossibleBitDepths()`. -/
def getPossibleBitDepths : List Nat := [8, 16, 24, 32]

/-- The list `getPossibleSampleRates()`. -/
def getPossibleSampleRates : List Nat :=
  [8000, 11025, 12000, 16000, 22050, 32000, 44100, 48000, 88200, 96000, 176400, 192000,
   352800, 384000]

/-- The function `isChannelLayoutSupported`: a discrete layout, or every role
between `left` (1) and `topRearRight` (18). -/
def isChannelLayoutSupported (channelSet : AudioChannelSet) : Bool :=
  AudioChannelSet.isDiscreteLayout channelSet || channelSet.all (fun c => decide (1 ≤ c ∧ c ≤ 18))

/-- The function `createWriterFor (out, sampleRate, channelLayout, bitsPerSample,
metadataValues, qualityOptionIndex, chunkCollection)`; the overload without a chunk
collection passes `none`. The result is `none` for the null pointer. -/
def createWriterForLayout (ext : Collaborators) (out : OutputStream) (sampleRate : Nat)
    (channelLayout : AudioChannelSet) (bitsPerSample : Nat) (metadataValues : StringPairArray)
    (chunkCollection : Option (List MetadataChunk)) : Option WavAudioFormatWriter :=
  if getPossibleBitDepths.contains bitsPerSample ∧ isChannelLayoutSupported channelLayout then
    some (WavAudioFormatWriter.create ext out sampleRate channelLayout bitsPerSample metadataValues
      chunkCollection false)
  else none

/-- The function `createWriterFor (out, sampleRate, numChannels, bitsPerSample,
metadataValues, qualityOptionIndex)`. -/
def createWriterFor (ext : Collaborators) (out : OutputStream) (sampleRate : Nat)
    (numChannels : Nat) (bitsPerSample : Nat) (metadataValues : StringPairArray)
    (_qualityOptionIndex : Int) : Option WavAudioFormatWriter :=
  createWriterForLayout ext out sampleRate (WavFileHelpers.canonicalWavChannelSet (toInt32 numChannels))
    bitsPerSample metadataValues none

end WavAudioFormat

/-- The value of the decimal digits a text starts with. -/
def decimalValue (cs : List Char) : Nat :=
  (cs.takeWhile Char.isDigit).foldl (fun n c => 10 * n + (c.toNat - 48)) 0

/-- A fixed choice of the collaborators, for evaluating the code on concrete
streams: a float is printed as, and read from, the decimal form of its bit pattern,
and an integer is read from an optional minus sign and decimal digits. -/
def plainCollaborators : Collaborators :=
  { floatToString := fun bits => toString bits
    axmlISRC := fun _ => ""
    isMetadataChunk := fun _ => true
    getLargeIntValue := fun s =>
      match s.toList with
      | '-' :: cs => - ((decimalValue cs : Nat) : Int)
      | cs => ((decimalValue cs : Nat) : Int)
    getIntValue := fun s =>
      match s.toList with
      | '-' :: cs => - ((decimalValue cs : Nat) : Int)
      | cs => ((decimalValue cs : Nat) : Int)
    getFloatValue := fun s => decimalValue s.toList % 4294967296 }

/-- A `MemoryInputStream` over the given bytes, positioned at the start. -/
def memoryInput (data : List Nat) : InputStream := { data := data, position := 0 }

/-- A fresh, empty `MemoryOutputStream`. -/
def memoryOutput : OutputStream := { data := [], position := 0 }

/-- The bytes of a four-character tag. -/
def tagBytes (name : String) : List Nat := (name.toList.take 4).map Char.toNat

/-! ### Concrete streams used below -/

/-- A stream whose `fmt ` chunk declares 65 bits per sample and a sample rate of 0. -/
def corruptFmtStream : List Nat :=
  tagBytes "RIFF" ++ toLittleEndian 4 28 ++ tagBytes "WAVE" ++ tagBytes "fmt " ++ toLittleEndian 4 16
    ++ toLittleEndian 2 1 ++ toLittleEndian 2 2 ++ toLittleEndian 4 0 ++ toLittleEndian 4 176400
    ++ toLittleEndian 2 4 ++ toLittleEndian 2 65

/-- A stream with one `smpl` chunk of declared length 60 whose `numSampleLoops` field
holds `0x80000000`. -/
def hugeLoopCountStream : List Nat :=
  tagBytes "RIFF" ++ toLittleEndian 4 72 ++ tagBytes "WAVE" ++ tagBytes "smpl" ++ toLittleEndian 4 60
    ++ List.replicate 28 0 ++ toLittleEndian 4 2147483648 ++ List.replicate 28 0

/-- A stream whose only chunk is a `LIST` chunk of kind `adtl` that declares 100
bytes while the stream ends right after the `adtl` tag. -/
def adtlOverrunStream : List Nat :=
  tagBytes "RIFF" ++ toLittleEndian 4 100 ++ tagBytes "WAVE" ++ tagBytes "LIST" ++ toLittleEndian 4 100
    ++ tagBytes "adtl"

/-! ### The bytes of the header, for the statements below -/

/-- The stream after `bytes` have been stored at its position, as `write` leaves it
when the sink accepts them. -/
def OutputStream.put (out : OutputStream) (bytes : List Nat) : OutputStream :=
  { out with data := OutputStream.overlay out.data out.position bytes,
             position := out.position + bytes.length }

namespace WavAudioFormatWriter

open WavFileHelpers

/-- The bytes `writeFraming` sends to the sink, in order. -/
def framingBytes (isRF64 isWaveFmtEx doNotPadHeaderSize : Bool) (riffSize : Int)
    (audioDataSize : Nat) : List Nat :=
  (if isRF64 then toLittleEndian 4 (chunkName "RF64") ++ toLittleEndian 4 4294967295
   else toLittleEndian 4 (chunkName "RIFF") ++ toLittleEndian 4 (toUInt32 riffSize))
  ++ toLittleEndian 4 (chunkName "WAVE")
  ++ (if isRF64 then
        toLittleEndian 4 (chunkName "ds64") ++ toLittleEndian 4 28
          ++ toLittleEndian 8 (toUInt64 riffSize) ++ toLittleEndian 8 audioDataSize
          ++ List.replicate 12 0
      else if doNotPadHeaderSize then []
      else
        toLittleEndian 4 (chunkName "JUNK") ++ toLittleEndian 4 (28 + (if isWaveFmtEx then 0 else 24))
          ++ List.replicate (28 + (if isWaveFmtEx then 0 else 24)) 0)

/-- The bytes `writeFmt` sends to the sink, in order. -/
def fmtBytes (isWaveFmtEx : Bool)
    (numChannels sampleRate bitsPerSample bytesPerFrame channelMask : Nat) : List Nat :=
  toLittleEndian 4 (chunkName "fmt ")
  ++ (if isWaveFmtEx then toLittleEndian 4 40 ++ toLittleEndian 2 65534
      else toLittleEndian 4 16 ++ toLittleEndian 2 (if bitsPerSample < 32 then 1 else 3))
  ++ toLittleEndian 2 numChannels ++ toLittleEndian 4 (doubleToInt sampleRate)
  ++ toLittleEndian 4 (doubleToInt (bytesPerFrame * sampleRate))
  ++ toLittleEndian 2 bytesPerFrame ++ toLittleEndian 2 bitsPerSample
  ++ (if isWaveFmtEx then
        toLittleEndian 2 22 ++ toLittleEndian 2 bitsPerSample ++ toLittleEndian 4 channelMask
          ++ toLittleEndian 4 (if bitsPerSample < 32 then pcmFormat else IEEEFloatFormat).data1
          ++ toLittleEndian 2 (if bitsPerSample < 32 then pcmFormat else IEEEFloatFormat).data2
          ++ toLittleEndian 2 (if bitsPerSample < 32 then pcmFormat else IEEEFloatFormat).data3
          ++ (if bitsPerSample < 32 then pcmFormat else IEEEFloatFormat).data4
      else [])

/-- The bytes `writeChunk (data, chunkType, size)` sends to the sink. -/
def chunkBytes (data : List Nat) (chunkType size : Nat) : List Nat :=
  if data.length > 0 then
    toLittleEndian 4 chunkType ++ toLittleEndian 4 (if size ≠ 0 then size else data.length)
      ++ data.map (fun b => b % 256)
  else []

/-- The bytes `writeStoredChunks` sends to the sink, in order. -/
def storedChunksBytes (ext : Collaborators) : List MetadataChunk → List Nat
  | [] => []
  | c :: rest =>
      (if ext.isMetadataChunk c.name then
         chunkBytes c.data c.name (if c.name = chunkName "inst" then 7 else 0)
       else [])
      ++ storedChunksBytes ext rest

/-- The bytes `writeHeaderBody` sends to the sink, in order: the whole header, from
the top tag to the `data` chunk header. -/
def headerBytes (ext : Collaborators) (w : WavAudioFormatWriter) : List Nat :=
  let bytesPerFrame := (w.numChannels * w.bitsPerSample) % 4294967296 / 8
  let audioDataSize := (bytesPerFrame * w.lengthInSamples) % 18446744073709551616
  let channelMask := getChannelMaskFromChannelLayout w.channelLayout
  let isRF64 : Bool := decide (w.bytesWritten ≥ 4294967296)
  let isWaveFmtEx : Bool := isRF64 || decide (channelMask ≠ 0)
  let chunks : List MetadataChunk := match w.chunkCollection with
    | some c => padStoredChunks ext c
    | none => []
  framingBytes isRF64 isWaveFmtEx w.doNotPadHeaderSize
      (riffChunkSize audioDataSize (storedChunksSize ext chunks)) audioDataSize
  ++ fmtBytes isWaveFmtEx w.numChannels w.sampleRate w.bitsPerSample bytesPerFrame channelMask
  ++ storedChunksBytes ext chunks
  ++ toLittleEndian 4 (chunkName "data")
  ++ toLittleEndian 4 (if isRF64 then 4294967295 else w.lengthInSamples * bytesPerFrame)

end WavAudioFormatWriter

namespace WavAudioFormatWriter

/-- The sink as `writeHeader` finds it after the optional pad byte and the seek back
to the header position. -/
def headerSink (w : WavAudioFormatWriter) : OutputStream :=
  { (if w.bytesWritten % 2 ≠ 0 then w.output.put [0] else w.output) with
    position := w.headerPosition }

end WavAudioFormatWriter

/-- A writer state with a stored `bext` chunk of three bytes, before its header is
written. -/
def storedChunkWriter : WavAudioFormatWriter :=
  { output := memoryOutput, sampleRate := 44100, numChannels := 2, bitsPerSample := 16,
    channelLayout := AudioChannelSet.stereo,
    chunkCollection := some [{ name := WavFileHelpers.chunkName "bext", data := [1, 2, 3] }] }

namespace WaveAudioFormatTests

/-- The writing half of the unit test `runTest`: `createWriterFor` on a fresh memory
stream, one `write` call, and the destructor; the result is the bytes of the file. -/
def writeFile (ext : Collaborators) (sampleRate numChannels bitsPerSample : Nat)
    (metadataValues : StringPairArray) (data : List (List Int)) (numSamples : Nat) :
    Option (List Nat) :=
  match WavAudioFormat.createWriterFor ext memoryOutput sampleRate numChannels bitsPerSample
      metadataValues 0 with
  | none => none
  | some w =>
      some (WavAudioFormatWriter.close ext
        (WavAudioFormatWriter.write ext w data numSamples).2).output.data

/-- The function `createDefaultSMPLMetadata` of the unit test. -/
def createDefaultSMPLMetadata : StringPairArray :=
  StringPairArray.setAll []
    [("Manufacturer", "0"), ("Product", "0"), ("SamplePeriod", "0"), ("MidiUnityNote", "60"),
     ("MidiPitchFraction", "0"), ("SmpteFormat", "0"), ("SmpteOffset", "0"),
     ("NumSampleLoops", "0"), ("SamplerData", "0")]

/-- The metadata the unit test builds: the BWAV fields (with a fixed date and time in
place of the current time), every RIFF INFO key mapped to itself, `MetaDataSource`,
and the default `smpl` fields. -/
def metadataValues : StringPairArray :=
  ((((StringPairArray.setAll []
      [("bwav description", "description"), ("bwav originator", "originator"),
       ("bwav originator ref", "originatorRef"), ("bwav origination date", "2020-01-01"),
       ("bwav origination time", "00:00:00"), ("bwav time reference", "256"),
       ("bwav coding history", "codingHistory")]).setAll
      (WavFileHelpers.ListInfoChunk.types.reverse.map (fun t => (t, t)))).set
      "MetaDataSource" "WAV").setAll createDefaultSMPLMetadata)

/-- The audio of the unit test: `numSamples` zero samples on each of `numChannels`
channels. -/
def silence (numChannels numSamples : Nat) : List (List Int) :=
  List.replicate numChannels (List.replicate numSamples 0)

end WaveAudioFormatTests

/-! ### Relations between two runs of the reader, for the statements below -/

/-- From offset `q` on, the bytes of `d1` are those of `d2` from offset `q + δ` on. -/
def Aligned (δ q : Nat) (d1 d2 : List Nat) : Prop :=
  q ≤ d1.length ∧ q + δ ≤ d2.length ∧ d1.drop q = d2.drop (q + δ)

/-- Two streams over aligned data, the second one `δ` bytes further on than the
first, neither before the offset `q` from which the data are aligned. -/
structure InputStream.Shifted (δ q : Nat) (s1 s2 : InputStream) : Prop where
  aligned : Aligned δ q s1.data s2.data
  base_le : q ≤ s1.position
  le_length : s1.position ≤ s1.data.length
  position_eq : s2.position = s1.position + δ

/-- Two readers that agree on everything they decoded: the second differs from the
first at most in its stream, in its metadata, which are related by `MR`, and in the
two recorded offsets, which are equal or `δ` apart. -/
structure WavAudioFormatReader.Agree (MR : StringPairArray → StringPairArray → Prop) (δ : Nat)
    (r1 r2 : WavAudioFormatReader) : Prop where
  same : r2 = { r1 with input := r2.input, metadataValues := r2.metadataValues,
                        bwavChunkStart := r2.bwavChunkStart,
                        dataChunkStart := r2.dataChunkStart }
  metadataValues : MR r1.metadataValues r2.metadataValues
  bwavChunkStart : r2.bwavChunkStart = r1.bwavChunkStart ∨ r2.bwavChunkStart = r1.bwavChunkStart + δ
  dataChunkStart : r2.dataChunkStart = r1.dataChunkStart ∨ r2.dataChunkStart = r1.dataChunkStart + δ

/-- Two states of the chunk loop that agree: agreeing readers and equal counters. -/
structure ChunkLoopState.Agree (MR : StringPairArray → StringPairArray → Prop) (δ : Nat)
    (st1 st2 : ChunkLoopState) : Prop where
  reader : st1.reader.Agree MR δ st2.reader
  same : st2 = { st1 with reader := st2.reader }

/-- A relation on metadata maps that `set` respects and that relates empty maps to
empty maps only. -/
structure MetadataRelation (MR : StringPairArray → StringPairArray → Prop) : Prop where
  set : ∀ m1 m2 key value, MR m1 m2 → MR (m1.set key value) (m2.set key value)
  size : ∀ m1 m2, MR m1 m2 → (m1.size > 0 ↔ m2.size > 0)

/-- How two exits of one pass of the chunk loop body on two aligned streams are
related: the same kind of exit with agreeing states, the streams still aligned when
the loop goes on. -/
inductive Flow.Agree (MR : StringPairArray → StringPairArray → Prop) (δ q : Nat) :
    Flow → Flow → Prop
  | next {s1 s2 : ChunkLoopState} (agree : s1.Agree MR δ s2)
      (shifted : s1.reader.input.Shifted δ q s2.reader.input) : Flow.Agree MR δ q (.next s1) (.next s2)
  | brk {s1 s2 : ChunkLoopState} (agree : s1.Agree MR δ s2) : Flow.Agree MR δ q (.brk s1) (.brk s2)
  | ret {s1 s2 : ChunkLoopState} (agree : s1.Agree MR δ s2) : Flow.Agree MR δ q (.ret s1) (.ret s2)

/-- Two results that fail with the same error or succeed with related values. -/
inductive ExceptAgree {ε α β : Type} (R : α → β → Prop) : Except ε α → Except ε β → Prop
  | error (e : ε) : ExceptAgree R (.error e) (.error e)
  | ok {a : α} {b : β} (related : R a b) : ExceptAgree R (.ok a) (.ok b)

/-- Two optional values that are both absent or both present and related. -/
inductive OptionAgree {α β : Type} (R : α → β → Prop) : Option α → Option β → Prop
  | none : OptionAgree R none none
  | some {a : α} {b : β} (related : R a b) : OptionAgree R (some a) (some b)

/-- How the outcomes of the chunk loop on two aligned streams are related: the same
error, or the same answer to "was a data chunk seen at the break" with agreeing
states. -/
def LoopResult.Agree (MR : StringPairArray → StringPairArray → Prop) (δ : Nat) :
    Except ReadError (Bool × ChunkLoopState) → Except ReadError (Bool × ChunkLoopState) → Prop :=
  ExceptAgree (fun x1 x2 => x2.1 = x1.1 ∧ x1.2.Agree MR δ x2.2)

/-- The state of the chunk loop with the bytes of the stream replaced by `data`. -/
def ChunkLoopState.withData (st : ChunkLoopState) (data : List Nat) : ChunkLoopState :=
  { st with reader := { st.reader with input := { st.reader.input with data := data } } }

/-- The tags the chunk loop of `doRead` tests for. -/
def knownChunkTypes : List Nat :=
  ["fmt ", "data", "LIST", "ID3 ", "iXML", "bext", "smpl", "inst", "INST", "cue ", "axml", "acid",
   "Trkn"].map WavFileHelpers.chunkName

/-- The bytes of a chunk: tag, declared length, body (with its pad byte, if any). -/
def rawChunk (tag length : Nat) (body : List Nat) : List Nat :=
  toLittleEndian 4 tag ++ toLittleEndian 4 length ++ body

/-- The bytes of a `RIFF`/`WAVE` stream with the given size field and chunk bytes. -/
def riffFile (size : Nat) (chunks : List Nat) : List Nat :=
  toLittleEndian 4 (WavFileHelpers.chunkName "RIFF") ++ toLittleEndian 4 size
    ++ toLittleEndian 4 (WavFileHelpers.chunkName "WAVE") ++ chunks

/-- The chunks of an 8-bit mono PCM stream at 8000 Hz with two samples. -/
def pcmChunks : List Nat :=
  rawChunk (WavFileHelpers.chunkName "fmt ") 16
      (toLittleEndian 2 1 ++ toLittleEndian 2 1 ++ toLittleEndian 4 8000 ++ toLittleEndian 4 8000
        ++ toLittleEndian 2 1 ++ toLittleEndian 2 8)
    ++ rawChunk (WavFileHelpers.chunkName "data") 2 [128, 128]

/-- A stream with a `smpl` chunk of declared length 4 and body `body`, followed by
the chunks of `pcmChunks`. -/
def smplThenPcmStream (body : List Nat) : List Nat :=
  riffFile 50 (rawChunk (WavFileHelpers.chunkName "smpl") 4 body ++ pcmChunks)

/-- A stream whose `fmt ` chunk carries the format tag `0x674F` (Ogg-Vorbis mode 1),
two channels, 44100 Hz and 16 bits, followed by a `data` chunk of four bytes. -/
def oggFmtStream : List Nat :=
  riffFile 40
    (rawChunk (WavFileHelpers.chunkName "fmt ") 16
        (toLittleEndian 2 26447 ++ toLittleEndian 2 2 ++ toLittleEndian 4 44100
          ++ toLittleEndian 4 176400 ++ toLittleEndian 2 4 ++ toLittleEndian 2 16)
      ++ rawChunk (WavFileHelpers.chunkName "data") 4 [0, 0, 0, 0])

/-- A stream whose `fmt ` chunk carries the format tag `0x674F` together with a sample
rate of 0 and 65 bits per sample. -/
def oggZeroRateStream : List Nat :=
  riffFile 28
    (rawChunk (WavFileHelpers.chunkName "fmt ") 16
      (toLittleEndian 2 26447 ++ toLittleEndian 2 2 ++ toLittleEndian 4 0
        ++ toLittleEndian 4 176400 ++ toLittleEndian 2 4 ++ toLittleEndian 2 65))

/-- The sixteen bytes of a `fmt ` chunk body with the given fields: format tag, channel
count, sample rate, average byte rate, block align, bits per sample. -/
def fmtChunkBody (format numChannels sampleRate byteRate blockAlign bitsPerSample : Nat) :
    List Nat :=
  toLittleEndian 2 format ++ toLittleEndian 2 numChannels ++ toLittleEndian 4 sampleRate
    ++ toLittleEndian 4 byteRate ++ toLittleEndian 2 blockAlign ++ toLittleEndian 2 bitsPerSample

/-- A stream whose `fmt ` chunk declares PCM, a channel count of `0xFFFF`, 8000 Hz and
8 bits per sample. -/
def wideChannelStream : List Nat :=
  riffFile 28 (rawChunk (WavFileHelpers.chunkName "fmt ") 16 (fmtChunkBody 1 65535 8000 8000 1 8))

/-- The forty bytes of an extensible `fmt ` chunk body: the sixteen bytes with format
tag `0xFFFE`, then the extension size 22, the valid bits per sample, the channel mask
and the sub-format identifier. -/
def extensibleFmtChunkBody (numChannels sampleRate byteRate blockAlign bitsPerSample
    channelMask : Nat) (subFormat : WavFileHelpers.ExtensibleWavSubFormat) : List Nat :=
  fmtChunkBody 65534 numChannels sampleRate byteRate blockAlign bitsPerSample
    ++ toLittleEndian 2 22 ++ toLittleEndian 2 bitsPerSample ++ toLittleEndian 4 channelMask
    ++ toLittleEndian 4 subFormat.data1 ++ toLittleEndian 2 subFormat.data2
    ++ toLittleEndian 2 subFormat.data3 ++ subFormat.data4

/-- A 16-bit writer at 48000 Hz for the 5.1 layout (left, right, centre, LFE, left
surround, right surround) on a fresh memory sink. -/
def surroundWriter : WavAudioFormatWriter :=
  { output := memoryOutput, sampleRate := 48000, numChannels := 6, bitsPerSample := 16,
    channelLayout := [1, 2, 3, 4, 5, 6] }

/-! ### Metadata chunk encoders -/

/-- Modelled from the spec: the UTF-8 bytes of one code point (`String` and its
UTF-8 conversions are not part of the sources). -/
def utf8Encode (c : Nat) : List Nat :=
  if c < 128 then [c]
  else if c < 2048 then [192 + c / 64, 128 + c % 64]
  else if c < 65536 then [224 + c / 4096, 128 + c / 64 % 64, 128 + c % 64]
  else [240 + c / 262144, 128 + c / 4096 % 64, 128 + c / 64 % 64, 128 + c % 64]

/-- Modelled from the spec: the code points of the text of a `String`, which ends
before the first zero character. -/
def stringChars (s : String) : List Nat :=
  (s.toList.map Char.toNat).takeWhile (fun c => c != 0)

/-- Modelled from the spec: the call `s.isEmpty()`. -/
def isEmptyString (s : String) : Bool := (stringChars s).isEmpty

/-- Modelled from the spec: the call `s.getNumBytesAsUTF8()`, the number of bytes of
the text without its terminator. -/
def getNumBytesAsUTF8 (s : String) : Nat :=
  ((stringChars s).map (fun c => (utf8Encode c).length)).sum

/-- Modelled from the spec: the characters `copyToUTF8` writes when `room` bytes are
left for them: whole characters, up to the first one that does not fit. -/
def copyChars : List Nat → Nat → List Nat
  | [], _ => []
  | c :: cs, room =>
      if (utf8Encode c).length ≤ room then utf8Encode c ++ copyChars cs (room - (utf8Encode c).length)
      else []

/-- Modelled from the spec: the bytes the call `s.copyToUTF8 (buffer, maxBufferSizeBytes)`
writes at `buffer`: the characters that fit into `maxBufferSizeBytes - 1` bytes, then
a zero byte. -/
def copyToUTF8 (s : String) (maxBufferSizeBytes : Nat) : List Nat :=
  copyChars (stringChars s) (maxBufferSizeBytes - 1) ++ [0]

/-- A write of `bytes` into the block `buf` at offset `off`. The part of a write that
would fall behind the end of the block is not represented. -/
def store (buf : List Nat) (off : Nat) (bytes : List Nat) : List Nat :=
  (List.range buf.length).map (fun i =>
    if off ≤ i ∧ i < off + bytes.length then bytes.getD (i - off) 0 else buf.getD i 0)

namespace WavFileHelpers

/-- The function `roundUpSize (sz)`, `(sz + 3) & ~3u`: the mask `~3u` is the 32-bit
value `0xfffffffc`, so the result is the multiple of four below `sz + 4`, taken
modulo `2^32`. -/
def roundUpSize (sz : Nat) : Nat := (sz + 3) % 4294967296 / 4 * 4

/-- The time reference `BWAVChunk::createFrom` reads from the map, as an `int64`. -/
def BWAVChunk.timeReference (ext : Collaborators) (values : StringPairArray) : Int :=
  toInt64 (toUInt64 (ext.getLargeIntValue (values.getValue "bwav time reference" "")))

/-- The block `BWAVChunk::createFrom` fills, before the test that decides whether it
is returned. `sizeof (BWAVChunk)` is 603 in the packed layout (the fields up to
`reserved` take 602 bytes, `codingHistory[1]` one more). -/
def BWAVChunk.filled (ext : Collaborators) (values : StringPairArray) : List Nat :=
  let data := List.replicate
    (roundUpSize (603 + getNumBytesAsUTF8 (values.getValue "bwav coding history" ""))) 0
  let data := store data 0 (copyToUTF8 (values.getValue "bwav description" "") 257)
  let data := store data 256 (copyToUTF8 (values.getValue "bwav originator" "") 33)
  let data := store data 288 (copyToUTF8 (values.getValue "bwav originator ref" "") 33)
  let data := store data 320 (copyToUTF8 (values.getValue "bwav origination date" "") 11)
  let data := store data 330 (copyToUTF8 (values.getValue "bwav origination time" "") 9)
  let time := BWAVChunk.timeReference ext values
  let data := store data 338 (toLittleEndian 4 (toUInt64 time % 4294967296))
  let data := store data 342 (toLittleEndian 4 (toUInt64 time / 4294967296 % 4294967296))
  store data 602 (copyToUTF8 (values.getValue "bwav coding history" "") 2147483647)

/-- The function `BWAVChunk::createFrom (values)`; the empty list is the empty
`MemoryBlock`. -/
def BWAVChunk.createFrom (ext : Collaborators) (values : StringPairArray) : List Nat :=
  let data := BWAVChunk.filled ext values
  if data.getD 0 0 ≠ 0 ∨ data.getD 256 0 ≠ 0 ∨ data.getD 320 0 ≠ 0 ∨ data.getD 330 0 ≠ 0
      ∨ data.getD 602 0 ≠ 0 ∨ BWAVChunk.timeReference ext values ≠ 0 then data
  else []

end WavFileHelpers

/-- A metadata map in which only the originator reference of the bext chunk is
set. -/
def originatorRefOnly : StringPairArray := [("bwav originator ref", "REF-0001")]

/-- A metadata map in which only the description of the bext chunk is set. -/
def descriptionOnly : StringPairArray := [("bwav description", "take 1")]

/-! ### The passes of the chunk loop, for the statements below -/

/-- The state in which a pass through the body of the chunk loop ends. -/
def Flow.state : Flow → ChunkLoopState
  | .next st => st
  | .brk st => st
  | .ret st => st

namespace WavAudioFormatReader

open WavFileHelpers

/-- The tags the passes of `chunkLoop` read, in order: the same loop, recording
`chunkType` instead of the state. -/
def chunkTags (ext : Collaborators) (storeChunks : Bool) (streamStartPos : Nat) (end_ : Nat)
    (n : Nat) : Nat → ChunkLoopState → List Nat
  | 0, _ => []
  | fuel + 1, st =>
      if st.reader.input.getPosition < end_ ∧ ¬ st.reader.input.isExhausted then
        (readChunkHeader storeChunks st.reader).chunkType ::
          (match chunk ext storeChunks streamStartPos n st with
           | .ok (.next st1) => chunkTags ext storeChunks streamStartPos end_ n fuel st1
           | _ => [])
      else []

/-- The end offset and the reader with which `doReadWave` enters the chunk loop, or
`none` when it returns before the loop. -/
def waveEntry (r : WavAudioFormatReader) (end_ : Nat) : Option (Nat × WavAudioFormatReader) :=
  let startOfRIFFChunk := r.input.getPosition
  let w := r.input.readInt
  if w.1 = chunkName "WAVE" then
    if r.isRF64 then
      let d := w.2.readInt
      if d.1 = chunkName "ds64" then
        let l := d.2.readInt
        let length := l.1
        if length < 28 then none
        else
          let chunkEnd := l.2.getPosition + length + length % 2
          let len := l.2.readInt64
          let dl := len.2.readInt64
          some ((len.1 + startOfRIFFChunk) % 18446744073709551616,
                { r with input := dl.2.setPosition chunkEnd, dataLength := toInt64 dl.1 })
      else some (end_, { r with input := d.2 })
    else some (end_, { r with input := w.2 })
  else none

/-- The end offset and the reader with which `doRead` enters the chunk loop, or
`none` when it returns before the loop. -/
def chunkLoopEntry (r : WavAudioFormatReader) : Option (Nat × WavAudioFormatReader) :=
  let first := r.input.readInt
  if first.1 = chunkName "RF64" then
    waveEntry { r with input := first.2.skipNextBytes 4, isRF64 := true } 0
  else if first.1 = chunkName "RIFF" then
    let len := first.2.readInt
    waveEntry { r with input := len.2 } ((len.1 + len.2.getPosition) % 18446744073709551616)
  else none

/-- The tags of the chunks `doRead` passes through, in order. -/
def passTags (ext : Collaborators) (r : WavAudioFormatReader) (storeChunks : Bool) (fuel : Nat) :
    List Nat :=
  match chunkLoopEntry r with
  | none => []
  | some e => chunkTags ext storeChunks r.input.getPosition e.1 fuel fuel { reader := e.2 }

/-- The sample count is the one the `data` branch computes from the current data
length and frame size. -/
def SampleCountCurrent (r : WavAudioFormatReader) : Prop :=
  r.lengthInSamples = if r.bytesPerFrame > 0 then Int.tdiv r.dataLength r.bytesPerFrame else 0

/-- The reader `r'` has the RF64 flag, the data length and the sample count of
`r`. -/
def SameDataExtent (r r' : WavAudioFormatReader) : Prop :=
  r'.isRF64 = r.isRF64 ∧ r'.dataLength = r.dataLength ∧ r'.lengthInSamples = r.lengthInSamples

/-- The reader `r'` has the RF64 flag, the data length, the sample count and the
frame size of `r`. -/
def SameExtent (r r' : WavAudioFormatReader) : Prop :=
  SameDataExtent r r' ∧ r'.bytesPerFrame = r.bytesPerFrame

end WavAudioFormatReader

/-- A stream whose `data` chunk, of two bytes, comes before its `fmt ` chunk (PCM,
one channel, 8000 Hz, 8 bits). -/
def dataFirstStream : List Nat :=
  riffFile 38 (rawChunk (WavFileHelpers.chunkName "data") 2 [128, 128]
    ++ rawChunk (WavFileHelpers.chunkName "fmt ") 16 (fmtChunkBody 1 1 8000 8000 1 8))

/-- The bytes of an `RF64`/`WAVE` stream: the top size field `0xFFFFFFFF`, a `ds64`
chunk of 28 bytes with the three 64-bit sizes and an empty table, and the chunk
bytes. -/
def rf64File (riffSize dataSize sampleCount : Nat) (chunks : List Nat) : List Nat :=
  toLittleEndian 4 (WavFileHelpers.chunkName "RF64") ++ toLittleEndian 4 4294967295
    ++ toLittleEndian 4 (WavFileHelpers.chunkName "WAVE")
    ++ rawChunk (WavFileHelpers.chunkName "ds64") 28
        (toLittleEndian 8 riffSize ++ toLittleEndian 8 dataSize ++ toLittleEndian 8 sampleCount
          ++ toLittleEndian 4 0)
    ++ chunks

/-- An `RF64` stream with an 8-bit mono PCM `fmt ` chunk and a `data` chunk of four
bytes whose header declares the length `0xFFFFFFFF`. -/
def rf64Stream : List Nat :=
  rf64File 76 4 4
    (rawChunk (WavFileHelpers.chunkName "fmt ") 16 (fmtChunkBody 1 1 8000 8000 1 8)
      ++ rawChunk (WavFileHelpers.chunkName "data") 4294967295 [128, 128, 128, 128])

/-- An `RF64` stream in which the chunk after the `WAVE` tag is the `fmt ` chunk. -/
def rf64WithoutDs64Stream : List Nat :=
  toLittleEndian 4 (WavFileHelpers.chunkName "RF64") ++ toLittleEndian 4 4294967295
    ++ toLittleEndian 4 (WavFileHelpers.chunkName "WAVE") ++ pcmChunks

/-- The reader that decoding `rf64Stream` gives. -/
def rf64Decoded : WavAudioFormatReader :=
  { input := { data := rf64Stream, position := 84 }, sampleRate := 8000, bitsPerSample := 8,
    lengthInSamples := 4, numChannels := 1, dataChunkStart := 80, dataLength := 4,
    bytesPerFrame := 1, isRF64 := true }

/-! ### More metadata chunk encoders -/

/-- Modelled from the spec: the UTF-8 bytes of the text of a `String`
(`toUTF8`, `toRawUTF8`), without the terminator. -/
def toUTF8 (s : String) : List Nat := (stringChars s).flatMap utf8Encode

/-- The value `s.getIntValue()`, an `int`. -/
def getIntValue (ext : Collaborators) (s : String) : Int := toInt32 (toUInt32 (ext.getIntValue s))

/-- Modelled from the spec: `a.equalsIgnoreCase (b)`; only the ASCII letters are
folded. -/
def equalsIgnoreCase (a b : String) : Bool :=
  (stringChars a).map WavFileHelpers.toUpperCase == (stringChars b).map WavFileHelpers.toUpperCase

namespace WavFileHelpers

/-- The function `iXMLChunk::createFrom (values)`; `numBytes` is a `uint32`, and
`MemoryBlock::copyFrom` copies what fits into the block. -/
def iXMLChunk.createFrom (values : StringPairArray) : List Nat :=
  let ixml := values.getValue "iXML" ""
  if (stringChars ixml).length = 0 then []
  else
    let numBytes := getNumBytesAsUTF8 ixml % 4294967296
    let numBytes := if numBytes % 2 = 1 then (numBytes + 1) % 4294967296 else numBytes
    store (List.replicate numBytes 0) 0 (toUTF8 ixml)

/-- The function `SMPLChunk::getValue (values, name, def)`. -/
def SMPLChunk.getValue (ext : Collaborators) (values : StringPairArray) (name def_ : String) : Nat :=
  toUInt32 (getIntValue ext (values.getValue name def_))

/-- One pass through the loop of `SMPLChunk::createFrom`: the six fields of loop
record `i`, at offset `36 + 24 * i` of the block. -/
def SMPLChunk.storeLoop (ext : Collaborators) (values : StringPairArray) (data : List Nat)
    (i : Nat) : List Nat :=
  let data := store data (36 + 24 * i)
    (toLittleEndian 4 (SMPLChunk.getValue ext values ("Loop" ++ toString i ++ "Identifier") "0"))
  let data := store data (36 + 24 * i + 4)
    (toLittleEndian 4 (SMPLChunk.getValue ext values ("Loop" ++ toString i ++ "Type") "0"))
  let data := store data (36 + 24 * i + 8)
    (toLittleEndian 4 (SMPLChunk.getValue ext values ("Loop" ++ toString i ++ "Start") "0"))
  let data := store data (36 + 24 * i + 12)
    (toLittleEndian 4 (SMPLChunk.getValue ext values ("Loop" ++ toString i ++ "End") "0"))
  let data := store data (36 + 24 * i + 16)
    (toLittleEndian 4 (SMPLChunk.getValue ext values ("Loop" ++ toString i ++ "Fraction") "0"))
  store data (36 + 24 * i + 20)
    (toLittleEndian 4 (SMPLChunk.getValue ext values ("Loop" ++ toString i ++ "PlayCount") "0"))

/-- The function `SMPLChunk::createFrom (values)`. `sizeof (SMPLChunk)` is 60 (the
36 header bytes and one loop record of 24 bytes). The subtraction `numLoops - 1` is
taken in the integers: its overflow for `numLoops = INT_MIN` is not represented. -/
def SMPLChunk.createFrom (ext : Collaborators) (values : StringPairArray) : List Nat :=
  let numLoops : Int := min 64 (getIntValue ext (values.getValue "NumSampleLoops" "0"))
  let data := List.replicate (roundUpSize (60 + (max 0 (numLoops - 1)).toNat * 24)) 0
  let data := store data 0 (toLittleEndian 4 (SMPLChunk.getValue ext values "Manufacturer" "0"))
  let data := store data 4 (toLittleEndian 4 (SMPLChunk.getValue ext values "Product" "0"))
  let data := store data 8 (toLittleEndian 4 (SMPLChunk.getValue ext values "SamplePeriod" "0"))
  let data := store data 12 (toLittleEndian 4 (SMPLChunk.getValue ext values "MidiUnityNote" "60"))
  let data := store data 16 (toLittleEndian 4 (SMPLChunk.getValue ext values "MidiPitchFraction" "0"))
  let data := store data 20 (toLittleEndian 4 (SMPLChunk.getValue ext values "SmpteFormat" "0"))
  let data := store data 24 (toLittleEndian 4 (SMPLChunk.getValue ext values "SmpteOffset" "0"))
  let data := store data 28 (toLittleEndian 4 (toUInt32 numLoops))
  let data := store data 32 (toLittleEndian 4 (SMPLChunk.getValue ext values "SamplerData" "0"))
  (List.range numLoops.toNat).foldl (SMPLChunk.storeLoop ext values) data

/-- The function `InstChunk::getValue (values, name, def)`: an `int8`, as its
byte. -/
def InstChunk.getValue (ext : Collaborators) (values : StringPairArray) (name def_ : String) : Nat :=
  (getIntValue ext (values.getValue name def_) % 256).toNat

/-- The function `InstChunk::createFrom (values)`: eight bytes, the last one zero,
when the map has the keys `LowNote` and `HighNote` (compared ignoring case). -/
def InstChunk.createFrom (ext : Collaborators) (values : StringPairArray) : List Nat :=
  if values.any (fun p => equalsIgnoreCase p.1 "LowNote")
      ∧ values.any (fun p => equalsIgnoreCase p.1 "HighNote") then
    [InstChunk.getValue ext values "MidiUnityNote" "60",
     InstChunk.getValue ext values "Detune" "0",
     InstChunk.getValue ext values "Gain" "0",
     InstChunk.getValue ext values "LowNote" "0",
     InstChunk.getValue ext values "HighNote" "127",
     InstChunk.getValue ext values "LowVelocity" "1",
     InstChunk.getValue ext values "HighVelocity" "127",
     0]
  else []

/-- One pass through the loop of `CueChunk::createFrom` on the block and
`nextOrder`: the six fields of cue record `i`, at offset `4 + 24 * i`. The sum
`jmax (nextOrder, order) + 1` is taken in the integers: its overflow is not
represented. -/
def CueChunk.storeCue (ext : Collaborators) (values : StringPairArray) (acc : List Nat × Int)
    (i : Nat) : List Nat × Int :=
  let pfx := "Cue" ++ toString i
  let identifier := toUInt32 (getIntValue ext (values.getValue (pfx ++ "Identifier") "0"))
  let order := getIntValue ext (values.getValue (pfx ++ "Order") (toString acc.2))
  let nextOrder := max acc.2 order + 1
  let data := store acc.1 (4 + 24 * i) (toLittleEndian 4 identifier)
  let data := store data (4 + 24 * i + 4) (toLittleEndian 4 (toUInt32 order))
  let data := store data (4 + 24 * i + 8)
    (toLittleEndian 4 (toUInt32 (getIntValue ext
      (values.getValue (pfx ++ "ChunkID") (toString (toInt32 (chunkName "data")))))))
  let data := store data (4 + 24 * i + 12)
    (toLittleEndian 4 (toUInt32 (getIntValue ext (values.getValue (pfx ++ "ChunkStart") "0"))))
  let data := store data (4 + 24 * i + 16)
    (toLittleEndian 4 (toUInt32 (getIntValue ext (values.getValue (pfx ++ "BlockStart") "0"))))
  let data := store data (4 + 24 * i + 20)
    (toLittleEndian 4 (toUInt32 (getIntValue ext (values.getValue (pfx ++ "Offset") "0"))))
  (data, nextOrder)

/-- The function `CueChunk::createFrom (values)`. `sizeof (CueChunk)` is 28 (the
count and one cue record of 24 bytes). -/
def CueChunk.createFrom (ext : Collaborators) (values : StringPairArray) : List Nat :=
  let numCues := getIntValue ext (values.getValue "NumCuePoints" "0")
  if numCues > 0 then
    let data := List.replicate (roundUpSize (28 + (numCues - 1).toNat * 24)) 0
    let data := store data 0 (toLittleEndian 4 (toUInt32 numCues))
    ((List.range numCues.toNat).foldl (CueChunk.storeCue ext values) (data, 0)).1
  else []

/-- The function `ListChunk::getValue (values, name)`. -/
def ListChunk.getValue (ext : Collaborators) (values : StringPairArray) (name : String) : Int :=
  getIntValue ext (values.getValue name "0")

/-- The bytes `out.write (text.toUTF8(), (size_t) length)` appends for a text and
the `int` length computed from it: the text with its terminator when the length is
the byte length of the text plus one. A length that is negative or larger than that
(which needs a text of `2^31 - 1` bytes or more) would read behind the text and is
represented by the bytes there are. -/
def writeUTF8 (text : String) (length : Int) : List Nat := (toUTF8 text ++ [0]).take length.toNat

/-- The function `ListChunk::appendLabelOrNoteChunk (values, prefix, chunkType, out)`
on the bytes of `out`. -/
def ListChunk.appendLabelOrNoteChunk (ext : Collaborators) (values : StringPairArray)
    (pfx : String) (chunkType : Nat) (out : List Nat) : List Nat :=
  let label := values.getValue (pfx ++ "Text") pfx
  let labelLength : Int := toInt32 (getNumBytesAsUTF8 label) + 1
  let chunkLength : Int := 4 + labelLength + labelLength % 2
  let out := out ++ toLittleEndian 4 chunkType
  let out := out ++ toLittleEndian 4 (toUInt32 chunkLength)
  let out := out ++ toLittleEndian 4 (toUInt32 (ListChunk.getValue ext values (pfx ++ "Identifier")))
  let out := out ++ writeUTF8 label labelLength
  if out.length % 2 = 1 then out ++ [0] else out

/-- The function `ListChunk::appendExtraChunk (values, prefix, out)` on the bytes of
`out`. -/
def ListChunk.appendExtraChunk (ext : Collaborators) (values : StringPairArray)
    (pfx : String) (out : List Nat) : List Nat :=
  let text := values.getValue (pfx ++ "Text") pfx
  let textLength : Int := toInt32 (getNumBytesAsUTF8 text) + 1
  let chunkLength : Int := textLength + 20 + textLength % 2
  let out := out ++ toLittleEndian 4 (chunkName "ltxt")
  let out := out ++ toLittleEndian 4 (toUInt32 chunkLength)
  let out := out ++ toLittleEndian 4 (toUInt32 (ListChunk.getValue ext values (pfx ++ "Identifier")))
  let out := out ++ toLittleEndian 4 (toUInt32 (ListChunk.getValue ext values (pfx ++ "SampleLength")))
  let out := out ++ toLittleEndian 4 (toUInt32 (ListChunk.getValue ext values (pfx ++ "Purpose")))
  let out := out ++ toLittleEndian 2 (toUInt32 (ListChunk.getValue ext values (pfx ++ "Country")))
  let out := out ++ toLittleEndian 2 (toUInt32 (ListChunk.getValue ext values (pfx ++ "Language")))
  let out := out ++ toLittleEndian 2 (toUInt32 (ListChunk.getValue ext values (pfx ++ "Dialect")))
  let out := out ++ toLittleEndian 2 (toUInt32 (ListChunk.getValue ext values (pfx ++ "CodePage")))
  let out := out ++ writeUTF8 text textLength
  if out.length % 2 = 1 then out ++ [0] else out

/-- The function `ListChunk::createFrom (values)`. The sum of the three counts is
taken in the integers: its overflow is not represented. -/
def ListChunk.createFrom (ext : Collaborators) (values : StringPairArray) : List Nat :=
  let numCueLabels := ListChunk.getValue ext values "NumCueLabels"
  let numCueNotes := ListChunk.getValue ext values "NumCueNotes"
  let numCueRegions := ListChunk.getValue ext values "NumCueRegions"
  if numCueLabels + numCueNotes + numCueRegions > 0 then
    let out := toLittleEndian 4 (chunkName "adtl")
    let out := (List.range numCueLabels.toNat).foldl
      (fun o i => ListChunk.appendLabelOrNoteChunk ext values ("CueLabel" ++ toString i)
        (chunkName "labl") o) out
    let out := (List.range numCueNotes.toNat).foldl
      (fun o i => ListChunk.appendLabelOrNoteChunk ext values ("CueNote" ++ toString i)
        (chunkName "note") o) out
    (List.range numCueRegions.toNat).foldl
      (fun o i => ListChunk.appendExtraChunk ext values ("CueRegion" ++ toString i) o) out
  else []

/-- The function `ListInfoChunk::writeValue (values, out, paramName)` on the bytes
of `out`: whether a sub-chunk was written, and the bytes after the call. -/
def ListInfoChunk.writeValue (values : StringPairArray) (out : List Nat) (paramName : String) :
    Bool × List Nat :=
  let value := values.getValue paramName ""
  if isEmptyString value then (false, out)
  else
    let valueLength : Int := toInt32 (getNumBytesAsUTF8 value) + 1
    let chunkLength : Int := valueLength + valueLength % 2
    let out := out ++ toLittleEndian 4 (chunkName paramName)
    let out := out ++ toLittleEndian 4 (toUInt32 chunkLength)
    let out := out ++ writeUTF8 value valueLength
    (true, if out.length % 2 = 1 then out ++ [0] else out)

/-- One pass through the loop of `ListInfoChunk::createFrom` on `anyParamsDefined`
and the bytes of `out`: `if (writeValue (values, out, type)) anyParamsDefined = true`. -/
def ListInfoChunk.writeNext (values : StringPairArray) (acc : Bool × List Nat) (t : String) :
    Bool × List Nat :=
  let w := ListInfoChunk.writeValue values acc.2 t
  (if w.1 then true else acc.1, w.2)

/-- The function `ListInfoChunk::createFrom (values)`. -/
def ListInfoChunk.createFrom (values : StringPairArray) : List Nat :=
  let r := ListInfoChunk.types.foldl (ListInfoChunk.writeNext values)
    (false, toLittleEndian 4 (chunkName "INFO"))
  if r.1 then r.2 else []

/-- The function `AcidChunk::getFlagIfPresent (values, name, flag)`. -/
def AcidChunk.getFlagIfPresent (ext : Collaborators) (values : StringPairArray) (name : String)
    (flag : Nat) : Nat :=
  if getIntValue ext (values.getValue name "") ≠ 0 then flag else 0

/-- The field `flags` of the record the constructor `AcidChunk (values)` builds. -/
def AcidChunk.flags (ext : Collaborators) (values : StringPairArray) : Nat :=
  AcidChunk.getFlagIfPresent ext values "acid one shot" 1
    ||| AcidChunk.getFlagIfPresent ext values "acid root set" 2
    ||| AcidChunk.getFlagIfPresent ext values "acid stretch" 4
    ||| AcidChunk.getFlagIfPresent ext values "acid disk based" 8
    ||| AcidChunk.getFlagIfPresent ext values "acidizer flag" 16

/-- The field `rootNote` of that record: it stays zero unless the root-set key has a
non-zero value. -/
def AcidChunk.rootNote (ext : Collaborators) (values : StringPairArray) : Nat :=
  if getIntValue ext (values.getValue "acid root set" "") ≠ 0 then
    (getIntValue ext (values.getValue "acid root note" "") % 65536).toNat
  else 0

/-- The field `numBeats` of that record. -/
def AcidChunk.numBeats (ext : Collaborators) (values : StringPairArray) : Nat :=
  toUInt32 (getIntValue ext (values.getValue "acid beats" ""))

/-- The field `meterDenominator` of that record. -/
def AcidChunk.meterDenominator (ext : Collaborators) (values : StringPairArray) : Nat :=
  (getIntValue ext (values.getValue "acid denominator" "") % 65536).toNat

/-- The field `meterNumerator` of that record. -/
def AcidChunk.meterNumerator (ext : Collaborators) (values : StringPairArray) : Nat :=
  (getIntValue ext (values.getValue "acid numerator" "") % 65536).toNat

/-- The field `tempo` of that record, as the bit pattern of the float: it stays zero
unless the map has the tempo key. -/
def AcidChunk.tempo (ext : Collaborators) (values : StringPairArray) : Nat :=
  if values.containsKey "acid tempo" then ext.getFloatValue (values.getValue "acid tempo" "") % 4294967296
  else 0

/-- The 24 bytes of the record the constructor `AcidChunk (values)` builds (flags 0,
rootNote 4, reserved1 6, reserved2 8, numBeats 12, meterDenominator 16,
meterNumerator 18, tempo 20). -/
def AcidChunk.record (ext : Collaborators) (values : StringPairArray) : List Nat :=
  toLittleEndian 4 (AcidChunk.flags ext values) ++ toLittleEndian 2 (AcidChunk.rootNote ext values)
    ++ toLittleEndian 2 0 ++ toLittleEndian 4 0
    ++ toLittleEndian 4 (AcidChunk.numBeats ext values)
    ++ toLittleEndian 2 (AcidChunk.meterDenominator ext values)
    ++ toLittleEndian 2 (AcidChunk.meterNumerator ext values)
    ++ toLittleEndian 4 (AcidChunk.tempo ext values)

/-- The function `AcidChunk::createFrom (values)`, through `toMemoryBlock`. -/
def AcidChunk.createFrom (ext : Collaborators) (values : StringPairArray) : List Nat :=
  if AcidChunk.flags ext values ≠ 0 ∨ AcidChunk.rootNote ext values ≠ 0
      ∨ AcidChunk.numBeats ext values ≠ 0 ∨ AcidChunk.meterDenominator ext values ≠ 0
      ∨ AcidChunk.meterNumerator ext values ≠ 0 then
    AcidChunk.record ext values
  else []

/-- The function `TracktionChunk::createFrom (values)`; `writeString` writes the text
and its terminator. -/
def TracktionChunk.createFrom (values : StringPairArray) : List Nat :=
  let s := values.getValue "tracktion loop info" ""
  if ¬ isEmptyString s then
    let out := toUTF8 s ++ [0]
    if out.length % 2 = 1 then out ++ [0] else out
  else []

/-- The function `AXMLChunk::createFrom (values)`: the document around the ISRC
code, followed by as many zero bytes as the document has bytes. -/
def AXMLChunk.createFrom (values : StringPairArray) : List Nat :=
  let ISRC := values.getValue "ISRC" ""
  if ¬ isEmptyString ISRC then
    let xml := toUTF8 ("<ebucore:ebuCoreMain xmlns:dc=\" http://purl.org/dc/elements/1.1/\" "
        ++ "xmlns:ebucore=\"urn:ebu:metadata-schema:ebuCore_2012\">"
        ++ "<ebucore:coreMetadata>"
        ++ "<ebucore:identifier typeLabel=\"GUID\" "
        ++ "typeDefinition=\"Globally Unique Identifier\" "
        ++ "formatLabel=\"ISRC\" "
        ++ "formatDefinition=\"International Standard Recording Code\" "
        ++ "formatLink=\"http://www.ebu.ch/metadata/cs/ebu_IdentifierTypeCodeCS.xml#3.7\">"
        ++ "<dc:identifier>ISRC:")
      ++ toUTF8 ISRC
      ++ toUTF8 ("</dc:identifier>" ++ "</ebucore:identifier>" ++ "</ebucore:coreMetadata>"
          ++ "</ebucore:ebuCoreMain>")
    xml ++ List.replicate xml.length 0
  else []

end WavFileHelpers

/-- A metadata map in which only the acid tempo is set, to the float 120 (bit
pattern `0x42F00000`). -/
def tempoOnly : StringPairArray := [("acid tempo", "1123024896")]

/-- A metadata map in which only the number of sample loops is set, to -1. -/
def negativeLoopCount : StringPairArray := [("NumSampleLoops", "-1")]

/-- A metadata map that asks for 178956971 cue points. -/
def hugeCueCount : StringPairArray := [("NumCuePoints", "178956971")]

/-- A metadata map with two cue points, the second one with a chunk id of its
own. -/
def twoCues : StringPairArray :=
  [("NumCuePoints", "2"), ("Cue0Identifier", "10"), ("Cue1Identifier", "11"), ("Cue1ChunkID", "7")]

namespace WavFileHelpers

/-- The bytes of a text sub-chunk as the encoders of the `LIST` chunks lay it out:
the text, its terminator, and a zero pad byte when these are an odd number of
bytes. -/
def paddedText (value : String) : List Nat :=
  toUTF8 value ++ [0] ++ (if (getNumBytesAsUTF8 value + 1) % 2 = 1 then [0] else [])

/-- The sub-chunk of a `LIST`/`INFO` chunk for the key `t` with the value `value`:
the tag, the length field, and the padded text. -/
def ListInfoChunk.subChunk (t value : String) : List Nat :=
  toLittleEndian 4 (chunkName t)
    ++ toLittleEndian 4 (getNumBytesAsUTF8 value + 1 + (getNumBytesAsUTF8 value + 1) % 2)
    ++ paddedText value

/-- The `labl` or `note` sub-chunk of a `LIST`/`adtl` chunk with the given
identifier and text: the tag, the length field, the identifier, and the padded
text. -/
def ListChunk.labelOrNoteSubChunk (chunkType identifier : Nat) (label : String) : List Nat :=
  toLittleEndian 4 chunkType
    ++ toLittleEndian 4 (4 + (getNumBytesAsUTF8 label + 1) + (getNumBytesAsUTF8 label + 1) % 2)
    ++ toLittleEndian 4 identifier
    ++ paddedText label

end WavFileHelpers

/-- A metadata map with a title of two bytes and an artist of three. -/
def titleAndArtist : StringPairArray := [("INAM", "ab"), ("IART", "xyz")]

/-- A metadata map with one cue label, of two bytes. -/
def oneLabel : StringPairArray :=
  [("NumCueLabels", "1"), ("CueLabel0Text", "ab"), ("CueLabel0Identifier", "7")]

/-- The body of a `LIST`/`INFO` chunk after its `INFO` tag, with one sub-chunk: the
title `ab`. -/
def infoBody : List Nat := rawChunk (WavFileHelpers.chunkName "INAM") 4 [97, 98, 0, 0]

/-- The same body with a sub-chunk of four bytes and the tag `XXXX`, which is not in
the dictionary, put in front. -/
def infoBodyWithUnknown : List Nat :=
  rawChunk (WavFileHelpers.chunkName "XXXX") 4 [1, 2, 3, 4] ++ infoBody

/-- A stream with the chunks of `pcmChunks` followed by a `LIST`/`INFO` chunk with the
given body. -/
def infoStream (body : List Nat) : List Nat :=
  riffFile (4 + 34 + 8 + 4 + body.length)
    (pcmChunks ++ rawChunk (WavFileHelpers.chunkName "LIST") (4 + body.length)
      (toLittleEndian 4 (WavFileHelpers.chunkName "INFO") ++ body))

/-! ### The sub-chunks of the `adtl` lists and the metadata keys, for the statements below -/

/-- The three keys the closing statements of `doRead` store the cue counters
under. -/
def cueCounterKeys : List String := ["NumCueLabels", "NumCueNotes", "NumCueRegions"]

namespace WavAudioFormatReader

open WavFileHelpers

/-- The states in which the passes of `chunkLoop` start, in order: the same loop,
recording the state instead of running on. -/
def chunkStates (ext : Collaborators) (storeChunks : Bool) (streamStartPos : Nat) (end_ : Nat)
    (n : Nat) : Nat → ChunkLoopState → List ChunkLoopState
  | 0, _ => []
  | fuel + 1, st =>
      if st.reader.input.getPosition < end_ ∧ ¬ st.reader.input.isExhausted then
        st :: (match chunk ext storeChunks streamStartPos n st with
               | .ok (.next st1) => chunkStates ext storeChunks streamStartPos end_ n fuel st1
               | _ => [])
      else []

/-- The states in which the passes of `doRead` through its chunk loop start. -/
def passStates (ext : Collaborators) (r : WavAudioFormatReader) (storeChunks : Bool) (fuel : Nat) :
    List ChunkLoopState :=
  match chunkLoopEntry r with
  | none => []
  | some e => chunkStates ext storeChunks r.input.getPosition e.1 fuel fuel { reader := e.2 }

/-- The states in which the passes of `adtlLoop` start, in order. -/
def adtlStates (chunkEnd : Nat) : Nat → ChunkLoopState → List ChunkLoopState
  | 0, _ => []
  | fuel + 1, st =>
      if st.reader.input.getPosition < chunkEnd then st :: adtlStates chunkEnd fuel (adtlSubChunk st)
      else []

/-- The sub-chunk passes inside the pass of the chunk loop that starts in `st`: those
of the loop of the `adtl` branch when the chunk is a `LIST` chunk of type `adtl`, and
none otherwise. -/
def adtlPasses (storeChunks : Bool) (fuel : Nat) (st : ChunkLoopState) : List ChunkLoopState :=
  let h := readChunkHeader storeChunks st.reader
  if h.chunkType = chunkName "LIST" ∧ h.reader.input.readInt.1 = chunkName "adtl" then
    adtlStates h.chunkEnd fuel { st with reader := { h.reader with input := h.reader.input.readInt.2 } }
  else []

/-- The sub-chunk passes of all `LIST`/`adtl` chunks `doRead` passes through, in
order. -/
def adtlSubChunks (ext : Collaborators) (r : WavAudioFormatReader) (storeChunks : Bool)
    (fuel : Nat) : List ChunkLoopState :=
  (passStates ext r storeChunks fuel).flatMap (adtlPasses storeChunks fuel)

/-- The tag the sub-chunk pass that starts in `st` reads. -/
def adtlTag (st : ChunkLoopState) : Nat := st.reader.input.readInt.1

/-- The number of sub-chunk passes that read the given tag. -/
def adtlCount (tag : Nat) (subs : List ChunkLoopState) : Nat :=
  subs.countP (fun s => decide (adtlTag s = tag))

/-- The counter of `doRead` that belongs to a sub-chunk tag: `cueLabelIndex` for
`labl`, `cueNoteIndex` for `note`, `cueRegionIndex` otherwise (for `ltxt`). -/
def cueIndex (tag : Nat) (st : ChunkLoopState) : Nat :=
  if tag = chunkName "labl" then st.cueLabelIndex
  else if tag = chunkName "note" then st.cueNoteIndex
  else st.cueRegionIndex

/-- Each sub-chunk pass of `subs` starts with the counter that belongs to `tag` at
`start` plus the number of earlier passes of `subs` that read `tag`. -/
def CountedFrom (tag start : Nat) (subs : List ChunkLoopState) : Prop :=
  ∀ pre s post, subs = pre ++ s :: post → cueIndex tag s = start + adtlCount tag pre

/-- The key under which the closing statements of `doRead` store the counter that
belongs to a sub-chunk tag. -/
def adtlCounterKey (tag : Nat) : String :=
  if tag = chunkName "labl" then "NumCueLabels"
  else if tag = chunkName "note" then "NumCueNotes"
  else "NumCueRegions"

/-- The keys a sub-chunk pass with the given tag stores when its counter is `k`:
`CueLabel{k}` or `CueNote{k}` with `Identifier` and `Text`, and `CueRegion{k}` with
the eight fields of the `ltxt` record. -/
def adtlKeys (tag k : Nat) : List String :=
  if tag = chunkName "labl" then
    ["Identifier", "Text"].map (fun f => "CueLabel" ++ toString k ++ f)
  else if tag = chunkName "note" then
    ["Identifier", "Text"].map (fun f => "CueNote" ++ toString k ++ f)
  else
    ["Identifier", "SampleLength", "Purpose", "Country", "Language", "Dialect", "CodePage",
      "Text"].map (fun f => "CueRegion" ++ toString k ++ f)

end WavAudioFormatReader

/-- No key of the map is one of the cue counter keys. -/
def NoCounterKey (values : StringPairArray) : Prop := ∀ p ∈ values, p.1 ∉ cueCounterKeys

/-- A stream with the chunks of `pcmChunks` followed by a `LIST`/`adtl` chunk with a
label, a note, a second label and a region, in this order. -/
def adtlStream : List Nat :=
  riffFile 122
    (pcmChunks ++ rawChunk (WavFileHelpers.chunkName "LIST") 76
      (toLittleEndian 4 (WavFileHelpers.chunkName "adtl")
        ++ rawChunk (WavFileHelpers.chunkName "labl") 6 (toLittleEndian 4 1 ++ [97, 0])
        ++ rawChunk (WavFileHelpers.chunkName "note") 6 (toLittleEndian 4 2 ++ [110, 0])
        ++ rawChunk (WavFileHelpers.chunkName "labl") 6 (toLittleEndian 4 3 ++ [98, 0])
        ++ rawChunk (WavFileHelpers.chunkName "ltxt") 22
            (toLittleEndian 4 4 ++ toLittleEndian 4 100 ++ toLittleEndian 4 0
              ++ toLittleEndian 2 0 ++ toLittleEndian 2 0 ++ toLittleEndian 2 0 ++ toLittleEndian 2 0
              ++ [114, 0])))

/-- The reader an accepted decode of `adtlStream` returns. -/
def adtlDecoded : WavAudioFormatReader :=
  { input := { data := adtlStream, position := 130 }, sampleRate := 8000, bitsPerSample := 8,
    lengthInSamples := 2, numChannels := 1, dataChunkStart := 44, dataLength := 2,
    bytesPerFrame := 1,
    metadataValues :=
      [("CueLabel0Identifier", "1"), ("CueLabel0Text", "a"), ("CueNote0Identifier", "2"),
       ("CueNote0Text", "n"), ("CueLabel1Identifier", "3"), ("CueLabel1Text", "b"),
       ("CueRegion0Identifier", "4"), ("CueRegion0SampleLength", "100"),
       ("CueRegion0Purpose", "0"), ("CueRegion0Country", "0"), ("CueRegion0Language", "0"),
       ("CueRegion0Dialect", "0"), ("CueRegion0CodePage", "0"), ("CueRegion0Text", "r"),
       ("NumCueLabels", "2"), ("NumCueNotes", "1"), ("NumCueRegions", "1"),
       ("MetaDataSource", "WAV")] }

/-! ### The calls on a writer and the sample reader, for the statements below -/

namespace WavAudioFormatWriter

/-- The bytes a call `write (data, numSamples)` sends to the sink: `tempBlock` with its
`bytes` bytes, converted for the bit depths 8, 16, 24 and 32 and left as allocated
(zeros here) for any other. -/
def audioBlock (w : WavAudioFormatWriter) (data : List (List Int)) (numSamples : Nat) : List Nat :=
  if w.bitsPerSample = 8 ∨ w.bitsPerSample = 16 ∨ w.bitsPerSample = 24 ∨ w.bitsPerSample = 32 then
    interleave w.bitsPerSample w.numChannels data numSamples
  else List.replicate (w.numChannels * numSamples * w.bitsPerSample / 8) 0

end WavAudioFormatWriter

/-- A call on an open writer: `write (data, numSamples)` or `flush()`. -/
inductive WriterCall where
  | write (data : List (List Int)) (numSamples : Nat)
  | flush
deriving DecidableEq, Repr

/-- Whether the call is a `write`. -/
def WriterCall.isWrite : WriterCall → Bool
  | .write _ _ => true
  | .flush => false

namespace WavAudioFormatWriter

/-- The writer after one call. -/
def call (ext : Collaborators) (w : WavAudioFormatWriter) : WriterCall → WavAudioFormatWriter
  | .write data numSamples => (write ext w data numSamples).2
  | .flush => (flush ext w).2

/-- The writer after a sequence of calls. -/
def calls (ext : Collaborators) (w : WavAudioFormatWriter) (cs : List WriterCall) :
    WavAudioFormatWriter :=
  cs.foldl (call ext) w

/-- The bytes of the sink after a writer was opened on it (with the padding chunk
enabled), the calls were made, and the destructor ran. -/
def finalizedFile (ext : Collaborators) (out : OutputStream) (rate : Nat)
    (channelLayoutToUse : AudioChannelSet) (bits : Nat)
    (chunkCollection_ : Option (List MetadataChunk)) (cs : List WriterCall) : List Nat :=
  (close ext (calls ext (create ext out rate channelLayoutToUse bits [] chunkCollection_ false)
    cs)).output.data

end WavAudioFormatWriter

/-- Modelled from the spec: the samples `[off, off + n)` of a destination buffer
replaced by `value 0`, ..., `value (n - 1)` (the buffers and the `AudioData` pointers
that walk them are outside the sources). The part of a write that would fall behind
the end of the buffer is not represented. -/
def setSamples (buf : List Int) (off n : Int) (value : Nat → Int) : List Int :=
  (List.range buf.length).map (fun (j : Nat) =>
    if off ≤ (j : Int) ∧ (j : Int) < off + n then value ((j : Int) - off).toNat else buf.getD j 0)

/-- Modelled from the spec: the conversion of one on-disk sample to the 32-bit sample
of the destination (section 4.5, step 2, read backwards), done by `AudioData`
converters that are outside the sources: 8-bit unsigned and 16/24-bit little-endian
samples are moved to the top of the word, a 32-bit sample (integer or float) is
copied bit by bit. -/
def decodeSample (bitsPerSample : Nat) (bytes : List Nat) : Int :=
  if bitsPerSample = 8 then (((bytes.getD 0 0 % 256 : Nat) : Int) - 128) * 16777216
  else if bitsPerSample = 16 then toInt16 (littleEndian bytes) * 65536
  else if bitsPerSample = 24 then
    (if littleEndian bytes % 16777216 < 8388608 then ((littleEndian bytes % 16777216 : Nat) : Int)
     else ((littleEndian bytes % 16777216 : Nat) : Int) - 16777216) * 256
  else toInt32 (littleEndian bytes)

/-- Modelled from the spec: `ReadHelper<...>::read`, which is outside the sources: each
of the first `numDestChannels` destination channels receives, from `destOffset` on,
`numSamples` samples: those of the source channel with the same index, taken from the
interleaved source, or zeros when the source has no such channel. A null destination
channel is not represented. -/
def ReadHelper.read (bitsPerSample : Nat) (destData : List (List Int))
    (destOffset numDestChannels : Int) (sourceData : List Nat)
    (numSourceChannels numSamples : Int) : List (List Int) :=
  (List.range destData.length).map (fun (i : Nat) =>
    if (i : Int) < numDestChannels then
      if (i : Int) < numSourceChannels then
        setSamples (destData.getD i []) destOffset numSamples (fun (k : Nat) =>
          decodeSample bitsPerSample
            (WavFileHelpers.field sourceData ((k * numSourceChannels.toNat + i) * (bitsPerSample / 8))
              (bitsPerSample / 8)))
      else setSamples (destData.getD i []) destOffset numSamples (fun _ => 0)
    else destData.getD i [])

/-- Modelled from the spec: `AudioFormatReader::clearSamplesBeyondAvailableLength`,
which is outside the sources: when the file has fewer than `numSamples` samples from
`startSampleInFile` on, the destination range is zeroed and `numSamples` becomes the
number of samples available. The result is the destination and the new
`numSamples`. -/
def clearSamplesBeyondAvailableLength (destChannels : List (List Int)) (numDestChannels : Int)
    (startOffsetInDestBuffer : Int) (startSampleInFile : Int) (numSamples : Int)
    (fileLengthInSamples : Int) : List (List Int) × Int :=
  let samplesAvailable := fileLengthInSamples - startSampleInFile
  if samplesAvailable < numSamples then
    ((List.range destChannels.length).map (fun (i : Nat) =>
        if (i : Int) < numDestChannels then
          setSamples (destChannels.getD i []) startOffsetInDestBuffer numSamples (fun _ => 0)
        else destChannels.getD i []),
     toInt32 (toUInt32 samplesAvailable))
  else (destChannels, numSamples)

namespace WavAudioFormatReader

/-- The function `copySampleData`: the dispatch on the bit depth. The `default`
branch (`jassertfalse; break`) leaves the destination as it is. -/
def copySampleData (bitsPerSample : Nat) (usesFloatingPointData : Bool)
    (destSamples : List (List Int)) (startOffsetInDestBuffer numDestChannels : Int)
    (sourceData : List Nat) (numChannels numSamples : Int) : List (List Int) :=
  if bitsPerSample = 8 then
    ReadHelper.read 8 destSamples startOffsetInDestBuffer numDestChannels sourceData numChannels
      numSamples
  else if bitsPerSample = 16 then
    ReadHelper.read 16 destSamples startOffsetInDestBuffer numDestChannels sourceData numChannels
      numSamples
  else if bitsPerSample = 24 then
    ReadHelper.read 24 destSamples startOffsetInDestBuffer numDestChannels sourceData numChannels
      numSamples
  else if bitsPerSample = 32 then
    if usesFloatingPointData then
      ReadHelper.read 32 destSamples startOffsetInDestBuffer numDestChannels sourceData numChannels
        numSamples
    else
      ReadHelper.read 32 destSamples startOffsetInDestBuffer numDestChannels sourceData numChannels
        numSamples
  else destSamples

/-- The loop `while (numSamples > 0)` of `readSamples`, with the temporary buffer of
`480 * 3 * 4 = 5760` bytes. The result is the destination and the stream. -/
def readSamplesLoop (r : WavAudioFormatReader) (numDestChannels : Int) :
    Nat → InputStream → List (List Int) → Int → Int →
      Except ReadError (List (List Int) × InputStream)
  | 0, _, _, _, _ => .error .outOfFuel
  | fuel + 1, input, destSamples, startOffsetInDestBuffer, numSamples =>
      if numSamples > 0 then
        if r.bytesPerFrame = 0 then .error .divisionByZero
        else
          let numThisTime := min (Int.tdiv 5760 r.bytesPerFrame) numSamples
          let rd := input.read (numThisTime * r.bytesPerFrame)
          let tempBuffer :=
            rd.1 ++ List.replicate ((numThisTime * r.bytesPerFrame).toNat - rd.1.length) 0
          let dest := copySampleData r.bitsPerSample r.usesFloatingPointData destSamples
            startOffsetInDestBuffer numDestChannels tempBuffer (toInt32 r.numChannels) numThisTime
          readSamplesLoop r numDestChannels fuel rd.2 dest (startOffsetInDestBuffer + numThisTime)
            (numSamples - numThisTime)
      else .ok (destSamples, input)

/-- The method `readSamples (destSamples, numDestChannels, startOffsetInDestBuffer,
startSampleInFile, numSamples)`; `fuel` bounds the number of passes of its loop. The
result is the returned flag, the destination and the reader. -/
def readSamples (r : WavAudioFormatReader) (destSamples : List (List Int))
    (numDestChannels startOffsetInDestBuffer startSampleInFile numSamples : Int) (fuel : Nat) :
    Except ReadError (Bool × List (List Int) × WavAudioFormatReader) :=
  let c := clearSamplesBeyondAvailableLength destSamples numDestChannels startOffsetInDestBuffer
    startSampleInFile numSamples r.lengthInSamples
  if c.2 ≤ 0 then .ok (true, c.1, r)
  else
    let input := r.input.setPosition ((r.dataChunkStart : Int) + startSampleInFile * r.bytesPerFrame)
    match readSamplesLoop r numDestChannels fuel input c.1 startOffsetInDestBuffer c.2 with
    | .error e => .error e
    | .ok res => .ok (true, res.1, { r with input := res.2 })

end WavAudioFormatReader

/-- A stream whose `fmt ` chunk declares PCM, 5761 channels, 8000 Hz and 8 bits per
sample (5761 bytes per frame), followed by the header of a `data` chunk that declares
one frame. -/
def wideFrameStream : List Nat :=
  riffFile 5797 (rawChunk (WavFileHelpers.chunkName "fmt ") 16 (fmtChunkBody 1 5761 8000 46088000 5761 8)
    ++ rawChunk (WavFileHelpers.chunkName "data") 5761 [])

/-- A stream whose `fmt ` chunk declares PCM, two channels, 8000 Hz and 12 bits per
sample (three bytes per frame), followed by a `data` chunk of two frames. -/
def twelveBitStream : List Nat :=
  riffFile 42 (rawChunk (WavFileHelpers.chunkName "fmt ") 16 (fmtChunkBody 1 2 8000 24000 3 12)
    ++ rawChunk (WavFileHelpers.chunkName "data") 6 [1, 2, 3, 4, 5, 6])

/-- A memory sink that cannot seek. -/
def unseekableOutput : OutputStream := { data := [], position := 0, seekable := false }

namespace WavAudioFormatWriter

/-- An open writer in working order: its sink is seekable and accepts every write, no
write has failed, the padding chunk is enabled, and the position of the sink lies
within its data and behind the header. -/
structure Steady (ext : Collaborators) (w : WavAudioFormatWriter) : Prop where
  capacity : w.output.capacity = none
  seekable : w.output.seekable = true
  notFailed : w.writeFailed = false
  padded : w.doNotPadHeaderSize = false
  behindHeader : w.headerPosition + (headerBytes ext w).length ≤ w.output.position
  withinData : w.output.position ≤ w.output.data.length

/-- Two writers agree in their configuration, their counters and the position of their
sinks, and their sinks hold the same bytes once the destructor has run. -/
structure SameFile (ext : Collaborators) (w1 w2 : WavAudioFormatWriter) : Prop where
  sampleRate : w1.sampleRate = w2.sampleRate
  numChannels : w1.numChannels = w2.numChannels
  bitsPerSample : w1.bitsPerSample = w2.bitsPerSample
  channelLayout : w1.channelLayout = w2.channelLayout
  lengthInSamples : w1.lengthInSamples = w2.lengthInSamples
  bytesWritten : w1.bytesWritten = w2.bytesWritten
  headerPosition : w1.headerPosition = w2.headerPosition
  chunks : w1.chunkCollection.map (padStoredChunks ext) = w2.chunkCollection.map (padStoredChunks ext)
  position : w1.output.position = w2.output.position
  closed : (close ext w1).output.data = (close ext w2).output.data

/-- The counters of a writer that was opened at the start of an empty sink agree with
the sink: the position is the header length plus the bytes written, the data end there
or one pad byte later, and the bytes written are whole frames of one of the four bit
depths. -/
structure Tally (ext : Collaborators) (w : WavAudioFormatWriter) : Prop where
  bits : w.bitsPerSample = 8 ∨ w.bitsPerSample = 16 ∨ w.bitsPerSample = 24 ∨ w.bitsPerSample = 32
  atStart : w.headerPosition = 0
  position : w.output.position = (headerBytes ext w).length + w.bytesWritten
  length : w.output.data.length ≤ w.output.position + w.bytesWritten % 2
  frames : w.bytesWritten = w.numChannels * w.bitsPerSample / 8 * w.lengthInSamples

end WavAudioFormatWriter

/-- The number of samples the `write` calls of a sequence of calls pass. -/
def WriterCall.samples : List WriterCall → Nat
  | [] => 0
  | .write _ numSamples :: rest => numSamples + WriterCall.samples rest
  | .flush :: rest => WriterCall.samples rest

/-- A stream with a `LIST`/`adtl` chunk that holds one label, followed by a `fmt `
chunk with the Ogg-Vorbis tag `0x674F`. -/
def adtlThenOggStream : List Nat :=
  riffFile 54
    (rawChunk (WavFileHelpers.chunkName "LIST") 18
        (toLittleEndian 4 (WavFileHelpers.chunkName "adtl")
          ++ rawChunk (WavFileHelpers.chunkName "labl") 6 (toLittleEndian 4 1 ++ [97, 0]))
      ++ rawChunk (WavFileHelpers.chunkName "fmt ") 16 (fmtChunkBody 26447 2 44100 176400 4 16))

/-- A stream with two `fmt ` chunks, the first with format tag 3 (IEEE float) and the
second with format tag 1 (PCM), both mono, 8000 Hz and 32 bits, followed by a `data`
chunk of one frame. -/
def floatThenPcmStream : List Nat :=
  riffFile 64
    (rawChunk (WavFileHelpers.chunkName "fmt ") 16 (fmtChunkBody 3 1 8000 32000 4 32)
      ++ rawChunk (WavFileHelpers.chunkName "fmt ") 16 (fmtChunkBody 1 1 8000 32000 4 32)
      ++ rawChunk (WavFileHelpers.chunkName "data") 4 [0, 0, 0, 0])

/-- The same stream without its first `fmt ` chunk. -/
def pcm32Stream : List Nat :=
  riffFile 40
    (rawChunk (WavFileHelpers.chunkName "fmt ") 16 (fmtChunkBody 1 1 8000 32000 4 32)
      ++ rawChunk (WavFileHelpers.chunkName "data") 4 [0, 0, 0, 0])

/-- The sixteen bytes of a sub-format GUID in a stream, as `writeHeader` writes them
and the extensible branch of the reader reads them. -/
def subFormatBytes (g : WavFileHelpers.ExtensibleWavSubFormat) : List Nat :=
  toLittleEndian 4 g.data1 ++ toLittleEndian 2 g.data2 ++ toLittleEndian 2 g.data3 ++ g.data4

/-- An extensible stream (stereo, 44100 Hz, 32 bits, channel mask 3) with the given
sub-format GUID and a `data` chunk of one frame. -/
def extensibleStreamOf (g : WavFileHelpers.ExtensibleWavSubFormat) : List Nat :=
  riffFile 68
    (rawChunk (WavFileHelpers.chunkName "fmt ") 40
        (extensibleFmtChunkBody 2 44100 352800 8 32 3 g)
      ++ rawChunk (WavFileHelpers.chunkName "data") 8 [0, 0, 0, 0, 0, 0, 0, 0])

/-- A stream with the chunks of `pcmChunks` followed by a `LIST`/`INFO` chunk whose
one sub-chunk has the lower-case tag `inam` and the text `ab`. -/
def lowerCaseInfoStream : List Nat :=
  riffFile 62
    (pcmChunks ++ rawChunk (WavFileHelpers.chunkName "LIST") 16
      (toLittleEndian 4 (WavFileHelpers.chunkName "INFO")
        ++ rawChunk (WavFileHelpers.chunkName "inam") 4 [97, 98, 0, 0]))

/-- The bytes of `d1` and `d2` from offset `p` up to offset `q` are the same, and both
lists hold `q` bytes. -/
structure SameWindow (p q : Nat) (d1 d2 : List Nat) : Prop where
  le_left : q ≤ d1.length
  le_right : q ≤ d2.length
  same : ∀ i, p ≤ i → i < q → d2.getD i 0 = d1.getD i 0

namespace WavAudioFormatReader

open WavFileHelpers

/-- Whether the reads of the loop of `ListInfoChunk::addToMetadata` end at or before
offset `q`: the two `readInt` calls and the `readIntoMemoryBlock` call of every pass
the loop makes from `input` on with the given fuel. -/
def infoWithin (q : Nat) (chunkEnd : Int) : Nat → InputStream → Bool
  | 0, _ => true
  | fuel + 1, input =>
      if (input.getPosition : Int) < chunkEnd then
        let r1 := input.readInt
        let infoLength : Int := chunkEnd - (r1.2.getPosition : Int)
        decide (input.position + 4 ≤ q)
        && (if infoLength > 0 then
              let r2 := r1.2.readInt
              let infoLength2 : Int := min infoLength (toInt32 r2.1)
              decide (r1.2.position + 4 ≤ q)
              && (if infoLength2 ≤ 0 then true
                  else
                    match ListInfoChunk.types.find?
                        (fun t => ListInfoChunk.isMatchingTypeIgnoringCase r1.1 t) with
                    | some _ =>
                        decide (r2.2.position + infoLength2.toNat ≤ q)
                        && infoWithin q chunkEnd fuel (r2.2.readIntoMemoryBlock infoLength2).2
                    | none => infoWithin q chunkEnd fuel r2.2)
            else infoWithin q chunkEnd fuel r1.2)
      else true

/-- The sub-chunk of a `LIST`/`adtl` chunk at which `st` stands lies in front of
offset `q` and declares the bytes its decoder reads: the header and the declared body
with its pad byte end at or before `q`, the declared length is below `2^31`, and it
is at least 4 for a `labl` or `note` sub-chunk and at least 20 for an `ltxt`
sub-chunk. -/
def adtlSubChunkWithin (q : Nat) (st : ChunkLoopState) : Prop :=
  st.reader.input.position + 8 ≤ q
  ∧ st.reader.input.position + 8
      + (st.reader.input.readInt.2.readInt.1 + st.reader.input.readInt.2.readInt.1 % 2) ≤ q
  ∧ st.reader.input.readInt.2.readInt.1 < 2147483648
  ∧ (st.reader.input.readInt.1 = chunkName "labl" ∨ st.reader.input.readInt.1 = chunkName "note" →
      4 ≤ st.reader.input.readInt.2.readInt.1)
  ∧ (st.reader.input.readInt.1 = chunkName "ltxt" → 20 ≤ st.reader.input.readInt.2.readInt.1)

/-- The sub-chunk decoders of the `LIST` chunk with header `h` read no byte from
offset `q` on: the list type lies in front of `q`, the reads of the `INFO` loop end at
or before `q`, and every sub-chunk of an `adtl` list lies in front of `q` and declares
the bytes its decoder reads. -/
def listWithin (q n : Nat) (st : ChunkLoopState) (h : ChunkHeader) : Prop :=
  h.reader.input.position + 4 ≤ q
  ∧ (h.reader.input.readInt.1 = chunkName "info" ∨ h.reader.input.readInt.1 = chunkName "INFO" →
      infoWithin q (h.chunkEnd : Int) n h.reader.input.readInt.2 = true)
  ∧ (h.reader.input.readInt.1 = chunkName "adtl" →
      ∀ s ∈ adtlStates h.chunkEnd n { st with reader := { h.reader with input := h.reader.input.readInt.2 } },
        adtlSubChunkWithin q s)

/-- A pass of the chunk loop (decode path) at a chunk that lies within the first `q`
bytes of the stream and whose decoder reads no byte from offset `q` on: the header
and the declared body with its pad byte end at or before `q`, a `fmt ` chunk declares
the 16 bytes its decoder reads, and the 40 bytes of the extensible form when its
format tag is `0xFFFE`, and the sub-chunk decoders of a `LIST` chunk, which follow
the lengths the sub-chunks declare, stay in front of `q` (`n` is the fuel of their
loops). -/
def passWithin (q n : Nat) (st : ChunkLoopState) : Prop :=
  st.reader.input.position + 8 ≤ q
  ∧ (readChunkHeader false st.reader).chunkEnd ≤ q
  ∧ ((readChunkHeader false st.reader).chunkType = chunkName "LIST" →
      listWithin q n st (readChunkHeader false st.reader))
  ∧ ((readChunkHeader false st.reader).chunkType = chunkName "fmt " →
      16 ≤ (readChunkHeader false st.reader).length
      ∧ (40 ≤ (readChunkHeader false st.reader).length
          ∨ (readChunkHeader false st.reader).reader.input.readShort.1 ≠ 65534))

/-- The chunk loop (decode path) goes from the first state to the second by passes
that go on to the next pass and stay within the first `q` bytes of the stream. -/
inductive PassesWithin (ext : Collaborators) (streamStartPos n q : Nat) :
    ChunkLoopState → ChunkLoopState → Prop
  | done (st : ChunkLoopState) : PassesWithin ext streamStartPos n q st st
  | pass (st st1 st2 : ChunkLoopState) (within : passWithin q n st)
      (next : chunk ext false streamStartPos n st = .ok (.next st1))
      (rest : PassesWithin ext streamStartPos n q st1 st2) :
      PassesWithin ext streamStartPos n q st st2

end WavAudioFormatReader

/-- A `LIST`/`INFO` chunk whose one sub-chunk has the tag `inam` and the text `ab`. -/
def infoListChunk : List Nat :=
  rawChunk (WavFileHelpers.chunkName "LIST") 16
    (toLittleEndian 4 (WavFileHelpers.chunkName "INFO")
      ++ rawChunk (WavFileHelpers.chunkName "inam") 4 [97, 98, 0, 0])

/-- A `LIST`/`adtl` chunk that holds one label with identifier 1 and the text `a`. -/
def adtlListChunk : List Nat :=
  rawChunk (WavFileHelpers.chunkName "LIST") 18
    (toLittleEndian 4 (WavFileHelpers.chunkName "adtl")
      ++ rawChunk (WavFileHelpers.chunkName "labl") 6 (toLittleEndian 4 1 ++ [97, 0]))

/-- The `fmt ` chunk of an 8-bit mono PCM stream at 8000 Hz. -/
def pcmFmtChunk : List Nat :=
  rawChunk (WavFileHelpers.chunkName "fmt ") 16 (fmtChunkBody 1 1 8000 8000 1 8)

/-- A `data` chunk with two bytes. -/
def pcmDataChunk : List Nat := rawChunk (WavFileHelpers.chunkName "data") 2 [128, 128]

/-- The state in which the pass through the body of the chunk loop (decode path) that
starts in `st` ends, and `st` itself when the pass fails. -/
def WavAudioFormatReader.passEnd (ext : Collaborators) (streamStartPos n : Nat)
    (st : ChunkLoopState) : ChunkLoopState :=
  match WavAudioFormatReader.chunk ext false streamStartPos n st with
  | .ok fl => fl.state
  | .error _ => st

/-- The state in which the chunk loop starts on the stream with the chunks
`pcmFmtChunk`, `infoListChunk`, `adtlListChunk` and `pcmDataChunk`. -/
def windowState : ChunkLoopState :=
  { reader := { input := { data := riffFile 88 (pcmFmtChunk ++ infoListChunk ++ adtlListChunk ++ pcmDataChunk),
                           position := 12 } } }

namespace WavFileHelpers

/-- Once the bound check of the `smpl` loop fails it fails for every later index, so
the indices walked before the `break` are those of the whole range that pass it. -/
theorem SMPLChunk.loopIndices_eq_filter (totalSize : Int) (remaining i : Nat) :
    SMPLChunk.loopIndices totalSize remaining i
      = (List.range' i remaining).filter (fun (j : Nat) => decide (36 + 24 * ((j : Int) + 1) ≤ totalSize)) := by
  induction remaining generalizing i with
  | zero => simp [SMPLChunk.loopIndices]
  | succ n ih =>
    rw [SMPLChunk.loopIndices, List.range'_succ, List.filter_cons]
    by_cases h : 36 + 24 * ((i : Int) + 1) > totalSize
    · have h' : ¬ (36 + 24 * ((i : Int) + 1) ≤ totalSize) := by omega
      simp only [h, h', if_true, decide_False, Bool.false_eq_true, if_false]
      symm
      rw [List.filter_eq_nil_iff]
      intro j hj
      have := (List.mem_range'_1.mp hj).1
      simp only [decide_eq_true_eq]
      omega
    · have h' : 36 + 24 * ((i : Int) + 1) ≤ totalSize := by omega
      simp only [h, h', if_false, decide_True, if_true, ih]

/-- The same for the `cue ` loop, whose records start at offset 4. -/
theorem CueChunk.cueIndices_eq_filter (totalSize : Int) (remaining i : Nat) :
    CueChunk.cueIndices totalSize remaining i
      = (List.range' i remaining).filter (fun (j : Nat) => decide (4 + 24 * ((j : Int) + 1) ≤ totalSize)) := by
  induction remaining generalizing i with
  | zero => simp [CueChunk.cueIndices]
  | succ n ih =>
    rw [CueChunk.cueIndices, List.range'_succ, List.filter_cons]
    by_cases h : 4 + 24 * ((i : Int) + 1) > totalSize
    · have h' : ¬ (4 + 24 * ((i : Int) + 1) ≤ totalSize) := by omega
      simp only [h, h', if_true, decide_False, Bool.false_eq_true, if_false]
      symm
      rw [List.filter_eq_nil_iff]
      intro j hj
      have := (List.mem_range'_1.mp hj).1
      simp only [decide_eq_true_eq]
      omega
    · have h' : 4 + 24 * ((i : Int) + 1) ≤ totalSize := by omega
      simp only [h, h', if_false, decide_True, if_true, ih]

end WavFileHelpers

open WavFileHelpers WavAudioFormatReader

/-- C6: on a `fmt ` chunk that declares more than 64 bits per sample and a sample rate
of 0, the geometry computation `bytesPerSec / (int) sampleRate` divides by zero, so
the reader does not complete. -/
theorem C6_fmt_sample_rate_zero_divides :
    WavAudioFormat.createReaderFor plainCollaborators (memoryInput corruptFmtStream) 8
      = .error .divisionByZero := by
  decide!

/-- C9, counterexample: the `smpl` chunk of `hugeLoopCountStream` has declared
length 60 and `numSampleLoops = 2^31`, so index 0 satisfies `0 <= 0 < numSampleLoops`
and `36 + 24 * (0 + 1) <= 60`; yet the decode emits no `Loop0` key, because the loop
compares against `(int) numSampleLoops`, which is negative. -/
theorem C9_counterexample :
    ¬ (∀ r, WavAudioFormatReader.create plainCollaborators (memoryInput hugeLoopCountStream) 8 = .ok r →
        (r.metadataValues.containsKey "Loop0Identifier" = true
          ↔ (0 < u32At ((hugeLoopCountStream.drop 20).take 60) 28 ∧ 36 + 24 * (0 + 1) ≤ 60))) := by
  intro h
  have hr : WavAudioFormatReader.create plainCollaborators (memoryInput hugeLoopCountStream) 8
      = .ok { input := { data := hugeLoopCountStream, position := 80 },
              metadataValues := [("Manufacturer", "0"), ("Product", "0"), ("SamplePeriod", "0"),
                ("MidiUnityNote", "0"), ("MidiPitchFraction", "0"), ("SmpteFormat", "0"),
                ("SmpteOffset", "0"), ("NumSampleLoops", "2147483648"), ("SamplerData", "0"),
                ("MetaDataSource", "WAV")] } := by decide!
  have h2 := h _ hr
  revert h2
  decide!

/-- C9, as amended: the `set` calls of the `smpl` decoder are the nine header fields
followed by the six fields of loop `i` for exactly the indices `i`, in increasing
order, with `0 <= i < (int) numSampleLoops` and `36 + 24 * (i + 1) <= totalSize`, and
those of the `cue ` decoder are `NumCuePoints` followed by the six fields of cue `i`
for exactly the indices with `0 <= i < (int) numCues` and
`4 + 24 * (i + 1) <= totalSize`, where `totalSize` is the declared length as an
`int`; so every record that is read ends at or before `totalSize`. -/
theorem C9_bounded_walk (buf : List Nat) (totalSize : Int) :
    SMPLChunk.entries buf totalSize
        = SMPLChunk.headerEntries buf
          ++ ((List.range (toInt32 (u32At buf 28)).toNat).filter
                (fun (i : Nat) => decide (36 + 24 * ((i : Int) + 1) ≤ totalSize))).flatMap (SMPLChunk.loopEntries buf)
    ∧ CueChunk.entries buf totalSize
        = [("NumCuePoints", toString (u32At buf 0))]
          ++ ((List.range (toInt32 (u32At buf 0)).toNat).filter
                (fun (i : Nat) => decide (4 + 24 * ((i : Int) + 1) ≤ totalSize))).flatMap (CueChunk.cueEntries buf)
    ∧ (∀ i ∈ SMPLChunk.loopIndices totalSize (toInt32 (u32At buf 28)).toNat 0,
        ((36 + 24 * (i + 1) : Nat) : Int) ≤ totalSize)
    ∧ (∀ i ∈ CueChunk.cueIndices totalSize (toInt32 (u32At buf 0)).toNat 0,
        ((4 + 24 * (i + 1) : Nat) : Int) ≤ totalSize) := by
  refine ⟨?_, ?_, ?_, ?_⟩
  · simp [SMPLChunk.entries, SMPLChunk.loopIndices_eq_filter, List.range_eq_range']
  · simp [CueChunk.entries, CueChunk.cueIndices_eq_filter, List.range_eq_range']
  · intro i hi
    rw [SMPLChunk.loopIndices_eq_filter, List.mem_filter] at hi
    have := hi.2
    simp only [decide_eq_true_eq] at this
    push_cast
    omega
  · intro i hi
    rw [CueChunk.cueIndices_eq_filter, List.mem_filter] at hi
    have := hi.2
    simp only [decide_eq_true_eq] at this
    push_cast
    omega

/-- At the end of `adtlOverrunStream` a pass of the `adtl` loop reads two zeros and
seeks to where it already is: the state does not change. -/
theorem adtlSubChunk_at_end :
    adtlSubChunk { reader := { input := { data := adtlOverrunStream, position := 24 } } }
      = { reader := { input := { data := adtlOverrunStream, position := 24 } } } := by
  decide!

/-- The `adtl` loop never leaves that state, whatever the fuel. -/
theorem adtlLoop_at_end (fuel : Nat) :
    adtlLoop 120 fuel { reader := { input := { data := adtlOverrunStream, position := 24 } } }
      = .error .outOfFuel := by
  induction fuel with
  | zero => rfl
  | succ n ih =>
    rw [adtlLoop, adtlSubChunk_at_end, ih]
    simp [InputStream.getPosition]

/-- C5: on `adtlOverrunStream`, whose `LIST`/`adtl` chunk declares a length that runs
past the end of the stream, `doRead` does not return: the `adtl` loop reads zeros at
the end of the stream without advancing, so the run exhausts every fuel. -/
theorem C5_adtl_overrun_never_returns (ext : Collaborators) (fuel : Nat) :
    WavAudioFormatReader.create ext (memoryInput adtlOverrunStream) fuel = .error .outOfFuel := by
  have h1 : (memoryInput adtlOverrunStream).readInt
      = (chunkName "RIFF", { data := adtlOverrunStream, position := 4 }) := by decide!
  have h2 : InputStream.readInt { data := adtlOverrunStream, position := 4 }
      = (100, { data := adtlOverrunStream, position := 8 }) := by decide!
  have h3 : InputStream.readInt { data := adtlOverrunStream, position := 8 }
      = (chunkName "WAVE", { data := adtlOverrunStream, position := 12 }) := by decide!
  have h4 : readChunkHeader false { input := { data := adtlOverrunStream, position := 12 } }
      = { chunkType := chunkName "LIST", length := 100, chunkEnd := 120,
          reader := { input := { data := adtlOverrunStream, position := 20 } } } := by decide!
  have h5 : InputStream.readInt { data := adtlOverrunStream, position := 20 }
      = (chunkName "adtl", { data := adtlOverrunStream, position := 24 }) := by decide!
  have n1 : chunkName "RIFF" ≠ chunkName "RF64" := by decide
  have n2 : chunkName "LIST" ≠ chunkName "fmt " := by decide
  have n3 : chunkName "LIST" ≠ chunkName "data" := by decide
  have n4 : chunkName "adtl" ≠ chunkName "info" := by decide
  have n5 : chunkName "adtl" ≠ chunkName "INFO" := by decide
  have hchunk : ∀ n, chunk ext false 0 n { reader := { input := { data := adtlOverrunStream, position := 12 } } }
      = .error .outOfFuel := by
    intro n
    simp only [chunk, h4, n2, n3, if_false, if_true, listChunk, h5, n4, n5, or_self, adtlLoop_at_end]
  have hloop : ∀ f, chunkLoop ext false 0 108 fuel f
      { reader := { input := { data := adtlOverrunStream, position := 12 } } } = .error .outOfFuel := by
    intro f
    cases f with
    | zero => rfl
    | succ f =>
      rw [chunkLoop, hchunk]
      have : ((12 : Nat) < 108 ∧ ¬ (InputStream.isExhausted { data := adtlOverrunStream, position := 12 }) = true) := by
        decide
      simp [InputStream.getPosition, this]
  simp only [create, doRead, h1, n1, if_false, if_true, h2, doReadWave, h3, Bool.false_eq_true,
    InputStream.getPosition, runChunkLoop]
  have e : (100 + 8) % 18446744073709551616 = 108 := by decide
  have hp : (memoryInput adtlOverrunStream).position = 0 := rfl
  rw [e, hp, hloop]

/-! ### The sink -/

namespace OutputStream

theorem overlay_overlay (d : List Nat) (p : Nat) (a b : List Nat) :
    overlay (overlay d p a) (p + a.length) b = overlay d p (a ++ b) := by
  have hX : (List.take p d ++ List.replicate (p - d.length) 0 ++ a).length = p + a.length := by
    simp only [List.length_append, List.length_take, List.length_replicate]
    omega
  unfold overlay
  rw [List.take_left' hX]
  have hlen : (List.take p d ++ List.replicate (p - d.length) 0 ++ a
      ++ List.drop (p + a.length) d).length ≥ p + a.length := by
    rw [List.length_append, hX]; omega
  have h0 : p + a.length - (List.take p d ++ List.replicate (p - d.length) 0 ++ a
      ++ List.drop (p + a.length) d).length = 0 := by omega
  rw [h0, List.replicate_zero, List.append_nil, ← List.drop_drop, List.drop_left' hX,
    List.drop_drop, List.length_append]
  simp only [List.append_assoc]
  rw [Nat.add_assoc]

@[simp] theorem put_capacity (out : OutputStream) (bs : List Nat) :
    (out.put bs).capacity = out.capacity := rfl

@[simp] theorem put_seekable (out : OutputStream) (bs : List Nat) :
    (out.put bs).seekable = out.seekable := rfl

@[simp] theorem put_position (out : OutputStream) (bs : List Nat) :
    (out.put bs).position = out.position + bs.length := rfl

theorem put_put (out : OutputStream) (a b : List Nat) : (out.put a).put b = out.put (a ++ b) := by
  simp only [put, overlay_overlay, List.length_append, Nat.add_assoc]

theorem write_eq_put (out : OutputStream) (bs : List Nat) (h : out.capacity = none) :
    out.write bs = (true, out.put bs) := by
  simp [write, put, h]

theorem writeInt_eq_put (out : OutputStream) (v : Nat) (h : out.capacity = none) :
    out.writeInt v = out.put (toLittleEndian 4 v) := by
  simp [writeInt, write_eq_put, h]

theorem writeShort_eq_put (out : OutputStream) (v : Nat) (h : out.capacity = none) :
    out.writeShort v = out.put (toLittleEndian 2 v) := by
  simp [writeShort, write_eq_put, h]

theorem writeInt64_eq_put (out : OutputStream) (v : Nat) (h : out.capacity = none) :
    out.writeInt64 v = out.put (toLittleEndian 8 v) := by
  simp [writeInt64, write_eq_put, h]

theorem writeRepeatedByte_eq_put (out : OutputStream) (n : Nat) (h : out.capacity = none) :
    out.writeRepeatedByte 0 n = out.put (List.replicate n 0) := by
  simp [writeRepeatedByte, write_eq_put, h]

end OutputStream

namespace WavAudioFormatWriter

open OutputStream

theorem writeChunkHeader_eq_put (out : OutputStream) (t s : Nat) (h : out.capacity = none) :
    writeChunkHeader out t s = out.put (toLittleEndian 4 t ++ toLittleEndian 4 s) := by
  simp [writeChunkHeader, writeInt_eq_put, h, put_put]

theorem writeChunk_eq_put (out : OutputStream) (pre data : List Nat) (t s : Nat)
    (h : out.capacity = none) :
    writeChunk (out.put pre) data t s = out.put (pre ++ chunkBytes data t s) := by
  unfold writeChunk chunkBytes
  split
  · simp [writeChunkHeader_eq_put, write_eq_put, h, put_put]
  · simp

theorem writeStoredChunks_eq_put (ext : Collaborators) (chunks : List MetadataChunk)
    (out : OutputStream) (pre : List Nat) (h : out.capacity = none) :
    writeStoredChunks ext chunks (out.put pre) = out.put (pre ++ storedChunksBytes ext chunks) := by
  induction chunks generalizing pre with
  | nil => simp [writeStoredChunks, storedChunksBytes]
  | cons c rest ih =>
    unfold writeStoredChunks storedChunksBytes
    split
    · rw [writeChunk_eq_put _ _ _ _ _ h, ih]; simp
    · rw [ih]; simp

theorem writeFraming_eq_put (out : OutputStream) (isRF64 isWaveFmtEx doNotPad : Bool)
    (riffSize : Int) (audioDataSize : Nat) (h : out.capacity = none) :
    writeFraming out isRF64 isWaveFmtEx doNotPad riffSize audioDataSize
      = out.put (framingBytes isRF64 isWaveFmtEx doNotPad riffSize audioDataSize) := by
  cases isRF64 <;> cases doNotPad <;>
    simp [writeFraming, framingBytes, writeChunkHeader_eq_put, writeInt_eq_put,
      writeInt64_eq_put, writeRepeatedByte_eq_put, h, put_put]

theorem writeFmt_eq_put (out : OutputStream) (isWaveFmtEx : Bool)
    (numChannels sampleRate bitsPerSample bytesPerFrame channelMask : Nat)
    (h : out.capacity = none) :
    writeFmt out isWaveFmtEx numChannels sampleRate bitsPerSample bytesPerFrame channelMask
      = out.put (fmtBytes isWaveFmtEx numChannels sampleRate bitsPerSample bytesPerFrame
          channelMask) := by
  cases isWaveFmtEx <;>
    simp [writeFmt, fmtBytes, writeChunkHeader_eq_put, writeInt_eq_put, writeShort_eq_put,
      write_eq_put, h, put_put]

/-- On a sink that accepts every write, `writeHeaderBody` stores `headerBytes` at the
position of the sink. -/
theorem writeHeaderBody_output (ext : Collaborators) (w : WavAudioFormatWriter)
    (out : OutputStream) (h : out.capacity = none) :
    (writeHeaderBody ext w out).output = out.put (headerBytes ext w) := by
  simp [writeHeaderBody, headerBytes, writeFraming_eq_put, writeFmt_eq_put,
    writeStoredChunks_eq_put, writeChunkHeader_eq_put, h, put_put]

end WavAudioFormatWriter

@[simp] theorem length_toLittleEndian (width v : Nat) : (toLittleEndian width v).length = width := by
  induction width generalizing v with
  | zero => rfl
  | succ n ih => simp [toLittleEndian, ih]

namespace WavAudioFormatWriter

open OutputStream

theorem length_chunkBytes (data : List Nat) (t s : Nat) :
    (chunkBytes data t s).length = chunkSize data := by
  unfold chunkBytes chunkSize
  split
  · simp; omega
  · simp

theorem length_storedChunksBytes (ext : Collaborators) (chunks : List MetadataChunk) :
    (storedChunksBytes ext chunks).length = storedChunksSize ext chunks := by
  induction chunks with
  | nil => rfl
  | cons c rest ih =>
    unfold storedChunksBytes
    simp only [storedChunksSize, List.map_cons, List.sum_cons, List.length_append] at ih ⊢
    rw [ih]
    split <;> simp [length_chunkBytes]

theorem length_framing_fmt (isRF64 ex : Bool) (riffSize : Int) (audioDataSize : Nat)
    (numChannels sampleRate bitsPerSample bytesPerFrame channelMask : Nat) :
    (framingBytes isRF64 (isRF64 || ex) false riffSize audioDataSize).length
      + (fmtBytes (isRF64 || ex) numChannels sampleRate bitsPerSample bytesPerFrame
          channelMask).length = 96 := by
  have h4' : (if bitsPerSample < 32 then pcmFormat else IEEEFloatFormat).data4.length = 8 := by
    split <;> rfl
  cases isRF64 <;> cases ex <;> simp [framingBytes, fmtBytes, h4']

/-- The length of the header `writeHeaderBody` writes when the padding chunk is
enabled. -/
theorem length_headerBytes (ext : Collaborators) (w : WavAudioFormatWriter)
    (hpad : w.doNotPadHeaderSize = false) :
    (headerBytes ext w).length
      = 104 + storedChunksSize ext (match w.chunkCollection with
          | some c => padStoredChunks ext c
          | none => []) := by
  simp only [headerBytes, hpad, List.length_append, length_storedChunksBytes, length_toLittleEndian]
  have := length_framing_fmt (decide (w.bytesWritten ≥ 4294967296))
    (decide (getChannelMaskFromChannelLayout w.channelLayout ≠ 0))
    (riffChunkSize ((w.numChannels * w.bitsPerSample % 4294967296 / 8 * w.lengthInSamples)
        % 18446744073709551616)
      (storedChunksSize ext (match w.chunkCollection with
          | some c => padStoredChunks ext c
          | none => [])))
    ((w.numChannels * w.bitsPerSample % 4294967296 / 8 * w.lengthInSamples) % 18446744073709551616)
    w.numChannels w.sampleRate w.bitsPerSample (w.numChannels * w.bitsPerSample % 4294967296 / 8)
    (getChannelMaskFromChannelLayout w.channelLayout)
  omega

theorem padStoredChunks_idem (ext : Collaborators) (chunks : List MetadataChunk) :
    padStoredChunks ext (padStoredChunks ext chunks) = padStoredChunks ext chunks := by
  unfold padStoredChunks
  rw [List.map_map]
  apply List.map_congr_left
  intro c _
  simp only [Function.comp]
  by_cases h : ext.isMetadataChunk c.name = true ∧ c.data.length % 2 = 1
  · have : ¬ ((c.data ++ [0]).length % 2 = 1) := by
      simp only [List.length_append, List.length_singleton]; omega
    have h2 : (c.data.length + 1) % 2 = 0 := by omega
    simp [h, h2]
  · simp [h]

end WavAudioFormatWriter

namespace WavAudioFormatWriter
open OutputStream

theorem length_overlay_ge (d : List Nat) (p : Nat) (bs : List Nat) :
    d.length ≤ (overlay d p bs).length := by
  simp only [overlay, List.length_append, List.length_take, List.length_replicate, List.length_drop]
  omega

/-- On a seekable sink that accepts every write, `writeHeader` runs `writeHeaderBody`
with the sink positioned at the header position. -/
theorem writeHeader_eq_body (ext : Collaborators) (w0 : WavAudioFormatWriter)
    (hc : w0.output.capacity = none) (hs : w0.output.seekable = true)
    (hp : w0.headerPosition ≤ w0.output.data.length) :
    (headerSink w0).capacity = none ∧ (headerSink w0).position = w0.headerPosition
      ∧ writeHeader ext w0 none = writeHeaderBody ext w0 (headerSink w0) := by
  unfold writeHeader headerSink
  simp only []
  have hw : w0.output.writeByte 0 = w0.output.put [0] := by
    simp [writeByte, write_eq_put, hc]
  rw [hw]
  have hc0 : (if w0.bytesWritten % 2 ≠ 0 then w0.output.put [0] else w0.output).capacity = none := by
    split
    · simp [hc]
    · exact hc
  have hs0 : (if w0.bytesWritten % 2 ≠ 0 then w0.output.put [0] else w0.output).seekable = true := by
    split
    · simp [hs]
    · exact hs
  have hl0 : w0.headerPosition
      ≤ (if w0.bytesWritten % 2 ≠ 0 then w0.output.put [0] else w0.output).data.length := by
    split
    · simp only [put]
      exact le_trans hp (length_overlay_ge _ _ _)
    · exact hp
  generalize (if w0.bytesWritten % 2 ≠ 0 then w0.output.put [0] else w0.output) = out0 at *
  refine ⟨hc0, by first | rfl | trivial, ?_⟩
  by_cases hne : w0.headerPosition ≠ out0.getPosition
  · have hsk : out0.setPosition (w0.headerPosition : Int)
        = (true, { out0 with position := w0.headerPosition }) := by
      simp [setPosition, hs0, hl0]
    rw [if_pos hne, hsk]
    simp
  · rw [if_neg hne]
    simp only [getPosition, ne_eq, not_not] at hne
    rw [hne]

/-- On such a sink `writeHeader` leaves the position just after the header. -/
theorem writeHeader_position (ext : Collaborators) (w : WavAudioFormatWriter)
    (hcap : w.output.capacity = none) (hseek : w.output.seekable = true)
    (hpos : w.headerPosition ≤ w.output.data.length) :
    (writeHeader ext w none).output.position = w.headerPosition + (headerBytes ext w).length := by
  obtain ⟨hc, hp, he⟩ := writeHeader_eq_body ext w hcap hseek hpos
  rw [he, writeHeaderBody_output _ _ _ hc]
  simp [hp]

end WavAudioFormatWriter

open WavAudioFormatWriter

/-- C4, counterexample: a writer opened with a chunk collection that holds one
metadata chunk with an empty body writes a header of 104 bytes, not of
`104 + (8 + 0)` bytes: `writeChunk` and `chunkSize` skip a chunk without data. -/
theorem C4_counterexample :
    ¬ ((WavAudioFormatWriter.create plainCollaborators memoryOutput 44100 AudioChannelSet.stereo 16 []
          (some [{ name := chunkName "bext", data := [] }]) false).output.position
        = 104 + (([{ name := chunkName "bext", data := [] }] : List MetadataChunk).map
            (fun c => 8 + c.data.length)).sum) := by
  decide!

/-- C4, as amended: with the padding chunk enabled, on a seekable sink that accepts
every write, `writeHeader` emits, from the header position on, 104 bytes plus
`chunkSize` of each stored metadata chunk (8 plus its body size after the padding to
an even length, nothing for an empty body), whatever the framing variant; and the
stored chunks it leaves give the same number again, so the header patched at
finalize covers the byte range of the header written at open. -/
theorem C4_fixed_header_size (ext : Collaborators) (w : WavAudioFormatWriter)
    (hcap : w.output.capacity = none) (hseek : w.output.seekable = true)
    (hpos : w.headerPosition ≤ w.output.data.length) (hpad : w.doNotPadHeaderSize = false) :
    (writeHeader ext w none).output.position
        = w.headerPosition + 104
          + storedChunksSize ext ((w.chunkCollection.map (padStoredChunks ext)).getD [])
    ∧ storedChunksSize ext
          ((((writeHeader ext w none).chunkCollection).map (padStoredChunks ext)).getD [])
        = storedChunksSize ext ((w.chunkCollection.map (padStoredChunks ext)).getD []) := by
  constructor
  · rw [writeHeader_position ext w hcap hseek hpos, length_headerBytes ext w hpad]
    cases h : w.chunkCollection <;> simp [Nat.add_assoc]
  · obtain ⟨_, _, he⟩ := writeHeader_eq_body ext w hcap hseek hpos
    have hcc : (writeHeader ext w none).chunkCollection
        = w.chunkCollection.map (padStoredChunks ext) := by
      rw [he]; rfl
    rw [hcc]
    cases h : w.chunkCollection <;> simp [padStoredChunks_idem]

/-- C4, witness: a writer with a stored three-byte `bext` chunk on a fresh memory
sink; the header takes `104 + (8 + 4)` bytes. -/
theorem C4_fixed_header_size_witness :
    (storedChunkWriter.output.capacity = none ∧ storedChunkWriter.output.seekable = true
      ∧ storedChunkWriter.headerPosition ≤ storedChunkWriter.output.data.length
      ∧ storedChunkWriter.doNotPadHeaderSize = false)
    ∧ (writeHeader plainCollaborators storedChunkWriter none).output.position
        = storedChunkWriter.headerPosition + 104
          + storedChunksSize plainCollaborators
              ((storedChunkWriter.chunkCollection.map (padStoredChunks plainCollaborators)).getD [])
    ∧ storedChunksSize plainCollaborators
          ((((writeHeader plainCollaborators storedChunkWriter none).chunkCollection).map
              (padStoredChunks plainCollaborators)).getD [])
        = storedChunksSize plainCollaborators
            ((storedChunkWriter.chunkCollection.map (padStoredChunks plainCollaborators)).getD []) :=
  ⟨⟨rfl, rfl, by decide, rfl⟩,
   C4_fixed_header_size plainCollaborators storedChunkWriter rfl rfl (by decide) rfl⟩

namespace WavAudioFormatWriter
open OutputStream

/-- On a sink that accepts every write, `writeHeaderBody` changes the writer in three
fields only. -/
theorem writeHeaderBody_eq (ext : Collaborators) (w : WavAudioFormatWriter) (out : OutputStream)
    (h : out.capacity = none) :
    writeHeaderBody ext w out
      = { w with output := out.put (headerBytes ext w),
                 chunkCollection := w.chunkCollection.map (padStoredChunks ext),
                 usesFloatingPointData := decide (w.bitsPerSample = 32) } := by
  have h1 := writeHeaderBody_output ext w out h
  have h2 : writeHeaderBody ext w out
      = { w with output := (writeHeaderBody ext w out).output,
                 chunkCollection := w.chunkCollection.map (padStoredChunks ext),
                 usesFloatingPointData := decide (w.bitsPerSample = 32) } := rfl
  rw [h2, h1]

theorem overlay_nil (bs : List Nat) : overlay [] 0 bs = bs := by
  simp [overlay]

theorem overlay_zero_of_length (d1 d2 bs : List Nat) (h : bs.length = d1.length) :
    overlay (d1 ++ d2) 0 bs = bs ++ d2 := by
  simp [overlay, h]

theorem isChannelLayoutSupported_canonical (k : Int) :
    WavAudioFormat.isChannelLayoutSupported (canonicalWavChannelSet k) = true := by
  unfold canonicalWavChannelSet
  repeat' split
  all_goals first | rfl | skip
  simp [WavAudioFormat.isChannelLayoutSupported, AudioChannelSet.isDiscreteLayout,
    AudioChannelSet.discreteChannels]

end WavAudioFormatWriter

namespace WaveAudioFormatTests
open OutputStream WavAudioFormatWriter

/-- The bytes of a file written in one `write` call without a chunk collection: the
header for the final counts, the interleaved audio, and a zero byte when the audio
has an odd number of bytes. -/
theorem writeFile_eq (ext : Collaborators) (sampleRate numChannels bitsPerSample : Nat)
    (metadataValues : StringPairArray) (data : List (List Int)) (numSamples : Nat)
    (hbits : bitsPerSample = 8 ∨ bitsPerSample = 16 ∨ bitsPerSample = 24 ∨ bitsPerSample = 32) :
    writeFile ext sampleRate numChannels bitsPerSample metadataValues data numSamples
      = some (headerBytes ext
          { output := memoryOutput, sampleRate := sampleRate,
            numChannels := (canonicalWavChannelSet (toInt32 numChannels)).length,
            bitsPerSample := bitsPerSample,
            channelLayout := canonicalWavChannelSet (toInt32 numChannels),
            lengthInSamples := numSamples,
            bytesWritten := (canonicalWavChannelSet (toInt32 numChannels)).length * numSamples
              * bitsPerSample / 8 }
        ++ (interleave bitsPerSample (canonicalWavChannelSet (toInt32 numChannels)).length data
              numSamples
            ++ (if ((canonicalWavChannelSet (toInt32 numChannels)).length * numSamples
                  * bitsPerSample / 8) % 2 ≠ 0 then [0] else []))) := by
  have hcontains : WavAudioFormat.getPossibleBitDepths.contains bitsPerSample = true := by
    rcases hbits with h | h | h | h <;> subst h <;> decide
  generalize hL : canonicalWavChannelSet (toInt32 numChannels) = layout
  have hsup : WavAudioFormat.isChannelLayoutSupported layout = true := by
    rw [← hL]; exact isChannelLayoutSupported_canonical _
  simp only [writeFile, WavAudioFormat.createWriterFor, WavAudioFormat.createWriterForLayout, hL,
    hcontains, hsup, and_self, if_true, Option.some.injEq]
  -- the writer after the constructor
  have hopen : WavAudioFormatWriter.create ext memoryOutput sampleRate layout bitsPerSample
      metadataValues none false
      = { output := memoryOutput.put (headerBytes ext
            { output := memoryOutput, sampleRate := sampleRate, numChannels := layout.length,
              bitsPerSample := bitsPerSample, channelLayout := layout }),
          sampleRate := sampleRate, numChannels := layout.length, bitsPerSample := bitsPerSample,
          channelLayout := layout, usesFloatingPointData := decide (bitsPerSample = 32) } := by
    unfold WavAudioFormatWriter.create
    have hb := (writeHeader_eq_body ext
      { output := memoryOutput, sampleRate := sampleRate, numChannels := layout.length,
        bitsPerSample := bitsPerSample, channelLayout := layout,
        headerPosition := memoryOutput.getPosition, chunkCollection := none,
        doNotPadHeaderSize := false } rfl rfl (Nat.zero_le _)).2.2
    rw [hb, writeHeaderBody_eq _ _ _ rfl]
    rfl
  rw [hopen]
  -- the writer after the write call
  have hwrite : (WavAudioFormatWriter.write ext
      { output := memoryOutput.put (headerBytes ext
            { output := memoryOutput, sampleRate := sampleRate, numChannels := layout.length,
              bitsPerSample := bitsPerSample, channelLayout := layout }),
        sampleRate := sampleRate, numChannels := layout.length, bitsPerSample := bitsPerSample,
        channelLayout := layout, usesFloatingPointData := decide (bitsPerSample = 32) }
      data numSamples).2
      = { output := memoryOutput.put (headerBytes ext
            { output := memoryOutput, sampleRate := sampleRate, numChannels := layout.length,
              bitsPerSample := bitsPerSample, channelLayout := layout }
            ++ interleave bitsPerSample layout.length data numSamples),
          sampleRate := sampleRate, numChannels := layout.length, bitsPerSample := bitsPerSample,
          channelLayout := layout, usesFloatingPointData := decide (bitsPerSample = 32),
          lengthInSamples := numSamples,
          bytesWritten := layout.length * numSamples * bitsPerSample / 8 } := by
    simp [WavAudioFormatWriter.write, hbits, write_eq_put, put_put, memoryOutput]
  rw [hwrite]
  -- the destructor
  unfold WavAudioFormatWriter.close
  have hb := (writeHeader_eq_body ext
      { output := memoryOutput.put (headerBytes ext
            { output := memoryOutput, sampleRate := sampleRate, numChannels := layout.length,
              bitsPerSample := bitsPerSample, channelLayout := layout }
            ++ interleave bitsPerSample layout.length data numSamples),
        sampleRate := sampleRate, numChannels := layout.length, bitsPerSample := bitsPerSample,
        channelLayout := layout, usesFloatingPointData := decide (bitsPerSample = 32),
        lengthInSamples := numSamples,
        bytesWritten := layout.length * numSamples * bitsPerSample / 8 } rfl rfl (Nat.zero_le _))
  rw [hb.2.2, writeHeaderBody_output _ _ _ hb.1]
  have hlen0 : (headerBytes ext
      { output := memoryOutput, sampleRate := sampleRate, numChannels := layout.length,
        bitsPerSample := bitsPerSample, channelLayout := layout }).length = 104 := by
    rw [length_headerBytes _ _ rfl]; rfl
  have hlen1 : (headerBytes ext
      { output := memoryOutput.put (headerBytes ext
            { output := memoryOutput, sampleRate := sampleRate, numChannels := layout.length,
              bitsPerSample := bitsPerSample, channelLayout := layout }
            ++ interleave bitsPerSample layout.length data numSamples),
        sampleRate := sampleRate, numChannels := layout.length, bitsPerSample := bitsPerSample,
        channelLayout := layout, usesFloatingPointData := decide (bitsPerSample = 32),
        lengthInSamples := numSamples,
        bytesWritten := layout.length * numSamples * bitsPerSample / 8 }).length = 104 := by
    rw [length_headerBytes _ _ rfl]; rfl
  have hH : headerBytes ext
      { output := memoryOutput.put (headerBytes ext
            { output := memoryOutput, sampleRate := sampleRate, numChannels := layout.length,
              bitsPerSample := bitsPerSample, channelLayout := layout }
            ++ interleave bitsPerSample layout.length data numSamples),
        sampleRate := sampleRate, numChannels := layout.length, bitsPerSample := bitsPerSample,
        channelLayout := layout, usesFloatingPointData := decide (bitsPerSample = 32),
        lengthInSamples := numSamples,
        bytesWritten := layout.length * numSamples * bitsPerSample / 8 }
      = headerBytes ext
          { output := memoryOutput, sampleRate := sampleRate, numChannels := layout.length,
            bitsPerSample := bitsPerSample, channelLayout := layout,
            lengthInSamples := numSamples,
            bytesWritten := layout.length * numSamples * bitsPerSample / 8 } := rfl
  rw [hH] at hlen1 ⊢
  generalize headerBytes ext
          { output := memoryOutput, sampleRate := sampleRate, numChannels := layout.length,
            bitsPerSample := bitsPerSample, channelLayout := layout,
            lengthInSamples := numSamples,
            bytesWritten := layout.length * numSamples * bitsPerSample / 8 } = H1 at hlen1 ⊢
  generalize headerBytes ext
      { output := memoryOutput, sampleRate := sampleRate, numChannels := layout.length,
        bitsPerSample := bitsPerSample, channelLayout := layout } = H0 at hlen0 ⊢
  generalize interleave bitsPerSample layout.length data numSamples = A
  simp only [headerSink, put, memoryOutput, overlay_nil]
  clear hopen hwrite hb hH
  have hend : ∀ X : List Nat, overlay X (0 + X.length) [0] = X ++ [0] := by
    intro X; simp [overlay]
  split
  · rw [hend]
    show overlay (H0 ++ A ++ [0]) 0 H1 = _
    rw [List.append_assoc, overlay_zero_of_length _ _ _ (hlen1.trans hlen0.symm)]
  · show overlay (H0 ++ A) 0 H1 = _
    rw [overlay_zero_of_length _ _ _ (hlen1.trans hlen0.symm)]
    simp

end WaveAudioFormatTests

/-- C1: in the scenario of the unit test (44100 Hz, 2 channels, 32 bits, the test's
metadata, 256 zero samples) the file that `createWriterFor`, `write` and the
destructor produce decodes to a reader whose `metadataValues` is empty, not equal to
the metadata given to the writer: `writeHeader` writes only the chunks of a chunk
collection, and this `createWriterFor` overload passes none. -/
theorem C1_round_trip_loses_metadata :
    (WaveAudioFormatTests.writeFile plainCollaborators 44100 2 32 WaveAudioFormatTests.metadataValues
        (WaveAudioFormatTests.silence 2 256) 256).map
      (fun file => (WavAudioFormat.createReaderFor plainCollaborators (memoryInput file) 8).map
        (Option.map (fun r => r.metadataValues)))
      = some (.ok (some []))
    ∧ WaveAudioFormatTests.metadataValues.size = 98
    ∧ WaveAudioFormatTests.metadataValues ≠ [] := by
  decide!

namespace WavAudioFormatReader

/-- A stream that starts with `RIFF`, a size field of 0 and `WAVE` decodes to the
fresh reader: the top-level end is offset 8, so the chunk loop is not entered. -/
theorem create_riff_size_zero (ext : Collaborators) (T : List Nat) (fuel : Nat) :
    WavAudioFormatReader.create ext
        (memoryInput ([82, 73, 70, 70, 0, 0, 0, 0, 87, 65, 86, 69] ++ T)) (fuel + 1)
      = .ok { input := { data := [82, 73, 70, 70, 0, 0, 0, 0, 87, 65, 86, 69] ++ T,
                         position := 12 } } := by
  have c1 : chunkName "RIFF" = 1179011410 := by decide
  have c2 : chunkName "RF64" = 875972178 := by decide
  have c3 : chunkName "WAVE" = 1163280727 := by decide
  simp [WavAudioFormatReader.create, WavAudioFormatReader.doRead, WavAudioFormatReader.doReadWave,
    WavAudioFormatReader.runChunkLoop, WavAudioFormatReader.chunkLoop,
    WavAudioFormatReader.finishMetadata, InputStream.readInt, InputStream.read,
    InputStream.getPosition, memoryInput, littleEndian, c1, c2, c3, StringPairArray.size]

/-- Such a stream is rejected by `createReaderFor`. -/
theorem createReaderFor_riff_size_zero (ext : Collaborators) (T : List Nat) (fuel : Nat) :
    WavAudioFormat.createReaderFor ext
        (memoryInput ([82, 73, 70, 70, 0, 0, 0, 0, 87, 65, 86, 69] ++ T)) (fuel + 1)
      = .ok none := by
  rw [WavAudioFormat.createReaderFor, create_riff_size_zero]
  rfl

end WavAudioFormatReader

namespace WaveAudioFormatTests

/-- The file of `2^32 - 96` zero samples, 8 bits, mono, starts with `RIFF`, a size
field of 0 and `WAVE`: `riffChunkSize` is `2^32` and `(int) riffChunkSize` is 0. -/
theorem writeFile_nearLimit :
    ∃ T, writeFile plainCollaborators 44100 1 8 [] (silence 1 4294967200) 4294967200
      = some ([82, 73, 70, 70, 0, 0, 0, 0, 87, 65, 86, 69] ++ T) := by
  have hfile := writeFile_eq plainCollaborators 44100 1 8 [] (silence 1 4294967200) 4294967200
    (Or.inl rfl)
  have htake : (WavAudioFormatWriter.headerBytes plainCollaborators
      { output := memoryOutput, sampleRate := 44100,
        numChannels := (canonicalWavChannelSet (toInt32 1)).length,
        bitsPerSample := 8,
        channelLayout := canonicalWavChannelSet (toInt32 1),
        lengthInSamples := 4294967200,
        bytesWritten := (canonicalWavChannelSet (toInt32 1)).length * 4294967200 * 8 / 8 }).take 12
      = [82, 73, 70, 70, 0, 0, 0, 0, 87, 65, 86, 69] := by decide!
  rw [← List.take_append_drop 12 (WavAudioFormatWriter.headerBytes plainCollaborators _), htake,
    List.append_assoc] at hfile
  exact ⟨_, hfile⟩

end WaveAudioFormatTests

open WaveAudioFormatTests

/-- C2: for 8 bits, one channel, 44100 Hz and `n = 2^32 - 96` samples (so
`n*c*b/8 < 2^32`) the finalized file does not decode to the written geometry: the
32-bit size after `RIFF` wraps to 0, the reader enters no chunk, and
`createReaderFor` returns no reader. -/
theorem C2_geometry_lost_below_4GiB :
    (writeFile plainCollaborators 44100 1 8 [] (silence 1 4294967200) 4294967200).map
      (fun file => WavAudioFormat.createReaderFor plainCollaborators (memoryInput file) 8)
      = some (.ok none) := by
  obtain ⟨T, hT⟩ := writeFile_nearLimit
  rw [hT, Option.map_some', WavAudioFormatReader.createReaderFor_riff_size_zero]

/-- C3: `2^32 - 96` audio bytes (fewer than `2^32`) are finalized with classic `RIFF`
framing, as the claim says, but the reader does not recover the sample count: the
size field after `RIFF` is `(int) riffChunkSize = 0`, and the decoded
`lengthInSamples` is 0 instead of `2^32 - 96`. -/
theorem C3_riff_sample_count_lost :
    (writeFile plainCollaborators 44100 1 8 [] (silence 1 4294967200) 4294967200).map
        (fun file => file.take 12)
      = some (tagBytes "RIFF" ++ toLittleEndian 4 0 ++ tagBytes "WAVE")
    ∧ (writeFile plainCollaborators 44100 1 8 [] (silence 1 4294967200) 4294967200).map
        (fun file => (WavAudioFormatReader.create plainCollaborators (memoryInput file) 8).map
          (fun r => r.lengthInSamples))
      = some (.ok 0) := by
  obtain ⟨T, hT⟩ := writeFile_nearLimit
  rw [hT, Option.map_some', Option.map_some',
    WavAudioFormatReader.create_riff_size_zero plainCollaborators T 7]
  exact ⟨rfl, rfl⟩

/-! ### Two runs of the reader on aligned streams -/

section
open WavFileHelpers

namespace InputStream

variable {δ q : Nat} {s1 s2 : InputStream}

theorem Shifted.drop_eq (h : Shifted δ q s1 s2) :
    s1.data.drop s1.position = s2.data.drop s2.position := by
  have hq := h.aligned.2.2
  have : s1.position = q + (s1.position - q) := by have := h.base_le; omega
  rw [h.position_eq, this, ← List.drop_drop, hq, List.drop_drop]
  congr 1
  omega

theorem Shifted.length_eq (h : Shifted δ q s1 s2) : s2.data.length = s1.data.length + δ := by
  have h1 := congrArg List.length h.aligned.2.2
  simp only [List.length_drop] at h1
  have := h.aligned.1
  have := h.aligned.2.1
  omega

theorem Shifted.read (h : Shifted δ q s1 s2) (n : Int) :
    (s2.read n).1 = (s1.read n).1 ∧ Shifted δ q (s1.read n).2 (s2.read n).2 := by
  have hd := h.drop_eq
  have hb : (s2.read n).1 = (s1.read n).1 := by simp only [InputStream.read, hd]
  refine ⟨hb, ?_⟩
  have hlen : ((s1.read n).1).length ≤ s1.data.length - s1.position := by
    simp only [InputStream.read, List.length_map, List.length_take, List.length_drop]
    omega
  constructor
  · exact h.aligned
  · show q ≤ s1.position + _
    have := h.base_le
    omega
  · show s1.position + ((s1.read n).1).length ≤ s1.data.length
    have := h.le_length
    omega
  · show s2.position + ((s2.read n).1).length = s1.position + ((s1.read n).1).length + δ
    rw [hb, h.position_eq]
    omega

theorem Shifted.readInt (h : Shifted δ q s1 s2) :
    (s2.readInt).1 = (s1.readInt).1 ∧ Shifted δ q (s1.readInt).2 (s2.readInt).2 := by
  have := h.read 4
  simp only [InputStream.readInt, this.1]
  exact ⟨trivial, this.2⟩

theorem Shifted.readShort (h : Shifted δ q s1 s2) :
    (s2.readShort).1 = (s1.readShort).1 ∧ Shifted δ q (s1.readShort).2 (s2.readShort).2 := by
  have := h.read 2
  simp only [InputStream.readShort, this.1]
  exact ⟨trivial, this.2⟩

theorem Shifted.readInt64 (h : Shifted δ q s1 s2) :
    (s2.readInt64).1 = (s1.readInt64).1 ∧ Shifted δ q (s1.readInt64).2 (s2.readInt64).2 := by
  have := h.read 8
  simp only [InputStream.readInt64, this.1]
  exact ⟨trivial, this.2⟩

theorem Shifted.skipNextBytes (h : Shifted δ q s1 s2) (n : Int) :
    Shifted δ q (s1.skipNextBytes n) (s2.skipNextBytes n) :=
  (h.read n).2

theorem read_all (s : InputStream) (m : Nat) (hm : s.data.length - s.position ≤ m) :
    s.read (m : Int) = s.read ((s.data.length - s.position : Nat) : Int) := by
  simp only [InputStream.read, Int.toNat_ofNat]
  rw [List.take_of_length_le (by simpa using hm), List.take_of_length_le (by simp)]

theorem Shifted.readIntoMemoryBlock (h : Shifted δ q s1 s2) (n : Int) :
    (s2.readIntoMemoryBlock n).1 = (s1.readIntoMemoryBlock n).1
      ∧ Shifted δ q (s1.readIntoMemoryBlock n).2 (s2.readIntoMemoryBlock n).2 := by
  unfold InputStream.readIntoMemoryBlock
  split
  · have e1 := read_all s1 s1.data.length (by omega)
    have e2 := read_all s2 s2.data.length (by omega)
    have hl := h.length_eq
    have hp := h.position_eq
    have : s2.data.length - s2.position = s1.data.length - s1.position := by omega
    rw [e1, e2, this]
    exact h.read _
  · exact h.read n

theorem Shifted.setPosition (h : Shifted δ q s1 s2) (p : Nat) (hp : q ≤ p) :
    Shifted δ q (s1.setPosition (p : Int)) (s2.setPosition ((p + δ : Nat) : Int)) := by
  have hl := h.length_eq
  have hq := h.aligned.1
  constructor
  · exact h.aligned
  · show q ≤ min (Int.toNat (p : Int)) s1.data.length
    simp only [Int.toNat_ofNat]
    omega
  · show min (Int.toNat (p : Int)) s1.data.length ≤ s1.data.length
    omega
  · show min (Int.toNat ((p + δ : Nat) : Int)) s2.data.length
        = min (Int.toNat (p : Int)) s1.data.length + δ
    simp only [Int.toNat_ofNat]
    omega

theorem Shifted.isExhausted (h : Shifted δ q s1 s2) : s2.isExhausted = s1.isExhausted := by
  have hl := h.length_eq
  have hp := h.position_eq
  simp only [InputStream.isExhausted, hl, hp]
  congr 1
  apply propext
  omega

theorem setPosition_self (s : InputStream) (h : s.position ≤ s.data.length) (t : InputStream)
    (ht : t.data = s.data) : t.setPosition (s.position : Int) = s := by
  cases s; cases t
  simp only [InputStream.setPosition, Int.toNat_ofNat] at *
  subst ht
  simp [h]

theorem read_data (s : InputStream) (n : Int) : (s.read n).2.data = s.data := rfl

theorem readIntoMemoryBlock_data (s : InputStream) (n : Int) :
    (s.readIntoMemoryBlock n).2.data = s.data := by
  unfold InputStream.readIntoMemoryBlock
  split <;> rfl

end InputStream

end

section
open WavFileHelpers

theorem MetadataRelation.setAll {MR : StringPairArray → StringPairArray → Prop}
    (hMR : MetadataRelation MR) (es : List (String × String)) :
    ∀ m1 m2, MR m1 m2 → MR (m1.setAll es) (m2.setAll es) := by
  induction es with
  | nil => intro m1 m2 h; exact h
  | cons e rest ih =>
    intro m1 m2 h
    exact ih _ _ (hMR.set _ _ e.1 e.2 h)

namespace WavAudioFormatReader

variable {MR : StringPairArray → StringPairArray → Prop} {δ q : Nat}
  {r1 r2 : WavAudioFormatReader}

/-- The second of two agreeing readers, written out from the first. -/
theorem Agree.exists_eq (hA : r1.Agree MR δ r2) :
    ∃ i2 m2 b2 d2, r2 = { r1 with input := i2, metadataValues := m2, bwavChunkStart := b2,
                                  dataChunkStart := d2 }
      ∧ MR r1.metadataValues m2 ∧ (b2 = r1.bwavChunkStart ∨ b2 = r1.bwavChunkStart + δ)
      ∧ (d2 = r1.dataChunkStart ∨ d2 = r1.dataChunkStart + δ) :=
  ⟨_, _, _, _, hA.same, hA.metadataValues, hA.bwavChunkStart, hA.dataChunkStart⟩

theorem readChunkHeader_agree (storeChunks : Bool) (hA : r1.Agree MR δ r2)
    (hS : r1.input.Shifted δ q r2.input) :
    (readChunkHeader storeChunks r2).chunkType = (readChunkHeader storeChunks r1).chunkType
    ∧ (readChunkHeader storeChunks r2).length = (readChunkHeader storeChunks r1).length
    ∧ (readChunkHeader storeChunks r2).chunkEnd = (readChunkHeader storeChunks r1).chunkEnd + δ
    ∧ (readChunkHeader storeChunks r1).reader.Agree MR δ (readChunkHeader storeChunks r2).reader
    ∧ (readChunkHeader storeChunks r1).reader.input.Shifted δ q
        (readChunkHeader storeChunks r2).reader.input
    ∧ q ≤ (readChunkHeader storeChunks r1).chunkEnd
    ∧ (readChunkHeader storeChunks r1).reader.input.position
        ≤ (readChunkHeader storeChunks r1).chunkEnd := by
  obtain ⟨i2, m2, b2, d2, rfl, hm, hb, hd⟩ := hA.exists_eq
  replace hS : r1.input.Shifted δ q i2 := hS
  have t := hS.readInt
  have l := t.2.readInt
  have hpos := l.2.position_eq
  have hbase := l.2.base_le
  have b := l.2.readIntoMemoryBlock ((r1.input.readInt.2.readInt).1 : Int)
  have e1 := InputStream.setPosition_self (r1.input.readInt.2.readInt).2 l.2.le_length
    ((r1.input.readInt.2.readInt).2.readIntoMemoryBlock ((r1.input.readInt.2.readInt).1 : Int)).2
    (InputStream.readIntoMemoryBlock_data _ _)
  have hle2 : (i2.readInt.2.readInt).2.position ≤ (i2.readInt.2.readInt).2.data.length := by
    have := l.2.length_eq
    have := l.2.le_length
    omega
  have e2 := InputStream.setPosition_self (i2.readInt.2.readInt).2 hle2
    ((i2.readInt.2.readInt).2.readIntoMemoryBlock ((r1.input.readInt.2.readInt).1 : Int)).2
    (InputStream.readIntoMemoryBlock_data _ _)
  simp only [readChunkHeader, InputStream.getPosition, t.1, l.1, e1, e2, b.1]
  refine ⟨trivial, trivial, by omega, ?_, ?_, by omega, ?_⟩
  · split
    · exact ⟨rfl, hm, hb, hd⟩
    · exact ⟨rfl, hm, hb, hd⟩
  · split
    · exact l.2
    · exact l.2
  · split
    · show (r1.input.readInt.2.readInt).2.position ≤ _
      omega
    · show (r1.input.readInt.2.readInt).2.position ≤ _
      omega

end WavAudioFormatReader

end

section
open WavFileHelpers

/-- A relation holds between two conditionals on the same condition when it holds
between their branches. -/
theorem ite_agree {α β : Type} (R : α → β → Prop) (c : Prop) [Decidable c] {a1 b1 : α}
    {a2 b2 : β} (ht : c → R a1 a2) (he : ¬ c → R b1 b2) :
    R (if c then a1 else b1) (if c then a2 else b2) := by
  by_cases h : c
  · simpa [h] using ht h
  · simpa [h] using he h

namespace WavAudioFormatReader

variable {MR : StringPairArray → StringPairArray → Prop} {δ q : Nat}
  {r1 r2 : WavAudioFormatReader}

theorem readFmtGeometry_agree (hA : r1.Agree MR δ r2) (hS : r1.input.Shifted δ q r2.input) :
    ExceptAgree (fun g1 g2 => g2.1 = g1.1 ∧ g1.2.Agree MR δ g2.2 ∧ g1.2.input.Shifted δ q g2.2.input)
      (readFmtGeometry r1) (readFmtGeometry r2) := by
  obtain ⟨i2, m2, b2, d2, rfl, hm, hb, hd⟩ := hA.exists_eq
  replace hS : r1.input.Shifted δ q i2 := hS
  have f := hS.readShort
  have c := f.2.readShort
  have sr := c.2.readInt
  have bps := sr.2.readInt
  have sk := bps.2.skipNextBytes 2
  have b := sk.readShort
  simp only [readFmtGeometry, f.1, c.1, sr.1, bps.1, b.1]
  refine ite_agree (ExceptAgree _) _ (fun _ => ?_) (fun _ => ?_)
  · refine ite_agree (ExceptAgree _) _ (fun _ => .error _) (fun _ => ?_)
    refine ite_agree (ExceptAgree _) _ (fun _ => .error _) (fun _ => ?_)
    refine ite_agree (ExceptAgree _) _ (fun _ => .error _) (fun _ => ?_)
    exact .ok ⟨rfl, ⟨by dsimp only, hm, hb, hd⟩, b.2⟩
  · exact .ok ⟨rfl, ⟨by dsimp only, hm, hb, hd⟩, b.2⟩

theorem readSubFormat_agree {s1 s2 : InputStream} (hS : s1.Shifted δ q s2) :
    (readSubFormat s2).1 = (readSubFormat s1).1
      ∧ (readSubFormat s1).2.Shifted δ q (readSubFormat s2).2 := by
  have d1 := hS.readInt
  have d2 := d1.2.readShort
  have d3 := d2.2.readShort
  have d4 := d3.2.read 8
  simp only [readSubFormat, d1.1, d2.1, d3.1, d4.1]
  exact ⟨trivial, d4.2⟩

theorem fmtFormat_agree (hMR : MetadataRelation MR) (hA : r1.Agree MR δ r2)
    (hS : r1.input.Shifted δ q r2.input) (format length ssp1 ssp2 : Nat) :
    (fmtFormat r2 format length ssp2).2 = (fmtFormat r1 format length ssp1).2
    ∧ (fmtFormat r1 format length ssp1).1.Agree MR δ (fmtFormat r2 format length ssp2).1
    ∧ ((fmtFormat r1 format length ssp1).2 = false →
        (fmtFormat r1 format length ssp1).1.input.Shifted δ q
          (fmtFormat r2 format length ssp2).1.input) := by
  let R : WavAudioFormatReader × Bool → WavAudioFormatReader × Bool → Prop := fun d1 d2 =>
    d2.2 = d1.2 ∧ d1.1.Agree MR δ d2.1 ∧ (d1.2 = false → d1.1.input.Shifted δ q d2.1.input)
  show R _ _
  obtain ⟨i2, m2, b2, d2, rfl, hm, hb, hd⟩ := hA.exists_eq
  replace hS : r1.input.Shifted δ q i2 := hS
  have sk := hS.skipNextBytes 4
  have m := sk.readInt
  have g := readSubFormat_agree m.2
  have hm' := hMR.setAll [("ChannelMask", toString (toInt32 ((r1.input.skipNextBytes 4).readInt).1))]
    _ _ hm
  simp only [fmtFormat, m.1, g.1]
  refine ite_agree R _ (fun _ => ⟨rfl, ⟨by dsimp only, hm, hb, hd⟩, fun _ => hS⟩) (fun _ => ?_)
  refine ite_agree R _ (fun _ => ?_) (fun _ => ?_)
  · refine ite_agree R _ (fun _ => ⟨rfl, ⟨by dsimp only, hm, hb, hd⟩, fun _ => hS⟩) (fun _ => ?_)
    refine ite_agree R _ (fun _ => ⟨rfl, ⟨by dsimp only, hm', hb, hd⟩, fun _ => g.2⟩) (fun _ => ?_)
    exact ite_agree R _ (fun _ => ⟨rfl, ⟨by dsimp only, hm', hb, hd⟩, fun _ => g.2⟩)
      (fun _ => ⟨rfl, ⟨by dsimp only, hm', hb, hd⟩, fun _ => g.2⟩)
  · refine ite_agree R _ (fun _ => ⟨rfl, ⟨by dsimp only, hm, hb, hd⟩, fun h => by cases h⟩) (fun _ => ?_)
    exact ite_agree R _ (fun _ => ⟨rfl, ⟨by dsimp only, hm, hb, hd⟩, fun _ => hS⟩)
      (fun _ => ⟨rfl, ⟨by dsimp only, hm, hb, hd⟩, fun _ => hS⟩)

theorem dataChunk_agree (hA : r1.Agree MR δ r2) (hS : r1.input.Shifted δ q r2.input)
    (length : Nat) :
    (dataChunk r1 length).Agree MR δ (dataChunk r2 length)
    ∧ (dataChunk r1 length).input.Shifted δ q (dataChunk r2 length).input := by
  obtain ⟨i2, m2, b2, d2, rfl, hm, hb, hd⟩ := hA.exists_eq
  replace hS : r1.input.Shifted δ q i2 := hS
  exact ⟨⟨by unfold dataChunk; dsimp only, hm, hb, Or.inr hS.position_eq⟩, hS⟩

theorem metadataChunk_agree (ext : Collaborators) (storeChunks : Bool)
    (hMR : MetadataRelation MR) {h1 h2 : ChunkHeader}
    (hA : h1.reader.Agree MR δ h2.reader) (hS : h1.reader.input.Shifted δ q h2.reader.input)
    (ht : h2.chunkType = h1.chunkType) (hl : h2.length = h1.length) :
    OptionAgree (fun x1 x2 => x1.Agree MR δ x2 ∧ x1.input.Shifted δ q x2.input)
      (metadataChunk ext storeChunks h1) (metadataChunk ext storeChunks h2) := by
  obtain ⟨t1, l1, e1, r1⟩ := h1
  obtain ⟨t2, l2, e2, r2⟩ := h2
  simp only at ht hl hA hS
  subst ht hl
  obtain ⟨i2, m2, b2, d2, rfl, hm, hb, hd⟩ := hA.exists_eq
  replace hS : r1.input.Shifted δ q i2 := hS
  have bk := hS.read (toInt32 l2)
  have ba := hS.read ((min 24 l2 : Nat) : Int)
  have bm := hS.readIntoMemoryBlock (l2 : Int)
  simp only [metadataChunk, readBlock, bm.1, bk.1, ba.1, InputStream.getPosition,
    BWAVChunk.copyTo, SMPLChunk.copyTo, InstChunk.copyTo, CueChunk.copyTo,
    AcidChunk.addToMetadata, AXMLChunk.addToMetadata]
  refine ite_agree (OptionAgree _) _ (fun _ => ?_) (fun _ => ?_)
  · exact ite_agree (OptionAgree _) _ (fun _ => .some ⟨⟨by dsimp only, hm, hb, hd⟩, bm.2⟩)
      (fun _ => .some ⟨⟨by dsimp only, hm, hb, hd⟩, hS⟩)
  refine ite_agree (OptionAgree _) _ (fun _ => ?_) (fun _ => ?_)
  · exact ite_agree (OptionAgree _) _ (fun _ => .some ⟨⟨by dsimp only, hMR.setAll _ _ _ hm, hb, hd⟩, bm.2⟩)
      (fun _ => .some ⟨⟨by dsimp only, hm, hb, hd⟩, bm.2⟩)
  refine ite_agree (OptionAgree _) _ (fun _ => ?_) (fun _ => ?_)
  · refine .some ⟨⟨?_, ?_, Or.inr hS.position_eq, hd⟩, bk.2⟩
    · dsimp only
    · dsimp only
      exact hMR.setAll _ _ _ hm
  refine ite_agree (OptionAgree _) _ (fun _ => ?_) (fun _ => ?_)
  · refine .some ⟨⟨?_, ?_, hb, hd⟩, bk.2⟩
    · dsimp only
    · dsimp only
      exact hMR.setAll _ _ _ hm
  refine ite_agree (OptionAgree _) _ (fun _ => ?_) (fun _ => ?_)
  · refine .some ⟨⟨?_, ?_, hb, hd⟩, bk.2⟩
    · dsimp only
    · dsimp only
      exact hMR.setAll _ _ _ hm
  refine ite_agree (OptionAgree _) _ (fun _ => ?_) (fun _ => ?_)
  · refine .some ⟨⟨?_, ?_, hb, hd⟩, bk.2⟩
    · dsimp only
    · dsimp only
      exact hMR.setAll _ _ _ hm
  refine ite_agree (OptionAgree _) _ (fun _ => ?_) (fun _ => ?_)
  · refine .some ⟨⟨?_, ?_, hb, hd⟩, bm.2⟩
    · dsimp only
    · dsimp only
      exact hMR.setAll _ _ _ hm
  refine ite_agree (OptionAgree _) _ (fun _ => ?_) (fun _ => ?_)
  · refine .some ⟨⟨?_, ?_, hb, hd⟩, ba.2⟩
    · dsimp only
    · dsimp only
      exact hMR.setAll _ _ _ hm
  refine ite_agree (OptionAgree _) _ (fun _ => ?_) (fun _ => ?_)
  · refine .some ⟨⟨?_, ?_, hb, hd⟩, bm.2⟩
    · dsimp only
    · dsimp only
      exact hMR.setAll _ _ _ hm
  exact .none

end WavAudioFormatReader

end

section
open WavFileHelpers

namespace InputStream

variable {δ q : Nat} {s1 s2 : InputStream}

/-- Seeking both streams to offsets that are `δ` apart keeps them aligned. -/
theorem Shifted.setPosition_of_eq (h : Shifted δ q s1 s2) (p p2 : Nat) (hp : q ≤ p)
    (h2 : p2 = p + δ) : Shifted δ q (s1.setPosition (p : Int)) (s2.setPosition (p2 : Int)) := by
  subst h2
  exact h.setPosition p hp

end InputStream

variable {MR : StringPairArray → StringPairArray → Prop} {δ q : Nat}

theorem ListInfoChunk.addToMetadata_agree (hMR : MetadataRelation MR) (ce : Int) :
    ∀ (fuel : Nat) (v1 v2 : StringPairArray) (s1 s2 : InputStream), MR v1 v2 → s1.Shifted δ q s2 →
      ExceptAgree (fun x1 x2 => MR x1.1 x2.1 ∧ x1.2.Shifted δ q x2.2)
        (ListInfoChunk.addToMetadata ce fuel v1 s1)
        (ListInfoChunk.addToMetadata (ce + δ) fuel v2 s2) := by
  intro fuel
  induction fuel with
  | zero => intro v1 v2 s1 s2 _ _; exact .error ()
  | succ fuel ih =>
    intro v1 v2 s1 s2 hv hS
    have r := hS.readInt
    have r' := r.2.readInt
    have hp := hS.position_eq
    have hp1 := r.2.position_eq
    have c1 : ((s2.getPosition : Int) < ce + δ) ↔ ((s1.getPosition : Int) < ce) := by
      simp only [InputStream.getPosition, hp]
      push_cast
      omega
    have c2 : ce + (δ : Int) - (s2.readInt.2.getPosition : Int)
        = ce - (s1.readInt.2.getPosition : Int) := by
      simp only [InputStream.getPosition, hp1]
      push_cast
      omega
    simp only [ListInfoChunk.addToMetadata, c1, c2, r.1, r'.1]
    refine ite_agree (ExceptAgree _) _ (fun _ => ?_) (fun _ => .ok ⟨hv, hS⟩)
    refine ite_agree (ExceptAgree _) _ (fun _ => ?_) (fun _ => ih _ _ _ _ hv r.2)
    refine ite_agree (ExceptAgree _) _ (fun _ => .ok ⟨hv, r'.2⟩) (fun _ => ?_)
    generalize List.find? _ ListInfoChunk.types = o
    cases o with
    | none => exact ih _ _ _ _ hv r'.2
    | some t =>
      have b := r'.2.readIntoMemoryBlock
        (min (ce - (s1.readInt.2.getPosition : Int)) (toInt32 s1.readInt.2.readInt.1))
      dsimp only
      rw [b.1]
      exact ih _ _ _ _ (hMR.setAll _ _ _ hv) b.2

theorem ChunkLoopState.Agree.exists_state_eq {st1 st2 : ChunkLoopState} (hA : st1.Agree MR δ st2) :
    ∃ i2 m2 b2 d2,
      st2 = { st1 with reader := { st1.reader with input := i2, metadataValues := m2,
                                                   bwavChunkStart := b2, dataChunkStart := d2 } }
      ∧ MR st1.reader.metadataValues m2
      ∧ (b2 = st1.reader.bwavChunkStart ∨ b2 = st1.reader.bwavChunkStart + δ)
      ∧ (d2 = st1.reader.dataChunkStart ∨ d2 = st1.reader.dataChunkStart + δ) := by
  obtain ⟨i2, m2, b2, d2, h, hm, hb, hd⟩ := hA.reader.exists_eq
  refine ⟨i2, m2, b2, d2, ?_, hm, hb, hd⟩
  rw [← h]
  exact hA.same

namespace WavAudioFormatReader

theorem adtlSubChunk_agree (hMR : MetadataRelation MR) {st1 st2 : ChunkLoopState}
    (hA : st1.Agree MR δ st2) (hS : st1.reader.input.Shifted δ q st2.reader.input) :
    (adtlSubChunk st1).Agree MR δ (adtlSubChunk st2)
    ∧ (adtlSubChunk st1).reader.input.Shifted δ q (adtlSubChunk st2).reader.input := by
  obtain ⟨i2, m2, b2, d2, rfl, hm, hb, hd⟩ := hA.exists_state_eq
  replace hS : st1.reader.input.Shifted δ q i2 := hS
  have t := hS.readInt
  have l := t.2.readInt
  have id := l.2.readInt
  have tb := id.2.readIntoMemoryBlock
    (toInt32 (toUInt32 (toInt32 (st1.reader.input.readInt.2.readInt).1 - 4)))
  have sl := id.2.readInt
  have pu := sl.2.readInt
  have co := pu.2.readShort
  have la := co.2.readShort
  have di := la.2.readShort
  have cp := di.2.readShort
  have tb2 := cp.2.readIntoMemoryBlock
    (toInt32 (toUInt32 (((st1.reader.input.readInt.2.readInt).1 : Int) - 20)))
  have hpos := l.2.position_eq
  have hbase := l.2.base_le
  unfold adtlSubChunk
  simp only [t.1, l.1, id.1, tb.1, sl.1, pu.1, co.1, la.1, di.1, cp.1, tb2.1,
    InputStream.getPosition]
  by_cases h1 : (st1.reader.input.readInt).1 = chunkName "labl"
      ∨ (st1.reader.input.readInt).1 = chunkName "note"
  · simp only [if_pos h1]
    refine ⟨⟨⟨?_, ?_, hb, hd⟩, ?_⟩, ?_⟩
    · dsimp only
    · dsimp only
      exact hMR.setAll _ _ _ hm
    · dsimp only
    · dsimp only
      exact tb.2.setPosition_of_eq _ _ (by omega) (by omega)
  · simp only [if_neg h1]
    by_cases h2 : (st1.reader.input.readInt).1 = chunkName "ltxt"
    · simp only [if_pos h2]
      refine ⟨⟨⟨?_, ?_, hb, hd⟩, ?_⟩, ?_⟩
      · dsimp only
      · dsimp only
        exact hMR.setAll _ _ _ hm
      · dsimp only
      · dsimp only
        exact tb2.2.setPosition_of_eq _ _ (by omega) (by omega)
    · simp only [if_neg h2]
      refine ⟨⟨⟨?_, hm, hb, hd⟩, ?_⟩, ?_⟩
      · dsimp only
      · dsimp only
      · dsimp only
        exact l.2.setPosition_of_eq _ _ (by omega) (by omega)

theorem adtlLoop_agree (hMR : MetadataRelation MR) (chunkEnd : Nat) :
    ∀ (fuel : Nat) (st1 st2 : ChunkLoopState), st1.Agree MR δ st2 →
      st1.reader.input.Shifted δ q st2.reader.input →
      ExceptAgree (fun x1 x2 : ChunkLoopState =>
          x1.Agree MR δ x2 ∧ x1.reader.input.Shifted δ q x2.reader.input)
        (adtlLoop chunkEnd fuel st1) (adtlLoop (chunkEnd + δ) fuel st2) := by
  intro fuel
  induction fuel with
  | zero => intro st1 st2 _ _; exact .error _
  | succ fuel ih =>
    intro st1 st2 hA hS
    have hp := hS.position_eq
    have c : (st2.reader.input.getPosition < chunkEnd + δ)
        ↔ (st1.reader.input.getPosition < chunkEnd) := by
      simp only [InputStream.getPosition, hp]
      omega
    have n := adtlSubChunk_agree hMR hA hS
    simp only [adtlLoop, c]
    exact ite_agree (ExceptAgree _) _ (fun _ => ih _ _ n.1 n.2) (fun _ => .ok ⟨hA, hS⟩)

end WavAudioFormatReader

end

section
open WavFileHelpers

namespace WavAudioFormatReader

variable {MR : StringPairArray → StringPairArray → Prop} {δ q : Nat}

theorem seekToChunkEnd_agree {st1 st2 : ChunkLoopState} {r1 r2 : WavAudioFormatReader}
    (hst : st1.Agree MR δ st2) (hA : r1.Agree MR δ r2) (hS : r1.input.Shifted δ q r2.input)
    (chunkEnd : Nat) (hq : q ≤ chunkEnd) :
    Flow.Agree MR δ q (seekToChunkEnd st1 r1 chunkEnd) (seekToChunkEnd st2 r2 (chunkEnd + δ)) := by
  obtain ⟨j2, n2, c2, e2, rfl, -, -, -⟩ := hst.exists_state_eq
  obtain ⟨i2, m2, b2, d2, rfl, hm, hb, hd⟩ := hA.exists_eq
  replace hS : r1.input.Shifted δ q i2 := hS
  unfold seekToChunkEnd
  refine .next ⟨⟨?_, hm, hb, hd⟩, ?_⟩ ?_
  · dsimp only
  · dsimp only
  · dsimp only
    exact hS.setPosition_of_eq _ _ hq rfl

/-- Replacing the readers of two agreeing states by agreeing readers. -/
theorem Agree.withReader {st1 st2 : ChunkLoopState} {r1 r2 : WavAudioFormatReader}
    (hst : st1.Agree MR δ st2) (hA : r1.Agree MR δ r2) :
    ChunkLoopState.Agree MR δ { st1 with reader := r1 } { st2 with reader := r2 } := by
  obtain ⟨j2, n2, c2, e2, rfl, -, -, -⟩ := hst.exists_state_eq
  exact ⟨hA, rfl⟩

theorem fmtChunk_agree (hMR : MetadataRelation MR) {st1 st2 : ChunkLoopState}
    {h1 h2 : ChunkHeader} (hst : st1.Agree MR δ st2)
    (hA : h1.reader.Agree MR δ h2.reader) (hS : h1.reader.input.Shifted δ q h2.reader.input)
    (hl : h2.length = h1.length) (he : h2.chunkEnd = h1.chunkEnd + δ) (hq : q ≤ h1.chunkEnd)
    (ssp : Nat) :
    ExceptAgree (Flow.Agree MR δ q) (fmtChunk st1 h1 ssp) (fmtChunk st2 h2 ssp) := by
  have g := readFmtGeometry_agree hA hS
  unfold fmtChunk
  rw [hl, he]
  generalize readFmtGeometry h1.reader = x1 at g ⊢
  generalize readFmtGeometry h2.reader = x2 at g ⊢
  cases g with
  | error e => exact .error e
  | ok hr =>
    rename_i a b
    obtain ⟨hf, hA1, hS1⟩ := hr
    have d := fmtFormat_agree hMR hA1 hS1 a.1 h1.length ssp ssp
    dsimp only
    rw [hf, d.1]
    by_cases hret : (fmtFormat a.2 a.1 h1.length ssp).2 = true
    · rw [if_pos hret, if_pos hret]
      exact .ok (.ret (Agree.withReader hst d.2.1))
    · rw [if_neg hret, if_neg hret]
      exact .ok (seekToChunkEnd_agree hst d.2.1 (d.2.2 (by simpa using hret)) _ hq)

theorem listChunk_agree (hMR : MetadataRelation MR) {st1 st2 : ChunkLoopState}
    {h1 h2 : ChunkHeader} (hst : st1.Agree MR δ st2)
    (hA : h1.reader.Agree MR δ h2.reader) (hS : h1.reader.input.Shifted δ q h2.reader.input)
    (he : h2.chunkEnd = h1.chunkEnd + δ) (hq : q ≤ h1.chunkEnd) (fuel : Nat) :
    ExceptAgree (Flow.Agree MR δ q) (listChunk fuel st1 h1) (listChunk fuel st2 h2) := by
  obtain ⟨t1, l1, e1, r1⟩ := h1
  obtain ⟨t2, l2, e2, r2⟩ := h2
  simp only at hA hS he hq
  subst he
  have hst0 := hst
  obtain ⟨j2, n2, c2, f2, rfl, -, -, -⟩ := hst.exists_state_eq
  obtain ⟨i2, m2, b2, d2, rfl, hm, hb, hd⟩ := hA.exists_eq
  replace hS : r1.input.Shifted δ q i2 := hS
  have sub := hS.readInt
  have li := ListInfoChunk.addToMetadata_agree hMR (e1 : Int) fuel _ _ _ _ hm sub.2
  have ad := adtlLoop_agree hMR e1 fuel
    { st1 with reader := { r1 with input := (r1.input.readInt).2 } }
    { st1 with reader := { r1 with input := (i2.readInt).2, metadataValues := m2,
                                   bwavChunkStart := b2, dataChunkStart := d2 } }
    ⟨⟨by dsimp only, hm, hb, hd⟩, by dsimp only⟩ sub.2
  unfold listChunk
  simp only [sub.1, Nat.cast_add]
  refine ite_agree (ExceptAgree _) _ (fun _ => ?_) (fun _ => ?_)
  · generalize ListInfoChunk.addToMetadata (e1 : Int) fuel r1.metadataValues _ = x1 at li ⊢
    generalize ListInfoChunk.addToMetadata ((e1 : Int) + δ) fuel m2 _ = x2 at li ⊢
    cases li with
    | error e => exact .error _
    | ok hr =>
      refine .ok (seekToChunkEnd_agree hst0 ⟨?_, hr.1, hb, hd⟩ hr.2 _ hq)
      dsimp only
  refine ite_agree (ExceptAgree _) _ (fun _ => ?_) (fun _ => ?_)
  · generalize adtlLoop e1 fuel _ = x1 at ad ⊢
    generalize adtlLoop (e1 + δ) fuel _ = x2 at ad ⊢
    cases ad with
    | error e => exact .error _
    | ok hr => exact .ok (seekToChunkEnd_agree hr.1 hr.1.reader hr.2 _ hq)
  · have hA1 : WavAudioFormatReader.Agree MR δ { r1 with input := (r1.input.readInt).2 }
        { r1 with input := (i2.readInt).2, metadataValues := m2, bwavChunkStart := b2,
                  dataChunkStart := d2 } := ⟨by dsimp only, hm, hb, hd⟩
    exact .ok (seekToChunkEnd_agree hst0 hA1 sub.2 _ hq)

theorem chunk_agree (ext : Collaborators) (storeChunks : Bool) (hMR : MetadataRelation MR)
    {st1 st2 : ChunkLoopState} (hst : st1.Agree MR δ st2)
    (hS : st1.reader.input.Shifted δ q st2.reader.input) (ssp fuel : Nat) :
    ExceptAgree (Flow.Agree MR δ q) (chunk ext storeChunks ssp fuel st1)
      (chunk ext storeChunks ssp fuel st2) := by
  obtain ⟨ht, hl, he, hA, hS1, hq, hpos⟩ := readChunkHeader_agree storeChunks hst.reader hS
  have hm := metadataChunk_agree ext storeChunks hMR hA hS1 ht hl
  have hd := dataChunk_agree hA hS1 (readChunkHeader storeChunks st1.reader).length
  unfold chunk
  simp only [ht]
  refine ite_agree (ExceptAgree _) _ (fun _ => fmtChunk_agree hMR hst hA hS1 hl he hq ssp)
    (fun _ => ?_)
  refine ite_agree (ExceptAgree _) _ (fun _ => ?_) (fun _ => ?_)
  · rw [hl, he]
    exact .ok (seekToChunkEnd_agree hst hd.1 hd.2 _ hq)
  refine ite_agree (ExceptAgree _) _ (fun _ => listChunk_agree hMR hst hA hS1 he hq fuel)
    (fun _ => ?_)
  generalize metadataChunk ext storeChunks (readChunkHeader storeChunks st1.reader) = x1 at hm ⊢
  generalize metadataChunk ext storeChunks (readChunkHeader storeChunks st2.reader) = x2 at hm ⊢
  cases hm with
  | some hr =>
    rw [he]
    exact .ok (seekToChunkEnd_agree hst hr.1 hr.2 _ hq)
  | none =>
    have c : ((readChunkHeader storeChunks st2.reader).chunkEnd
          ≤ (readChunkHeader storeChunks st2.reader).reader.input.getPosition)
        ↔ ((readChunkHeader storeChunks st1.reader).chunkEnd
          ≤ (readChunkHeader storeChunks st1.reader).reader.input.getPosition) := by
      have := hS1.position_eq
      simp only [InputStream.getPosition, he, this]
      omega
    dsimp only
    simp only [c]
    refine ite_agree (ExceptAgree _) _ (fun _ => .ok (.brk (Agree.withReader hst hA))) (fun _ => ?_)
    rw [he]
    exact .ok (seekToChunkEnd_agree hst hA hS1 _ hq)

theorem chunkLoop_agree (ext : Collaborators) (storeChunks : Bool) (hMR : MetadataRelation MR)
    (ssp end_ n : Nat) :
    ∀ (fuel : Nat) (st1 st2 : ChunkLoopState), st1.Agree MR δ st2 →
      st1.reader.input.Shifted δ q st2.reader.input →
      LoopResult.Agree MR δ (chunkLoop ext storeChunks ssp end_ n fuel st1)
        (chunkLoop ext storeChunks ssp (end_ + δ) n fuel st2) := by
  intro fuel
  induction fuel with
  | zero => intro st1 st2 _ _; exact .error _
  | succ fuel ih =>
    intro st1 st2 hst hS
    have hp := hS.position_eq
    have hx := hS.isExhausted
    have c : (st2.reader.input.getPosition < end_ + δ) ↔ (st1.reader.input.getPosition < end_) := by
      simp only [InputStream.getPosition, hp]
      omega
    have k := chunk_agree ext storeChunks hMR hst hS ssp n
    simp only [chunkLoop, c, hx]
    refine ite_agree (LoopResult.Agree MR δ) _ (fun _ => ?_) (fun _ => .ok ⟨rfl, hst⟩)
    generalize chunk ext storeChunks ssp n st1 = x1 at k ⊢
    generalize chunk ext storeChunks ssp n st2 = x2 at k ⊢
    cases k with
    | error e => exact .error _
    | ok hr =>
      cases hr with
      | next a s => exact ih _ _ a s
      | brk a => exact .ok ⟨rfl, a⟩
      | ret a => exact .ok ⟨rfl, a⟩

theorem finishMetadata_agree (hMR : MetadataRelation MR) {st1 st2 : ChunkLoopState}
    (hst : st1.Agree MR δ st2) : (finishMetadata st1).Agree MR δ (finishMetadata st2) := by
  obtain ⟨i2, m2, b2, d2, rfl, hm, hb, hd⟩ := hst.exists_state_eq
  have step : ∀ (c : Prop) [Decidable c] (k v : String) (a1 a2 : StringPairArray), MR a1 a2 →
      MR (if c then a1.set k v else a1) (if c then a2.set k v else a2) :=
    fun c _ k v a1 a2 h => ite_agree MR c (fun _ => hMR.set _ _ k v h) (fun _ => h)
  have h1 := step (st1.cueLabelIndex > 0) "NumCueLabels" (toString st1.cueLabelIndex) _ _ hm
  have h2 := step (st1.cueNoteIndex > 0) "NumCueNotes" (toString st1.cueNoteIndex) _ _ h1
  have h3 := step (st1.cueRegionIndex > 0) "NumCueRegions" (toString st1.cueRegionIndex) _ _ h2
  have h4 : ∀ a1 a2 : StringPairArray, MR a1 a2 →
      MR (if a1.size > 0 then a1.set "MetaDataSource" "WAV" else a1)
        (if a2.size > 0 then a2.set "MetaDataSource" "WAV" else a2) := by
    intro a1 a2 h
    by_cases hs : a1.size > 0
    · rw [if_pos hs, if_pos ((hMR.size _ _ h).1 hs)]
      exact hMR.set _ _ _ _ h
    · rw [if_neg hs, if_neg (fun c => hs ((hMR.size _ _ h).2 c))]
      exact h
  unfold finishMetadata
  refine ⟨?_, ?_, hb, hd⟩
  · dsimp only
  · dsimp only
    exact h4 _ _ h3

/-- The closing statements of `doRead` applied to agreeing outcomes of the chunk
loop. -/
theorem runChunkLoop_agree_of (hMR : MetadataRelation MR) (ext : Collaborators)
    (storeChunks : Bool) (ssp e1 e2 f1 f2 : Nat) (r1 r2 : WavAudioFormatReader)
    (h : LoopResult.Agree MR δ (chunkLoop ext storeChunks ssp e1 f1 f1 { reader := r1 })
      (chunkLoop ext storeChunks ssp e2 f2 f2 { reader := r2 })) :
    ExceptAgree (WavAudioFormatReader.Agree MR δ) (runChunkLoop ext storeChunks ssp e1 f1 r1)
      (runChunkLoop ext storeChunks ssp e2 f2 r2) := by
  unfold runChunkLoop
  generalize chunkLoop ext storeChunks ssp e1 f1 f1 { reader := r1 } = x1 at h ⊢
  generalize chunkLoop ext storeChunks ssp e2 f2 f2 { reader := r2 } = x2 at h ⊢
  cases h with
  | error e => exact .error _
  | ok hr =>
    rename_i a b
    obtain ⟨a1, a2⟩ := a
    obtain ⟨b1, b2⟩ := b
    obtain ⟨hb, hst⟩ := hr
    simp only at hb hst
    subst hb
    cases b1 with
    | true => exact .ok hst.reader
    | false => exact .ok (finishMetadata_agree hMR hst)

end WavAudioFormatReader

end

/-! ### Streams given by their bytes -/

section
open WavFileHelpers

theorem littleEndian_toLittleEndian_four (v : Nat) (hv : v < 4294967296) :
    littleEndian ((toLittleEndian 4 v).map (fun b => b % 256)) = v := by
  simp only [toLittleEndian, littleEndian, List.map_cons, List.map_nil]
  omega

namespace InputStream

/-- Reading the bytes `bs` that stand at the position of the stream. -/
theorem read_at (d pre bs post : List Nat) (p : Nat) (hd : d = pre ++ bs ++ post)
    (hp : p = pre.length) :
    InputStream.read { data := d, position := p } (bs.length : Int)
      = (bs.map (fun b => b % 256), { data := d, position := p + bs.length }) := by
  subst hd hp
  simp only [InputStream.read, Int.toNat_ofNat, List.append_assoc, List.drop_left,
    List.take_left, List.length_map]

/-- Reading a 32-bit value that stands at the position of the stream. -/
theorem readInt_at (d : List Nat) (p v : Nat) (pre post : List Nat)
    (hd : d = pre ++ toLittleEndian 4 v ++ post) (hp : p = pre.length) (hv : v < 4294967296) :
    InputStream.readInt { data := d, position := p } = (v, { data := d, position := p + 4 }) := by
  have h := read_at d pre (toLittleEndian 4 v) post p hd hp
  have hl : (toLittleEndian 4 v).length = 4 := length_toLittleEndian 4 v
  rw [hl] at h
  simp only [InputStream.readInt]
  rw [show ((4 : Int)) = ((4 : Nat) : Int) from rfl, h]
  simp only [List.length_map, hl, if_true, littleEndian_toLittleEndian_four v hv]

end InputStream

theorem length_rawChunk (tag length : Nat) (body : List Nat) :
    (rawChunk tag length body).length = 8 + body.length := by
  simp only [rawChunk, List.length_append, length_toLittleEndian]

theorem length_riffFile (size : Nat) (chunks : List Nat) :
    (riffFile size chunks).length = 12 + chunks.length := by
  simp only [riffFile, List.length_append, length_toLittleEndian]

/-- Dropping the twelve bytes of the `RIFF`/`WAVE` head leaves the chunks. -/
theorem drop_riffFile (size : Nat) (chunks : List Nat) : (riffFile size chunks).drop 12 = chunks := by
  have h : (toLittleEndian 4 (chunkName "RIFF") ++ toLittleEndian 4 size
      ++ toLittleEndian 4 (chunkName "WAVE")).length = 12 := by
    simp only [List.length_append, length_toLittleEndian]
  unfold riffFile
  rw [← h, List.drop_left]

namespace WavAudioFormatReader

/-- A stream that starts with `RIFF`, a size field and `WAVE` is decoded by the
chunk loop from offset 12 up to the end the size field gives. -/
theorem create_riffFile (ext : Collaborators) (size : Nat) (chunks : List Nat) (fuel : Nat)
    (hsize : size < 4294967296) :
    create ext (memoryInput (riffFile size chunks)) fuel
      = runChunkLoop ext false 0 (size + 8) fuel
          { input := { data := riffFile size chunks, position := 12 } } := by
  have r1 : InputStream.readInt { data := riffFile size chunks, position := 0 }
      = (chunkName "RIFF", { data := riffFile size chunks, position := 0 + 4 }) :=
    InputStream.readInt_at _ 0 _ [] (toLittleEndian 4 size ++ toLittleEndian 4 (chunkName "WAVE") ++ chunks)
      (by simp only [riffFile, List.nil_append, List.append_assoc]) rfl (by decide)
  have r2 : InputStream.readInt { data := riffFile size chunks, position := 4 }
      = (size, { data := riffFile size chunks, position := 4 + 4 }) :=
    InputStream.readInt_at _ 4 _ (toLittleEndian 4 (chunkName "RIFF"))
      (toLittleEndian 4 (chunkName "WAVE") ++ chunks)
      (by simp only [riffFile, List.append_assoc]) (length_toLittleEndian 4 _).symm hsize
  have r3 : InputStream.readInt { data := riffFile size chunks, position := 8 }
      = (chunkName "WAVE", { data := riffFile size chunks, position := 8 + 4 }) :=
    InputStream.readInt_at _ 8 _ (toLittleEndian 4 (chunkName "RIFF") ++ toLittleEndian 4 size) chunks
      (by simp only [riffFile, List.append_assoc])
      (by simp only [List.length_append, length_toLittleEndian]) (by decide)
  have c1 : chunkName "RIFF" ≠ chunkName "RF64" := by decide
  have e : (size + 8) % 18446744073709551616 = size + 8 := Nat.mod_eq_of_lt (by omega)
  simp only [create, doRead, memoryInput, r1, InputStream.getPosition, if_neg c1, if_true, r2,
    doReadWave, r3, e, Nat.zero_add, Nat.reduceAdd]
  rfl

/-- The head of the loop body at a chunk whose bytes stand at the position of the
stream, when chunks are not stored. -/
theorem readChunkHeader_at (r : WavAudioFormatReader) (d pre post body : List Nat)
    (p tag length : Nat) (hi : r.input = { data := d, position := p })
    (hd : d = pre ++ rawChunk tag length body ++ post) (hp : p = pre.length)
    (htag : tag < 4294967296) (hlength : length < 4294967296) :
    readChunkHeader false r
      = { chunkType := tag, length := length, chunkEnd := p + 8 + length + length % 2,
          reader := { r with input := { data := d, position := p + 8 } } } := by
  have r1 : InputStream.readInt { data := d, position := p }
      = (tag, { data := d, position := p + 4 }) :=
    InputStream.readInt_at d p tag pre (toLittleEndian 4 length ++ body ++ post)
      (by rw [hd]; simp only [rawChunk, List.append_assoc]) hp htag
  have r2 : InputStream.readInt { data := d, position := p + 4 }
      = (length, { data := d, position := p + 4 + 4 }) :=
    InputStream.readInt_at d (p + 4) length (pre ++ toLittleEndian 4 tag) (body ++ post)
      (by rw [hd]; simp only [rawChunk, List.append_assoc])
      (by simp only [List.length_append, length_toLittleEndian, hp]) hlength
  simp only [readChunkHeader, hi, r1, r2, InputStream.getPosition, Bool.false_eq_true, and_false,
    if_false, Nat.add_assoc, Nat.reduceAdd]

/-- A chunk whose tag the loop does not test for is skipped when its end lies beyond
the position after its header. -/
theorem chunk_of_unknown (ext : Collaborators) (storeChunks : Bool) (ssp fuel : Nat)
    (st : ChunkLoopState) (htag : (readChunkHeader storeChunks st.reader).chunkType ∉ knownChunkTypes)
    (hend : (readChunkHeader storeChunks st.reader).reader.input.getPosition
      < (readChunkHeader storeChunks st.reader).chunkEnd) :
    chunk ext storeChunks ssp fuel st
      = .ok (seekToChunkEnd st (readChunkHeader storeChunks st.reader).reader
          (readChunkHeader storeChunks st.reader).chunkEnd) := by
  simp only [knownChunkTypes, List.map_cons, List.map_nil, List.mem_cons, List.mem_singleton,
    List.not_mem_nil, not_or, or_false] at htag
  obtain ⟨h1, h2, h3, h4, h5, h6, h7, h8, h9, h10, h11, h12, h13⟩ := htag
  have hn : ¬ ((readChunkHeader storeChunks st.reader).chunkEnd
      ≤ (readChunkHeader storeChunks st.reader).reader.input.getPosition) := by omega
  simp only [chunk, metadataChunk, if_neg h1, if_neg h2, if_neg h3, if_neg h4, if_neg h5,
    if_neg h6, if_neg h7, h8, h9, or_self, if_false, if_neg h10, if_neg h11, if_neg h12,
    if_neg h13, if_neg hn]

end WavAudioFormatReader

end

/-! ### The fuel of the inner loops -/

section
open WavFileHelpers

/-- More fuel does not change a result of the `LIST`/`INFO` loop. -/
theorem ListInfoChunk.addToMetadata_succ (ce : Int) :
    ∀ (fuel : Nat) (v : StringPairArray) (s : InputStream) (x : StringPairArray × InputStream),
      ListInfoChunk.addToMetadata ce fuel v s = .ok x →
      ListInfoChunk.addToMetadata ce (fuel + 1) v s = .ok x := by
  intro fuel
  induction fuel with
  | zero => intro v s x h; cases h
  | succ fuel ih =>
    intro v s x h
    rw [ListInfoChunk.addToMetadata] at h ⊢
    by_cases c1 : (s.getPosition : Int) < ce
    · rw [if_pos c1] at h ⊢
      dsimp only at h ⊢
      by_cases c2 : ce - (s.readInt.2.getPosition : Int) > 0
      · rw [if_pos c2] at h ⊢
        by_cases c3 : min (ce - (s.readInt.2.getPosition : Int)) (toInt32 s.readInt.2.readInt.1) ≤ 0
        · rw [if_pos c3] at h ⊢
          exact h
        · rw [if_neg c3] at h ⊢
          cases hf : List.find?
              (fun t => ListInfoChunk.isMatchingTypeIgnoringCase s.readInt.1 t) ListInfoChunk.types with
          | none =>
            rw [hf] at h
            exact ih _ _ _ h
          | some t =>
            rw [hf] at h
            exact ih _ _ _ h
      · rw [if_neg c2] at h ⊢
        exact ih _ _ _ h
    · rw [if_neg c1] at h ⊢
      exact h

namespace WavAudioFormatReader

/-- The loop of the `adtl` branch fails only by running out of fuel. -/
theorem adtlLoop_error (chunkEnd : Nat) :
    ∀ (fuel : Nat) (st : ChunkLoopState) (e : ReadError),
      adtlLoop chunkEnd fuel st = .error e → e = .outOfFuel := by
  intro fuel
  induction fuel with
  | zero => intro st e h; cases h; rfl
  | succ fuel ih =>
    intro st e h
    rw [adtlLoop] at h
    by_cases c : st.reader.input.getPosition < chunkEnd
    · rw [if_pos c] at h
      exact ih _ _ h
    · rw [if_neg c] at h
      cases h

/-- More fuel does not change a result of the loop of the `adtl` branch. -/
theorem adtlLoop_succ (chunkEnd : Nat) :
    ∀ (fuel : Nat) (st x : ChunkLoopState),
      adtlLoop chunkEnd fuel st = .ok x → adtlLoop chunkEnd (fuel + 1) st = .ok x := by
  intro fuel
  induction fuel with
  | zero => intro st x h; cases h
  | succ fuel ih =>
    intro st x h
    rw [adtlLoop] at h ⊢
    by_cases c : st.reader.input.getPosition < chunkEnd
    · rw [if_pos c] at h ⊢
      exact ih _ _ h
    · rw [if_neg c] at h ⊢
      exact h

/-- More fuel does not change an outcome of the `LIST` branch other than running out
of fuel. -/
theorem listChunk_succ (fuel : Nat) (st : ChunkLoopState) (h : ChunkHeader)
    (x : Except ReadError Flow) (hx : listChunk fuel st h = x) (hne : x ≠ .error .outOfFuel) :
    listChunk (fuel + 1) st h = x := by
  unfold listChunk at hx ⊢
  dsimp only at hx ⊢
  by_cases c1 : (h.reader.input.readInt).1 = chunkName "info"
      ∨ (h.reader.input.readInt).1 = chunkName "INFO"
  · rw [if_pos c1] at hx ⊢
    cases hl : ListInfoChunk.addToMetadata (h.chunkEnd : Int) fuel h.reader.metadataValues
        (h.reader.input.readInt).2 with
    | error e =>
      rw [hl] at hx
      exact absurd hx.symm hne
    | ok v =>
      rw [hl] at hx
      rw [ListInfoChunk.addToMetadata_succ _ _ _ _ _ hl]
      exact hx
  · rw [if_neg c1] at hx ⊢
    by_cases c2 : (h.reader.input.readInt).1 = chunkName "adtl"
    · rw [if_pos c2] at hx ⊢
      cases hl : adtlLoop h.chunkEnd fuel
          { st with reader := { h.reader with input := (h.reader.input.readInt).2 } } with
      | error e =>
        rw [hl] at hx
        have := adtlLoop_error _ _ _ _ hl
        subst this
        exact absurd hx.symm hne
      | ok v =>
        rw [hl] at hx
        rw [adtlLoop_succ _ _ _ _ hl]
        exact hx
    · rw [if_neg c2] at hx ⊢
      exact hx

/-- More fuel for the inner loops does not change an outcome of one pass of the chunk
loop body other than running out of fuel. -/
theorem chunk_succ (ext : Collaborators) (storeChunks : Bool) (ssp fuel : Nat)
    (st : ChunkLoopState) (x : Except ReadError Flow)
    (hx : chunk ext storeChunks ssp fuel st = x) (hne : x ≠ .error .outOfFuel) :
    chunk ext storeChunks ssp (fuel + 1) st = x := by
  unfold chunk at hx ⊢
  dsimp only at hx ⊢
  by_cases c1 : (readChunkHeader storeChunks st.reader).chunkType = chunkName "fmt "
  · rw [if_pos c1] at hx ⊢
    exact hx
  · rw [if_neg c1] at hx ⊢
    by_cases c2 : (readChunkHeader storeChunks st.reader).chunkType = chunkName "data"
    · rw [if_pos c2] at hx ⊢
      exact hx
    · rw [if_neg c2] at hx ⊢
      by_cases c3 : (readChunkHeader storeChunks st.reader).chunkType = chunkName "LIST"
      · rw [if_pos c3] at hx ⊢
        exact listChunk_succ _ _ _ _ hx hne
      · rw [if_neg c3] at hx ⊢
        exact hx

/-- More fuel for the inner loops does not change an outcome of the chunk loop other
than running out of fuel. -/
theorem chunkLoop_succ (ext : Collaborators) (storeChunks : Bool) (ssp end_ n : Nat) :
    ∀ (fuel : Nat) (st : ChunkLoopState) (x : Except ReadError (Bool × ChunkLoopState)),
      chunkLoop ext storeChunks ssp end_ n fuel st = x → x ≠ .error .outOfFuel →
      chunkLoop ext storeChunks ssp end_ (n + 1) fuel st = x := by
  intro fuel
  induction fuel with
  | zero => intro st x h hne; exact absurd h.symm hne
  | succ fuel ih =>
    intro st x h hne
    rw [chunkLoop] at h ⊢
    by_cases c : st.reader.input.getPosition < end_ ∧ ¬ st.reader.input.isExhausted
    · rw [if_pos c] at h ⊢
      cases hc : chunk ext storeChunks ssp n st with
      | error e =>
        rw [hc] at h
        rw [chunk_succ ext storeChunks ssp n st _ hc (fun h1 => hne (by rw [← h, h1]))]
        exact h
      | ok f =>
        rw [hc] at h
        rw [chunk_succ ext storeChunks ssp n st _ hc (fun h1 => by cases h1)]
        cases f with
        | next s => exact ih _ _ h hne
        | brk s => exact h
        | ret s => exact h
    · rw [if_neg c] at h ⊢
      exact h

end WavAudioFormatReader

end

/-! ### Decoding after the chunk loop -/

section
open WavFileHelpers

/-- Equality of metadata maps is respected by `set` and by emptiness. -/
theorem metadataRelation_eq : MetadataRelation (Eq : StringPairArray → StringPairArray → Prop) :=
  ⟨fun m1 m2 k v h => by rw [h], fun m1 m2 h => by rw [h]⟩

/-- The acceptance test of `createReaderFor` applied to agreeing decode results. -/
theorem WavAudioFormat.createReaderFor_agree_of {MR : StringPairArray → StringPairArray → Prop}
    {δ : Nat} (ext : Collaborators) (s1 s2 : InputStream) (f1 f2 : Nat)
    (h : ExceptAgree (WavAudioFormatReader.Agree MR δ) (WavAudioFormatReader.create ext s1 f1)
      (WavAudioFormatReader.create ext s2 f2)) :
    ExceptAgree (OptionAgree (WavAudioFormatReader.Agree MR δ))
      (WavAudioFormat.createReaderFor ext s1 f1) (WavAudioFormat.createReaderFor ext s2 f2) := by
  unfold WavAudioFormat.createReaderFor
  generalize WavAudioFormatReader.create ext s1 f1 = x1 at h ⊢
  generalize WavAudioFormatReader.create ext s2 f2 = x2 at h ⊢
  cases h with
  | error e => exact .error _
  | ok hr =>
    rename_i a b
    have hacc : WavAudioFormat.isAcceptable b = WavAudioFormat.isAcceptable a := by
      obtain ⟨i2, m2, b2, d2, rfl, -, -, -⟩ := hr.exists_eq
      rfl
    dsimp only
    rw [hacc]
    by_cases c : WavAudioFormat.isAcceptable a = true
    · rw [if_pos c, if_pos c]
      exact .ok (.some hr)
    · rw [if_neg c, if_neg c]
      exact .ok .none

/-- An error of the chunk loop is the error of `doRead`. -/
theorem WavAudioFormatReader.runChunkLoop_error_of (ext : Collaborators) (storeChunks : Bool)
    (ssp end_ fuel : Nat) (r : WavAudioFormatReader) (e : ReadError)
    (h : WavAudioFormatReader.chunkLoop ext storeChunks ssp end_ fuel fuel { reader := r } = .error e) :
    WavAudioFormatReader.runChunkLoop ext storeChunks ssp end_ fuel r = .error e := by
  unfold WavAudioFormatReader.runChunkLoop
  rw [h]

/-- An error of the reader's constructor is the error of `createReaderFor`. -/
theorem WavAudioFormat.createReaderFor_error_of (ext : Collaborators) (s : InputStream)
    (fuel : Nat) (e : ReadError) (h : WavAudioFormatReader.create ext s fuel = .error e) :
    WavAudioFormat.createReaderFor ext s fuel = .error e := by
  unfold WavAudioFormat.createReaderFor
  rw [h]

/-- The bytes from offset 12 on of a stream are those of the stream with a chunk
inserted after the `WAVE` tag from the end of that chunk on. -/
theorem aligned_riffFile_insert (size1 size2 : Nat) (ins chunks : List Nat) :
    Aligned ins.length 12 (riffFile size1 chunks) (riffFile size2 (ins ++ chunks)) := by
  refine ⟨?_, ?_, ?_⟩
  · rw [length_riffFile]
    omega
  · rw [length_riffFile, List.length_append]
    omega
  · rw [drop_riffFile, ← List.drop_drop, drop_riffFile, List.drop_left]

end

/-! ### Metadata maps that agree outside a set of keys -/

section
open WavFileHelpers

namespace StringPairArray

theorem getValue_set (m : StringPairArray) (k v key d : String) :
    (m.set k v).getValue key d = if k = key then v else m.getValue key d := by
  induction m with
  | nil => simp only [set, getValue]
  | cons p rest ih =>
    obtain ⟨k0, v0⟩ := p
    simp only [set]
    by_cases h : k0 = k
    · rw [if_pos h]
      simp only [getValue]
      subst h
      by_cases h2 : k0 = key
      · rw [if_pos h2, if_pos h2]
      · rw [if_neg h2, if_neg h2, if_neg h2]
    · rw [if_neg h]
      simp only [getValue, ih]
      by_cases h2 : k0 = key
      · rw [if_pos h2, if_neg (fun c => h (h2.trans c.symm)), if_pos h2]
      · rw [if_neg h2, if_neg h2]

end StringPairArray

namespace InputStream

end InputStream

end

section
open WavFileHelpers

namespace InputStream

theorem position_read (s : InputStream) (n : Int) :
    (s.read n).2.position = s.position + min n.toNat (s.data.length - s.position) := by
  simp only [InputStream.read, List.length_map, List.length_take, List.length_drop]

theorem position_readInt (s : InputStream) :
    (s.readInt).2.position = s.position + min 4 (s.data.length - s.position) :=
  position_read s 4

theorem data_readInt (s : InputStream) : (s.readInt).2.data = s.data := rfl

end InputStream

namespace WavAudioFormatReader

theorem readBlock_data (s : InputStream) (length : Nat) : (readBlock s length).2.data = s.data :=
  rfl

end WavAudioFormatReader

end

section
open WavFileHelpers

namespace WavAudioFormatReader

/-- One pass of the chunk loop. -/
theorem chunkLoop_eq (ext : Collaborators) (storeChunks : Bool) (ssp end_ n fuel : Nat)
    (st : ChunkLoopState) :
    chunkLoop ext storeChunks ssp end_ n (fuel + 1) st
      = if st.reader.input.getPosition < end_ ∧ ¬ st.reader.input.isExhausted then
          match chunk ext storeChunks ssp n st with
          | .error e => .error e
          | .ok (.next st1) => chunkLoop ext storeChunks ssp end_ n fuel st1
          | .ok (.brk st1) => .ok (false, st1)
          | .ok (.ret st1) => .ok (true, st1)
        else .ok (false, st) := by
  rw [chunkLoop]

end WavAudioFormatReader

end

/-! ### Containment of chunk bodies and skipping of unknown chunks -/

section
open WavFileHelpers

/-- C8 (counterexample): a well-formed stream is decoded to an 8-bit mono reader with
two samples; with an unrecognised chunk of declared length 0 inserted before the
`fmt ` chunk (and the size field raised by its 8 bytes) the chunk loop breaks at that
chunk and the stream is rejected. -/
theorem C8_counterexample :
    chunkName "junk" ∉ knownChunkTypes
    ∧ (WavAudioFormat.createReaderFor plainCollaborators (memoryInput (riffFile 38 pcmChunks)) 4).map
          (Option.map (fun r => (r.sampleRate, r.numChannels, r.bitsPerSample, r.lengthInSamples)))
        = .ok (some (8000, 1, 8, 2))
    ∧ WavAudioFormat.createReaderFor plainCollaborators
          (memoryInput (riffFile 46 (rawChunk (chunkName "junk") 0 [] ++ pcmChunks))) 4
        = .ok none := by
  decide!

end

section
open WavFileHelpers

end

section
open WavFileHelpers

end

section
open WavFileHelpers

end

/-! ### The Ogg-Vorbis format tags -/

section
open WavFileHelpers

/-- C11, failing input: the `fmt ` chunk of `oggZeroRateStream` carries the Ogg-Vorbis
tag `0x674F`, yet decoding it neither sets the sub-format flag nor returns: with 65
bits per sample and a sample rate of 0 the geometry part of the `fmt ` branch, which
runs before the format tag is looked at, divides by zero. -/
theorem C11_counterexample :
    (oggZeroRateStream.drop 20).take 2 = toLittleEndian 2 26447
    ∧ WavAudioFormat.createReaderFor plainCollaborators (memoryInput oggZeroRateStream) 4
        = .error .divisionByZero := by
  decide!

/-- C11: when the chunk loop stands at a `fmt ` chunk whose geometry part returns and
whose format tag is one of the six Ogg-Vorbis tags, the loop returns at once, whatever
follows in the stream: the reader it leaves has the Ogg-Vorbis flag set, sample rate
0 and its stream sought back to `streamStartPos`, and fails the acceptance test of
`createReaderFor`. -/
theorem C11_ogg_delegation (ext : Collaborators) (storeChunks : Bool)
    (streamStartPos end_ n fuel : Nat) (st : ChunkLoopState) (g : Nat × WavAudioFormatReader)
    (hcond : st.reader.input.getPosition < end_ ∧ ¬ st.reader.input.isExhausted)
    (htag : (WavAudioFormatReader.readChunkHeader storeChunks st.reader).chunkType
      = chunkName "fmt ")
    (hgeo : WavAudioFormatReader.readFmtGeometry
      (WavAudioFormatReader.readChunkHeader storeChunks st.reader).reader = .ok g)
    (hogg : g.1 ∈ [26447, 26448, 26449, 26479, 26480, 26481]) :
    WavAudioFormatReader.chunkLoop ext storeChunks streamStartPos end_ n (fuel + 1) st
      = .ok (true, { st with reader :=
          { g.2 with isSubformatOggVorbis := true, sampleRate := 0,
                     input := g.2.input.setPosition streamStartPos } })
    ∧ WavAudioFormat.isAcceptable
        { g.2 with isSubformatOggVorbis := true, sampleRate := 0,
                   input := g.2.input.setPosition streamStartPos } = false := by
  have h3 : g.1 ≠ 3 := by
    intro h; rw [h] at hogg; revert hogg; decide
  have h4 : g.1 ≠ 65534 := by
    intro h; rw [h] at hogg; revert hogg; decide
  have ho : g.1 = 26447 ∨ g.1 = 26448 ∨ g.1 = 26449 ∨ g.1 = 26479 ∨ g.1 = 26480 ∨ g.1 = 26481 := by
    simpa using hogg
  have hf : WavAudioFormatReader.fmtFormat g.2 g.1
      (WavAudioFormatReader.readChunkHeader storeChunks st.reader).length streamStartPos
      = ({ g.2 with isSubformatOggVorbis := true, sampleRate := 0,
                    input := g.2.input.setPosition streamStartPos }, true) := by
    rw [WavAudioFormatReader.fmtFormat, if_neg h3, if_neg h4, if_pos ho]
  refine ⟨?_, ?_⟩
  · rw [WavAudioFormatReader.chunkLoop_eq, if_pos hcond]
    have hc : WavAudioFormatReader.chunk ext storeChunks streamStartPos n st
        = .ok (.ret { st with reader :=
            { g.2 with isSubformatOggVorbis := true, sampleRate := 0,
                       input := g.2.input.setPosition streamStartPos } }) := by
      unfold WavAudioFormatReader.chunk
      simp only [htag, if_true]
      unfold WavAudioFormatReader.fmtChunk
      simp only [hgeo, hf, if_true]
    rw [hc]
  · rw [WavAudioFormat.isAcceptable, decide_eq_false_iff_not]
    intro h
    exact absurd h.1 (lt_irrefl 0)

/-- C11, witness: the loop at the `fmt ` chunk of `oggFmtStream`, and the decode of
the whole stream, which returns no reader. -/
theorem C11_ogg_delegation_witness :
    (WavAudioFormatReader.chunkLoop plainCollaborators false 0 48 4 (3 + 1)
        { reader := { input := { data := oggFmtStream, position := 12 } } }
      = .ok (true, { reader :=
          { input := { data := oggFmtStream, position := 0 }, numChannels := 2,
            bitsPerSample := 16, bytesPerFrame := 4, isSubformatOggVorbis := true,
            sampleRate := 0 } })
    ∧ WavAudioFormat.isAcceptable
        { input := { data := oggFmtStream, position := 0 }, numChannels := 2,
          bitsPerSample := 16, bytesPerFrame := 4, isSubformatOggVorbis := true,
          sampleRate := 0 } = false)
    ∧ WavAudioFormat.createReaderFor plainCollaborators (memoryInput oggFmtStream) 4 = .ok none :=
  ⟨C11_ogg_delegation plainCollaborators false 0 48 4 3
      { reader := { input := { data := oggFmtStream, position := 12 } } }
      (26447, { input := { data := oggFmtStream, position := 36 }, numChannels := 2,
                bitsPerSample := 16, bytesPerFrame := 4, sampleRate := 44100 })
      (by decide!) (by decide!) (by decide!) (by decide!),
    by decide!⟩

end

/-! ### The geometry of the fmt chunk -/

section
open WavFileHelpers

theorem littleEndian_toLittleEndian_two (v : Nat) (hv : v < 65536) :
    littleEndian ((toLittleEndian 2 v).map (fun b => b % 256)) = v := by
  simp only [toLittleEndian, littleEndian, List.map_cons, List.map_nil]
  omega

namespace InputStream

/-- Reading a 16-bit value that stands at the position of the stream. -/
theorem readShort_at (d : List Nat) (p v : Nat) (pre post : List Nat)
    (hd : d = pre ++ toLittleEndian 2 v ++ post) (hp : p = pre.length) (hv : v < 65536) :
    InputStream.readShort { data := d, position := p } = (v, { data := d, position := p + 2 }) := by
  have h := read_at d pre (toLittleEndian 2 v) post p hd hp
  have hl : (toLittleEndian 2 v).length = 2 := length_toLittleEndian 2 v
  rw [hl] at h
  simp only [InputStream.readShort]
  rw [show ((2 : Int)) = ((2 : Nat) : Int) from rfl, h]
  simp only [List.length_map, hl, if_true, littleEndian_toLittleEndian_two v hv]

/-- Skipping two bytes that stand at the position of the stream. -/
theorem skipNextBytes_two_at (d : List Nat) (p v : Nat) (pre post : List Nat)
    (hd : d = pre ++ toLittleEndian 2 v ++ post) (hp : p = pre.length) :
    InputStream.skipNextBytes { data := d, position := p } 2 = { data := d, position := p + 2 } := by
  have h := read_at d pre (toLittleEndian 2 v) post p hd hp
  have hl : (toLittleEndian 2 v).length = 2 := length_toLittleEndian 2 v
  rw [hl] at h
  simp only [InputStream.skipNextBytes]
  rw [show ((2 : Int)) = ((2 : Nat) : Int) from rfl, h]

end InputStream

namespace WavAudioFormatReader

/-- The six reads at the head of the `fmt ` branch, on a stream that holds the
sixteen bytes of a `fmt ` body at its position. -/
theorem readFmtGeometry_at (r : WavAudioFormatReader) (pre post : List Nat)
    (format numChannels sampleRate byteRate blockAlign bitsPerSample : Nat)
    (hinput : r.input = { data := (pre ++ fmtChunkBody format numChannels sampleRate byteRate
        blockAlign bitsPerSample ++ post), position := pre.length })
    (hformat : format < 65536) (hchannels : numChannels < 65536)
    (hrate : sampleRate < 4294967296) (hbyteRate : byteRate < 4294967296)
    (hbits : bitsPerSample < 65536) :
    readFmtGeometry r
      = if toUInt32 (toInt16 bitsPerSample) > 64 then
          if toInt32 sampleRate = 0 then .error .divisionByZero
          else if toInt32 byteRate = -2147483648 ∧ toInt32 sampleRate = -1 then
            .error .divisionOverflow
          else if toUInt32 (toInt16 numChannels) = 0 then .error .divisionByZero
          else .ok (format,
            { r with input := { data := r.input.data, position := pre.length + 16 },
                     numChannels := toUInt32 (toInt16 numChannels),
                     sampleRate := toInt32 sampleRate,
                     bytesPerFrame := Int.tdiv (toInt32 byteRate) (toInt32 sampleRate),
                     bitsPerSample :=
                       (8 * toUInt32 (Int.tdiv (toInt32 byteRate) (toInt32 sampleRate)))
                         % 4294967296 / toUInt32 (toInt16 numChannels) })
        else .ok (format,
          { r with input := { data := r.input.data, position := pre.length + 16 },
                   numChannels := toUInt32 (toInt16 numChannels),
                   sampleRate := toInt32 sampleRate,
                   bitsPerSample := toUInt32 (toInt16 bitsPerSample),
                   bytesPerFrame :=
                     (((toUInt32 (toInt16 numChannels) * toUInt32 (toInt16 bitsPerSample))
                       % 4294967296 / 8 : Nat) : Int) }) := by
  have e1 := InputStream.readShort_at _ pre.length format pre
    (toLittleEndian 2 numChannels ++ toLittleEndian 4 sampleRate ++ toLittleEndian 4 byteRate
      ++ toLittleEndian 2 blockAlign ++ toLittleEndian 2 bitsPerSample ++ post)
    (show pre ++ fmtChunkBody format numChannels sampleRate byteRate blockAlign bitsPerSample
      ++ post = _ by simp only [fmtChunkBody, List.append_assoc]) rfl hformat
  have e2 := InputStream.readShort_at
    (pre ++ fmtChunkBody format numChannels sampleRate byteRate blockAlign bitsPerSample ++ post)
    (pre.length + 2) numChannels (pre ++ toLittleEndian 2 format)
    (toLittleEndian 4 sampleRate ++ toLittleEndian 4 byteRate
      ++ toLittleEndian 2 blockAlign ++ toLittleEndian 2 bitsPerSample ++ post)
    (by simp only [fmtChunkBody, List.append_assoc])
    (by simp only [List.length_append, length_toLittleEndian]) hchannels
  have e3 := InputStream.readInt_at
    (pre ++ fmtChunkBody format numChannels sampleRate byteRate blockAlign bitsPerSample ++ post)
    (pre.length + 2 + 2) sampleRate (pre ++ toLittleEndian 2 format ++ toLittleEndian 2 numChannels)
    (toLittleEndian 4 byteRate ++ toLittleEndian 2 blockAlign ++ toLittleEndian 2 bitsPerSample
      ++ post)
    (by simp only [fmtChunkBody, List.append_assoc])
    (by simp only [List.length_append, length_toLittleEndian]) hrate
  have e4 := InputStream.readInt_at
    (pre ++ fmtChunkBody format numChannels sampleRate byteRate blockAlign bitsPerSample ++ post)
    (pre.length + 2 + 2 + 4) byteRate
    (pre ++ toLittleEndian 2 format ++ toLittleEndian 2 numChannels ++ toLittleEndian 4 sampleRate)
    (toLittleEndian 2 blockAlign ++ toLittleEndian 2 bitsPerSample ++ post)
    (by simp only [fmtChunkBody, List.append_assoc])
    (by simp only [List.length_append, length_toLittleEndian]) hbyteRate
  have e5 := InputStream.skipNextBytes_two_at
    (pre ++ fmtChunkBody format numChannels sampleRate byteRate blockAlign bitsPerSample ++ post)
    (pre.length + 2 + 2 + 4 + 4) blockAlign
    (pre ++ toLittleEndian 2 format ++ toLittleEndian 2 numChannels ++ toLittleEndian 4 sampleRate
      ++ toLittleEndian 4 byteRate)
    (toLittleEndian 2 bitsPerSample ++ post)
    (by simp only [fmtChunkBody, List.append_assoc])
    (by simp only [List.length_append, length_toLittleEndian])
  have e6 := InputStream.readShort_at
    (pre ++ fmtChunkBody format numChannels sampleRate byteRate blockAlign bitsPerSample ++ post)
    (pre.length + 2 + 2 + 4 + 4 + 2) bitsPerSample
    (pre ++ toLittleEndian 2 format ++ toLittleEndian 2 numChannels ++ toLittleEndian 4 sampleRate
      ++ toLittleEndian 4 byteRate ++ toLittleEndian 2 blockAlign)
    post
    (by simp only [fmtChunkBody, List.append_assoc])
    (by simp only [List.length_append, length_toLittleEndian]) hbits
  simp only [readFmtGeometry, hinput, e1, e2, e3, e4, e5, e6]

end WavAudioFormatReader

end

section
open WavFileHelpers

theorem toUInt32_toInt16_of_lt (v : Nat) (h : v < 32768) : toUInt32 (toInt16 v) = v := by
  unfold toUInt32 toInt16
  rw [if_pos (by omega)]
  omega

theorem toUInt32_toInt16_of_ge (v : Nat) (h1 : 32768 ≤ v) (h2 : v < 65536) :
    toUInt32 (toInt16 v) = v + 4294901760 := by
  unfold toUInt32 toInt16
  rw [if_neg (by omega)]
  omega

namespace WavAudioFormatReader

/-- The decision on the format tag leaves the geometry as it is for the tags 1 and 3. -/
theorem fmtFormat_pcm_or_float (r : WavAudioFormatReader) (format length ssp : Nat)
    (hfmt : format = 1 ∨ format = 3) :
    (fmtFormat r format length ssp).1.numChannels = r.numChannels
    ∧ (fmtFormat r format length ssp).1.bitsPerSample = r.bitsPerSample
    ∧ (fmtFormat r format length ssp).1.bytesPerFrame = r.bytesPerFrame := by
  rcases hfmt with h | h <;> subst h <;> simp [fmtFormat]

end WavAudioFormatReader

/-- C12, counterexample: the `fmt ` chunk of `wideChannelStream` declares PCM (tag 1),
a channel count of `0xFFFF` and 8 bits per sample. The reader takes the channel field
as a signed 16-bit value converted to `unsigned int`, 4294967295, and computes the
frame size in 32-bit arithmetic: it is accepted with `bytesPerFrame` 536870911, which
is `c * b / 8` neither for the declared nor for the decoded channel count. -/
theorem C12_counterexample :
    (wideChannelStream.drop 20).take 16 = fmtChunkBody 1 65535 8000 8000 1 8
    ∧ (WavAudioFormat.createReaderFor plainCollaborators (memoryInput wideChannelStream) 4).map
          (Option.map (fun r => (r.numChannels, r.bitsPerSample, r.bytesPerFrame)))
        = .ok (some (4294967295, 8, 536870911))
    ∧ (65535 * 8 / 8 : Int) ≠ 536870911 ∧ (4294967295 * 8 / 8 : Int) ≠ 536870911 := by
  decide!

/-- C12 (amended): the geometry decoded from a `fmt ` chunk body with format tag 1 or
3, channel field `numChannels` and bits field `bitsPerSample` (16-bit fields, taken by
the reader as signed and converted to `unsigned int`). With `bitsPerSample <= 64` the
decode returns, `bitsPerSample` is kept and `bytesPerFrame` is the product of the
converted channel count and `bitsPerSample`, modulo `2^32`, divided by 8; this is
`numChannels * bitsPerSample / 8` when the channel field is below `0x8000`. With
`bitsPerSample > 64` the decode returns when the sample rate and the channel count are
not 0 and the division is not `INT_MIN / -1`; then `bytesPerFrame` is the byte rate
divided by the sample rate as signed 32-bit integers, rounding towards zero, and
`bitsPerSample` is `8 * bytesPerFrame`, modulo `2^32`, divided by the converted channel
count. -/
theorem C12_fmt_geometry (r : WavAudioFormatReader) (pre post : List Nat)
    (format numChannels sampleRate byteRate blockAlign bitsPerSample length ssp : Nat)
    (hinput : r.input = { data := (pre ++ fmtChunkBody format numChannels sampleRate byteRate
        blockAlign bitsPerSample ++ post), position := pre.length })
    (hformat : format = 1 ∨ format = 3) (hchannels : numChannels < 65536)
    (hrate : sampleRate < 4294967296) (hbyteRate : byteRate < 4294967296)
    (hbits : bitsPerSample < 65536) :
    (bitsPerSample ≤ 64 →
      ∃ r', WavAudioFormatReader.readFmtGeometry r = .ok (format, r')
        ∧ (WavAudioFormatReader.fmtFormat r' format length ssp).1.numChannels
            = toUInt32 (toInt16 numChannels)
        ∧ (WavAudioFormatReader.fmtFormat r' format length ssp).1.bitsPerSample = bitsPerSample
        ∧ (WavAudioFormatReader.fmtFormat r' format length ssp).1.bytesPerFrame
            = (((toUInt32 (toInt16 numChannels) * bitsPerSample) % 4294967296 / 8 : Nat) : Int)
        ∧ (numChannels < 32768 →
            (WavAudioFormatReader.fmtFormat r' format length ssp).1.numChannels = numChannels
            ∧ (WavAudioFormatReader.fmtFormat r' format length ssp).1.bytesPerFrame
                = ((numChannels * bitsPerSample / 8 : Nat) : Int)))
    ∧ (64 < bitsPerSample → toInt32 sampleRate ≠ 0 → numChannels ≠ 0 →
        ¬ (toInt32 byteRate = -2147483648 ∧ toInt32 sampleRate = -1) →
      ∃ r', WavAudioFormatReader.readFmtGeometry r = .ok (format, r')
        ∧ (WavAudioFormatReader.fmtFormat r' format length ssp).1.numChannels
            = toUInt32 (toInt16 numChannels)
        ∧ (WavAudioFormatReader.fmtFormat r' format length ssp).1.bytesPerFrame
            = Int.tdiv (toInt32 byteRate) (toInt32 sampleRate)
        ∧ (WavAudioFormatReader.fmtFormat r' format length ssp).1.bitsPerSample
            = (8 * toUInt32 (Int.tdiv (toInt32 byteRate) (toInt32 sampleRate))) % 4294967296
                / toUInt32 (toInt16 numChannels)) := by
  have hf : format < 65536 := by rcases hformat with h | h <;> omega
  have hg := WavAudioFormatReader.readFmtGeometry_at r pre post format numChannels sampleRate
    byteRate blockAlign bitsPerSample hinput hf hchannels hrate hbyteRate hbits
  refine ⟨?_, ?_⟩
  · intro hb
    have eb : toUInt32 (toInt16 bitsPerSample) = bitsPerSample :=
      toUInt32_toInt16_of_lt _ (by omega)
    rw [eb, if_neg (by omega)] at hg
    refine ⟨_, hg, ?_⟩
    have hk := WavAudioFormatReader.fmtFormat_pcm_or_float
      { r with input := { data := r.input.data, position := pre.length + 16 },
               numChannels := toUInt32 (toInt16 numChannels),
               sampleRate := toInt32 sampleRate,
               bitsPerSample := bitsPerSample,
               bytesPerFrame :=
                 (((toUInt32 (toInt16 numChannels) * bitsPerSample) % 4294967296 / 8 : Nat) : Int) }
      format length ssp hformat
    refine ⟨hk.1, hk.2.1, hk.2.2, ?_⟩
    intro hc
    have ec : toUInt32 (toInt16 numChannels) = numChannels := toUInt32_toInt16_of_lt _ hc
    refine ⟨hk.1.trans ec, hk.2.2.trans ?_⟩
    show (((toUInt32 (toInt16 numChannels) * bitsPerSample) % 4294967296 / 8 : Nat) : Int) = _
    rw [ec, Nat.mod_eq_of_lt]
    calc numChannels * bitsPerSample ≤ 32768 * 64 := Nat.mul_le_mul (by omega) hb
      _ < 4294967296 := by decide
  · intro hb hr hc hov
    have eb : toUInt32 (toInt16 bitsPerSample) > 64 := by
      by_cases h : bitsPerSample < 32768
      · rw [toUInt32_toInt16_of_lt _ h]
        exact hb
      · rw [toUInt32_toInt16_of_ge _ (by omega) hbits]
        omega
    have ec : toUInt32 (toInt16 numChannels) ≠ 0 := by
      by_cases h : numChannels < 32768
      · rw [toUInt32_toInt16_of_lt _ h]
        exact hc
      · rw [toUInt32_toInt16_of_ge _ (by omega) hchannels]
        omega
    rw [if_pos eb, if_neg hr, if_neg hov, if_neg ec] at hg
    refine ⟨_, hg, ?_⟩
    have hk := WavAudioFormatReader.fmtFormat_pcm_or_float
      { r with input := { data := r.input.data, position := pre.length + 16 },
               numChannels := toUInt32 (toInt16 numChannels),
               sampleRate := toInt32 sampleRate,
               bytesPerFrame := Int.tdiv (toInt32 byteRate) (toInt32 sampleRate),
               bitsPerSample :=
                 (8 * toUInt32 (Int.tdiv (toInt32 byteRate) (toInt32 sampleRate)))
                   % 4294967296 / toUInt32 (toInt16 numChannels) }
      format length ssp hformat
    exact ⟨hk.1, hk.2.2, hk.2.1⟩

/-- C12 (amended), at the body of a `fmt ` chunk that declares PCM, one channel, 8000 Hz
and 8 bits per sample. -/
theorem C12_fmt_geometry_witness :
    ∃ r', WavAudioFormatReader.readFmtGeometry
          { input := { data := ([] ++ fmtChunkBody 1 1 8000 8000 1 8 ++ []),
                       position := ([] : List Nat).length } } = .ok (1, r')
        ∧ (WavAudioFormatReader.fmtFormat r' 1 16 0).1.numChannels = toUInt32 (toInt16 1)
        ∧ (WavAudioFormatReader.fmtFormat r' 1 16 0).1.bitsPerSample = 8
        ∧ (WavAudioFormatReader.fmtFormat r' 1 16 0).1.bytesPerFrame
            = (((toUInt32 (toInt16 1) * 8) % 4294967296 / 8 : Nat) : Int)
        ∧ (1 < 32768 →
            (WavAudioFormatReader.fmtFormat r' 1 16 0).1.numChannels = 1
            ∧ (WavAudioFormatReader.fmtFormat r' 1 16 0).1.bytesPerFrame
                = ((1 * 8 / 8 : Nat) : Int)) :=
  (C12_fmt_geometry
    { input := { data := ([] ++ fmtChunkBody 1 1 8000 8000 1 8 ++ []),
                 position := ([] : List Nat).length } }
    [] [] 1 1 8000 8000 1 8 16 0 rfl (Or.inl rfl) (by decide) (by decide) (by decide)
    (by decide)).1 (by decide)

end

/-! ### The channel mask of the extensible fmt chunk -/

section
open WavFileHelpers

namespace WavAudioFormatReader

theorem length_maskChannels_le (m : Nat) : (maskChannels m).length ≤ 32 := by
  unfold maskChannels
  rw [List.length_map]
  exact (List.length_filter_le _ _).trans (by simp)

theorem toInt32_of_lt (n : Nat) (h : n < 2147483648) : toInt32 n = (n : Int) := by
  unfold toInt32
  rw [if_pos (by omega)]
  congr 1
  omega

end WavAudioFormatReader

/-- C15: when the declared channel count equals the number of bits set in the 32-bit
channel mask, `getChannelLayoutFromMask` returns the roles `b + 1` of the set bits `b`,
in ascending order of `b`. -/
theorem C15_mask_to_layout (m n : Nat)
    (hn : n = ((List.range 32).filter (fun b => decide ((m / 2 ^ b) % 2 = 1))).length) :
    WavAudioFormatReader.getChannelLayoutFromMask m n
      = ((List.range 32).filter (fun b => decide ((m / 2 ^ b) % 2 = 1))).map (fun b => b + 1) := by
  have hl : (WavAudioFormatReader.maskChannels m).length = n := by
    rw [hn, WavAudioFormatReader.maskChannels, List.length_map]
  have hle := WavAudioFormatReader.length_maskChannels_le m
  have hi : toInt32 n = (n : Int) := WavAudioFormatReader.toInt32_of_lt n (by omega)
  unfold WavAudioFormatReader.getChannelLayoutFromMask
  dsimp only
  rw [hl, hi, if_neg (by simp)]
  rfl

/-- C15, witness: the mask `0x33` (bits 0, 1, 4, 5) with four channels. -/
theorem C15_mask_to_layout_witness :
    WavAudioFormatReader.getChannelLayoutFromMask 51 4
      = ((List.range 32).filter (fun b => decide ((51 / 2 ^ b) % 2 = 1))).map (fun b => b + 1) :=
  C15_mask_to_layout 51 4 (by decide)

/-- C16, counterexample: the mask 7 has three bits set and the declared channel count
is 2; the layout returned has three channels, not two: the padding loop only adds
channels. -/
theorem C16_counterexample :
    ((List.range 32).filter (fun b => decide ((7 / 2 ^ b) % 2 = 1))).length ≠ 2
    ∧ ¬ (2 ≤ 2 ∧ 7 = 0)
    ∧ WavAudioFormatReader.getChannelLayoutFromMask 7 2 = [1, 2, 3]
    ∧ (WavAudioFormatReader.getChannelLayoutFromMask 7 2).length ≠ 2 := by
  decide

/-- C16 (amended): when the number of bits set in the mask differs from the declared
channel count `n` (as an `int`, so `n < 2^31`), and not both `n <= 2` and the mask is 0,
the layout returned consists of the roles of the set bits followed by the discrete roles
`discreteChannel0`, `discreteChannel0 + 1`, ... for the channels that are missing. It
has exactly `n` channels when fewer than `n` bits are set; when more bits are set it
is the layout of the set bits alone. -/
theorem C16_mask_fallback_padding (m n : Nat) (hn : n < 2147483648)
    (hdiff : ((List.range 32).filter (fun b => decide ((m / 2 ^ b) % 2 = 1))).length ≠ n)
    (hnot : ¬ (n ≤ 2 ∧ m % 4294967296 = 0)) :
    WavAudioFormatReader.getChannelLayoutFromMask m n
      = ((List.range 32).filter (fun b => decide ((m / 2 ^ b) % 2 = 1))).map (fun b => b + 1)
        ++ (List.range
              (n - ((List.range 32).filter (fun b => decide ((m / 2 ^ b) % 2 = 1))).length)).map
            (fun i => AudioChannelSet.discreteChannel0 + i)
    ∧ (((List.range 32).filter (fun b => decide ((m / 2 ^ b) % 2 = 1))).length < n →
        (WavAudioFormatReader.getChannelLayoutFromMask m n).length = n)
    ∧ (n < ((List.range 32).filter (fun b => decide ((m / 2 ^ b) % 2 = 1))).length →
        WavAudioFormatReader.getChannelLayoutFromMask m n
          = ((List.range 32).filter (fun b => decide ((m / 2 ^ b) % 2 = 1))).map
              (fun b => b + 1)) := by
  have hl : (WavAudioFormatReader.maskChannels m).length
      = ((List.range 32).filter (fun b => decide ((m / 2 ^ b) % 2 = 1))).length := by
    rw [WavAudioFormatReader.maskChannels, List.length_map]
  have hi : toInt32 n = (n : Int) := WavAudioFormatReader.toInt32_of_lt n hn
  have hne : ((WavAudioFormatReader.maskChannels m).length : Int) ≠ toInt32 n := by
    rw [hi, hl]
    exact_mod_cast hdiff
  have key : WavAudioFormatReader.getChannelLayoutFromMask m n
      = ((List.range 32).filter (fun b => decide ((m / 2 ^ b) % 2 = 1))).map (fun b => b + 1)
        ++ (List.range
              (n - ((List.range 32).filter (fun b => decide ((m / 2 ^ b) % 2 = 1))).length)).map
            (fun i => AudioChannelSet.discreteChannel0 + i) := by
    unfold WavAudioFormatReader.getChannelLayoutFromMask
    dsimp only
    rw [if_pos hne, if_neg hnot, hi, Int.toNat_ofNat, hl]
    rfl
  refine ⟨key, ?_, ?_⟩
  · intro h
    rw [key, List.length_append, List.length_map, List.length_map, List.length_range]
    omega
  · intro h
    rw [key, Nat.sub_eq_zero_of_le (Nat.le_of_lt h)]
    simp

/-- C16 (amended), at the mask 3 (left, right) with four declared channels. -/
theorem C16_mask_fallback_padding_witness :
    WavAudioFormatReader.getChannelLayoutFromMask 3 4 = [1, 2, 128, 129]
    ∧ (WavAudioFormatReader.getChannelLayoutFromMask 3 4).length = 4 :=
  ⟨(C16_mask_fallback_padding 3 4 (by decide) (by decide) (by decide)).1.trans (by decide),
   (C16_mask_fallback_padding 3 4 (by decide) (by decide) (by decide)).2.1 (by decide)⟩

/-- C17: with a mask of 0, `getChannelLayoutFromMask` returns the mono layout for one
channel and the stereo layout for two. -/
theorem C17_mask_fallback_mono_stereo :
    WavAudioFormatReader.getChannelLayoutFromMask 0 1 = AudioChannelSet.mono
    ∧ WavAudioFormatReader.getChannelLayoutFromMask 0 2 = AudioChannelSet.stereo
    ∧ AudioChannelSet.mono = AudioChannelSet.canonicalChannelSet 1
    ∧ AudioChannelSet.stereo = AudioChannelSet.canonicalChannelSet 2 := by
  decide

end

/-! ### The form of the fmt chunk the writer emits -/

section
open WavFileHelpers

namespace WavAudioFormatWriter

/-- The bytes of the `fmt ` chunk in its two forms. -/
theorem fmtBytes_eq (isWaveFmtEx : Bool)
    (numChannels sampleRate bitsPerSample bytesPerFrame channelMask : Nat) :
    fmtBytes isWaveFmtEx numChannels sampleRate bitsPerSample bytesPerFrame channelMask
      = if isWaveFmtEx = true then
          rawChunk (chunkName "fmt ") 40
            (extensibleFmtChunkBody numChannels (doubleToInt sampleRate)
              (doubleToInt (bytesPerFrame * sampleRate)) bytesPerFrame bitsPerSample channelMask
              (if bitsPerSample < 32 then pcmFormat else IEEEFloatFormat))
        else
          rawChunk (chunkName "fmt ") 16
            (fmtChunkBody (if bitsPerSample < 32 then 1 else 3) numChannels
              (doubleToInt sampleRate) (doubleToInt (bytesPerFrame * sampleRate)) bytesPerFrame
              bitsPerSample) := by
  cases isWaveFmtEx <;>
    simp only [fmtBytes, rawChunk, extensibleFmtChunkBody, fmtChunkBody, List.append_assoc,
      if_true, Bool.false_eq_true, if_false, List.append_nil]

theorem length_fmtChunkBody (format numChannels sampleRate byteRate blockAlign bitsPerSample : Nat) :
    (fmtChunkBody format numChannels sampleRate byteRate blockAlign bitsPerSample).length = 16 := by
  simp only [fmtChunkBody, List.length_append, length_toLittleEndian]

theorem length_extensibleFmtChunkBody (numChannels sampleRate byteRate blockAlign bitsPerSample
    channelMask : Nat) (subFormat : ExtensibleWavSubFormat) (h : subFormat.data4.length = 8) :
    (extensibleFmtChunkBody numChannels sampleRate byteRate blockAlign bitsPerSample channelMask
      subFormat).length = 40 := by
  simp only [extensibleFmtChunkBody, List.length_append, length_toLittleEndian,
    length_fmtChunkBody, h]

/-- Bit `b` of the OR of `2 ^ (c - 1)` over the roles `c` of a layout. -/
theorem testBit_foldl_or (l : List Nat) :
    ∀ (init b : Nat), (l.foldl (fun m c => m ||| 2 ^ (c - 1)) init).testBit b
      = (init.testBit b || decide (∃ c ∈ l, c - 1 = b)) := by
  induction l with
  | nil => intro init b; simp
  | cons c rest ih =>
    intro init b
    rw [List.foldl_cons, ih, Nat.testBit_or, Nat.testBit_two_pow]
    by_cases h : c - 1 = b
    · simp [h]
    · simp [h]

end WavAudioFormatWriter

/-- C18: the header `writeHeaderBody` writes holds, after the framing, a `fmt ` chunk
of declared length 40 with format tag `0xFFFE` if the writer has passed `2^32` bytes
(RF64) or the mask derived from its layout is not 0, and a `fmt ` chunk of declared
length 16 otherwise. The derived mask is 0 for a discrete layout and for the mono and
stereo layouts; for any other layout, with roles from 1 to 32, it is the OR of
`1 << (role - 1)` over the roles: bit `b` is set exactly when role `b + 1` is in the
layout. -/
theorem C18_extensible_fmt_trigger (ext : Collaborators) (w : WavAudioFormatWriter)
    (out : OutputStream) (hcap : out.capacity = none) :
    (∃ framing rest : List Nat,
      (WavAudioFormatWriter.writeHeaderBody ext w out).output
        = out.put (framing
            ++ (if w.bytesWritten ≥ 4294967296
                  ∨ WavAudioFormatWriter.getChannelMaskFromChannelLayout w.channelLayout ≠ 0 then
                rawChunk (chunkName "fmt ") 40
                  (extensibleFmtChunkBody w.numChannels (WavAudioFormatWriter.doubleToInt w.sampleRate)
                    (WavAudioFormatWriter.doubleToInt
                      ((w.numChannels * w.bitsPerSample) % 4294967296 / 8 * w.sampleRate))
                    ((w.numChannels * w.bitsPerSample) % 4294967296 / 8) w.bitsPerSample
                    (WavAudioFormatWriter.getChannelMaskFromChannelLayout w.channelLayout)
                    (if w.bitsPerSample < 32 then pcmFormat else IEEEFloatFormat))
              else
                rawChunk (chunkName "fmt ") 16
                  (fmtChunkBody (if w.bitsPerSample < 32 then 1 else 3) w.numChannels
                    (WavAudioFormatWriter.doubleToInt w.sampleRate)
                    (WavAudioFormatWriter.doubleToInt
                      ((w.numChannels * w.bitsPerSample) % 4294967296 / 8 * w.sampleRate))
                    ((w.numChannels * w.bitsPerSample) % 4294967296 / 8) w.bitsPerSample))
            ++ rest)
      ∧ framing = WavAudioFormatWriter.framingBytes (decide (w.bytesWritten ≥ 4294967296))
          (decide (w.bytesWritten ≥ 4294967296)
            || decide (WavAudioFormatWriter.getChannelMaskFromChannelLayout w.channelLayout ≠ 0))
          w.doNotPadHeaderSize
          (WavAudioFormatWriter.riffChunkSize
            (((w.numChannels * w.bitsPerSample) % 4294967296 / 8 * w.lengthInSamples)
              % 18446744073709551616)
            (WavAudioFormatWriter.storedChunksSize ext
              ((w.chunkCollection.map (WavAudioFormatWriter.padStoredChunks ext)).getD [])))
          (((w.numChannels * w.bitsPerSample) % 4294967296 / 8 * w.lengthInSamples)
            % 18446744073709551616))
    ∧ (extensibleFmtChunkBody w.numChannels (WavAudioFormatWriter.doubleToInt w.sampleRate)
          (WavAudioFormatWriter.doubleToInt
            ((w.numChannels * w.bitsPerSample) % 4294967296 / 8 * w.sampleRate))
          ((w.numChannels * w.bitsPerSample) % 4294967296 / 8) w.bitsPerSample
          (WavAudioFormatWriter.getChannelMaskFromChannelLayout w.channelLayout)
          (if w.bitsPerSample < 32 then pcmFormat else IEEEFloatFormat)).length = 40
    ∧ (AudioChannelSet.isDiscreteLayout w.channelLayout = true →
        WavAudioFormatWriter.getChannelMaskFromChannelLayout w.channelLayout = 0)
    ∧ (w.channelLayout = AudioChannelSet.mono ∨ w.channelLayout = AudioChannelSet.stereo →
        WavAudioFormatWriter.getChannelMaskFromChannelLayout w.channelLayout = 0)
    ∧ (AudioChannelSet.isDiscreteLayout w.channelLayout = false →
        w.channelLayout ≠ AudioChannelSet.mono → w.channelLayout ≠ AudioChannelSet.stereo →
        (∀ c ∈ w.channelLayout, 1 ≤ c ∧ c ≤ 32) →
        WavAudioFormatWriter.getChannelMaskFromChannelLayout w.channelLayout
            = w.channelLayout.foldl (fun m c => m ||| 1 <<< (c - 1)) 0
        ∧ ∀ b, b < 32 →
            ((WavAudioFormatWriter.getChannelMaskFromChannelLayout w.channelLayout / 2 ^ b) % 2 = 1
              ↔ b + 1 ∈ w.channelLayout)) := by
  refine ⟨⟨_,
    WavAudioFormatWriter.storedChunksBytes ext
        ((w.chunkCollection.map (WavAudioFormatWriter.padStoredChunks ext)).getD [])
      ++ toLittleEndian 4 (chunkName "data")
      ++ toLittleEndian 4 (if decide (w.bytesWritten ≥ 4294967296) = true then 4294967295
          else w.lengthInSamples * ((w.numChannels * w.bitsPerSample) % 4294967296 / 8)),
    ?_, rfl⟩, ?_, ?_, ?_, ?_⟩
  · rw [WavAudioFormatWriter.writeHeaderBody_output ext w out hcap, WavAudioFormatWriter.headerBytes,
      WavAudioFormatWriter.fmtBytes_eq]
    simp only [Bool.or_eq_true, decide_eq_true_eq, List.append_assoc]
    cases w.chunkCollection <;> rfl
  · apply WavAudioFormatWriter.length_extensibleFmtChunkBody
    split <;> rfl
  · intro h
    rw [WavAudioFormatWriter.getChannelMaskFromChannelLayout, if_pos h]
  · intro h
    rw [WavAudioFormatWriter.getChannelMaskFromChannelLayout]
    split
    · rfl
    · rfl
  · intro hd hm hs hr
    have hd' : ¬ AudioChannelSet.isDiscreteLayout w.channelLayout = true := by simp [hd]
    have hmask : WavAudioFormatWriter.getChannelMaskFromChannelLayout w.channelLayout
        = (w.channelLayout.foldl (fun m c => m ||| 2 ^ (c - 1)) 0) % 4294967296 := by
      rw [WavAudioFormatWriter.getChannelMaskFromChannelLayout, if_neg hd',
        if_neg (by simp [hm, hs])]
    have hfun : (fun (m c : Nat) => m ||| 1 <<< (c - 1)) = (fun m c => m ||| 2 ^ (c - 1)) := by
      funext m c
      rw [Nat.one_shiftLeft]
    have hlt : w.channelLayout.foldl (fun m c => m ||| 2 ^ (c - 1)) 0 < 4294967296 := by
      show _ < 2 ^ 32
      apply Nat.lt_pow_two_of_testBit
      intro i hi
      rw [WavAudioFormatWriter.testBit_foldl_or, Nat.zero_testBit, Bool.false_or,
        decide_eq_false_iff_not]
      rintro ⟨c, hc, he⟩
      have := hr c hc
      omega
    refine ⟨?_, ?_⟩
    · rw [hmask, hfun]
      exact Nat.mod_eq_of_lt hlt
    · intro b hb
      rw [hmask, Nat.mod_eq_of_lt hlt]
      have ht := WavAudioFormatWriter.testBit_foldl_or w.channelLayout 0 b
      rw [Nat.testBit_to_div_mod, Nat.zero_testBit, Bool.false_or] at ht
      constructor
      · intro h
        have h2 : decide (∃ c ∈ w.channelLayout, c - 1 = b) = true := by
          rw [← ht]
          exact decide_eq_true h
        obtain ⟨c, hc, he⟩ := of_decide_eq_true h2
        have := hr c hc
        have e : c = b + 1 := by omega
        rw [← e]
        exact hc
      · intro h
        have h2 : decide (∃ c ∈ w.channelLayout, c - 1 = b) = true :=
          decide_eq_true ⟨b + 1, h, by omega⟩
        rw [← ht] at h2
        exact of_decide_eq_true h2

/-- C18, witness: the 5.1 writer `surroundWriter` on a fresh memory sink. Its mask is
`0x3F`, and the header holds the 40-byte `fmt ` chunk with tag `0xFFFE` at offset 48. -/
theorem C18_extensible_fmt_trigger_witness :
    memoryOutput.capacity = none
    ∧ WavAudioFormatWriter.getChannelMaskFromChannelLayout surroundWriter.channelLayout = 63
    ∧ (∀ b, b < 32 →
        ((WavAudioFormatWriter.getChannelMaskFromChannelLayout surroundWriter.channelLayout / 2 ^ b)
            % 2 = 1
          ↔ b + 1 ∈ surroundWriter.channelLayout))
    ∧ (((WavAudioFormatWriter.writeHeaderBody plainCollaborators surroundWriter
          memoryOutput).output.data.drop 48).take 48
        = rawChunk (chunkName "fmt ") 40
            (extensibleFmtChunkBody 6 48000 576000 12 16 63 pcmFormat)) :=
  ⟨rfl, by decide,
   ((C18_extensible_fmt_trigger plainCollaborators surroundWriter memoryOutput rfl).2.2.2.2
      (by decide) (by decide) (by decide) (by decide)).2,
   by decide!⟩

end

/-! ### The bext chunk encoder -/

section
open WavFileHelpers

theorem length_store (buf : List Nat) (off : Nat) (bytes : List Nat) :
    (store buf off bytes).length = buf.length := by
  simp [store]

theorem getD_store (buf : List Nat) (off : Nat) (bytes : List Nat) (i : Nat)
    (hi : i < buf.length) :
    (store buf off bytes).getD i 0
      = if off ≤ i ∧ i < off + bytes.length then bytes.getD (i - off) 0 else buf.getD i 0 := by
  unfold store
  rw [List.getD_eq_getElem _ _ (by simpa using hi)]
  simp

theorem utf8Encode_head_ne_zero (c : Nat) (hc : c ≠ 0) : (utf8Encode c).getD 0 0 ≠ 0 := by
  unfold utf8Encode
  split_ifs <;> simp [hc]

theorem length_utf8Encode_le (c : Nat) : (utf8Encode c).length ≤ 4 := by
  unfold utf8Encode
  split_ifs <;> simp

theorem length_utf8Encode_pos (c : Nat) : 0 < (utf8Encode c).length := by
  unfold utf8Encode
  split_ifs <;> simp

theorem stringChars_head_ne_zero (s : String) (c : Nat) (cs : List Nat)
    (h : stringChars s = c :: cs) : c ≠ 0 := by
  have hm : c ∈ stringChars s := by rw [h]; exact List.mem_cons_self _ _
  unfold stringChars at hm
  have := List.mem_takeWhile_imp hm
  simpa using this

/-- The first byte `copyToUTF8` writes is zero exactly for an empty text, when the
buffer has room for one character. -/
theorem copyToUTF8_head (s : String) (maxBytes : Nat) (hmax : 5 ≤ maxBytes) :
    (copyToUTF8 s maxBytes).getD 0 0 = 0 ↔ isEmptyString s = true := by
  unfold copyToUTF8 isEmptyString
  cases h : stringChars s with
  | nil => simp [copyChars]
  | cons c cs =>
    have hc := stringChars_head_ne_zero s c cs h
    have h4 := length_utf8Encode_le c
    have hp := length_utf8Encode_pos c
    have hne := utf8Encode_head_ne_zero c hc
    simp only [copyChars, List.isEmpty_cons, Bool.false_eq_true, iff_false]
    rw [if_pos (by omega)]
    cases he : utf8Encode c with
    | nil => rw [he] at hp; simp at hp
    | cons b bs => rw [he] at hne; simpa using hne

theorem copyToUTF8_length_pos (s : String) (maxBytes : Nat) : 0 < (copyToUTF8 s maxBytes).length := by
  simp [copyToUTF8]

theorem BWAVChunk.length_filled (ext : Collaborators) (values : StringPairArray) :
    (BWAVChunk.filled ext values).length
      = roundUpSize (603 + getNumBytesAsUTF8 (values.getValue "bwav coding history" "")) := by
  simp only [BWAVChunk.filled, length_store, List.length_replicate]


theorem getD_store_of_lt (buf : List Nat) (off : Nat) (bytes : List Nat) (i : Nat)
    (hi : i < buf.length) (h : i < off) : (store buf off bytes).getD i 0 = buf.getD i 0 := by
  rw [getD_store buf off bytes i hi, if_neg (by omega)]

theorem getD_store_at (buf : List Nat) (off : Nat) (bytes : List Nat)
    (hi : off < buf.length) (hb : 0 < bytes.length) :
    (store buf off bytes).getD off 0 = bytes.getD 0 0 := by
  rw [getD_store buf off bytes off hi, if_pos (by omega), Nat.sub_self]

theorem roundUpSize_bext (n : Nat) (hn : n + 606 < 4294967296) :
    roundUpSize (603 + n) % 4 = 0 ∧ 603 + n ≤ roundUpSize (603 + n)
      ∧ roundUpSize (603 + n) ≤ 606 + n := by
  unfold roundUpSize
  omega

/-- The five bytes `BWAVChunk::createFrom` tests are the first bytes of the
description, the originator, the origination date, the origination time and the
coding history. -/
theorem BWAVChunk.filled_tested_bytes (ext : Collaborators) (values : StringPairArray)
    (hn : getNumBytesAsUTF8 (values.getValue "bwav coding history" "") + 606 < 4294967296) :
    (BWAVChunk.filled ext values).getD 0 0
        = (copyToUTF8 (values.getValue "bwav description" "") 257).getD 0 0
      ∧ (BWAVChunk.filled ext values).getD 256 0
        = (copyToUTF8 (values.getValue "bwav originator" "") 33).getD 0 0
      ∧ (BWAVChunk.filled ext values).getD 320 0
        = (copyToUTF8 (values.getValue "bwav origination date" "") 11).getD 0 0
      ∧ (BWAVChunk.filled ext values).getD 330 0
        = (copyToUTF8 (values.getValue "bwav origination time" "") 9).getD 0 0
      ∧ (BWAVChunk.filled ext values).getD 602 0
        = (copyToUTF8 (values.getValue "bwav coding history" "") 2147483647).getD 0 0 := by
  have hL := (roundUpSize_bext _ hn).2.1
  unfold BWAVChunk.filled
  dsimp only
  refine ⟨?_, ?_, ?_, ?_, ?_⟩
  · rw [getD_store_of_lt _ _ _ _ (by simp only [length_store, List.length_replicate]; omega) (by omega),
      getD_store_of_lt _ _ _ _ (by simp only [length_store, List.length_replicate]; omega) (by omega),
      getD_store_of_lt _ _ _ _ (by simp only [length_store, List.length_replicate]; omega) (by omega),
      getD_store_of_lt _ _ _ _ (by simp only [length_store, List.length_replicate]; omega) (by omega),
      getD_store_of_lt _ _ _ _ (by simp only [length_store, List.length_replicate]; omega) (by omega),
      getD_store_of_lt _ _ _ _ (by simp only [length_store, List.length_replicate]; omega) (by omega),
      getD_store_of_lt _ _ _ _ (by simp only [length_store, List.length_replicate]; omega) (by omega),
      getD_store_at _ _ _ (by simp only [length_store, List.length_replicate]; omega)
        (copyToUTF8_length_pos _ _)]
  · rw [getD_store_of_lt _ _ _ _ (by simp only [length_store, List.length_replicate]; omega) (by omega),
      getD_store_of_lt _ _ _ _ (by simp only [length_store, List.length_replicate]; omega) (by omega),
      getD_store_of_lt _ _ _ _ (by simp only [length_store, List.length_replicate]; omega) (by omega),
      getD_store_of_lt _ _ _ _ (by simp only [length_store, List.length_replicate]; omega) (by omega),
      getD_store_of_lt _ _ _ _ (by simp only [length_store, List.length_replicate]; omega) (by omega),
      getD_store_of_lt _ _ _ _ (by simp only [length_store, List.length_replicate]; omega) (by omega),
      getD_store_at _ _ _ (by simp only [length_store, List.length_replicate]; omega)
        (copyToUTF8_length_pos _ _)]
  · rw [getD_store_of_lt _ _ _ _ (by simp only [length_store, List.length_replicate]; omega) (by omega),
      getD_store_of_lt _ _ _ _ (by simp only [length_store, List.length_replicate]; omega) (by omega),
      getD_store_of_lt _ _ _ _ (by simp only [length_store, List.length_replicate]; omega) (by omega),
      getD_store_of_lt _ _ _ _ (by simp only [length_store, List.length_replicate]; omega) (by omega),
      getD_store_at _ _ _ (by simp only [length_store, List.length_replicate]; omega)
        (copyToUTF8_length_pos _ _)]
  · rw [getD_store_of_lt _ _ _ _ (by simp only [length_store, List.length_replicate]; omega) (by omega),
      getD_store_of_lt _ _ _ _ (by simp only [length_store, List.length_replicate]; omega) (by omega),
      getD_store_of_lt _ _ _ _ (by simp only [length_store, List.length_replicate]; omega) (by omega),
      getD_store_at _ _ _ (by simp only [length_store, List.length_replicate]; omega)
        (copyToUTF8_length_pos _ _)]
  · rw [getD_store_at _ _ _ (by simp only [length_store, List.length_replicate]; omega)
        (copyToUTF8_length_pos _ _)]

/-- C19, counterexample: a map with a description and no coding history gives a
block of 604 bytes, while 602 + 0 rounded up to the next even number is 602. -/
theorem C19_counterexample :
    BWAVChunk.createFrom plainCollaborators descriptionOnly ≠ []
      ∧ getNumBytesAsUTF8 (descriptionOnly.getValue "bwav coding history" "") = 0
      ∧ (BWAVChunk.createFrom plainCollaborators descriptionOnly).length = 604
      ∧ (BWAVChunk.createFrom plainCollaborators descriptionOnly).length
          ≠ (602 + getNumBytesAsUTF8 (descriptionOnly.getValue "bwav coding history" ""))
            + (602 + getNumBytesAsUTF8 (descriptionOnly.getValue "bwav coding history" "")) % 2 := by
  decide!

/-- C19, amended: whenever `BWAVChunk::createFrom` returns a block, its length is
`roundUpSize (603 + n)` for the UTF-8 byte length `n` of the coding history, that is
`(n + 606) mod 2^32` rounded down to a multiple of four; when `n + 606 < 2^32` this is
the smallest multiple of four that is at least `603 + n`. -/
theorem C19_bext_encoded_size (ext : Collaborators) (values : StringPairArray)
    (hemit : BWAVChunk.createFrom ext values ≠ []) :
    (BWAVChunk.createFrom ext values).length
        = (getNumBytesAsUTF8 (values.getValue "bwav coding history" "") + 606) % 4294967296 / 4 * 4
      ∧ (getNumBytesAsUTF8 (values.getValue "bwav coding history" "") + 606 < 4294967296 →
          (BWAVChunk.createFrom ext values).length % 4 = 0
          ∧ 603 + getNumBytesAsUTF8 (values.getValue "bwav coding history" "")
              ≤ (BWAVChunk.createFrom ext values).length
          ∧ (BWAVChunk.createFrom ext values).length
              < 603 + getNumBytesAsUTF8 (values.getValue "bwav coding history" "") + 4) := by
  have hlen : (BWAVChunk.createFrom ext values).length
      = roundUpSize (603 + getNumBytesAsUTF8 (values.getValue "bwav coding history" "")) := by
    unfold BWAVChunk.createFrom at hemit ⊢
    dsimp only at hemit ⊢
    split_ifs at hemit ⊢ with h
    · exact BWAVChunk.length_filled ext values
    · exact absurd rfl hemit
  rw [hlen]
  refine ⟨by unfold roundUpSize; omega, fun hn => ?_⟩
  have := roundUpSize_bext _ hn
  omega

/-- C19, instance: the metadata of the unit test, whose coding history has 13
bytes, gives a block of 616 bytes. -/
theorem C19_bext_encoded_size_witness :
    BWAVChunk.createFrom plainCollaborators WaveAudioFormatTests.metadataValues ≠ []
      ∧ getNumBytesAsUTF8 (WaveAudioFormatTests.metadataValues.getValue "bwav coding history" "") = 13
      ∧ (BWAVChunk.createFrom plainCollaborators WaveAudioFormatTests.metadataValues).length = 616 :=
  ⟨by decide!, by decide!,
   ((C19_bext_encoded_size plainCollaborators WaveAudioFormatTests.metadataValues (by decide!)).1).trans (by decide!)⟩

/-- C20, counterexample: a map whose only bext field is a non-empty originator
reference gives the empty block. -/
theorem C20_counterexample :
    isEmptyString (originatorRefOnly.getValue "bwav originator ref" "") = false
      ∧ BWAVChunk.createFrom plainCollaborators originatorRefOnly = [] := by
  decide!

/-- C20, what the code tests: `BWAVChunk::createFrom` returns the empty block if and
only if the description, the originator, the origination date, the origination time
and the coding history are empty and the time reference is zero; the originator
reference, alone among the fields of the block, is not looked at. (The coding history
is short enough for the 32-bit size computation not to wrap.) -/
theorem C20_bext_omission (ext : Collaborators) (values : StringPairArray)
    (hn : getNumBytesAsUTF8 (values.getValue "bwav coding history" "") + 606 < 4294967296) :
    BWAVChunk.createFrom ext values = []
      ↔ (isEmptyString (values.getValue "bwav description" "") = true
          ∧ isEmptyString (values.getValue "bwav originator" "") = true
          ∧ isEmptyString (values.getValue "bwav origination date" "") = true
          ∧ isEmptyString (values.getValue "bwav origination time" "") = true
          ∧ isEmptyString (values.getValue "bwav coding history" "") = true
          ∧ BWAVChunk.timeReference ext values = 0) := by
  obtain ⟨h0, h256, h320, h330, h602⟩ := BWAVChunk.filled_tested_bytes ext values hn
  have hL := (roundUpSize_bext _ hn).2.1
  have hne : BWAVChunk.filled ext values ≠ [] := by
    intro h
    have := BWAVChunk.length_filled ext values
    rw [h] at this
    simp only [List.length_nil] at this
    omega
  unfold BWAVChunk.createFrom
  dsimp only
  rw [h0, h256, h320, h330, h602]
  rw [← copyToUTF8_head _ 257 (by omega), ← copyToUTF8_head _ 33 (by omega),
    ← copyToUTF8_head _ 11 (by omega), ← copyToUTF8_head _ 9 (by omega),
    ← copyToUTF8_head _ 2147483647 (by omega)]
  split_ifs with h
  · constructor
    · intro hh; exact absurd hh hne
    · intro hh
      rcases h with h | h | h | h | h | h
      · exact absurd hh.1 h
      · exact absurd hh.2.1 h
      · exact absurd hh.2.2.1 h
      · exact absurd hh.2.2.2.1 h
      · exact absurd hh.2.2.2.2.1 h
      · exact absurd hh.2.2.2.2.2 h
  · constructor
    · intro _
      refine ⟨?_, ?_, ?_, ?_, ?_, ?_⟩
      · exact Classical.not_not.mp (fun hc => h (Or.inl hc))
      · exact Classical.not_not.mp (fun hc => h (Or.inr (Or.inl hc)))
      · exact Classical.not_not.mp (fun hc => h (Or.inr (Or.inr (Or.inl hc))))
      · exact Classical.not_not.mp (fun hc => h (Or.inr (Or.inr (Or.inr (Or.inl hc)))))
      · exact Classical.not_not.mp (fun hc => h (Or.inr (Or.inr (Or.inr (Or.inr (Or.inl hc))))))
      · exact Classical.not_not.mp (fun hc => h (Or.inr (Or.inr (Or.inr (Or.inr (Or.inr hc))))))
    · intro _; trivial

/-- C20, instance: with only an originator reference the block is empty, with only
a description it is not. -/
theorem C20_bext_omission_witness :
    (getNumBytesAsUTF8 (originatorRefOnly.getValue "bwav coding history" "") + 606 < 4294967296)
      ∧ BWAVChunk.createFrom plainCollaborators originatorRefOnly = []
      ∧ isEmptyString (descriptionOnly.getValue "bwav description" "") = false
      ∧ BWAVChunk.createFrom plainCollaborators descriptionOnly ≠ [] :=
  ⟨by decide!,
   (C20_bext_omission plainCollaborators originatorRefOnly (by decide!)).2 (by decide!),
   by decide!, by decide!⟩

end

/-! ### The sample count of the data extent -/

section
open WavFileHelpers

namespace WavAudioFormatReader

theorem SameDataExtent.andThenData {r1 r2 r3 : WavAudioFormatReader} (h1 : SameDataExtent r1 r2)
    (h2 : SameDataExtent r2 r3) : SameDataExtent r1 r3 :=
  ⟨h2.1.trans h1.1, h2.2.1.trans h1.2.1, h2.2.2.trans h1.2.2⟩

theorem SameExtent.self (r : WavAudioFormatReader) : SameExtent r r := ⟨⟨rfl, rfl, rfl⟩, rfl⟩

theorem SameExtent.andThen {r1 r2 r3 : WavAudioFormatReader} (h1 : SameExtent r1 r2)
    (h2 : SameExtent r2 r3) : SameExtent r1 r3 :=
  ⟨h1.1.andThenData h2.1, h2.2.trans h1.2⟩

theorem readChunkHeader_sameExtent (storeChunks : Bool) (r : WavAudioFormatReader) :
    SameExtent r (readChunkHeader storeChunks r).reader := by
  unfold readChunkHeader
  dsimp only
  split_ifs
  · exact ⟨⟨rfl, rfl, rfl⟩, rfl⟩
  · exact ⟨⟨rfl, rfl, rfl⟩, rfl⟩

theorem readFmtGeometry_sameDataExtent (r : WavAudioFormatReader) (g : Nat × WavAudioFormatReader)
    (h : readFmtGeometry r = .ok g) : SameDataExtent r g.2 := by
  unfold readFmtGeometry at h
  dsimp only at h
  split_ifs at h
  all_goals
    injection h with h
    subst h
    exact ⟨rfl, rfl, rfl⟩

theorem fmtFormat_sameDataExtent (r : WavAudioFormatReader) (format length ssp : Nat) :
    SameDataExtent r (fmtFormat r format length ssp).1 := by
  unfold fmtFormat
  dsimp only
  split_ifs <;> exact ⟨rfl, rfl, rfl⟩

theorem adtlSubChunk_sameExtent (st : ChunkLoopState) :
    SameExtent st.reader (adtlSubChunk st).reader := by
  unfold adtlSubChunk
  dsimp only
  split_ifs <;> exact ⟨⟨rfl, rfl, rfl⟩, rfl⟩

theorem adtlLoop_sameExtent (chunkEnd : Nat) :
    ∀ (fuel : Nat) (st st1 : ChunkLoopState), adtlLoop chunkEnd fuel st = .ok st1 →
      SameExtent st.reader st1.reader := by
  intro fuel
  induction fuel with
  | zero => intro st st1 h; rw [adtlLoop] at h; cases h
  | succ n ih =>
    intro st st1 h
    rw [adtlLoop] at h
    split_ifs at h
    · exact (adtlSubChunk_sameExtent st).andThen (ih _ _ h)
    · injection h with h
      subst h
      exact SameExtent.self _

theorem listChunk_sameExtent (fuel : Nat) (st : ChunkLoopState) (h : ChunkHeader) (fl : Flow)
    (hl : listChunk fuel st h = .ok fl) : SameExtent h.reader fl.state.reader := by
  unfold listChunk at hl
  dsimp only at hl
  split_ifs at hl
  · split at hl
    · cases hl
    · injection hl with hl
      subst hl
      exact ⟨⟨rfl, rfl, rfl⟩, rfl⟩
  · split at hl
    · cases hl
    · rename_i st1 hst1
      injection hl with hl
      subst hl
      exact adtlLoop_sameExtent _ _ _ _ hst1
  · injection hl with hl
    subst hl
    exact ⟨⟨rfl, rfl, rfl⟩, rfl⟩

theorem metadataChunk_sameExtent (ext : Collaborators) (storeChunks : Bool) (h : ChunkHeader)
    (r : WavAudioFormatReader) (hm : metadataChunk ext storeChunks h = some r) :
    SameExtent h.reader r := by
  unfold metadataChunk at hm
  dsimp only at hm
  split_ifs at hm
  all_goals
    injection hm with hm
    subst hm
    exact ⟨⟨rfl, rfl, rfl⟩, rfl⟩

theorem SampleCountCurrent.of_sameExtent {r r' : WavAudioFormatReader}
    (h : SameExtent r r') (hc : SampleCountCurrent r) : SampleCountCurrent r' := by
  unfold SampleCountCurrent at hc ⊢
  rw [h.1.2.2, h.1.2.1, h.2]
  exact hc

theorem finishMetadata_sameExtent (st : ChunkLoopState) :
    SameExtent st.reader (finishMetadata st) := by
  unfold finishMetadata
  exact ⟨⟨rfl, rfl, rfl⟩, rfl⟩

theorem seekToChunkEnd_sameExtent (st : ChunkLoopState) (r : WavAudioFormatReader)
    (chunkEnd : Nat) : SameExtent r (seekToChunkEnd st r chunkEnd).state.reader :=
  ⟨⟨rfl, rfl, rfl⟩, rfl⟩

/-- What one pass through the body of the chunk loop does to the data extent: a
`data` pass keeps the RF64 flag and the frame size, keeps the data length of an RF64
reader and takes the declared length otherwise, and computes the sample count; a
pass for another tag keeps flag, data length and sample count, and also the frame
size unless the tag is `fmt `. -/
theorem chunk_extent (ext : Collaborators) (storeChunks : Bool) (ssp n : Nat)
    (st : ChunkLoopState) (fl : Flow) (hc : chunk ext storeChunks ssp n st = .ok fl) :
    ((readChunkHeader storeChunks st.reader).chunkType = chunkName "data" →
        fl.state.reader.isRF64 = st.reader.isRF64
        ∧ fl.state.reader.bytesPerFrame = st.reader.bytesPerFrame
        ∧ fl.state.reader.dataLength
            = (if st.reader.isRF64 then st.reader.dataLength
               else ((readChunkHeader storeChunks st.reader).length : Int))
        ∧ SampleCountCurrent fl.state.reader)
    ∧ ((readChunkHeader storeChunks st.reader).chunkType ≠ chunkName "data" →
        SameDataExtent st.reader fl.state.reader)
    ∧ ((readChunkHeader storeChunks st.reader).chunkType ≠ chunkName "data" →
        (readChunkHeader storeChunks st.reader).chunkType ≠ chunkName "fmt " →
        SameExtent st.reader fl.state.reader) := by
  have hH := readChunkHeader_sameExtent storeChunks st.reader
  unfold chunk at hc
  dsimp only at hc
  split_ifs at hc with h1 h2 h3
  · -- fmt
    have hne : (readChunkHeader storeChunks st.reader).chunkType ≠ chunkName "data" := by
      rw [h1]; decide
    refine ⟨fun h => absurd h hne, fun _ => ?_, fun _ h => absurd h1 h⟩
    unfold fmtChunk at hc
    split at hc
    · cases hc
    · rename_i g hg
      have hG := readFmtGeometry_sameDataExtent _ _ hg
      have hF := fmtFormat_sameDataExtent g.2 g.1 (readChunkHeader storeChunks st.reader).length ssp
      dsimp only at hc
      split_ifs at hc
      · injection hc with hc
        subst hc
        exact (hH.1.andThenData hG).andThenData hF
      · injection hc with hc
        subst hc
        exact ((hH.1.andThenData hG).andThenData hF).andThenData (seekToChunkEnd_sameExtent st _ _).1
  · -- data
    refine ⟨fun _ => ?_, fun h => absurd h2 h, fun h => absurd h2 h⟩
    injection hc with hc
    subst hc
    refine ⟨hH.1.1, hH.2, ?_, ?_⟩
    · show (if (readChunkHeader storeChunks st.reader).reader.isRF64 = true
          then (readChunkHeader storeChunks st.reader).reader.dataLength
          else ((readChunkHeader storeChunks st.reader).length : Int)) = _
      rw [hH.1.1, hH.1.2.1]
    · rfl
  · -- LIST
    have hL := listChunk_sameExtent _ _ _ _ hc
    exact ⟨fun h => absurd h h2, fun _ => (hH.andThen hL).1, fun _ _ => hH.andThen hL⟩
  · split at hc
    · injection hc with hc
      subst hc
      rename_i r hr
      have hM := (hH.andThen (metadataChunk_sameExtent _ _ _ _ hr)).andThen
        (seekToChunkEnd_sameExtent st r (readChunkHeader storeChunks st.reader).chunkEnd)
      exact ⟨fun h => absurd h h2, fun _ => hM.1, fun _ _ => hM⟩
    · injection hc with hc
      subst hc
      exact ⟨fun h => absurd h h2, fun _ => hH.1, fun _ _ => hH⟩
  · split at hc
    · injection hc with hc
      subst hc
      rename_i r hr
      have hM := (hH.andThen (metadataChunk_sameExtent _ _ _ _ hr)).andThen
        (seekToChunkEnd_sameExtent st r (readChunkHeader storeChunks st.reader).chunkEnd)
      exact ⟨fun h => absurd h h2, fun _ => hM.1, fun _ _ => hM⟩
    · injection hc with hc
      subst hc
      have hM := hH.andThen (seekToChunkEnd_sameExtent st (readChunkHeader storeChunks st.reader).reader
        (readChunkHeader storeChunks st.reader).chunkEnd)
      exact ⟨fun h => absurd h h2, fun _ => hM.1, fun _ _ => hM⟩

/-- A pass that is not a `fmt ` pass leaves a current sample count current. -/
theorem chunk_sampleCount (ext : Collaborators) (storeChunks : Bool) (ssp n : Nat)
    (st : ChunkLoopState) (fl : Flow) (hc : chunk ext storeChunks ssp n st = .ok fl)
    (hfmt : (readChunkHeader storeChunks st.reader).chunkType ≠ chunkName "fmt ")
    (hcur : SampleCountCurrent st.reader) : SampleCountCurrent fl.state.reader := by
  have h := chunk_extent ext storeChunks ssp n st fl hc
  by_cases hd : (readChunkHeader storeChunks st.reader).chunkType = chunkName "data"
  · exact (h.1 hd).2.2.2
  · exact SampleCountCurrent.of_sameExtent (h.2.2 hd hfmt) hcur

/-- The sample count after the chunk loop is current when it was so before and no
`fmt ` chunk was passed, and when a `data` chunk was passed with no `fmt ` chunk after
it. -/
theorem chunkLoop_sampleCount (ext : Collaborators) (storeChunks : Bool) (ssp end_ n : Nat) :
    ∀ (fuel : Nat) (st : ChunkLoopState) (b : Bool) (st' : ChunkLoopState),
      chunkLoop ext storeChunks ssp end_ n fuel st = .ok (b, st') →
      (SampleCountCurrent st.reader →
          chunkName "fmt " ∉ chunkTags ext storeChunks ssp end_ n fuel st →
          SampleCountCurrent st'.reader)
      ∧ (∀ pre post, chunkTags ext storeChunks ssp end_ n fuel st = pre ++ chunkName "data" :: post →
          chunkName "fmt " ∉ post → SampleCountCurrent st'.reader) := by
  intro fuel
  induction fuel with
  | zero => intro st b st' h; rw [chunkLoop] at h; cases h
  | succ k ih =>
    intro st b st' h
    rw [chunkLoop] at h
    rw [chunkTags]
    by_cases hcond : st.reader.input.getPosition < end_ ∧ ¬ st.reader.input.isExhausted
    · rw [if_pos hcond] at h
      rw [if_pos hcond]
      cases hchunk : chunk ext storeChunks ssp n st with
      | error e => rw [hchunk] at h; cases h
      | ok fl =>
        rw [hchunk] at h
        have hE := chunk_extent ext storeChunks ssp n st fl hchunk
        cases fl with
        | next st1 =>
          dsimp only at h ⊢
          have hI := ih st1 b st' h
          constructor
          · intro hcur hno
            rw [List.mem_cons, not_or] at hno
            exact hI.1 (chunk_sampleCount ext storeChunks ssp n st _ hchunk (Ne.symm hno.1) hcur) hno.2
          · intro pre post htags hno
            cases pre with
            | nil =>
              rw [List.nil_append, List.cons.injEq] at htags
              rw [htags.2] at hI
              exact hI.1 (hE.1 htags.1).2.2.2 hno
            | cons p pre' =>
              rw [List.cons_append, List.cons.injEq] at htags
              exact hI.2 pre' post htags.2 hno
        | brk st1 =>
          dsimp only at h ⊢
          injection h with h
          rw [Prod.mk.injEq] at h
          obtain ⟨_, h⟩ := h
          subst h
          constructor
          · intro hcur hno
            rw [List.mem_cons, not_or] at hno
            exact chunk_sampleCount ext storeChunks ssp n st _ hchunk (Ne.symm hno.1) hcur
          · intro pre post htags hno
            cases pre with
            | nil =>
              rw [List.nil_append, List.cons.injEq] at htags
              exact (hE.1 htags.1).2.2.2
            | cons p pre' =>
              rw [List.cons_append, List.cons.injEq] at htags
              have := congrArg List.length htags.2
              simp only [List.length_nil, List.length_append, List.length_cons] at this
              omega
        | ret st1 =>
          dsimp only at h ⊢
          injection h with h
          rw [Prod.mk.injEq] at h
          obtain ⟨_, h⟩ := h
          subst h
          constructor
          · intro hcur hno
            rw [List.mem_cons, not_or] at hno
            exact chunk_sampleCount ext storeChunks ssp n st _ hchunk (Ne.symm hno.1) hcur
          · intro pre post htags hno
            cases pre with
            | nil =>
              rw [List.nil_append, List.cons.injEq] at htags
              exact (hE.1 htags.1).2.2.2
            | cons p pre' =>
              rw [List.cons_append, List.cons.injEq] at htags
              have := congrArg List.length htags.2
              simp only [List.length_nil, List.length_append, List.length_cons] at this
              omega
    · rw [if_neg hcond] at h
      rw [if_neg hcond]
      injection h with h
      rw [Prod.mk.injEq] at h
      obtain ⟨_, h⟩ := h
      subst h
      constructor
      · intro hcur _; exact hcur
      · intro pre post htags _
        have := congrArg List.length htags
        simp only [List.length_nil, List.length_append, List.length_cons] at this
        omega

/-- The chunk loop of an RF64 reader keeps the RF64 flag and the data length. -/
theorem chunkLoop_rf64 (ext : Collaborators) (storeChunks : Bool) (ssp end_ n : Nat) :
    ∀ (fuel : Nat) (st : ChunkLoopState) (b : Bool) (st' : ChunkLoopState),
      chunkLoop ext storeChunks ssp end_ n fuel st = .ok (b, st') →
      st.reader.isRF64 = true →
      st'.reader.isRF64 = true ∧ st'.reader.dataLength = st.reader.dataLength := by
  have pass : ∀ (st : ChunkLoopState) (fl : Flow), chunk ext storeChunks ssp n st = .ok fl →
      st.reader.isRF64 = true →
      fl.state.reader.isRF64 = true ∧ fl.state.reader.dataLength = st.reader.dataLength := by
    intro st fl hchunk hrf
    have hE := chunk_extent ext storeChunks ssp n st fl hchunk
    by_cases hd : (readChunkHeader storeChunks st.reader).chunkType = chunkName "data"
    · have h := hE.1 hd
      rw [hrf] at h
      exact ⟨h.1, by rw [h.2.2.1, if_pos rfl]⟩
    · have h := hE.2.1 hd
      exact ⟨h.1.trans hrf, h.2.1⟩
  intro fuel
  induction fuel with
  | zero => intro st b st' h; rw [chunkLoop] at h; cases h
  | succ k ih =>
    intro st b st' h hrf
    rw [chunkLoop] at h
    by_cases hcond : st.reader.input.getPosition < end_ ∧ ¬ st.reader.input.isExhausted
    · rw [if_pos hcond] at h
      cases hchunk : chunk ext storeChunks ssp n st with
      | error e => rw [hchunk] at h; cases h
      | ok fl =>
        rw [hchunk] at h
        have hP := pass st fl hchunk hrf
        cases fl with
        | next st1 =>
          dsimp only at h
          have hI := ih st1 b st' h hP.1
          exact ⟨hI.1, hI.2.trans hP.2⟩
        | brk st1 =>
          dsimp only at h
          injection h with h
          rw [Prod.mk.injEq] at h
          obtain ⟨_, h⟩ := h
          subst h
          exact hP
        | ret st1 =>
          dsimp only at h
          injection h with h
          rw [Prod.mk.injEq] at h
          obtain ⟨_, h⟩ := h
          subst h
          exact hP
    · rw [if_neg hcond] at h
      injection h with h
      rw [Prod.mk.injEq] at h
      obtain ⟨_, h⟩ := h
      subst h
      exact ⟨hrf, rfl⟩

/-- A result of `runChunkLoop` comes from a result of the chunk loop and has its data
extent. -/
theorem runChunkLoop_ok (ext : Collaborators) (storeChunks : Bool) (ssp end_ fuel : Nat)
    (r r' : WavAudioFormatReader) (h : runChunkLoop ext storeChunks ssp end_ fuel r = .ok r') :
    ∃ b st', chunkLoop ext storeChunks ssp end_ fuel fuel { reader := r } = .ok (b, st')
      ∧ SameExtent st'.reader r' := by
  unfold runChunkLoop at h
  split at h
  · cases h
  · rename_i st hst
    injection h with h
    subst h
    exact ⟨true, st, hst, SameExtent.self _⟩
  · rename_i st hst
    injection h with h
    subst h
    exact ⟨false, st, hst, finishMetadata_sameExtent st⟩

theorem doReadWave_of_entry (ext : Collaborators) (r : WavAudioFormatReader) (storeChunks : Bool)
    (ssp end_ fuel : Nat) (e : Nat × WavAudioFormatReader) (he : waveEntry r end_ = some e) :
    doReadWave ext r storeChunks ssp end_ fuel = runChunkLoop ext storeChunks ssp e.1 fuel e.2 := by
  unfold waveEntry at he
  unfold doReadWave
  dsimp only at he ⊢
  split_ifs at he ⊢
  all_goals
    have he' := Option.some.inj he
    subst he'
    dsimp only

/-- The run of `doRead` is the chunk loop from the state `chunkLoopEntry` gives. -/
theorem doRead_of_entry (ext : Collaborators) (r : WavAudioFormatReader) (storeChunks : Bool)
    (fuel : Nat) (e : Nat × WavAudioFormatReader) (he : chunkLoopEntry r = some e) :
    doRead ext r storeChunks fuel = runChunkLoop ext storeChunks r.input.getPosition e.1 fuel e.2 := by
  unfold chunkLoopEntry at he
  unfold doRead
  dsimp only at he ⊢
  split_ifs at he ⊢ with h1 h2
  · exact doReadWave_of_entry ext _ storeChunks _ _ fuel e he
  · exact doReadWave_of_entry ext _ storeChunks _ _ fuel e he

end WavAudioFormatReader

/-- C13, counterexample: in `dataFirstStream` the `data` chunk (two bytes) comes before
the `fmt ` chunk (one byte per frame). The decode is accepted and ends with
`bytesPerFrame` 1 and `dataLength` 2, but `lengthInSamples` is 0, not 2 / 1. -/
theorem C13_counterexample :
    WavAudioFormatReader.passTags plainCollaborators { input := memoryInput dataFirstStream } false 4
        = [chunkName "data", chunkName "fmt "]
    ∧ (WavAudioFormat.createReaderFor plainCollaborators (memoryInput dataFirstStream) 4).map
          (Option.map (fun r => (r.lengthInSamples, r.dataLength, r.bytesPerFrame)))
        = .ok (some (0, 2, 1))
    ∧ (0 : Int) ≠ Int.tdiv 2 1 := by
  decide!

/-- C13 (amended): when `doRead` returns and the chunks it passed through include a
`data` chunk after which no `fmt ` chunk was passed, `lengthInSamples` is
`dataLength / bytesPerFrame` (truncating division) if `bytesPerFrame > 0`, and 0
otherwise. The tags of the passes are `passTags`. -/
theorem C13_sample_count (ext : Collaborators) (r : WavAudioFormatReader) (storeChunks : Bool)
    (fuel : Nat) (r' : WavAudioFormatReader) (pre post : List Nat)
    (hrun : WavAudioFormatReader.doRead ext r storeChunks fuel = .ok r')
    (htags : WavAudioFormatReader.passTags ext r storeChunks fuel = pre ++ chunkName "data" :: post)
    (hfmt : chunkName "fmt " ∉ post) :
    r'.lengthInSamples
        = (if r'.bytesPerFrame > 0 then Int.tdiv r'.dataLength r'.bytesPerFrame else 0)
      ∧ (r'.bytesPerFrame > 0 → r'.lengthInSamples = Int.tdiv r'.dataLength r'.bytesPerFrame) := by
  have key : WavAudioFormatReader.SampleCountCurrent r' := by
    unfold WavAudioFormatReader.passTags at htags
    cases he : WavAudioFormatReader.chunkLoopEntry r with
    | none =>
      rw [he] at htags
      have := congrArg List.length htags
      simp only [List.length_nil, List.length_append, List.length_cons] at this
      omega
    | some e =>
      rw [he] at htags
      dsimp only at htags
      rw [WavAudioFormatReader.doRead_of_entry ext r storeChunks fuel e he] at hrun
      obtain ⟨b, st', hloop, hsame⟩ := WavAudioFormatReader.runChunkLoop_ok _ _ _ _ _ _ _ hrun
      exact WavAudioFormatReader.SampleCountCurrent.of_sameExtent hsame
        ((WavAudioFormatReader.chunkLoop_sampleCount ext storeChunks _ _ _ fuel _ b st' hloop).2
          pre post htags hfmt)
  unfold WavAudioFormatReader.SampleCountCurrent at key
  refine ⟨key, fun hpos => ?_⟩
  rw [key, if_pos hpos]

/-- C13, instance: the stream `riffFile 38 pcmChunks` has its `fmt ` chunk before its
`data` chunk of two bytes, and one byte per frame: the sample count is 2. -/
theorem C13_sample_count_witness :
    WavAudioFormatReader.doRead plainCollaborators { input := memoryInput (riffFile 38 pcmChunks) }
        false 4
      = .ok { input := { data := riffFile 38 pcmChunks, position := 46 }, sampleRate := 8000,
              bitsPerSample := 8, lengthInSamples := 2, numChannels := 1, dataChunkStart := 44,
              dataLength := 2, bytesPerFrame := 1 }
    ∧ WavAudioFormatReader.passTags plainCollaborators
          { input := memoryInput (riffFile 38 pcmChunks) } false 4
        = [chunkName "fmt "] ++ chunkName "data" :: []
    ∧ ((2 : Int) = if (1 : Int) > 0 then Int.tdiv 2 1 else 0) :=
  ⟨by decide!, by decide!,
   (C13_sample_count plainCollaborators { input := memoryInput (riffFile 38 pcmChunks) } false 4
      { input := { data := riffFile 38 pcmChunks, position := 46 }, sampleRate := 8000,
        bitsPerSample := 8, lengthInSamples := 2, numChannels := 1, dataChunkStart := 44,
        dataLength := 2, bytesPerFrame := 1 }
      [chunkName "fmt "] [] (by decide!) (by decide!) (by decide!)).1⟩

end

/-! ### The sizes of an RF64 stream -/

section
open WavFileHelpers

/-- C14: a stream whose first tag is `RF64` and whose tag after the size field is
`WAVE` (`w`); `d` is the tag read next and `l` the length read after it. If `d` is
not `ds64` the chunk loop runs with end offset 0, so no chunk is decoded; if it is
and `l < 28`, `doRead` returns at once: in both cases the geometry fields are
untouched. Otherwise the chunk loop runs up to the 64-bit RIFF size of `ds64` plus
the offset just after the top size field (modulo `2^64`), with the 64-bit data size
of `ds64` as `dataLength`; every result keeps that `dataLength`, and the sample count
computed at a `data` chunk uses it, not the length the chunk header declares. -/
theorem C14_rf64_sizing (ext : Collaborators) (r : WavAudioFormatReader) (storeChunks : Bool)
    (fuel : Nat) (w d l len dl : Nat × InputStream)
    (htop : r.input.readInt.1 = chunkName "RF64")
    (hw : w = (r.input.readInt.2.skipNextBytes 4).readInt)
    (hwave : w.1 = chunkName "WAVE")
    (hd : d = w.2.readInt) (hl : l = d.2.readInt)
    (hlen : len = l.2.readInt64) (hdl : dl = len.2.readInt64) :
    (d.1 ≠ chunkName "ds64" →
        ∃ r', WavAudioFormatReader.doRead ext r storeChunks (fuel + 1) = .ok r'
          ∧ r' = WavAudioFormatReader.finishMetadata
                  { reader := { r with input := d.2, isRF64 := true } }
          ∧ (r'.sampleRate, r'.numChannels, r'.bitsPerSample, r'.bytesPerFrame, r'.lengthInSamples)
              = (r.sampleRate, r.numChannels, r.bitsPerSample, r.bytesPerFrame, r.lengthInSamples))
    ∧ (d.1 = chunkName "ds64" → l.1 < 28 →
        ∃ r', WavAudioFormatReader.doRead ext r storeChunks fuel = .ok r'
          ∧ r' = { r with input := l.2, isRF64 := true }
          ∧ (r'.sampleRate, r'.numChannels, r'.bitsPerSample, r'.bytesPerFrame, r'.lengthInSamples)
              = (r.sampleRate, r.numChannels, r.bitsPerSample, r.bytesPerFrame, r.lengthInSamples))
    ∧ (d.1 = chunkName "ds64" → 28 ≤ l.1 →
        WavAudioFormatReader.doRead ext r storeChunks fuel
          = WavAudioFormatReader.runChunkLoop ext storeChunks r.input.getPosition
              ((len.1 + (r.input.readInt.2.skipNextBytes 4).getPosition) % 18446744073709551616) fuel
              { r with input := dl.2.setPosition ((l.2.getPosition + l.1 + l.1 % 2 : Nat) : Int), isRF64 := true,
                       dataLength := toInt64 dl.1 }
        ∧ ∀ r', WavAudioFormatReader.doRead ext r storeChunks fuel = .ok r' →
            r'.isRF64 = true ∧ r'.dataLength = toInt64 dl.1
            ∧ ∀ pre post,
                WavAudioFormatReader.passTags ext r storeChunks fuel
                    = pre ++ chunkName "data" :: post →
                chunkName "fmt " ∉ post →
                r'.lengthInSamples
                  = if r'.bytesPerFrame > 0 then Int.tdiv (toInt64 dl.1) r'.bytesPerFrame else 0) := by
  subst hw hd hl hlen hdl
  refine ⟨fun hds => ?_, fun hds h28 => ?_, fun hds h28 => ?_⟩
  · have he : WavAudioFormatReader.chunkLoopEntry r
        = some (0, { r with input := ((r.input.readInt.2.skipNextBytes 4).readInt.2.readInt).2,
                            isRF64 := true }) := by
      unfold WavAudioFormatReader.chunkLoopEntry
      dsimp only
      rw [if_pos htop]
      unfold WavAudioFormatReader.waveEntry
      dsimp only
      rw [if_pos hwave, if_neg hds, if_pos rfl]
    refine ⟨_, ?_, rfl, ?_⟩
    · rw [WavAudioFormatReader.doRead_of_entry ext r storeChunks (fuel + 1) _ he]
      unfold WavAudioFormatReader.runChunkLoop
      rw [WavAudioFormatReader.chunkLoop, if_neg (fun h => absurd h.1 (Nat.not_lt_zero _))]
    · unfold WavAudioFormatReader.finishMetadata
      dsimp only
  · refine ⟨_, ?_, rfl, ?_⟩
    · unfold WavAudioFormatReader.doRead
      dsimp only
      rw [if_pos htop]
      unfold WavAudioFormatReader.doReadWave
      dsimp only
      rw [if_pos hwave, if_pos hds, if_pos h28, if_pos rfl]
    · dsimp only
  · have he : WavAudioFormatReader.chunkLoopEntry r
        = some ((((r.input.readInt.2.skipNextBytes 4).readInt.2.readInt.2.readInt.2.readInt64).1
                  + (r.input.readInt.2.skipNextBytes 4).getPosition) % 18446744073709551616,
                { r with
                  input := ((r.input.readInt.2.skipNextBytes 4).readInt.2.readInt.2.readInt.2.readInt64.2.readInt64).2.setPosition
                    ((((r.input.readInt.2.skipNextBytes 4).readInt.2.readInt.2.readInt).2.getPosition
                      + ((r.input.readInt.2.skipNextBytes 4).readInt.2.readInt.2.readInt).1
                      + ((r.input.readInt.2.skipNextBytes 4).readInt.2.readInt.2.readInt).1 % 2 : Nat) : Int),
                  isRF64 := true,
                  dataLength := toInt64 ((r.input.readInt.2.skipNextBytes 4).readInt.2.readInt.2.readInt.2.readInt64.2.readInt64).1 }) := by
      unfold WavAudioFormatReader.chunkLoopEntry
      dsimp only
      rw [if_pos htop]
      unfold WavAudioFormatReader.waveEntry
      dsimp only
      rw [if_pos hwave, if_pos hds, if_neg (not_lt.mpr h28), if_pos rfl]
    have hrun := WavAudioFormatReader.doRead_of_entry ext r storeChunks fuel _ he
    dsimp only at hrun
    refine ⟨hrun, fun r' hr' => ?_⟩
    rw [hrun] at hr'
    obtain ⟨b, st', hloop, hsame⟩ := WavAudioFormatReader.runChunkLoop_ok _ _ _ _ _ _ _ hr'
    have hrf := WavAudioFormatReader.chunkLoop_rf64 ext storeChunks _ _ _ fuel _ b st' hloop rfl
    obtain ⟨hrf1, hrf2⟩ := hrf
    dsimp only at hrf2
    have hdata : r'.dataLength
        = toInt64 ((r.input.readInt.2.skipNextBytes 4).readInt.2.readInt.2.readInt.2.readInt64.2.readInt64).1 :=
      hsame.1.2.1.trans hrf2
    refine ⟨hsame.1.1.trans hrf1, hdata, fun pre post htags hfmt => ?_⟩
    unfold WavAudioFormatReader.passTags at htags
    rw [he] at htags
    dsimp only at htags
    have hcur := WavAudioFormatReader.SampleCountCurrent.of_sameExtent hsame
      ((WavAudioFormatReader.chunkLoop_sampleCount ext storeChunks _ _ _ fuel _ b st' hloop).2
        pre post htags hfmt)
    unfold WavAudioFormatReader.SampleCountCurrent at hcur
    rw [hcur, hdata]

/-- C14, instance: `rf64Stream` has 84 bytes; its `ds64` chunk gives the RIFF size 76
and the data size 4, its `data` chunk header declares the length `0xFFFFFFFF`. The
chunk loop runs up to offset 76 + 8 = 84, and the decode ends with `dataLength` 4 and
four samples. A stream without `ds64` after the `WAVE` tag gives no reader. -/
theorem C14_rf64_sizing_witness :
    WavAudioFormatReader.doRead plainCollaborators { input := memoryInput rf64Stream } false 4
        = .ok rf64Decoded
    ∧ ((((memoryInput rf64Stream).readInt.2.skipNextBytes 4).readInt.2.readInt.2.readInt.2.readInt64).1
          + ((memoryInput rf64Stream).readInt.2.skipNextBytes 4).getPosition) % 18446744073709551616
        = 84
    ∧ rf64Stream.length = 84
    ∧ (rf64Stream.drop 72).take 8 = toLittleEndian 4 (chunkName "data") ++ toLittleEndian 4 4294967295
    ∧ (rf64Decoded.isRF64 = true
        ∧ rf64Decoded.dataLength
            = toInt64 ((((memoryInput rf64Stream).readInt.2.skipNextBytes 4).readInt.2.readInt.2.readInt.2.readInt64).2.readInt64).1)
    ∧ toInt64 ((((memoryInput rf64Stream).readInt.2.skipNextBytes 4).readInt.2.readInt.2.readInt.2.readInt64).2.readInt64).1
        = 4
    ∧ rf64Decoded.lengthInSamples = 4
    ∧ WavAudioFormat.createReaderFor plainCollaborators (memoryInput rf64WithoutDs64Stream) 4
        = .ok none :=
  ⟨by decide!, by decide!, by decide!, by decide!,
   ⟨(((C14_rf64_sizing plainCollaborators { input := memoryInput rf64Stream } false 4 _ _ _ _ _
        (by decide!) rfl (by decide!) rfl rfl rfl rfl).2.2 (by decide!) (by decide!)).2
      rf64Decoded (by decide!)).1,
    (((C14_rf64_sizing plainCollaborators { input := memoryInput rf64Stream } false 4 _ _ _ _ _
        (by decide!) rfl (by decide!) rfl rfl rfl rfl).2.2 (by decide!) (by decide!)).2
      rf64Decoded (by decide!)).2.1⟩,
   by decide!, rfl, by decide!⟩

end

/-! ### The acid chunk encoder -/

section
open WavFileHelpers

namespace WavFileHelpers

theorem AcidChunk.flags_eq_zero_iff (ext : Collaborators) (values : StringPairArray) :
    AcidChunk.flags ext values = 0
      ↔ (getIntValue ext (values.getValue "acid one shot" "") = 0
          ∧ getIntValue ext (values.getValue "acid root set" "") = 0
          ∧ getIntValue ext (values.getValue "acid stretch" "") = 0
          ∧ getIntValue ext (values.getValue "acid disk based" "") = 0
          ∧ getIntValue ext (values.getValue "acidizer flag" "") = 0) := by
  unfold AcidChunk.flags AcidChunk.getFlagIfPresent
  by_cases h1 : getIntValue ext (values.getValue "acid one shot" "") = 0 <;>
  by_cases h2 : getIntValue ext (values.getValue "acid root set" "") = 0 <;>
  by_cases h3 : getIntValue ext (values.getValue "acid stretch" "") = 0 <;>
  by_cases h4 : getIntValue ext (values.getValue "acid disk based" "") = 0 <;>
  by_cases h5 : getIntValue ext (values.getValue "acidizer flag" "") = 0 <;>
  simp [h1, h2, h3, h4, h5]

theorem AcidChunk.length_record (ext : Collaborators) (values : StringPairArray) :
    (AcidChunk.record ext values).length = 24 := by
  simp [AcidChunk.record, length_toLittleEndian]

end WavFileHelpers

/-- C21, counterexample: a map whose only acid key is the tempo, with the float 120.
The record built from it has a non-zero tempo field, and `AcidChunk::createFrom`
returns the empty block. -/
theorem C21_counterexample :
    AcidChunk.tempo plainCollaborators tempoOnly = 1123024896
    ∧ (AcidChunk.record plainCollaborators tempoOnly).drop 20 = toLittleEndian 4 1123024896
    ∧ AcidChunk.createFrom plainCollaborators tempoOnly = [] := by
  decide!

/-- C21, what the code tests: `AcidChunk::createFrom` returns the empty block if and
only if the fields `flags`, `rootNote`, `numBeats`, `meterDenominator` and
`meterNumerator` of the record are zero; the tempo, alone among the numeric fields of
the record, is not looked at. In terms of the map: if and only if each
of the five flag keys has the integer value 0 and the beats (modulo `2^32`), the
denominator and the numerator (modulo `2^16`) are 0. Otherwise the block is the
record, of 24 bytes. -/
theorem C21_acid_omission (ext : Collaborators) (values : StringPairArray) :
    (AcidChunk.createFrom ext values = []
      ↔ (AcidChunk.flags ext values = 0 ∧ AcidChunk.rootNote ext values = 0
          ∧ AcidChunk.numBeats ext values = 0 ∧ AcidChunk.meterDenominator ext values = 0
          ∧ AcidChunk.meterNumerator ext values = 0))
    ∧ (AcidChunk.createFrom ext values = []
      ↔ (getIntValue ext (values.getValue "acid one shot" "") = 0
          ∧ getIntValue ext (values.getValue "acid root set" "") = 0
          ∧ getIntValue ext (values.getValue "acid stretch" "") = 0
          ∧ getIntValue ext (values.getValue "acid disk based" "") = 0
          ∧ getIntValue ext (values.getValue "acidizer flag" "") = 0
          ∧ getIntValue ext (values.getValue "acid beats" "") % 4294967296 = 0
          ∧ getIntValue ext (values.getValue "acid denominator" "") % 65536 = 0
          ∧ getIntValue ext (values.getValue "acid numerator" "") % 65536 = 0))
    ∧ (AcidChunk.createFrom ext values ≠ [] →
        AcidChunk.createFrom ext values = AcidChunk.record ext values
        ∧ (AcidChunk.createFrom ext values).length = 24) := by
  have hlen := AcidChunk.length_record ext values
  have hne : AcidChunk.record ext values ≠ [] := by
    intro h
    rw [h] at hlen
    simp at hlen
  have first : AcidChunk.createFrom ext values = []
      ↔ (AcidChunk.flags ext values = 0 ∧ AcidChunk.rootNote ext values = 0
          ∧ AcidChunk.numBeats ext values = 0 ∧ AcidChunk.meterDenominator ext values = 0
          ∧ AcidChunk.meterNumerator ext values = 0) := by
    unfold AcidChunk.createFrom
    split_ifs with h
    · constructor
      · intro hh; exact absurd hh hne
      · intro hh
        rcases h with h | h | h | h | h
        · exact absurd hh.1 h
        · exact absurd hh.2.1 h
        · exact absurd hh.2.2.1 h
        · exact absurd hh.2.2.2.1 h
        · exact absurd hh.2.2.2.2 h
    · constructor
      · intro _
        refine ⟨?_, ?_, ?_, ?_, ?_⟩
        · exact Classical.not_not.mp (fun hc => h (Or.inl hc))
        · exact Classical.not_not.mp (fun hc => h (Or.inr (Or.inl hc)))
        · exact Classical.not_not.mp (fun hc => h (Or.inr (Or.inr (Or.inl hc))))
        · exact Classical.not_not.mp (fun hc => h (Or.inr (Or.inr (Or.inr (Or.inl hc)))))
        · exact Classical.not_not.mp (fun hc => h (Or.inr (Or.inr (Or.inr (Or.inr hc)))))
      · intro _; trivial
  have hmod : ∀ (i : Int) (m : Int), 0 < m → ((i % m).toNat = 0 ↔ i % m = 0) := by
    intro i m hm
    have := Int.emod_nonneg i (ne_of_gt hm)
    omega
  refine ⟨first, ?_, ?_⟩
  · rw [first, AcidChunk.flags_eq_zero_iff]
    unfold AcidChunk.rootNote AcidChunk.numBeats AcidChunk.meterDenominator
      AcidChunk.meterNumerator toUInt32
    rw [hmod _ _ (by decide), hmod _ _ (by decide), hmod _ _ (by decide)]
    constructor
    · rintro ⟨⟨h1, h2, h3, h4, h5⟩, -, h7, h8, h9⟩
      exact ⟨h1, h2, h3, h4, h5, h7, h8, h9⟩
    · rintro ⟨h1, h2, h3, h4, h5, h7, h8, h9⟩
      refine ⟨⟨h1, h2, h3, h4, h5⟩, ?_, h7, h8, h9⟩
      rw [if_neg (by simpa using h2)]
  · intro hemit
    unfold AcidChunk.createFrom at hemit ⊢
    split_ifs at hemit ⊢ with h
    · exact ⟨rfl, hlen⟩
    · exact absurd rfl hemit

end

/-! ### The loop count of the smpl chunk encoder -/

section
open WavFileHelpers

theorem getD_store_of_disjoint (buf : List Nat) (off : Nat) (bytes : List Nat) (i : Nat)
    (h : i < off ∨ off + bytes.length ≤ i) : (store buf off bytes).getD i 0 = buf.getD i 0 := by
  by_cases hi : i < buf.length
  · rw [getD_store buf off bytes i hi, if_neg (by omega)]
  · rw [List.getD_eq_default _ _ (by rw [length_store]; omega),
      List.getD_eq_default _ _ (by omega)]

theorem field_store_of_disjoint (buf : List Nat) (off : Nat) (bytes : List Nat) (p n : Nat)
    (h : p + n ≤ off ∨ off + bytes.length ≤ p) :
    field (store buf off bytes) p n = field buf p n := by
  unfold field
  apply List.map_congr_left
  intro i hi
  rw [List.mem_range] at hi
  exact getD_store_of_disjoint buf off bytes (p + i) (by omega)

theorem u32At_store_of_disjoint (buf : List Nat) (off : Nat) (bytes : List Nat) (p : Nat)
    (h : p + 4 ≤ off ∨ off + bytes.length ≤ p) :
    u32At (store buf off bytes) p = u32At buf p := by
  unfold u32At
  rw [field_store_of_disjoint buf off bytes p 4 h]

theorem u32At_store_at (buf : List Nat) (off v : Nat) (h : off + 4 ≤ buf.length) :
    u32At (store buf off (toLittleEndian 4 v)) off = v % 4294967296 := by
  have g : ∀ i, i < 4 → (store buf off (toLittleEndian 4 v)).getD (off + i) 0
      = (toLittleEndian 4 v).getD i 0 := by
    intro i hi
    rw [getD_store _ _ _ _ (by omega), if_pos (by rw [length_toLittleEndian]; omega)]
    congr 1
    omega
  have e : field (store buf off (toLittleEndian 4 v)) off 4
      = [(toLittleEndian 4 v).getD 0 0, (toLittleEndian 4 v).getD 1 0,
         (toLittleEndian 4 v).getD 2 0, (toLittleEndian 4 v).getD 3 0] := by
    unfold field
    simp only [List.range_succ, List.range_zero, List.nil_append, List.cons_append, List.map_cons,
      List.map_nil]
    rw [g 0 (by omega), g 1 (by omega), g 2 (by omega), g 3 (by omega)]
  unfold u32At
  rw [e]
  simp only [toLittleEndian, littleEndian, List.getD_cons_zero, List.getD_cons_succ]
  omega

theorem toInt32_range (n : Nat) : -2147483648 ≤ toInt32 n ∧ toInt32 n < 2147483648 := by
  unfold toInt32
  split_ifs <;> omega

theorem getIntValue_range (ext : Collaborators) (s : String) :
    -2147483648 ≤ getIntValue ext s ∧ getIntValue ext s < 2147483648 :=
  toInt32_range _

namespace WavFileHelpers

theorem SMPLChunk.length_storeLoop (ext : Collaborators) (values : StringPairArray)
    (data : List Nat) (i : Nat) : (SMPLChunk.storeLoop ext values data i).length = data.length := by
  simp only [SMPLChunk.storeLoop, length_store]

theorem SMPLChunk.u32At_storeLoop (ext : Collaborators) (values : StringPairArray)
    (data : List Nat) (i p : Nat) (hp : p + 4 ≤ 36 + 24 * i) :
    u32At (SMPLChunk.storeLoop ext values data i) p = u32At data p := by
  unfold SMPLChunk.storeLoop
  dsimp only
  rw [u32At_store_of_disjoint _ _ _ _ (by omega), u32At_store_of_disjoint _ _ _ _ (by omega),
    u32At_store_of_disjoint _ _ _ _ (by omega), u32At_store_of_disjoint _ _ _ _ (by omega),
    u32At_store_of_disjoint _ _ _ _ (by omega), u32At_store_of_disjoint _ _ _ _ (by omega)]

theorem SMPLChunk.foldl_storeLoop (ext : Collaborators) (values : StringPairArray) (p : Nat)
    (hp : p + 4 ≤ 36) :
    ∀ (is : List Nat) (data : List Nat),
      (is.foldl (SMPLChunk.storeLoop ext values) data).length = data.length
      ∧ u32At (is.foldl (SMPLChunk.storeLoop ext values) data) p = u32At data p := by
  intro is
  induction is with
  | nil => intro data; exact ⟨rfl, rfl⟩
  | cons i rest ih =>
    intro data
    rw [List.foldl_cons]
    have h := ih (SMPLChunk.storeLoop ext values data i)
    rw [SMPLChunk.length_storeLoop, SMPLChunk.u32At_storeLoop ext values data i p (by omega)] at h
    exact h

theorem SMPLChunk.smpl_length_createFrom (ext : Collaborators) (values : StringPairArray) :
    (SMPLChunk.createFrom ext values).length
      = roundUpSize (60 + (max 0 (min 64 (getIntValue ext (values.getValue "NumSampleLoops" "0")) - 1)).toNat * 24) := by
  unfold SMPLChunk.createFrom
  dsimp only
  rw [(SMPLChunk.foldl_storeLoop ext values 0 (by omega) _ _).1]
  simp only [length_store, List.length_replicate]

end WavFileHelpers

/-- C22, counterexample: with `NumSampleLoops` = -1 the count written into the
`numSampleLoops` field is 4294967295, not 0, in a block of 60 bytes. -/
theorem C22_counterexample :
    getIntValue plainCollaborators (negativeLoopCount.getValue "NumSampleLoops" "0") = -1
    ∧ u32At (SMPLChunk.createFrom plainCollaborators negativeLoopCount) 28 = 4294967295
    ∧ (SMPLChunk.createFrom plainCollaborators negativeLoopCount).length = 60 := by
  decide!

/-- C22, what the code writes: with `v` the integer value of the `NumSampleLoops` key,
the `numSampleLoops` field of the encoded `smpl` chunk holds `min (64, v)` as a
`uint32`: 64 for `v > 64`, `v` for `0 <= v <= 64` (as the claim says), and `v + 2^32`
for `v < 0`, where the claim says 0. The block has the 36 header bytes followed by
room for `max (1, min (64, v))` loop records of 24 bytes. -/
theorem C22_smpl_loop_count (ext : Collaborators) (values : StringPairArray) (v : Int)
    (hv : getIntValue ext (values.getValue "NumSampleLoops" "0") = v) :
    u32At (SMPLChunk.createFrom ext values) 28 = toUInt32 (min 64 v)
    ∧ (64 < v → u32At (SMPLChunk.createFrom ext values) 28 = 64)
    ∧ (0 ≤ v → v ≤ 64 → ((u32At (SMPLChunk.createFrom ext values) 28 : Nat) : Int) = v)
    ∧ (v < 0 → ((u32At (SMPLChunk.createFrom ext values) 28 : Nat) : Int) = v + 4294967296)
    ∧ (SMPLChunk.createFrom ext values).length = 36 + 24 * max 1 (min 64 v).toNat := by
  have hr := getIntValue_range ext (values.getValue "NumSampleLoops" "0")
  rw [hv] at hr
  have hlen := SMPLChunk.smpl_length_createFrom ext values
  rw [hv] at hlen
  have hlen2 : (SMPLChunk.createFrom ext values).length = 36 + 24 * max 1 (min 64 v).toNat := by
    rw [hlen]
    have hk : (max 0 (min 64 v - 1)).toNat ≤ 63 := by omega
    have hk2 : max 1 (min 64 v).toNat = (max 0 (min 64 v - 1)).toNat + 1 := by omega
    rw [hk2]
    generalize (max 0 (min 64 v - 1)).toNat = k at hk
    unfold roundUpSize
    rw [Nat.mod_eq_of_lt (by omega)]
    omega
  have hfield : u32At (SMPLChunk.createFrom ext values) 28 = toUInt32 (min 64 v) := by
    unfold SMPLChunk.createFrom
    dsimp only
    rw [hv, (SMPLChunk.foldl_storeLoop ext values 28 (by omega) _ _).2,
      u32At_store_of_disjoint _ _ _ _ (by rw [length_toLittleEndian]; omega),
      u32At_store_at _ _ _ (by
        simp only [length_store, List.length_replicate]
        have hk : (max 0 (min 64 v - 1)).toNat ≤ 63 := by omega
        generalize (max 0 (min 64 v - 1)).toNat = k at hk
        unfold roundUpSize
        rw [Nat.mod_eq_of_lt (by omega)]
        omega)]
    unfold toUInt32
    omega
  refine ⟨hfield, ?_, ?_, ?_, hlen2⟩
  · intro h
    rw [hfield]
    unfold toUInt32
    omega
  · intro h0 h64
    rw [hfield]
    unfold toUInt32
    omega
  · intro h
    rw [hfield]
    unfold toUInt32
    omega

/-- C22, at a map that asks for two loops. -/
theorem C22_smpl_loop_count_witness :
    getIntValue plainCollaborators
        (StringPairArray.getValue [("NumSampleLoops", "2")] "NumSampleLoops" "0") = 2
    ∧ u32At (SMPLChunk.createFrom plainCollaborators [("NumSampleLoops", "2")]) 28 = 2
    ∧ (SMPLChunk.createFrom plainCollaborators [("NumSampleLoops", "2")]).length = 84 :=
  ⟨by decide!,
   (C22_smpl_loop_count plainCollaborators [("NumSampleLoops", "2")] 2 (by decide!)).1.trans
     (by decide!),
   (C22_smpl_loop_count plainCollaborators [("NumSampleLoops", "2")] 2 (by decide!)).2.2.2.2.trans
     (by decide!)⟩

end

/-! ### The cue chunk encoder -/

section
open WavFileHelpers

namespace StringPairArray

theorem getValue_of_not_containsKey (m : StringPairArray) (key d : String)
    (h : m.containsKey key = false) : m.getValue key d = d := by
  induction m with
  | nil => rfl
  | cons p rest ih =>
    obtain ⟨k, v⟩ := p
    unfold containsKey at h ih
    rw [List.any_cons, Bool.or_eq_false_iff] at h
    have hk : k ≠ key := by
      intro e
      have := h.1
      simp [e] at this
    rw [getValue, if_neg hk]
    exact ih h.2

end StringPairArray

namespace WavFileHelpers

theorem CueChunk.length_storeCue (ext : Collaborators) (values : StringPairArray)
    (acc : List Nat × Int) (i : Nat) :
    (CueChunk.storeCue ext values acc i).1.length = acc.1.length := by
  simp only [CueChunk.storeCue, length_store]

theorem CueChunk.length_foldl_storeCue (ext : Collaborators) (values : StringPairArray) :
    ∀ (is : List Nat) (acc : List Nat × Int),
      (is.foldl (CueChunk.storeCue ext values) acc).1.length = acc.1.length := by
  intro is
  induction is with
  | nil => intro acc; rfl
  | cons i rest ih =>
    intro acc
    rw [List.foldl_cons, ih, CueChunk.length_storeCue]

theorem CueChunk.cue_length_createFrom (ext : Collaborators) (values : StringPairArray) :
    (CueChunk.createFrom ext values).length
      = if getIntValue ext (values.getValue "NumCuePoints" "0") > 0 then
          roundUpSize (28 + (getIntValue ext (values.getValue "NumCuePoints" "0") - 1).toNat * 24)
        else 0 := by
  unfold CueChunk.createFrom
  dsimp only
  split_ifs
  · rw [CueChunk.length_foldl_storeCue]
    simp only [length_store, List.length_replicate]
  · rfl

end WavFileHelpers

/-- C23, failing input: a map that asks for 178956971 cue points. The size
`28 + 178956970 * 24 = 4294967308` passes through `roundUpSize`, whose mask `~3u`
keeps 32 bits: the block has 12 bytes, which hold the count and two fields of the
first cue record, while the loop goes on to fill 178956971 records. -/
theorem C23_counterexample :
    getIntValue plainCollaborators (hugeCueCount.getValue "NumCuePoints" "0") = 178956971
    ∧ roundUpSize (28 + 178956970 * 24) = 12
    ∧ (CueChunk.createFrom plainCollaborators hugeCueCount).length = 12
    ∧ 12 < 4 + 24 * 178956971 := by
  refine ⟨by decide!, by decide!, ?_, by decide⟩
  rw [CueChunk.cue_length_createFrom]
  decide!

namespace WavFileHelpers

/-- The state of the loop of `CueChunk::createFrom` after `k` passes, when no cue has
an order of its own and the text of an integer is read back as that integer. -/
theorem CueChunk.foldl_storeCue_order (ext : Collaborators) (values : StringPairArray) (n : Nat)
    (horder : ∀ i, i < n → values.containsKey ("Cue" ++ toString i ++ "Order") = false)
    (hparse : ∀ i, i < n → getIntValue ext (toString (i : Int)) = i)
    (data : List Nat) (hlen : 4 + 24 * n ≤ data.length) (hn : n < 4294967296) :
    ∀ k, k ≤ n →
      ((List.range k).foldl (CueChunk.storeCue ext values) (data, 0)).2 = k
      ∧ u32At ((List.range k).foldl (CueChunk.storeCue ext values) (data, 0)).1 0 = u32At data 0
      ∧ ∀ i, i < k →
          u32At ((List.range k).foldl (CueChunk.storeCue ext values) (data, 0)).1 (4 + 24 * i + 4) = i
          ∧ u32At ((List.range k).foldl (CueChunk.storeCue ext values) (data, 0)).1 (4 + 24 * i + 8)
              = toUInt32 (getIntValue ext (values.getValue ("Cue" ++ toString i ++ "ChunkID")
                  (toString (toInt32 (chunkName "data"))))) := by
  intro k
  induction k with
  | zero =>
    intro _
    exact ⟨rfl, rfl, fun i hi => absurd hi (Nat.not_lt_zero i)⟩
  | succ k ih =>
    intro hk
    obtain ⟨h2, h0, hi⟩ := ih (by omega)
    have hL := CueChunk.length_foldl_storeCue ext values (List.range k) (data, 0)
    rw [List.range_succ, List.foldl_append, List.foldl_cons, List.foldl_nil]
    generalize (List.range k).foldl (CueChunk.storeCue ext values) (data, 0) = acc at h2 h0 hi hL
    dsimp only at hL
    have hord : getIntValue ext (values.getValue ("Cue" ++ toString k ++ "Order") (toString acc.2))
        = (k : Int) := by
      rw [StringPairArray.getValue_of_not_containsKey _ _ _ (horder k (by omega)), h2]
      exact hparse k (by omega)
    unfold CueChunk.storeCue
    dsimp only
    rw [hord]
    refine ⟨?_, ?_, ?_⟩
    · rw [h2]
      omega
    · rw [u32At_store_of_disjoint _ _ _ _ (by omega), u32At_store_of_disjoint _ _ _ _ (by omega),
        u32At_store_of_disjoint _ _ _ _ (by omega), u32At_store_of_disjoint _ _ _ _ (by omega),
        u32At_store_of_disjoint _ _ _ _ (by omega), u32At_store_of_disjoint _ _ _ _ (by omega)]
      exact h0
    · intro i hik
      by_cases hlt : i < k
      · constructor
        · rw [u32At_store_of_disjoint _ _ _ _ (by omega), u32At_store_of_disjoint _ _ _ _ (by omega),
            u32At_store_of_disjoint _ _ _ _ (by omega), u32At_store_of_disjoint _ _ _ _ (by omega),
            u32At_store_of_disjoint _ _ _ _ (by omega), u32At_store_of_disjoint _ _ _ _ (by omega)]
          exact (hi i hlt).1
        · rw [u32At_store_of_disjoint _ _ _ _ (by omega), u32At_store_of_disjoint _ _ _ _ (by omega),
            u32At_store_of_disjoint _ _ _ _ (by omega), u32At_store_of_disjoint _ _ _ _ (by omega),
            u32At_store_of_disjoint _ _ _ _ (by omega), u32At_store_of_disjoint _ _ _ _ (by omega)]
          exact (hi i hlt).2
      · have e : i = k := by omega
        subst e
        constructor
        · rw [u32At_store_of_disjoint _ _ _ _ (by rw [length_toLittleEndian]; omega),
            u32At_store_of_disjoint _ _ _ _ (by rw [length_toLittleEndian]; omega),
            u32At_store_of_disjoint _ _ _ _ (by rw [length_toLittleEndian]; omega),
            u32At_store_of_disjoint _ _ _ _ (by rw [length_toLittleEndian]; omega),
            u32At_store_at _ _ _ (by rw [length_store, hL]; omega)]
          unfold toUInt32
          omega
        · rw [u32At_store_of_disjoint _ _ _ _ (by rw [length_toLittleEndian]; omega),
            u32At_store_of_disjoint _ _ _ _ (by rw [length_toLittleEndian]; omega),
            u32At_store_of_disjoint _ _ _ _ (by rw [length_toLittleEndian]; omega),
            u32At_store_at _ _ _ (by simp only [length_store]; rw [hL]; omega)]
          unfold toUInt32
          exact Nat.mod_eq_of_lt (by
            have := Int.emod_nonneg (getIntValue ext (values.getValue ("Cue" ++ toString i ++ "ChunkID")
              (toString (toInt32 (chunkName "data"))))) (by decide : (4294967296 : Int) ≠ 0)
            have := Int.emod_lt_of_pos (getIntValue ext (values.getValue ("Cue" ++ toString i ++ "ChunkID")
              (toString (toInt32 (chunkName "data"))))) (by decide : (0 : Int) < 4294967296)
            omega)

end WavFileHelpers

/-- C23, for at most 178956970 cue points: when the map asks for `n` cue points, has no
`Cue{i}Order` key, and the text of an integer is read back as that integer, the
encoded `cue ` chunk has `4 + 24 * n` bytes, holds the count `n`, and gives cue `i`
the order `i`; a cue without a `Cue{i}ChunkID` key gets the tag `data` as its chunk
id. -/
theorem C23_cue_ordering (ext : Collaborators) (values : StringPairArray) (n : Nat)
    (hn1 : 1 ≤ n) (hn2 : n ≤ 178956970)
    (hnum : getIntValue ext (values.getValue "NumCuePoints" "0") = n)
    (horder : ∀ i, i < n → values.containsKey ("Cue" ++ toString i ++ "Order") = false)
    (hparse : ∀ i, i < n → getIntValue ext (toString (i : Int)) = i)
    (hdata : getIntValue ext (toString (toInt32 (chunkName "data"))) = toInt32 (chunkName "data")) :
    (CueChunk.createFrom ext values).length = 4 + 24 * n
    ∧ u32At (CueChunk.createFrom ext values) 0 = n
    ∧ ∀ i, i < n →
        u32At (CueChunk.createFrom ext values) (4 + 24 * i + 4) = i
        ∧ (values.containsKey ("Cue" ++ toString i ++ "ChunkID") = false →
            u32At (CueChunk.createFrom ext values) (4 + 24 * i + 8) = chunkName "data") := by
  have hsize : roundUpSize (28 + ((n : Int) - 1).toNat * 24) = 4 + 24 * n := by
    have e : ((n : Int) - 1).toNat = n - 1 := by omega
    rw [e]
    unfold roundUpSize
    rw [Nat.mod_eq_of_lt (by omega)]
    omega
  have hlen : (CueChunk.createFrom ext values).length = 4 + 24 * n := by
    rw [CueChunk.cue_length_createFrom, hnum, if_pos (by omega), hsize]
  have hpos : getIntValue ext (values.getValue "NumCuePoints" "0") > 0 := by rw [hnum]; omega
  have key := CueChunk.foldl_storeCue_order ext values n horder hparse
    (store (List.replicate (4 + 24 * n) 0) 0 (toLittleEndian 4 n))
    (by rw [length_store, List.length_replicate]) (by omega) n (le_refl n)
  have hform : CueChunk.createFrom ext values
      = ((List.range n).foldl (CueChunk.storeCue ext values)
          (store (List.replicate (4 + 24 * n) 0) 0 (toLittleEndian 4 n), 0)).1 := by
    unfold CueChunk.createFrom
    dsimp only
    rw [if_pos hpos, hnum, hsize]
    have e1 : toUInt32 (n : Int) = n := by unfold toUInt32; omega
    rw [e1, Int.toNat_ofNat]
  rw [hform]
  refine ⟨by rw [← hform]; exact hlen, ?_, fun i hi => ⟨(key.2.2 i hi).1, fun hc => ?_⟩⟩
  · rw [key.2.1, u32At_store_at _ _ _ (by rw [List.length_replicate]; omega)]
    exact Nat.mod_eq_of_lt (by omega)
  · rw [(key.2.2 i hi).2, StringPairArray.getValue_of_not_containsKey _ _ _ hc, hdata]
    decide

/-- C23, at a map with two cue points, the second one with a chunk id of its own. -/
theorem C23_cue_ordering_witness :
    getIntValue plainCollaborators (twoCues.getValue "NumCuePoints" "0") = 2
    ∧ (CueChunk.createFrom plainCollaborators twoCues).length = 52
    ∧ u32At (CueChunk.createFrom plainCollaborators twoCues) 8 = 0
    ∧ u32At (CueChunk.createFrom plainCollaborators twoCues) 32 = 1
    ∧ u32At (CueChunk.createFrom plainCollaborators twoCues) 12 = chunkName "data"
    ∧ u32At (CueChunk.createFrom plainCollaborators twoCues) 36 = 7 :=
  ⟨by decide!,
   (C23_cue_ordering plainCollaborators twoCues 2 (by decide) (by decide) (by decide!)
      (by decide!) (by decide!) (by decide!)).1,
   ((C23_cue_ordering plainCollaborators twoCues 2 (by decide) (by decide) (by decide!)
      (by decide!) (by decide!) (by decide!)).2.2 0 (by decide)).1,
   ((C23_cue_ordering plainCollaborators twoCues 2 (by decide) (by decide) (by decide!)
      (by decide!) (by decide!) (by decide!)).2.2 1 (by decide)).1,
   ((C23_cue_ordering plainCollaborators twoCues 2 (by decide) (by decide) (by decide!)
      (by decide!) (by decide!) (by decide!)).2.2 0 (by decide)).2 (by decide!),
   by decide!⟩

end

/-! ### The encoders of the LIST chunks -/

section
open WavFileHelpers

theorem length_toUTF8 (s : String) : (toUTF8 s).length = getNumBytesAsUTF8 s := by
  unfold toUTF8 getNumBytesAsUTF8
  rw [List.length_flatMap]
  rfl

theorem toInt32_of_lt_two_pow_31 (n : Nat) (h : n < 2147483648) : toInt32 n = (n : Int) := by
  unfold toInt32
  rw [if_pos (by omega)]
  congr 1
  omega

/-- The bytes written for a text whose length fits an `int`: the text and its
terminator. -/
theorem writeUTF8_eq (text : String) (h : getNumBytesAsUTF8 text < 2147483647) :
    writeUTF8 text (toInt32 (getNumBytesAsUTF8 text) + 1) = toUTF8 text ++ [0] := by
  unfold writeUTF8
  rw [toInt32_of_lt_two_pow_31 _ (by omega)]
  apply List.take_of_length_le
  rw [List.length_append, length_toUTF8]
  simp only [List.length_singleton]
  omega

theorem length_paddedText (value : String) :
    (paddedText value).length
      = getNumBytesAsUTF8 value + 1 + (getNumBytesAsUTF8 value + 1) % 2 := by
  unfold paddedText
  simp only [List.length_append, length_toUTF8, List.length_singleton]
  split_ifs with h
  · simp only [List.length_singleton]; omega
  · simp only [List.length_nil]; omega

namespace WavFileHelpers

theorem ListInfoChunk.length_subChunk (t value : String) :
    (ListInfoChunk.subChunk t value).length % 2 = 0 := by
  unfold ListInfoChunk.subChunk
  simp only [List.length_append, length_toLittleEndian, length_paddedText]
  omega

/-- One call of `ListInfoChunk::writeValue` on an output of even size. -/
theorem ListInfoChunk.writeValue_eq (values : StringPairArray) (out : List Nat) (t : String)
    (heven : out.length % 2 = 0)
    (hbound : getNumBytesAsUTF8 (values.getValue t "") < 2147483647) :
    ListInfoChunk.writeValue values out t
      = if isEmptyString (values.getValue t "") then (false, out)
        else (true, out ++ ListInfoChunk.subChunk t (values.getValue t "")) := by
  unfold ListInfoChunk.writeValue
  dsimp only
  by_cases he : isEmptyString (values.getValue t "") = true
  · rw [if_pos he, if_pos he]
  · rw [if_neg he, if_neg he]
    rw [writeUTF8_eq _ hbound, toInt32_of_lt_two_pow_31 _ (by omega)]
    have hlenfield : toUInt32 ((getNumBytesAsUTF8 (values.getValue t "") : Int) + 1
          + ((getNumBytesAsUTF8 (values.getValue t "") : Int) + 1) % 2)
        = getNumBytesAsUTF8 (values.getValue t "") + 1
          + (getNumBytesAsUTF8 (values.getValue t "") + 1) % 2 := by
      unfold toUInt32
      omega
    rw [hlenfield]
    unfold ListInfoChunk.subChunk paddedText
    congr 1
    simp only [List.length_append, length_toLittleEndian, length_toUTF8, List.length_singleton]
    split_ifs with h1 h2 h2
    · simp only [List.append_assoc]
    · omega
    · omega
    · simp only [List.append_assoc, List.append_nil]

/-- One pass through the loop of `ListInfoChunk::createFrom` on an output of even
size. -/
theorem ListInfoChunk.writeNext_eq (values : StringPairArray) (acc : Bool × List Nat) (t : String)
    (heven : acc.2.length % 2 = 0)
    (hbound : getNumBytesAsUTF8 (values.getValue t "") < 2147483647) :
    ListInfoChunk.writeNext values acc t
      = if isEmptyString (values.getValue t "") then (acc.1, acc.2)
        else (true, acc.2 ++ ListInfoChunk.subChunk t (values.getValue t "")) := by
  unfold ListInfoChunk.writeNext
  dsimp only
  rw [ListInfoChunk.writeValue_eq values acc.2 t heven hbound]
  by_cases he : isEmptyString (values.getValue t "") = true
  · rw [if_pos he, if_pos he]
    rfl
  · rw [if_neg he, if_neg he]
    rfl

/-- The loop of `ListInfoChunk::createFrom` over a list of keys. -/
theorem ListInfoChunk.foldl_writeNext (values : StringPairArray) :
    ∀ (ts : List String) (acc : Bool × List Nat), acc.2.length % 2 = 0 →
      (∀ t ∈ ts, getNumBytesAsUTF8 (values.getValue t "") < 2147483647) →
      ts.foldl (ListInfoChunk.writeNext values) acc
        = (if ts.filter (fun t => ! isEmptyString (values.getValue t "")) = [] then acc.1 else true,
           acc.2 ++ (ts.filter (fun t => ! isEmptyString (values.getValue t ""))).flatMap
              (fun t => ListInfoChunk.subChunk t (values.getValue t ""))) := by
  intro ts
  induction ts with
  | nil => intro acc _ _; simp
  | cons t rest ih =>
    intro acc heven hbound
    rw [List.foldl_cons,
      ListInfoChunk.writeNext_eq values acc t heven (hbound t (List.mem_cons_self _ _))]
    have hrest : ∀ t' ∈ rest, getNumBytesAsUTF8 (values.getValue t' "") < 2147483647 :=
      fun t' ht' => hbound t' (List.mem_cons_of_mem _ ht')
    by_cases he : isEmptyString (values.getValue t "") = true
    · rw [if_pos he, ih (acc.1, acc.2) heven hrest]
      simp [List.filter_cons, he]
    · rw [if_neg he, ih _ (by
        show (acc.2 ++ ListInfoChunk.subChunk t (values.getValue t "")).length % 2 = 0
        rw [List.length_append]
        have := ListInfoChunk.length_subChunk t (values.getValue t "")
        omega) hrest]
      simp [List.filter_cons, he]

end WavFileHelpers

/-- C26: for a map whose dictionary values have fewer than `2^31 - 1` bytes,
`ListInfoChunk::createFrom` returns the tag `INFO` followed, in dictionary order, by
one sub-chunk (tag, length, UTF-8 bytes, terminator, pad) for each dictionary key whose
value is not empty, and the empty block if and only if every dictionary key has an
empty value. -/
theorem C26_info_encode (values : StringPairArray)
    (hbound : ∀ t ∈ ListInfoChunk.types, getNumBytesAsUTF8 (values.getValue t "") < 2147483647) :
    ListInfoChunk.createFrom values
      = (if ListInfoChunk.types.filter (fun t => ! isEmptyString (values.getValue t "")) = [] then []
         else toLittleEndian 4 (chunkName "INFO")
           ++ (ListInfoChunk.types.filter (fun t => ! isEmptyString (values.getValue t ""))).flatMap
                (fun t => ListInfoChunk.subChunk t (values.getValue t "")))
    ∧ (ListInfoChunk.createFrom values = []
        ↔ ∀ t ∈ ListInfoChunk.types, isEmptyString (values.getValue t "") = true) := by
  have h := ListInfoChunk.foldl_writeNext values ListInfoChunk.types
    (false, toLittleEndian 4 (chunkName "INFO")) (by decide) hbound
  have first : ListInfoChunk.createFrom values
      = (if ListInfoChunk.types.filter (fun t => ! isEmptyString (values.getValue t "")) = [] then []
         else toLittleEndian 4 (chunkName "INFO")
           ++ (ListInfoChunk.types.filter (fun t => ! isEmptyString (values.getValue t ""))).flatMap
                (fun t => ListInfoChunk.subChunk t (values.getValue t ""))) := by
    unfold ListInfoChunk.createFrom
    dsimp only
    rw [h]
    dsimp only
    split_ifs <;> first | rfl | simp_all
  refine ⟨first, ?_⟩
  rw [first]
  have hne : ∀ l : List Nat, toLittleEndian 4 (chunkName "INFO") ++ l ≠ [] := by
    intro l hl
    have := congrArg List.length hl
    simp at this
  constructor
  · intro hh t ht
    by_contra hc
    have hmem : t ∈ ListInfoChunk.types.filter (fun t => ! isEmptyString (values.getValue t "")) := by
      rw [List.mem_filter]
      exact ⟨ht, by simpa using hc⟩
    split_ifs at hh with h1
    · rw [h1] at hmem
      exact absurd hmem (List.not_mem_nil t)
    · exact hne _ hh
  · intro hh
    rw [if_pos]
    rw [List.filter_eq_nil_iff]
    intro t ht
    simp [hh t ht]

/-- C26, at a map with a title and an artist: the artist comes first, as in the
dictionary. -/
theorem C26_info_encode_witness :
    ListInfoChunk.createFrom titleAndArtist
      = toLittleEndian 4 (chunkName "INFO")
        ++ (toLittleEndian 4 (chunkName "IART") ++ toLittleEndian 4 4 ++ [120, 121, 122, 0])
        ++ (toLittleEndian 4 (chunkName "INAM") ++ toLittleEndian 4 4 ++ [97, 98, 0, 0]) :=
  (C26_info_encode titleAndArtist (by decide!)).1.trans (by decide!)

namespace WavFileHelpers

/-- One call of `ListChunk::appendLabelOrNoteChunk` on an output of even size. -/
theorem ListChunk.appendLabelOrNoteChunk_eq (ext : Collaborators) (values : StringPairArray)
    (pfx : String) (chunkType : Nat) (out : List Nat) (heven : out.length % 2 = 0)
    (hbound : getNumBytesAsUTF8 (values.getValue (pfx ++ "Text") pfx) < 2147483642) :
    ListChunk.appendLabelOrNoteChunk ext values pfx chunkType out
      = out ++ ListChunk.labelOrNoteSubChunk chunkType
          (toUInt32 (ListChunk.getValue ext values (pfx ++ "Identifier")))
          (values.getValue (pfx ++ "Text") pfx) := by
  unfold ListChunk.appendLabelOrNoteChunk
  dsimp only
  rw [writeUTF8_eq _ (by omega), toInt32_of_lt_two_pow_31 _ (by omega)]
  have hlenfield : toUInt32 (4 + ((getNumBytesAsUTF8 (values.getValue (pfx ++ "Text") pfx) : Int) + 1)
        + ((getNumBytesAsUTF8 (values.getValue (pfx ++ "Text") pfx) : Int) + 1) % 2)
      = 4 + (getNumBytesAsUTF8 (values.getValue (pfx ++ "Text") pfx) + 1)
        + (getNumBytesAsUTF8 (values.getValue (pfx ++ "Text") pfx) + 1) % 2 := by
    unfold toUInt32
    omega
  rw [hlenfield]
  unfold ListChunk.labelOrNoteSubChunk paddedText
  simp only [List.length_append, length_toLittleEndian, length_toUTF8, List.length_singleton]
  split_ifs with h1 h2 h2
  · simp only [List.append_assoc]
  · omega
  · omega
  · simp only [List.append_assoc, List.append_nil]

end WavFileHelpers

/-- C27, counterexample: the `INFO` entry for a title of two bytes has a payload of
three bytes (text and terminator) and the declared length 4; the `labl` entry for a
label of two bytes has a payload of seven bytes (identifier, text and terminator) and
the declared length 8. Both count the pad byte. -/
theorem C27_counterexample :
    ListInfoChunk.createFrom [("INAM", "ab")]
      = toLittleEndian 4 (chunkName "INFO") ++ toLittleEndian 4 (chunkName "INAM")
        ++ toLittleEndian 4 4 ++ [97, 98, 0] ++ [0]
    ∧ (toUTF8 "ab" ++ [0]).length = 3
    ∧ ListChunk.createFrom plainCollaborators oneLabel
      = toLittleEndian 4 (chunkName "adtl") ++ toLittleEndian 4 (chunkName "labl")
        ++ toLittleEndian 4 8 ++ toLittleEndian 4 7 ++ [97, 98, 0] ++ [0]
    ∧ (toLittleEndian 4 7 ++ toUTF8 "ab" ++ [0]).length = 7 := by
  decide!

/-- C27 (amended): on an output of even size, `ListInfoChunk::writeValue` appends for
a non-empty value the tag, the length field and the padded text, and
`ListChunk::appendLabelOrNoteChunk` the tag, the length field, the identifier and the
padded text. The padded text is the text, its terminator, and one zero byte when these
are an odd number of bytes. The length field holds the length of the padded text (plus
4 for the identifier of a `labl` or `note` entry): it counts the pad byte. -/
theorem C27_declared_length_counts_pad (ext : Collaborators) (values : StringPairArray)
    (out : List Nat) (t pfx : String) (chunkType : Nat)
    (heven : out.length % 2 = 0)
    (hvalue : isEmptyString (values.getValue t "") = false)
    (hb1 : getNumBytesAsUTF8 (values.getValue t "") < 2147483647)
    (hb2 : getNumBytesAsUTF8 (values.getValue (pfx ++ "Text") pfx) < 2147483642) :
    ListInfoChunk.writeValue values out t
        = (true, out ++ (toLittleEndian 4 (chunkName t)
            ++ toLittleEndian 4 (paddedText (values.getValue t "")).length
            ++ paddedText (values.getValue t "")))
    ∧ ListChunk.appendLabelOrNoteChunk ext values pfx chunkType out
        = out ++ (toLittleEndian 4 chunkType
            ++ toLittleEndian 4 (4 + (paddedText (values.getValue (pfx ++ "Text") pfx)).length)
            ++ toLittleEndian 4 (toUInt32 (ListChunk.getValue ext values (pfx ++ "Identifier")))
            ++ paddedText (values.getValue (pfx ++ "Text") pfx))
    ∧ (∀ value : String, (paddedText value).length
        = (toUTF8 value ++ [0]).length + (if (toUTF8 value ++ [0]).length % 2 = 1 then 1 else 0)) := by
  refine ⟨?_, ?_, ?_⟩
  · rw [ListInfoChunk.writeValue_eq values out t heven hb1, hvalue, length_paddedText]
    rfl
  · rw [ListChunk.appendLabelOrNoteChunk_eq ext values pfx chunkType out heven hb2,
      length_paddedText]
    unfold ListChunk.labelOrNoteSubChunk
    rw [Nat.add_assoc 4]
  · intro value
    rw [length_paddedText, List.length_append, length_toUTF8, List.length_singleton]
    split_ifs <;> omega

/-- C27 (amended), at a title of two bytes and at a label of two bytes. -/
theorem C27_declared_length_counts_pad_witness :
    ListInfoChunk.writeValue titleAndArtist (toLittleEndian 4 (chunkName "INFO")) "INAM"
        = (true, toLittleEndian 4 (chunkName "INFO")
            ++ (toLittleEndian 4 (chunkName "INAM") ++ toLittleEndian 4 4 ++ [97, 98, 0, 0]))
    ∧ ListChunk.appendLabelOrNoteChunk plainCollaborators oneLabel "CueLabel0" (chunkName "labl")
          (toLittleEndian 4 (chunkName "adtl"))
        = toLittleEndian 4 (chunkName "adtl")
            ++ (toLittleEndian 4 (chunkName "labl") ++ toLittleEndian 4 8 ++ toLittleEndian 4 7
                ++ [97, 98, 0, 0]) :=
  ⟨(C27_declared_length_counts_pad plainCollaborators titleAndArtist
      (toLittleEndian 4 (chunkName "INFO")) "INAM" "CueLabel0" (chunkName "labl")
      (by decide) (by decide!) (by decide!) (by decide!)).1.trans (by decide!),
   by decide!⟩

end

/-! ### Even length of the encoded chunks -/

section
open WavFileHelpers

namespace WavFileHelpers

theorem roundUpSize_even (sz : Nat) : roundUpSize sz % 2 = 0 := by
  unfold roundUpSize
  omega

theorem BWAVChunk.bext_length_even (ext : Collaborators) (values : StringPairArray) :
    (BWAVChunk.createFrom ext values).length % 2 = 0 := by
  unfold BWAVChunk.createFrom
  dsimp only
  split_ifs
  · rw [BWAVChunk.length_filled]
    exact roundUpSize_even _
  · rfl

theorem ListChunk.length_appendLabelOrNoteChunk (ext : Collaborators) (values : StringPairArray)
    (pfx : String) (chunkType : Nat) (out : List Nat) :
    (ListChunk.appendLabelOrNoteChunk ext values pfx chunkType out).length % 2 = 0 := by
  unfold ListChunk.appendLabelOrNoteChunk
  dsimp only
  split_ifs with h
  · rw [List.length_append, List.length_singleton]
    omega
  · omega

theorem ListChunk.length_appendExtraChunk (ext : Collaborators) (values : StringPairArray)
    (pfx : String) (out : List Nat) :
    (ListChunk.appendExtraChunk ext values pfx out).length % 2 = 0 := by
  unfold ListChunk.appendExtraChunk
  dsimp only
  split_ifs with h
  · rw [List.length_append, List.length_singleton]
    omega
  · omega

/-- A loop whose every pass leaves an output of even size leaves one when it starts
from one. -/
theorem length_foldl_even {α : Type} (f : List Nat → α → List Nat)
    (hf : ∀ o a, (f o a).length % 2 = 0) :
    ∀ (l : List α) (out : List Nat), out.length % 2 = 0 → (l.foldl f out).length % 2 = 0 := by
  intro l
  induction l with
  | nil => intro out h; exact h
  | cons a rest ih => intro out _; exact ih _ (hf out a)

theorem ListChunk.adtl_length_even (ext : Collaborators) (values : StringPairArray) :
    (ListChunk.createFrom ext values).length % 2 = 0 := by
  unfold ListChunk.createFrom
  dsimp only
  split_ifs
  · apply length_foldl_even _ (fun o i => ListChunk.length_appendExtraChunk ext values _ o)
    apply length_foldl_even _ (fun o i => ListChunk.length_appendLabelOrNoteChunk ext values _ _ o)
    apply length_foldl_even _ (fun o i => ListChunk.length_appendLabelOrNoteChunk ext values _ _ o)
    rfl
  · rfl

theorem ListInfoChunk.length_writeNext (values : StringPairArray) (acc : Bool × List Nat)
    (t : String) (h : acc.2.length % 2 = 0) :
    (ListInfoChunk.writeNext values acc t).2.length % 2 = 0 := by
  unfold ListInfoChunk.writeNext ListInfoChunk.writeValue
  dsimp only
  split_ifs with h1 h2 <;> dsimp only
  · exact h
  · rw [List.length_append, List.length_singleton]
    omega
  · omega

theorem ListInfoChunk.length_foldl_writeNext (values : StringPairArray) :
    ∀ (ts : List String) (acc : Bool × List Nat), acc.2.length % 2 = 0 →
      (ts.foldl (ListInfoChunk.writeNext values) acc).2.length % 2 = 0 := by
  intro ts
  induction ts with
  | nil => intro acc h; exact h
  | cons t rest ih =>
    intro acc h
    exact ih _ (ListInfoChunk.length_writeNext values acc t h)

theorem ListInfoChunk.info_length_even (values : StringPairArray) :
    (ListInfoChunk.createFrom values).length % 2 = 0 := by
  unfold ListInfoChunk.createFrom
  dsimp only
  split_ifs
  · exact ListInfoChunk.length_foldl_writeNext values _ _ (by decide)
  · rfl

theorem iXMLChunk.ixml_length_even (values : StringPairArray) :
    (iXMLChunk.createFrom values).length % 2 = 0 := by
  unfold iXMLChunk.createFrom
  dsimp only
  split_ifs with h1 h2
  · rfl
  · rw [length_store, List.length_replicate]
    omega
  · rw [length_store, List.length_replicate]
    omega

end WavFileHelpers

/-- C28: for every metadata map the blocks the ten chunk encoders return (`bext`,
`smpl`, `inst`, `cue `, `LIST`/`adtl`, `LIST`/`INFO`, `acid`, `axml`, `Trkn`, `iXML`)
have even length, and the end offset the reader computes for a chunk lies behind the
start of its body by the declared length `L` plus `L mod 2`, an even number. -/
theorem C28_even_chunk_bodies (ext : Collaborators) (values : StringPairArray)
    (storeChunks : Bool) (r : WavAudioFormatReader) :
    (BWAVChunk.createFrom ext values).length % 2 = 0
    ∧ (SMPLChunk.createFrom ext values).length % 2 = 0
    ∧ (InstChunk.createFrom ext values).length % 2 = 0
    ∧ (CueChunk.createFrom ext values).length % 2 = 0
    ∧ (ListChunk.createFrom ext values).length % 2 = 0
    ∧ (ListInfoChunk.createFrom values).length % 2 = 0
    ∧ (AcidChunk.createFrom ext values).length % 2 = 0
    ∧ (AXMLChunk.createFrom values).length % 2 = 0
    ∧ (TracktionChunk.createFrom values).length % 2 = 0
    ∧ (iXMLChunk.createFrom values).length % 2 = 0
    ∧ (WavAudioFormatReader.readChunkHeader storeChunks r).chunkEnd
        = r.input.readInt.2.readInt.2.getPosition
          + ((WavAudioFormatReader.readChunkHeader storeChunks r).length
              + (WavAudioFormatReader.readChunkHeader storeChunks r).length % 2)
    ∧ ((WavAudioFormatReader.readChunkHeader storeChunks r).length
        + (WavAudioFormatReader.readChunkHeader storeChunks r).length % 2) % 2 = 0 := by
  refine ⟨BWAVChunk.bext_length_even ext values, ?_, ?_, ?_,
    ListChunk.adtl_length_even ext values, ListInfoChunk.info_length_even values,
    ?_, ?_, ?_, iXMLChunk.ixml_length_even values, ?_, by omega⟩
  · rw [SMPLChunk.smpl_length_createFrom]
    exact roundUpSize_even _
  · unfold InstChunk.createFrom
    split_ifs <;> simp
  · rw [CueChunk.cue_length_createFrom]
    split_ifs
    · exact roundUpSize_even _
    · rfl
  · unfold AcidChunk.createFrom
    split_ifs
    · rw [AcidChunk.length_record]
    · rfl
  · unfold AXMLChunk.createFrom
    dsimp only
    split_ifs
    · rfl
    · rw [List.length_append, List.length_replicate]
      omega
  · unfold TracktionChunk.createFrom
    dsimp only
    split_ifs with h1 h2
    · rfl
    · rw [List.length_append, List.length_singleton]
      omega
    · omega
  · unfold WavAudioFormatReader.readChunkHeader
    dsimp only
    omega

end

/-! ### The decoder of the LIST/INFO chunk -/

section
open WavFileHelpers

/-- C24, failing input: the `INFO` body `infoBody` holds the title `ab`, and decoding
it stores that title. With a well-formed sub-chunk of an unrecognised tag in front
(`infoBodyWithUnknown`) the title is not decoded at all: the loop of
`ListInfoChunk::addToMetadata` does not skip the body of a sub-chunk whose tag it does
not recognise, and reads the bytes that follow its length field as the next tag and
length. The same holds for the decode of a whole stream with such a `LIST` chunk. -/
theorem C24_unrecognised_subchunk_not_skipped :
    (ListInfoChunk.addToMetadata (infoBody.length : Int) 8 [] (memoryInput infoBody)).map
        (fun r => r.1) = .ok [("INAM", "ab")]
    ∧ (ListInfoChunk.addToMetadata (infoBodyWithUnknown.length : Int) 8 []
          (memoryInput infoBodyWithUnknown)).map (fun r => r.1) = .ok []
    ∧ (WavAudioFormat.createReaderFor plainCollaborators (memoryInput (infoStream infoBody)) 8).map
          (Option.map (fun r => r.metadataValues.getValue "INAM" "?")) = .ok (some "ab")
    ∧ (WavAudioFormat.createReaderFor plainCollaborators
          (memoryInput (infoStream infoBodyWithUnknown)) 8).map
          (Option.map (fun r => r.metadataValues.getValue "INAM" "?")) = .ok (some "?") := by
  decide!

end

section
open WavFileHelpers

namespace WavFileHelpers

/-- The codes of the first four characters of a name, as
`isMatchingTypeIgnoringCase` compares them. -/
theorem ListInfoChunk.isMatching_iff (value : Nat) (name : String) :
    ListInfoChunk.isMatchingTypeIgnoringCase value name = true
      ↔ ∀ i, i < 4 → (name.toList.getD i (Char.ofNat 0)).toNat = toUpperCase ((value / 256 ^ i) % 256) := by
  unfold ListInfoChunk.isMatchingTypeIgnoringCase
  rw [List.all_eq_true]
  constructor
  · intro h i hi
    exact of_decide_eq_true (h i (List.mem_range.mpr hi))
  · intro h i hi
    exact decide_eq_true (h i (List.mem_range.mp hi))

theorem ListInfoChunk.types_codes_nodup :
    (ListInfoChunk.types.map (fun T =>
      (List.range 4).map (fun i => (T.toList.getD i (Char.ofNat 0)).toNat))).Nodup := by
  decide!

end WavFileHelpers

end

/-! ### The passes of the chunk loop: cue counters and metadata keys -/

section
open WavFileHelpers

theorem toList_append_cons (a b : String) (c : Char) (l : List Char) (ha : a.toList = c :: l) :
    (a ++ b).toList = c :: (l ++ b.toList) := by
  have : (a ++ b).toList = a.toList ++ b.toList := String.data_append a b
  rw [this, ha]
  rfl

theorem not_counterKey_of_head (s : String) (c : Char) (l : List Char) (hs : s.toList = c :: l)
    (hc : c ≠ 'N') : s ∉ cueCounterKeys := by
  intro h
  unfold cueCounterKeys at h
  simp only [List.mem_cons, List.mem_singleton, List.not_mem_nil, or_false] at h
  rcases h with h | h | h <;>
  · subst h
    have := congrArg List.head? hs
    simp at this
    exact hc this.symm

theorem keys_not_counter (es : List (String × String)) (ks : List String)
    (h1 : es.map Prod.fst = ks) (h2 : ∀ k ∈ ks, k ∉ cueCounterKeys) :
    ∀ e ∈ es, e.1 ∉ cueCounterKeys := by
  intro e he
  apply h2
  rw [← h1]
  exact List.mem_map_of_mem _ he

namespace NoCounterKey

theorem nil : NoCounterKey [] := fun p hp => absurd hp (List.not_mem_nil p)

theorem set_key {v : StringPairArray} (h : NoCounterKey v) (key val : String)
    (hk : key ∉ cueCounterKeys) : NoCounterKey (v.set key val) := by
  induction v with
  | nil =>
    intro p hp
    simp only [StringPairArray.set, List.mem_singleton] at hp
    subst hp
    exact hk
  | cons q rest ih =>
    obtain ⟨k0, v0⟩ := q
    have hq : k0 ∉ cueCounterKeys := h (k0, v0) (List.mem_cons_self _ _)
    have hrest : NoCounterKey rest := fun p hp => h p (List.mem_cons_of_mem _ hp)
    intro p hp
    simp only [StringPairArray.set] at hp
    split_ifs at hp with hc
    · rw [List.mem_cons] at hp
      rcases hp with hp | hp
      · subst hp; exact hq
      · exact hrest p hp
    · rw [List.mem_cons] at hp
      rcases hp with hp | hp
      · subst hp; exact hq
      · exact ih hrest p hp

theorem setAll_keys (es : List (String × String)) :
    ∀ {v : StringPairArray}, NoCounterKey v → (∀ e ∈ es, e.1 ∉ cueCounterKeys) →
      NoCounterKey (v.setAll es) := by
  induction es with
  | nil => intro v h _; exact h
  | cons e rest ih =>
    intro v h hes
    show NoCounterKey ((v.set e.1 e.2).setAll rest)
    exact ih (h.set_key e.1 e.2 (hes e (List.mem_cons_self _ _)))
      (fun e' he' => hes e' (List.mem_cons_of_mem _ he'))

theorem containsKey_eq_false {v : StringPairArray} (h : NoCounterKey v) (k : String)
    (hk : k ∈ cueCounterKeys) : v.containsKey k = false := by
  unfold StringPairArray.containsKey
  rw [List.any_eq_false]
  intro p hp hpk
  have : p.1 = k := by simpa using hpk
  exact h p hp (this ▸ hk)

end NoCounterKey

namespace WavFileHelpers

theorem BWAVChunk.bext_entries_keys (buf : List Nat) (totalSize : Int) :
    ∀ e ∈ BWAVChunk.entries buf totalSize, e.1 ∉ cueCounterKeys :=
  keys_not_counter _ ["bwav description", "bwav originator", "bwav originator ref",
    "bwav origination date", "bwav origination time", "bwav time reference",
    "bwav coding history"] rfl (by decide!)

theorem SMPLChunk.smpl_entries_keys (buf : List Nat) (totalSize : Int) :
    ∀ e ∈ SMPLChunk.entries buf totalSize, e.1 ∉ cueCounterKeys := by
  intro e he
  unfold SMPLChunk.entries at he
  rw [List.mem_append] at he
  rcases he with he | he
  · exact keys_not_counter (SMPLChunk.headerEntries buf) ["Manufacturer", "Product", "SamplePeriod", "MidiUnityNote",
      "MidiPitchFraction", "SmpteFormat", "SmpteOffset", "NumSampleLoops", "SamplerData"] rfl
      (by decide!) e he
  · rw [List.mem_flatMap] at he
    obtain ⟨i, _, hi⟩ := he
    unfold SMPLChunk.loopEntries at hi
    simp only [List.mem_cons, List.mem_singleton, List.not_mem_nil, or_false] at hi
    rcases hi with hi | hi | hi | hi | hi | hi <;>
    · subst hi
      exact not_counterKey_of_head _ 'L' _
        (toList_append_cons _ _ _ _ (toList_append_cons "Loop" _ 'L' _ rfl)) (by decide)

theorem InstChunk.inst_entries_keys (buf : List Nat) :
    ∀ e ∈ InstChunk.entries buf, e.1 ∉ cueCounterKeys :=
  keys_not_counter _ ["MidiUnityNote", "Detune", "Gain", "LowNote", "HighNote", "LowVelocity",
    "HighVelocity"] rfl (by decide!)

theorem CueChunk.cue_entries_keys (buf : List Nat) (totalSize : Int) :
    ∀ e ∈ CueChunk.entries buf totalSize, e.1 ∉ cueCounterKeys := by
  intro e he
  unfold CueChunk.entries at he
  rw [List.mem_cons] at he
  rcases he with he | he
  · subst he
    show "NumCuePoints" ∉ cueCounterKeys
    decide!
  · rw [List.mem_flatMap] at he
    obtain ⟨i, _, hi⟩ := he
    unfold CueChunk.cueEntries at hi
    simp only [List.mem_cons, List.mem_singleton, List.not_mem_nil, or_false] at hi
    rcases hi with hi | hi | hi | hi | hi | hi <;>
    · subst hi
      exact not_counterKey_of_head _ 'C' _
        (toList_append_cons _ _ _ _ (toList_append_cons "Cue" _ 'C' _ rfl)) (by decide)

theorem AcidChunk.acid_entries_keys (ext : Collaborators) (buf : List Nat) :
    ∀ e ∈ AcidChunk.entries ext buf, e.1 ∉ cueCounterKeys := by
  intro e he
  unfold AcidChunk.entries at he
  simp only [List.mem_append, List.mem_cons, List.mem_singleton, List.not_mem_nil, or_false] at he
  have hk : e.1 ∈ ["acid one shot", "acid root set", "acid stretch", "acid disk based",
      "acidizer flag", "acid root note", "acid beats", "acid denominator", "acid numerator",
      "acid tempo"] := by
    rcases he with ((he | he | he | he | he) | he) | he
    · subst he; simp
    · subst he; simp
    · subst he; simp
    · subst he; simp
    · subst he; simp
    · split_ifs at he
      · rw [List.mem_singleton] at he
        subst he; simp
      · exact absurd he (List.not_mem_nil e)
    · rcases he with he | he | he | he
      · subst he; simp
      · subst he; simp
      · subst he; simp
      · subst he; simp
  revert hk
  generalize e.1 = k
  revert k
  decide!

theorem ListInfoChunk.types_keys : ∀ t ∈ ListInfoChunk.types, t ∉ cueCounterKeys := by
  decide!

theorem ListInfoChunk.addToMetadata_noCounterKey (chunkEnd : Int) :
    ∀ (fuel : Nat) (values : StringPairArray) (input : InputStream)
      (r : StringPairArray × InputStream),
      ListInfoChunk.addToMetadata chunkEnd fuel values input = .ok r →
      NoCounterKey values → NoCounterKey r.1 := by
  intro fuel
  induction fuel with
  | zero => intro values input r h; rw [ListInfoChunk.addToMetadata] at h; cases h
  | succ n ih =>
    intro values input r h hv
    rw [ListInfoChunk.addToMetadata] at h
    dsimp only at h
    split_ifs at h with h1 h2 h3
    · injection h with h
      subst h
      exact hv
    · split at h
      · rename_i t ht
        have hmem := List.mem_of_find?_eq_some ht
        exact ih _ _ _ h (hv.setAll_keys _ (by
          intro e he
          rw [List.mem_singleton] at he
          subst he
          exact ListInfoChunk.types_keys t hmem))
      · exact ih _ _ _ h hv
    · exact ih _ _ _ h hv
    · injection h with h
      subst h
      exact hv

end WavFileHelpers

namespace WavAudioFormatReader

theorem readChunkHeader_metadata (storeChunks : Bool) (r : WavAudioFormatReader) :
    (readChunkHeader storeChunks r).reader.metadataValues = r.metadataValues := by
  unfold readChunkHeader
  dsimp only
  split_ifs <;> rfl

theorem readFmtGeometry_metadata (r : WavAudioFormatReader) (g : Nat × WavAudioFormatReader)
    (h : readFmtGeometry r = .ok g) :
    g.2.metadataValues = r.metadataValues ∧ g.1 = r.input.readShort.1 := by
  unfold readFmtGeometry at h
  dsimp only at h
  split_ifs at h
  all_goals
    injection h with h
    subst h
    exact ⟨rfl, rfl⟩

theorem fmtFormat_noCounterKey (r : WavAudioFormatReader) (format length ssp : Nat)
    (h : NoCounterKey r.metadataValues) :
    NoCounterKey (fmtFormat r format length ssp).1.metadataValues := by
  have hset : NoCounterKey (r.metadataValues.setAll
      [("ChannelMask", toString (toInt32 (r.input.skipNextBytes 4).readInt.1))]) :=
    h.setAll_keys _ (by
      intro e he
      rw [List.mem_singleton] at he
      subst he
      show "ChannelMask" ∉ cueCounterKeys
      decide!)
  unfold fmtFormat
  dsimp only
  split_ifs
  all_goals
    dsimp only
    first | exact h | exact hset

theorem adtlSubChunk_noCounterKey (st : ChunkLoopState) (h : NoCounterKey st.reader.metadataValues) :
    NoCounterKey (adtlSubChunk st).reader.metadataValues := by
  unfold adtlSubChunk
  dsimp only
  split_ifs with h1 h2 h3
  · -- labl
    apply h.setAll_keys
    intro e he
    simp only [List.mem_cons, List.mem_singleton, List.not_mem_nil, or_false] at he
    rcases he with he | he <;>
    · subst he
      exact not_counterKey_of_head _ 'C' _
        (toList_append_cons _ _ _ _ (toList_append_cons "CueLabel" _ 'C' _ rfl)) (by decide)
  · -- note
    apply h.setAll_keys
    intro e he
    simp only [List.mem_cons, List.mem_singleton, List.not_mem_nil, or_false] at he
    rcases he with he | he <;>
    · subst he
      exact not_counterKey_of_head _ 'C' _
        (toList_append_cons _ _ _ _ (toList_append_cons "CueNote" _ 'C' _ rfl)) (by decide)
  · -- ltxt
    apply h.setAll_keys
    intro e he
    simp only [List.mem_cons, List.mem_singleton, List.not_mem_nil, or_false] at he
    rcases he with he | he | he | he | he | he | he | he <;>
    · subst he
      exact not_counterKey_of_head _ 'C' _
        (toList_append_cons _ _ _ _ (toList_append_cons "CueRegion" _ 'C' _ rfl)) (by decide)
  · exact h

theorem adtlLoop_noCounterKey (chunkEnd : Nat) :
    ∀ (fuel : Nat) (st st1 : ChunkLoopState), adtlLoop chunkEnd fuel st = .ok st1 →
      NoCounterKey st.reader.metadataValues → NoCounterKey st1.reader.metadataValues := by
  intro fuel
  induction fuel with
  | zero => intro st st1 h; rw [adtlLoop] at h; cases h
  | succ n ih =>
    intro st st1 h hv
    rw [adtlLoop] at h
    split_ifs at h
    · exact ih _ _ h (adtlSubChunk_noCounterKey st hv)
    · injection h with h
      subst h
      exact hv

theorem listChunk_noCounterKey (fuel : Nat) (st : ChunkLoopState) (h : ChunkHeader) (fl : Flow)
    (hl : listChunk fuel st h = .ok fl) (hv : NoCounterKey h.reader.metadataValues) :
    NoCounterKey fl.state.reader.metadataValues := by
  unfold listChunk at hl
  dsimp only at hl
  split_ifs at hl
  · split at hl
    · cases hl
    · rename_i v hv1
      injection hl with hl
      subst hl
      have hA : ∀ (r : Except Unit (StringPairArray × InputStream)) (w : StringPairArray × InputStream),
          r = .ok w → ListInfoChunk.addToMetadata (h.chunkEnd : Int) fuel h.reader.metadataValues
            h.reader.input.readInt.2 = r → NoCounterKey w.1 :=
        fun r w hr he => ListInfoChunk.addToMetadata_noCounterKey _ _ _ _ _ (he.trans hr) hv
      exact hA _ v rfl hv1
  · split at hl
    · cases hl
    · rename_i st1 hst1
      injection hl with hl
      subst hl
      have hA := adtlLoop_noCounterKey _ _ _ _ hst1 hv
      exact hA
  · injection hl with hl
    subst hl
    exact hv

theorem copyTo_noCounterKey (values : StringPairArray) (buf : List Nat) (n : Int)
    (ext : Collaborators) (h : NoCounterKey values) :
    NoCounterKey (BWAVChunk.copyTo values buf n) ∧ NoCounterKey (SMPLChunk.copyTo values buf n)
    ∧ NoCounterKey (InstChunk.copyTo values buf) ∧ NoCounterKey (CueChunk.copyTo values buf n)
    ∧ NoCounterKey (AcidChunk.addToMetadata ext values buf) := by
  refine ⟨?_, ?_, ?_, ?_, ?_⟩
  · unfold BWAVChunk.copyTo
    exact h.setAll_keys (BWAVChunk.entries buf n) (BWAVChunk.bext_entries_keys buf n)
  · unfold SMPLChunk.copyTo
    exact h.setAll_keys (SMPLChunk.entries buf n) (SMPLChunk.smpl_entries_keys buf n)
  · unfold InstChunk.copyTo
    exact h.setAll_keys (InstChunk.entries buf) (InstChunk.inst_entries_keys buf)
  · unfold CueChunk.copyTo
    exact h.setAll_keys (CueChunk.entries buf n) (CueChunk.cue_entries_keys buf n)
  · unfold AcidChunk.addToMetadata
    exact h.setAll_keys (AcidChunk.entries ext buf) (AcidChunk.acid_entries_keys ext buf)

theorem metadataChunk_noCounterKey (ext : Collaborators) (storeChunks : Bool) (h : ChunkHeader)
    (r : WavAudioFormatReader) (hm : metadataChunk ext storeChunks h = some r)
    (hv : NoCounterKey h.reader.metadataValues) : NoCounterKey r.metadataValues := by
  have hone : ∀ (k v : String), k ∉ cueCounterKeys →
      NoCounterKey (h.reader.metadataValues.setAll [(k, v)]) := by
    intro k v hk
    apply hv.setAll_keys
    intro e he
    rw [List.mem_singleton] at he
    subst he
    exact hk
  have haxml : ∀ s, NoCounterKey (AXMLChunk.addToMetadata ext h.reader.metadataValues s) := by
    intro s
    unfold AXMLChunk.addToMetadata
    dsimp only
    apply hv.setAll_keys
    intro e he
    split_ifs at he
    · exact absurd he (List.not_mem_nil e)
    · rw [List.mem_singleton] at he
      subst he
      show "ISRC" ∉ cueCounterKeys
      decide!
  unfold metadataChunk at hm
  dsimp only at hm
  split_ifs at hm
  · injection hm with hm
    subst hm
    try dsimp only
    exact hv
  · injection hm with hm
    subst hm
    try dsimp only
    exact hv
  · injection hm with hm
    subst hm
    try dsimp only
    exact hone _ _ (by decide!)
  · injection hm with hm
    subst hm
    try dsimp only
    exact hv
  · injection hm with hm
    subst hm
    try dsimp only
    exact (copyTo_noCounterKey _ _ _ ext hv).1
  · injection hm with hm
    subst hm
    try dsimp only
    exact (copyTo_noCounterKey _ _ _ ext hv).2.1
  · injection hm with hm
    subst hm
    try dsimp only
    exact (copyTo_noCounterKey _ _ 0 ext hv).2.2.1
  · injection hm with hm
    subst hm
    try dsimp only
    exact (copyTo_noCounterKey _ _ _ ext hv).2.2.2.1
  · injection hm with hm
    subst hm
    try dsimp only
    exact haxml _
  · injection hm with hm
    subst hm
    try dsimp only
    exact (copyTo_noCounterKey _ _ 0 ext hv).2.2.2.2
  · injection hm with hm
    subst hm
    try dsimp only
    exact hone _ _ (by decide!)

end WavAudioFormatReader

namespace WavAudioFormatReader

theorem seekToChunkEnd_state (st : ChunkLoopState) (r : WavAudioFormatReader) (chunkEnd : Nat) :
    (seekToChunkEnd st r chunkEnd).state.reader.metadataValues = r.metadataValues
    ∧ (seekToChunkEnd st r chunkEnd).state.cueLabelIndex = st.cueLabelIndex
    ∧ (seekToChunkEnd st r chunkEnd).state.cueNoteIndex = st.cueNoteIndex
    ∧ (seekToChunkEnd st r chunkEnd).state.cueRegionIndex = st.cueRegionIndex
    ∧ (seekToChunkEnd st r chunkEnd).state.reader.sampleRate = r.sampleRate :=
  ⟨rfl, rfl, rfl, rfl, rfl⟩

/-- A pass through the body of the chunk loop stores no cue counter key. -/
theorem chunk_noCounterKey (ext : Collaborators) (storeChunks : Bool) (ssp n : Nat)
    (st : ChunkLoopState) (fl : Flow) (hc : chunk ext storeChunks ssp n st = .ok fl)
    (hv : NoCounterKey st.reader.metadataValues) :
    NoCounterKey fl.state.reader.metadataValues := by
  have hH : NoCounterKey (readChunkHeader storeChunks st.reader).reader.metadataValues := by
    rw [readChunkHeader_metadata]
    exact hv
  unfold chunk at hc
  dsimp only at hc
  split_ifs at hc with h1 h2 h3
  · unfold fmtChunk at hc
    split at hc
    · cases hc
    · rename_i g hg
      have hG : NoCounterKey g.2.metadataValues := by
        rw [(readFmtGeometry_metadata _ _ hg).1]
        exact hH
      have hF := fmtFormat_noCounterKey g.2 g.1 (readChunkHeader storeChunks st.reader).length ssp hG
      dsimp only at hc
      split_ifs at hc
      · injection hc with hc
        subst hc
        exact hF
      · injection hc with hc
        subst hc
        rw [(seekToChunkEnd_state _ _ _).1]
        exact hF
  · injection hc with hc
    subst hc
    rw [(seekToChunkEnd_state _ _ _).1]
    exact hH
  · exact listChunk_noCounterKey _ _ _ _ hc hH
  · split at hc
    · injection hc with hc
      subst hc
      rename_i r hr
      rw [(seekToChunkEnd_state _ _ _).1]
      exact metadataChunk_noCounterKey _ _ _ _ hr hH
    · injection hc with hc
      subst hc
      exact hH
  · split at hc
    · injection hc with hc
      subst hc
      rename_i r hr
      rw [(seekToChunkEnd_state _ _ _).1]
      exact metadataChunk_noCounterKey _ _ _ _ hr hH
    · injection hc with hc
      subst hc
      rw [(seekToChunkEnd_state _ _ _).1]
      exact hH

theorem seekToChunkEnd_ne_ret (st : ChunkLoopState) (r : WavAudioFormatReader) (chunkEnd : Nat)
    (st1 : ChunkLoopState) : seekToChunkEnd st r chunkEnd ≠ .ret st1 := by
  intro h
  cases h

theorem brk_ne_ret (st st1 : ChunkLoopState) : Flow.brk st ≠ Flow.ret st1 := by
  intro h
  cases h

theorem ret_state (fl : Flow) (st1 : ChunkLoopState) (h : fl = .ret st1) : fl.state = st1 := by
  subst h
  rfl

end WavAudioFormatReader

namespace WavAudioFormatReader

theorem adtlCount_nil (tag : Nat) : adtlCount tag [] = 0 := rfl

theorem adtlCount_cons (tag : Nat) (s : ChunkLoopState) (l : List ChunkLoopState) :
    adtlCount tag (s :: l) = adtlCount tag l + (if adtlTag s = tag then 1 else 0) := by
  unfold adtlCount
  rw [List.countP_cons]
  simp only [decide_eq_true_eq]

theorem adtlCount_append (tag : Nat) (l1 l2 : List ChunkLoopState) :
    adtlCount tag (l1 ++ l2) = adtlCount tag l1 + adtlCount tag l2 := by
  unfold adtlCount
  rw [List.countP_append]

theorem CountedFrom.empty (tag start : Nat) : CountedFrom tag start [] := by
  intro pre s post h
  have := congrArg List.length h
  simp only [List.length_nil, List.length_append, List.length_cons] at this
  omega

theorem CountedFrom.cons {tag start : Nat} {s : ChunkLoopState} {l : List ChunkLoopState}
    (hs : cueIndex tag s = start)
    (hl : CountedFrom tag (start + (if adtlTag s = tag then 1 else 0)) l) :
    CountedFrom tag start (s :: l) := by
  intro pre x post h
  cases pre with
  | nil =>
    rw [List.nil_append, List.cons.injEq] at h
    rw [← h.1, hs, adtlCount_nil]
    rfl
  | cons p pre' =>
    rw [List.cons_append, List.cons.injEq] at h
    rw [hl pre' x post h.2, ← h.1, adtlCount_cons]
    omega

theorem CountedFrom.append {tag start : Nat} {l1 l2 : List ChunkLoopState}
    (h1 : CountedFrom tag start l1) (h2 : CountedFrom tag (start + adtlCount tag l1) l2) :
    CountedFrom tag start (l1 ++ l2) := by
  induction l1 generalizing start with
  | nil =>
    rw [List.nil_append]
    rw [adtlCount_nil, Nat.add_zero] at h2
    exact h2
  | cons a rest ih =>
    rw [List.cons_append]
    have ha : cueIndex tag a = start := by
      have := h1 [] a rest rfl
      rw [adtlCount_nil, Nat.add_zero] at this
      exact this
    apply CountedFrom.cons ha
    apply ih
    · intro pre x post h
      have := h1 (a :: pre) x post (by rw [h]; rfl)
      rw [this, adtlCount_cons]
      omega
    · rw [adtlCount_cons] at h2
      have e : start + (if adtlTag a = tag then 1 else 0) + adtlCount tag rest
          = start + (adtlCount tag rest + if adtlTag a = tag then 1 else 0) := by omega
      rw [e]
      exact h2

/-- What a sub-chunk pass does to the counter of a tag: one more when the pass reads
that tag. -/
theorem adtlSubChunk_cueIndex (tag : Nat)
    (htag : tag = chunkName "labl" ∨ tag = chunkName "note" ∨ tag = chunkName "ltxt")
    (st : ChunkLoopState) :
    cueIndex tag (adtlSubChunk st) = cueIndex tag st + (if adtlTag st = tag then 1 else 0) := by
  have d1 : chunkName "labl" ≠ chunkName "note" := by decide!
  have d2 : chunkName "labl" ≠ chunkName "ltxt" := by decide!
  have d3 : chunkName "note" ≠ chunkName "ltxt" := by decide!
  unfold adtlSubChunk adtlTag
  dsimp only
  by_cases h1 : st.reader.input.readInt.1 = chunkName "labl"
  · rw [if_pos (Or.inl h1), h1]
    rcases htag with h | h | h <;> subst h <;> simp [cueIndex, d1, d2, d3, d1.symm, d2.symm, d3.symm]
  · by_cases h2 : st.reader.input.readInt.1 = chunkName "note"
    · rw [if_pos (Or.inr h2), h2]
      rcases htag with h | h | h <;> subst h <;> simp [cueIndex, d1, d2, d3, d1.symm, d2.symm, d3.symm]
    · rw [if_neg (by intro h; rcases h with h | h; exact h1 h; exact h2 h)]
      by_cases h3 : st.reader.input.readInt.1 = chunkName "ltxt"
      · rw [if_pos h3, h3]
        rcases htag with h | h | h <;> subst h <;> simp [cueIndex, d1, d2, d3, d1.symm, d2.symm, d3.symm]
      · rw [if_neg h3]
        rcases htag with h | h | h <;> subst h <;> simp [cueIndex, d1, d2, d3, d1.symm, d2.symm, d3.symm, h1, h2, h3]

theorem adtlLoop_counted (chunkEnd tag : Nat)
    (htag : tag = chunkName "labl" ∨ tag = chunkName "note" ∨ tag = chunkName "ltxt") :
    ∀ (fuel : Nat) (st st1 : ChunkLoopState), adtlLoop chunkEnd fuel st = .ok st1 →
      CountedFrom tag (cueIndex tag st) (adtlStates chunkEnd fuel st)
      ∧ cueIndex tag st1 = cueIndex tag st + adtlCount tag (adtlStates chunkEnd fuel st) := by
  intro fuel
  induction fuel with
  | zero => intro st st1 h; rw [adtlLoop] at h; cases h
  | succ n ih =>
    intro st st1 h
    rw [adtlLoop] at h
    rw [adtlStates]
    by_cases hc : st.reader.input.getPosition < chunkEnd
    · rw [if_pos hc] at h ⊢
      have hI := ih _ _ h
      rw [adtlSubChunk_cueIndex tag htag st] at hI
      refine ⟨CountedFrom.cons rfl hI.1, ?_⟩
      rw [hI.2, adtlCount_cons]
      omega
    · rw [if_neg hc] at h ⊢
      injection h with h
      subst h
      exact ⟨CountedFrom.empty _ _, by rw [adtlCount_nil]; rfl⟩

end WavAudioFormatReader

namespace WavAudioFormatReader

theorem cueIndex_congr (tag : Nat) (s1 s2 : ChunkLoopState)
    (h1 : s1.cueLabelIndex = s2.cueLabelIndex) (h2 : s1.cueNoteIndex = s2.cueNoteIndex)
    (h3 : s1.cueRegionIndex = s2.cueRegionIndex) : cueIndex tag s1 = cueIndex tag s2 := by
  unfold cueIndex
  rw [h1, h2, h3]

theorem cueIndex_seekToChunkEnd (tag : Nat) (st : ChunkLoopState) (r : WavAudioFormatReader)
    (chunkEnd : Nat) : cueIndex tag (seekToChunkEnd st r chunkEnd).state = cueIndex tag st :=
  cueIndex_congr tag _ _ rfl rfl rfl

theorem cueIndex_ret (tag : Nat) (st : ChunkLoopState) (r : WavAudioFormatReader) :
    cueIndex tag (Flow.ret { st with reader := r }).state = cueIndex tag st :=
  cueIndex_congr tag _ _ rfl rfl rfl

theorem cueIndex_brk (tag : Nat) (st : ChunkLoopState) (r : WavAudioFormatReader) :
    cueIndex tag (Flow.brk { st with reader := r }).state = cueIndex tag st :=
  cueIndex_congr tag _ _ rfl rfl rfl

/-- What a pass through the body of the chunk loop does to the counter of a tag: it
grows by the number of sub-chunk passes of the pass that read the tag. -/
theorem chunk_counted (ext : Collaborators) (storeChunks : Bool) (ssp n tag : Nat)
    (htag : tag = chunkName "labl" ∨ tag = chunkName "note" ∨ tag = chunkName "ltxt")
    (st : ChunkLoopState) (fl : Flow) (hc : chunk ext storeChunks ssp n st = .ok fl) :
    CountedFrom tag (cueIndex tag st) (adtlPasses storeChunks n st)
    ∧ cueIndex tag fl.state = cueIndex tag st + adtlCount tag (adtlPasses storeChunks n st) := by
  have e1 : chunkName "fmt " ≠ chunkName "LIST" := by decide!
  have e2 : chunkName "data" ≠ chunkName "LIST" := by decide!
  have e3 : chunkName "info" ≠ chunkName "adtl" := by decide!
  have e4 : chunkName "INFO" ≠ chunkName "adtl" := by decide!
  have none_case : ∀ (hn : ¬ ((readChunkHeader storeChunks st.reader).chunkType = chunkName "LIST"
        ∧ (readChunkHeader storeChunks st.reader).reader.input.readInt.1 = chunkName "adtl")),
      cueIndex tag fl.state = cueIndex tag st →
      CountedFrom tag (cueIndex tag st) (adtlPasses storeChunks n st)
      ∧ cueIndex tag fl.state = cueIndex tag st + adtlCount tag (adtlPasses storeChunks n st) := by
    intro hn hfl
    unfold adtlPasses
    dsimp only
    rw [if_neg hn]
    exact ⟨CountedFrom.empty _ _, by rw [adtlCount_nil, hfl]; rfl⟩
  unfold chunk at hc
  dsimp only at hc
  split_ifs at hc with h1 h2 h3
  · apply none_case (fun hh => e1 (h1.symm.trans hh.1))
    unfold fmtChunk at hc
    split at hc
    · cases hc
    · dsimp only at hc
      split_ifs at hc
      · rw [← Except.ok.inj hc]
        exact cueIndex_ret tag _ _
      · rw [← Except.ok.inj hc]
        exact cueIndex_seekToChunkEnd tag _ _ _
  · apply none_case (fun hh => e2 (h2.symm.trans hh.1))
    rw [← Except.ok.inj hc]
    exact cueIndex_seekToChunkEnd tag _ _ _
  · unfold listChunk at hc
    dsimp only at hc
    split_ifs at hc with g1 g2
    · apply none_case (fun hh => by
        rcases g1 with g | g
        · exact e3 (g.symm.trans hh.2)
        · exact e4 (g.symm.trans hh.2))
      split at hc
      · cases hc
      · rw [← Except.ok.inj hc]
        exact cueIndex_seekToChunkEnd tag _ _ _
    · split at hc
      · cases hc
      · rename_i st1 hst1
        have hA := adtlLoop_counted (readChunkHeader storeChunks st.reader).chunkEnd tag htag n _ _ hst1
        have hst : cueIndex tag
            { st with reader := { (readChunkHeader storeChunks st.reader).reader with
                input := (readChunkHeader storeChunks st.reader).reader.input.readInt.2 } }
            = cueIndex tag st := cueIndex_congr tag _ _ rfl rfl rfl
        rw [hst] at hA
        rw [← Except.ok.inj hc, cueIndex_seekToChunkEnd]
        unfold adtlPasses
        dsimp only
        rw [if_pos ⟨h3, g2⟩]
        exact hA
    · apply none_case (fun hh => g2 hh.2)
      rw [← Except.ok.inj hc]
      exact cueIndex_seekToChunkEnd tag _ _ _
  · apply none_case (fun hh => h3 hh.1)
    split at hc
    · rw [← Except.ok.inj hc]
      exact cueIndex_seekToChunkEnd tag _ _ _
    · rw [← Except.ok.inj hc]
      exact cueIndex_brk tag _ _
  · apply none_case (fun hh => h3 hh.1)
    split at hc
    · rw [← Except.ok.inj hc]
      exact cueIndex_seekToChunkEnd tag _ _ _
    · rw [← Except.ok.inj hc]
      exact cueIndex_seekToChunkEnd tag _ _ _

end WavAudioFormatReader

namespace WavAudioFormatReader

/-- The ways a run of the chunk loop with fuel left goes: the loop condition fails; or
the pass goes on to the next one; or it ends with the `break`; or it returns. -/
theorem chunkLoop_step (ext : Collaborators) (storeChunks : Bool) (ssp end_ n fuel : Nat)
    (st : ChunkLoopState) (b : Bool) (st' : ChunkLoopState)
    (h : chunkLoop ext storeChunks ssp end_ n (fuel + 1) st = .ok (b, st')) :
    (b = false ∧ st' = st ∧ chunkStates ext storeChunks ssp end_ n (fuel + 1) st = [])
    ∨ ∃ fl, chunk ext storeChunks ssp n st = .ok fl
        ∧ fl.state = (match fl with | .next st1 => st1 | _ => st')
        ∧ (match fl with
           | .next st1 => chunkLoop ext storeChunks ssp end_ n fuel st1 = .ok (b, st')
               ∧ chunkStates ext storeChunks ssp end_ n (fuel + 1) st
                   = st :: chunkStates ext storeChunks ssp end_ n fuel st1
           | .brk _ => b = false ∧ chunkStates ext storeChunks ssp end_ n (fuel + 1) st = [st]
           | .ret _ => b = true ∧ chunkStates ext storeChunks ssp end_ n (fuel + 1) st = [st]) := by
  rw [chunkLoop] at h
  rw [chunkStates]
  by_cases hcond : st.reader.input.getPosition < end_ ∧ ¬ st.reader.input.isExhausted
  · rw [if_pos hcond] at h
    rw [if_pos hcond]
    right
    cases hchunk : chunk ext storeChunks ssp n st with
    | error e => rw [hchunk] at h; cases h
    | ok fl =>
      rw [hchunk] at h
      refine ⟨fl, rfl, ?_⟩
      cases fl with
      | next st1 =>
        dsimp only at h ⊢
        exact ⟨rfl, h, rfl⟩
      | brk st1 =>
        dsimp only at h ⊢
        have h2 := Except.ok.inj h
        rw [Prod.mk.injEq] at h2
        exact ⟨h2.2, h2.1.symm, rfl⟩
      | ret st1 =>
        dsimp only at h ⊢
        have h2 := Except.ok.inj h
        rw [Prod.mk.injEq] at h2
        exact ⟨h2.2, h2.1.symm, rfl⟩
  · rw [if_neg hcond] at h
    rw [if_neg hcond]
    left
    have h2 := Except.ok.inj h
    rw [Prod.mk.injEq] at h2
    exact ⟨h2.1.symm, h2.2.symm, rfl⟩

/-- The chunk loop stores no cue counter key. -/
theorem chunkLoop_noCounterKey (ext : Collaborators) (storeChunks : Bool) (ssp end_ n : Nat) :
    ∀ (fuel : Nat) (st : ChunkLoopState) (b : Bool) (st' : ChunkLoopState),
      chunkLoop ext storeChunks ssp end_ n fuel st = .ok (b, st') →
      NoCounterKey st.reader.metadataValues → NoCounterKey st'.reader.metadataValues := by
  intro fuel
  induction fuel with
  | zero => intro st b st' h; rw [chunkLoop] at h; cases h
  | succ k ih =>
    intro st b st' h hv
    rcases chunkLoop_step ext storeChunks ssp end_ n k st b st' h with ⟨_, hst, _⟩ | ⟨fl, hc, hfl, hm⟩
    · rw [hst]; exact hv
    · have hP := chunk_noCounterKey ext storeChunks ssp n st fl hc hv
      rw [hfl] at hP
      cases fl with
      | next st1 => exact ih st1 b st' hm.1 hP
      | brk st1 => exact hP
      | ret st1 => exact hP

/-- The counters of the chunk loop: each sub-chunk pass starts with its counter at the
number of earlier sub-chunk passes of its tag, and the loop ends with the counter at
their total number. -/
theorem chunkLoop_counted (ext : Collaborators) (storeChunks : Bool) (ssp end_ n tag : Nat)
    (htag : tag = chunkName "labl" ∨ tag = chunkName "note" ∨ tag = chunkName "ltxt") :
    ∀ (fuel : Nat) (st : ChunkLoopState) (b : Bool) (st' : ChunkLoopState),
      chunkLoop ext storeChunks ssp end_ n fuel st = .ok (b, st') →
      CountedFrom tag (cueIndex tag st)
          ((chunkStates ext storeChunks ssp end_ n fuel st).flatMap (adtlPasses storeChunks n))
      ∧ cueIndex tag st' = cueIndex tag st + adtlCount tag
          ((chunkStates ext storeChunks ssp end_ n fuel st).flatMap (adtlPasses storeChunks n)) := by
  intro fuel
  induction fuel with
  | zero => intro st b st' h; rw [chunkLoop] at h; cases h
  | succ k ih =>
    intro st b st' h
    rcases chunkLoop_step ext storeChunks ssp end_ n k st b st' h with ⟨_, hst, hl⟩ | ⟨fl, hc, hfl, hm⟩
    · rw [hl, hst, List.flatMap_nil]
      exact ⟨CountedFrom.empty _ _, by rw [adtlCount_nil]; rfl⟩
    · have hP := chunk_counted ext storeChunks ssp n tag htag st fl hc
      rw [hfl] at hP
      cases fl with
      | next st1 =>
        dsimp only at hP hm
        have hI := ih st1 b st' hm.1
        rw [hm.2, List.flatMap_cons, adtlCount_append]
        rw [hP.2] at hI
        exact ⟨CountedFrom.append hP.1 hI.1, by rw [hI.2, Nat.add_assoc]⟩
      | brk st1 =>
        dsimp only at hP hm
        rw [hm.2, List.flatMap_cons, List.flatMap_nil, List.append_nil]
        exact hP
      | ret st1 =>
        dsimp only at hP hm
        rw [hm.2, List.flatMap_cons, List.flatMap_nil, List.append_nil]
        exact hP

end WavAudioFormatReader

namespace StringPairArray

theorem containsKey_set (m : StringPairArray) (k v key : String) :
    (m.set k v).containsKey key = (decide (k = key) || m.containsKey key) := by
  induction m with
  | nil => simp [set, containsKey, beq_eq_decide]
  | cons p rest ih =>
    obtain ⟨k0, v0⟩ := p
    unfold containsKey at ih ⊢
    simp only [set]
    by_cases h : k0 = k
    · rw [if_pos h]
      subst h
      simp only [List.any_cons]
      by_cases h2 : k0 = key <;> simp [h2]
    · rw [if_neg h]
      simp only [List.any_cons, ih]
      by_cases h2 : k0 = key
      · simp [h2]
      · by_cases h3 : k = key <;> simp [h2, h3]

theorem containsKey_ite_set (m : StringPairArray) (c : Prop) [Decidable c] (k v key : String) :
    (if c then m.set k v else m).containsKey key = (decide (c ∧ k = key) || m.containsKey key) := by
  by_cases hc : c
  · rw [if_pos hc, containsKey_set]
    simp [hc]
  · rw [if_neg hc]
    simp [hc]

theorem getValue_ite_set (m : StringPairArray) (c : Prop) [Decidable c] (k v key d : String) :
    (if c then m.set k v else m).getValue key d
      = if c ∧ k = key then v else m.getValue key d := by
  by_cases hc : c
  · rw [if_pos hc, getValue_set]
    simp [hc]
  · rw [if_neg hc]
    simp [hc]

theorem containsKey_eq_false_of_nil (key : String) :
    StringPairArray.containsKey [] key = false := rfl

end StringPairArray

namespace WavAudioFormatReader

/-- The closing statements of `doRead` store each counter that is not 0 under its key,
and leave the key absent otherwise. -/
theorem finishMetadata_counter (st : ChunkLoopState) (hv : NoCounterKey st.reader.metadataValues)
    (tag : Nat) (htag : tag = chunkName "labl" ∨ tag = chunkName "note" ∨ tag = chunkName "ltxt")
    (d : String) :
    (cueIndex tag st = 0
        → (finishMetadata st).metadataValues.containsKey (adtlCounterKey tag) = false)
    ∧ (0 < cueIndex tag st
        → (finishMetadata st).metadataValues.containsKey (adtlCounterKey tag) = true
          ∧ (finishMetadata st).metadataValues.getValue (adtlCounterKey tag) d
              = toString (cueIndex tag st)) := by
  have d1 : chunkName "note" ≠ chunkName "labl" := by decide!
  have d2 : chunkName "ltxt" ≠ chunkName "labl" := by decide!
  have d3 : chunkName "ltxt" ≠ chunkName "note" := by decide!
  have cL := hv.containsKey_eq_false "NumCueLabels" (by decide)
  have cN := hv.containsKey_eq_false "NumCueNotes" (by decide)
  have cR := hv.containsKey_eq_false "NumCueRegions" (by decide)
  have gL := StringPairArray.getValue_of_not_containsKey _ _ d cL
  have gN := StringPairArray.getValue_of_not_containsKey _ _ d cN
  have gR := StringPairArray.getValue_of_not_containsKey _ _ d cR
  have s1 : "NumCueLabels" ≠ "NumCueNotes" := by decide
  have s2 : "NumCueLabels" ≠ "NumCueRegions" := by decide
  have s3 : "NumCueNotes" ≠ "NumCueRegions" := by decide
  have s4 : "MetaDataSource" ≠ "NumCueLabels" := by decide
  have s5 : "MetaDataSource" ≠ "NumCueNotes" := by decide
  have s6 : "MetaDataSource" ≠ "NumCueRegions" := by decide
  unfold finishMetadata
  dsimp only
  rcases htag with h | h | h
  · subst h
    have k : cueIndex (chunkName "labl") st = st.cueLabelIndex := by
      unfold cueIndex; rw [if_pos rfl]
    have kk : adtlCounterKey (chunkName "labl") = "NumCueLabels" := by
      unfold adtlCounterKey; rw [if_pos rfl]
    rw [k, kk]
    simp only [StringPairArray.containsKey_ite_set, StringPairArray.getValue_ite_set, cL, gL]
    constructor
    · intro h0
      simp [h0, s1.symm, s2.symm, s4]
    · intro h0
      simp [h0, s1.symm, s2.symm, s4]
  · subst h
    have k : cueIndex (chunkName "note") st = st.cueNoteIndex := by
      unfold cueIndex; rw [if_neg d1, if_pos rfl]
    have kk : adtlCounterKey (chunkName "note") = "NumCueNotes" := by
      unfold adtlCounterKey; rw [if_neg d1, if_pos rfl]
    rw [k, kk]
    simp only [StringPairArray.containsKey_ite_set, StringPairArray.getValue_ite_set, cN, gN]
    constructor
    · intro h0
      simp [h0, s1, s3.symm, s5]
    · intro h0
      simp [h0, s1, s3.symm, s5]
  · subst h
    have k : cueIndex (chunkName "ltxt") st = st.cueRegionIndex := by
      unfold cueIndex; rw [if_neg d2, if_neg d3]
    have kk : adtlCounterKey (chunkName "ltxt") = "NumCueRegions" := by
      unfold adtlCounterKey; rw [if_neg d2, if_neg d3]
    rw [k, kk]
    simp only [StringPairArray.containsKey_ite_set, StringPairArray.getValue_ite_set, cR, gR]
    constructor
    · intro h0
      simp [h0, s2, s3, s6]
    · intro h0
      simp [h0, s2, s3, s6]

/-- A sub-chunk pass with one of the three tags stores entries under the keys of its
kind and counter. -/
theorem adtlSubChunk_keys (tag : Nat)
    (htag : tag = chunkName "labl" ∨ tag = chunkName "note" ∨ tag = chunkName "ltxt")
    (st : ChunkLoopState) (ht : adtlTag st = tag) :
    ∃ entries : List (String × String),
      (adtlSubChunk st).reader.metadataValues = st.reader.metadataValues.setAll entries
      ∧ entries.map Prod.fst = adtlKeys tag (cueIndex tag st) := by
  have d1 : chunkName "note" ≠ chunkName "labl" := by decide!
  have d2 : chunkName "ltxt" ≠ chunkName "labl" := by decide!
  have d3 : chunkName "ltxt" ≠ chunkName "note" := by decide!
  unfold adtlTag at ht
  unfold adtlSubChunk
  dsimp only
  rcases htag with h | h | h
  · rw [h] at ht
    rw [if_pos (Or.inl ht)]
    dsimp only
    rw [if_pos ht]
    refine ⟨_, rfl, ?_⟩
    rw [h]
    unfold adtlKeys cueIndex
    rw [if_pos rfl, if_pos rfl]
    rfl
  · rw [h] at ht
    rw [if_pos (Or.inr ht)]
    dsimp only
    rw [if_neg (fun c => d1 (ht.symm.trans c))]
    refine ⟨_, rfl, ?_⟩
    rw [h]
    unfold adtlKeys cueIndex
    rw [if_neg d1, if_pos rfl, if_neg d1, if_pos rfl]
    rfl
  · rw [h] at ht
    rw [if_neg (fun c => by
      rcases c with c | c
      · exact d2 (ht.symm.trans c)
      · exact d3 (ht.symm.trans c)), if_pos ht]
    dsimp only
    refine ⟨_, rfl, ?_⟩
    rw [h]
    unfold adtlKeys cueIndex
    rw [if_neg d2, if_neg d3, if_neg d2, if_neg d3]
    rfl

theorem waveEntry_metadata (r : WavAudioFormatReader) (end_ : Nat) (e : Nat × WavAudioFormatReader)
    (he : waveEntry r end_ = some e) : e.2.metadataValues = r.metadataValues := by
  unfold waveEntry at he
  dsimp only at he
  split_ifs at he
  all_goals
    rw [← Option.some.inj he]

/-- The reader with which `doRead` enters the chunk loop has the metadata `doRead`
started with. -/
theorem chunkLoopEntry_metadata (r : WavAudioFormatReader) (e : Nat × WavAudioFormatReader)
    (he : chunkLoopEntry r = some e) : e.2.metadataValues = r.metadataValues := by
  unfold chunkLoopEntry at he
  dsimp only at he
  split_ifs at he
  · have h := waveEntry_metadata _ _ e he
    exact h
  · have h := waveEntry_metadata _ _ e he
    exact h

end WavAudioFormatReader

end

/-! ### The cue counters and the marker of the decoded map -/

section
open WavFileHelpers

namespace WavAudioFormatReader

theorem fmtFormat_ret_ogg (r : WavAudioFormatReader) (format length ssp : Nat)
    (h : (fmtFormat r format length ssp).2 = true) :
    (fmtFormat r format length ssp).1.isSubformatOggVorbis = true := by
  unfold fmtFormat at h ⊢
  dsimp only at h ⊢
  split_ifs at h ⊢
  all_goals rfl

/-- A pass that returns from inside the chunk loop has set the Ogg-Vorbis flag. -/
theorem chunk_ret_ogg (ext : Collaborators) (storeChunks : Bool) (ssp n : Nat)
    (st st1 : ChunkLoopState) (hc : chunk ext storeChunks ssp n st = .ok (.ret st1)) :
    st1.reader.isSubformatOggVorbis = true := by
  unfold chunk at hc
  dsimp only at hc
  split_ifs at hc with h1 h2 h3
  · unfold fmtChunk at hc
    split at hc
    · cases hc
    · rename_i g hg
      dsimp only at hc
      split_ifs at hc with hd
      · have hs := ret_state _ _ (Except.ok.inj hc)
        rw [← hs]
        exact fmtFormat_ret_ogg _ _ _ _ hd
      · exact absurd (Except.ok.inj hc) (seekToChunkEnd_ne_ret _ _ _ _)
  · exact absurd (Except.ok.inj hc) (seekToChunkEnd_ne_ret _ _ _ _)
  · unfold listChunk at hc
    dsimp only at hc
    split_ifs at hc
    · split at hc
      · cases hc
      · exact absurd (Except.ok.inj hc) (seekToChunkEnd_ne_ret _ _ _ _)
    · split at hc
      · cases hc
      · exact absurd (Except.ok.inj hc) (seekToChunkEnd_ne_ret _ _ _ _)
    · exact absurd (Except.ok.inj hc) (seekToChunkEnd_ne_ret _ _ _ _)
  · split at hc
    · exact absurd (Except.ok.inj hc) (seekToChunkEnd_ne_ret _ _ _ _)
    · exact absurd (Except.ok.inj hc) (brk_ne_ret _ _)
  · split at hc
    · exact absurd (Except.ok.inj hc) (seekToChunkEnd_ne_ret _ _ _ _)
    · exact absurd (Except.ok.inj hc) (seekToChunkEnd_ne_ret _ _ _ _)

/-- A run of the chunk loop that returns from inside the loop has set the Ogg-Vorbis
flag. -/
theorem chunkLoop_ret_ogg (ext : Collaborators) (storeChunks : Bool) (ssp end_ n : Nat) :
    ∀ (fuel : Nat) (st : ChunkLoopState) (st' : ChunkLoopState),
      chunkLoop ext storeChunks ssp end_ n fuel st = .ok (true, st') →
      st'.reader.isSubformatOggVorbis = true := by
  intro fuel
  induction fuel with
  | zero => intro st st' h; rw [chunkLoop] at h; cases h
  | succ k ih =>
    intro st st' h
    rcases chunkLoop_step ext storeChunks ssp end_ n k st true st' h with ⟨hb, _, _⟩ | ⟨fl, hc, hfl, hm⟩
    · cases hb
    · cases fl with
      | next st1 => exact ih st1 st' hm.1
      | brk st1 => exact absurd hm.1 (by decide)
      | ret st1 =>
        have hP := chunk_ret_ogg ext storeChunks ssp n st st1 hc
        have : st1 = st' := hfl
        rw [← this]
        exact hP

theorem finishMetadata_fresh (r : WavAudioFormatReader) (h : r.metadataValues = []) :
    (finishMetadata { reader := r }).metadataValues = [] := by
  unfold finishMetadata
  dsimp only
  rw [h]
  rfl

theorem doReadWave_no_entry_metadata (ext : Collaborators) (r : WavAudioFormatReader)
    (storeChunks : Bool) (ssp end_ fuel : Nat) (r' : WavAudioFormatReader)
    (he : waveEntry r end_ = none) (hrun : doReadWave ext r storeChunks ssp end_ fuel = .ok r')
    (h0 : r.metadataValues = []) :
    r'.metadataValues = [] := by
  unfold waveEntry at he
  unfold doReadWave at hrun
  dsimp only at he hrun
  split_ifs at he hrun
  · rw [← Except.ok.inj hrun]
    exact h0
  · rw [← Except.ok.inj hrun]
    exact finishMetadata_fresh _ h0

/-- A run of `doRead` that does not reach the chunk loop leaves an empty map empty. -/
theorem doRead_no_entry_metadata (ext : Collaborators) (r : WavAudioFormatReader)
    (storeChunks : Bool) (fuel : Nat) (r' : WavAudioFormatReader) (he : chunkLoopEntry r = none)
    (hrun : doRead ext r storeChunks fuel = .ok r') (h0 : r.metadataValues = []) :
    r'.metadataValues = [] := by
  unfold chunkLoopEntry at he
  unfold doRead at hrun
  dsimp only at he hrun
  split_ifs at he hrun
  · exact doReadWave_no_entry_metadata ext _ storeChunks _ _ fuel r' he hrun h0
  · exact doReadWave_no_entry_metadata ext _ storeChunks _ _ fuel r' he hrun h0
  · rw [← Except.ok.inj hrun]
    exact h0

/-- A run of `doRead` that ends with the Ogg-Vorbis flag clear and that reached the chunk
loop left it without the return, and ended with the closing statements. -/
theorem doRead_not_ogg (ext : Collaborators) (r : WavAudioFormatReader) (storeChunks : Bool)
    (fuel : Nat) (r' : WavAudioFormatReader) (e : Nat × WavAudioFormatReader)
    (hrun : doRead ext r storeChunks fuel = .ok r') (he : chunkLoopEntry r = some e)
    (hogg : r'.isSubformatOggVorbis = false) :
    ∃ st', chunkLoop ext storeChunks r.input.getPosition e.1 fuel fuel { reader := e.2 }
          = .ok (false, st')
      ∧ r' = finishMetadata st' := by
  rw [doRead_of_entry ext r storeChunks fuel e he] at hrun
  unfold runChunkLoop at hrun
  split at hrun
  · cases hrun
  · rename_i st hst
    have hr := chunkLoop_ret_ogg ext storeChunks _ _ _ _ _ _ hst
    rw [Except.ok.inj hrun, hogg] at hr
    cases hr
  · rename_i st hst
    exact ⟨st, hst, (Except.ok.inj hrun).symm⟩

end WavAudioFormatReader

/-- C29 (amended): for a decode by the constructor that did not leave through the
return of the Ogg-Vorbis branch (the flag `isSubformatOggVorbis` of the reader is
clear), and `tag` one of `labl`, `note` and `ltxt`: the sub-chunk passes of all
`LIST`/`adtl` chunks, in order, are `adtlSubChunks`. If none of them reads `tag`, the
key of the tag (`NumCueLabels`, `NumCueNotes`, `NumCueRegions`) is absent from the
decoded map; otherwise it is there and its value is the text of their number. A pass
that reads `tag` stores its entries under the keys `CueLabel{k}` (`CueNote{k}`,
`CueRegion{k}`) `Identifier`, ..., `Text`, where `k` is the number of earlier passes
that read the same tag, whatever passes of other tags lie between. -/
theorem C29_adtl_counters (ext : Collaborators) (input : InputStream) (fuel : Nat)
    (r : WavAudioFormatReader) (tag : Nat)
    (hrun : WavAudioFormatReader.create ext input fuel = .ok r)
    (hogg : r.isSubformatOggVorbis = false)
    (htag : tag = chunkName "labl" ∨ tag = chunkName "note" ∨ tag = chunkName "ltxt") :
    (WavAudioFormatReader.adtlCount tag
          (WavAudioFormatReader.adtlSubChunks ext { input := input } false fuel) = 0
        → r.metadataValues.containsKey (WavAudioFormatReader.adtlCounterKey tag) = false)
    ∧ (0 < WavAudioFormatReader.adtlCount tag
          (WavAudioFormatReader.adtlSubChunks ext { input := input } false fuel)
        → r.metadataValues.containsKey (WavAudioFormatReader.adtlCounterKey tag) = true
          ∧ r.metadataValues.getValue (WavAudioFormatReader.adtlCounterKey tag) ""
              = toString (WavAudioFormatReader.adtlCount tag
                  (WavAudioFormatReader.adtlSubChunks ext { input := input } false fuel)))
    ∧ (∀ (pre : List ChunkLoopState) (s : ChunkLoopState) (post : List ChunkLoopState),
        WavAudioFormatReader.adtlSubChunks ext { input := input } false fuel = pre ++ s :: post →
        WavAudioFormatReader.adtlTag s = tag →
        ∃ entries : List (String × String),
          (WavAudioFormatReader.adtlSubChunk s).reader.metadataValues
              = s.reader.metadataValues.setAll entries
          ∧ entries.map Prod.fst
              = WavAudioFormatReader.adtlKeys tag (WavAudioFormatReader.adtlCount tag pre)) := by
  unfold WavAudioFormatReader.create at hrun
  cases he : WavAudioFormatReader.chunkLoopEntry { input := input } with
  | none =>
    have hsubs : WavAudioFormatReader.adtlSubChunks ext { input := input } false fuel = [] := by
      unfold WavAudioFormatReader.adtlSubChunks WavAudioFormatReader.passStates
      rw [he]
      rfl
    have hm := WavAudioFormatReader.doRead_no_entry_metadata ext { input := input } false fuel r he
      hrun rfl
    rw [hsubs, hm]
    refine ⟨fun _ => rfl, fun h => absurd h (by rw [WavAudioFormatReader.adtlCount_nil]; exact Nat.lt_irrefl 0), ?_⟩
    intro pre s post hsplit
    exact absurd hsplit (by simp)
  | some e =>
    obtain ⟨st', hloop, hfin⟩ :=
      WavAudioFormatReader.doRead_not_ogg ext { input := input } false fuel r e hrun he hogg
    have hmeta := WavAudioFormatReader.chunkLoopEntry_metadata _ e he
    have hsubs : WavAudioFormatReader.adtlSubChunks ext { input := input } false fuel
        = (WavAudioFormatReader.chunkStates ext false input.getPosition e.1 fuel fuel
            { reader := e.2 }).flatMap (WavAudioFormatReader.adtlPasses false fuel) := by
      unfold WavAudioFormatReader.adtlSubChunks WavAudioFormatReader.passStates
      rw [he]
    have h0 : WavAudioFormatReader.cueIndex tag { reader := e.2 } = 0 := by
      unfold WavAudioFormatReader.cueIndex
      split_ifs <;> rfl
    have hC := WavAudioFormatReader.chunkLoop_counted ext false input.getPosition e.1 fuel tag htag
      fuel _ _ _ hloop
    rw [← hsubs, h0, Nat.zero_add] at hC
    have hv : NoCounterKey st'.reader.metadataValues := by
      apply WavAudioFormatReader.chunkLoop_noCounterKey ext false input.getPosition e.1 fuel
        fuel _ _ _ hloop
      show NoCounterKey e.2.metadataValues
      rw [hmeta]
      exact NoCounterKey.nil
    have hF := WavAudioFormatReader.finishMetadata_counter st' hv tag htag ""
    rw [← hfin, hC.2] at hF
    refine ⟨hF.1, hF.2, ?_⟩
    intro pre s post hsplit hs
    obtain ⟨entries, h1, h2⟩ := WavAudioFormatReader.adtlSubChunk_keys tag htag s hs
    have hk := hC.1 pre s post hsplit
    rw [Nat.zero_add] at hk
    rw [hk] at h2
    exact ⟨entries, h1, h2⟩

/-- C29 (amended), instance: `adtlStream` holds a label, a note, a second label and a
region. Its decode ends with the Ogg-Vorbis flag clear and counts two `labl` passes, so
`NumCueLabels` holds the text of 2. -/
theorem C29_adtl_counters_witness :
    WavAudioFormatReader.create plainCollaborators (memoryInput adtlStream) 8 = .ok adtlDecoded
    ∧ adtlDecoded.isSubformatOggVorbis = false
    ∧ (WavAudioFormatReader.adtlSubChunks plainCollaborators { input := memoryInput adtlStream }
          false 8).map WavAudioFormatReader.adtlTag
        = [chunkName "labl", chunkName "note", chunkName "labl", chunkName "ltxt"]
    ∧ toString (WavAudioFormatReader.adtlCount (chunkName "labl")
          (WavAudioFormatReader.adtlSubChunks plainCollaborators
            { input := memoryInput adtlStream } false 8)) = "2"
    ∧ (adtlDecoded.metadataValues.containsKey
          (WavAudioFormatReader.adtlCounterKey (chunkName "labl")) = true
        ∧ adtlDecoded.metadataValues.getValue
            (WavAudioFormatReader.adtlCounterKey (chunkName "labl")) ""
          = toString (WavAudioFormatReader.adtlCount (chunkName "labl")
              (WavAudioFormatReader.adtlSubChunks plainCollaborators
                { input := memoryInput adtlStream } false 8))) :=
  ⟨by decide!, by decide!, by decide!, by decide!,
   (C29_adtl_counters plainCollaborators (memoryInput adtlStream) 8 adtlDecoded (chunkName "labl")
      (by decide!) (by decide!) (Or.inl rfl)).2.1 (by decide!)⟩

end

/-! ### Bytes of a sink after a write at a position -/

section
open WavFileHelpers

theorem ext_getD (l1 l2 : List Nat) (hl : l1.length = l2.length)
    (h : ∀ i, i < l1.length → l1.getD i 0 = l2.getD i 0) : l1 = l2 := by
  apply List.ext_getElem hl
  intro i h1 h2
  have := h i h1
  rw [List.getD_eq_getElem _ _ h1, List.getD_eq_getElem _ _ h2] at this
  exact this

namespace OutputStream

theorem length_overlay (d : List Nat) (p : Nat) (bs : List Nat) :
    (overlay d p bs).length = if d.length ≤ p + bs.length then p + bs.length else d.length := by
  unfold overlay
  simp only [List.length_append, List.length_take, List.length_replicate, List.length_drop]
  split_ifs <;> omega

theorem getD_take_of_lt (d : List Nat) (p i : Nat) (h : i < p) :
    (d.take p).getD i 0 = d.getD i 0 := by
  simp [List.getD_eq_getElem?_getD, List.getElem?_take, h]

theorem getD_replicate_zero (n j : Nat) : (List.replicate n 0).getD j 0 = 0 := by
  simp only [List.getD_eq_getElem?_getD, List.getElem?_replicate]
  split <;> rfl

theorem getD_drop_add (d : List Nat) (k j : Nat) : (d.drop k).getD j 0 = d.getD (k + j) 0 := by
  simp [List.getD_eq_getElem?_getD, List.getElem?_drop]

theorem getD_of_length_le (d : List Nat) (i : Nat) (h : d.length ≤ i) : d.getD i 0 = 0 := by
  simp [List.getD_eq_getElem?_getD, List.getElem?_eq_none h]

theorem getD_overlay (d : List Nat) (p : Nat) (bs : List Nat) (i : Nat) :
    (overlay d p bs).getD i 0
      = if p ≤ i ∧ i < p + bs.length then bs.getD (i - p) 0 else d.getD i 0 := by
  unfold overlay
  have hlen1 : (d.take p ++ List.replicate (p - d.length) 0).length = p := by
    simp only [List.length_append, List.length_take, List.length_replicate]
    omega
  by_cases h1 : i < p
  · rw [if_neg (by omega), List.append_assoc, List.append_assoc]
    by_cases h2 : i < d.length
    · rw [List.getD_append _ _ _ _ (by simp only [List.length_take]; omega),
        getD_take_of_lt _ _ _ h1]
    · rw [List.getD_append_right _ _ _ _ (by simp only [List.length_take]; omega),
        List.getD_append _ _ _ _ (by simp only [List.length_take, List.length_replicate]; omega),
        getD_replicate_zero, getD_of_length_le _ _ (by omega)]
  · by_cases h2 : i < p + bs.length
    · rw [if_pos ⟨by omega, h2⟩,
        List.getD_append _ _ _ _ (by rw [List.length_append, hlen1]; omega),
        List.getD_append_right _ _ _ _ (by rw [hlen1]; omega), hlen1]
    · rw [if_neg (by omega),
        List.getD_append_right _ _ _ _ (by rw [List.length_append, hlen1]; omega),
        List.length_append, hlen1, getD_drop_add]
      congr 1
      omega

end OutputStream

end

/-! ### The audio block of a write call, and the sink after the destructor -/

section
open WavFileHelpers

theorem length_flatMap_const {α : Type} (l : List α) (f : α → List Nat) (c : Nat)
    (h : ∀ a, (f a).length = c) : (l.flatMap f).length = l.length * c := by
  induction l with
  | nil => simp
  | cons a rest ih =>
    rw [List.flatMap_cons, List.length_append, ih, h a, List.length_cons]
    rw [Nat.add_mul, Nat.one_mul, Nat.add_comm]

theorem length_encodeSample (bits : Nat) (v : Int)
    (hb : bits = 8 ∨ bits = 16 ∨ bits = 24 ∨ bits = 32) : (encodeSample bits v).length = bits / 8 := by
  rcases hb with h | h | h | h <;> subst h <;> simp [encodeSample, length_toLittleEndian]

theorem length_interleave (bits nc : Nat) (data : List (List Int)) (n : Nat)
    (hb : bits = 8 ∨ bits = 16 ∨ bits = 24 ∨ bits = 32) :
    (interleave bits nc data n).length = n * (nc * (bits / 8)) := by
  unfold interleave
  rw [length_flatMap_const _ _ (nc * (bits / 8)), List.length_range]
  intro i
  rw [length_flatMap_const _ _ (bits / 8), List.length_range]
  intro ch
  exact length_encodeSample bits _ hb

namespace WavAudioFormatWriter

open OutputStream

theorem length_audioBlock (w : WavAudioFormatWriter) (data : List (List Int)) (n : Nat) :
    (audioBlock w data n).length = w.numChannels * n * w.bitsPerSample / 8 := by
  unfold audioBlock
  split_ifs with hb
  · rw [length_interleave _ _ _ _ hb, ← Nat.mul_assoc, Nat.mul_comm n w.numChannels]
    generalize w.numChannels * n = m
    rcases hb with h | h | h | h <;> rw [h] <;> omega
  · rw [List.length_replicate]

/-- A `write` call on a writer without a failed write, on a sink that accepts every
write. -/
theorem write_accepted (ext : Collaborators) (w : WavAudioFormatWriter) (data : List (List Int))
    (n : Nat) (hf : w.writeFailed = false) (hc : w.output.capacity = none) :
    write ext w data n
      = (true, { w with output := w.output.put (audioBlock w data n),
                        bytesWritten := w.bytesWritten + w.numChannels * n * w.bitsPerSample / 8,
                        lengthInSamples := w.lengthInSamples + n }) := by
  unfold write
  rw [if_neg (by rw [hf]; decide)]
  dsimp only
  have hb : (if w.bitsPerSample = 8 ∨ w.bitsPerSample = 16 ∨ w.bitsPerSample = 24
        ∨ w.bitsPerSample = 32 then interleave w.bitsPerSample w.numChannels data n
      else List.replicate (w.numChannels * n * w.bitsPerSample / 8) 0) = audioBlock w data n := rfl
  rw [hb, write_eq_put _ _ hc]
  dsimp only
  rw [if_neg (by decide)]

/-- The data of the sink the header is written into: the data of the sink with the pad
byte when the byte count is odd. -/
theorem headerSink_data (w : WavAudioFormatWriter) :
    (headerSink w).data
      = if w.bytesWritten % 2 ≠ 0 then overlay w.output.data w.output.position [0]
        else w.output.data := by
  unfold headerSink
  split_ifs <;> rfl

/-- The destructor on a seekable sink that accepts every write. -/
theorem close_eq (ext : Collaborators) (w : WavAudioFormatWriter)
    (hc : w.output.capacity = none) (hs : w.output.seekable = true)
    (hp : w.headerPosition ≤ w.output.data.length) :
    close ext w
      = { w with output := (headerSink w).put (headerBytes ext w),
                 chunkCollection := w.chunkCollection.map (padStoredChunks ext),
                 usesFloatingPointData := decide (w.bitsPerSample = 32) } := by
  unfold close
  have hb := writeHeader_eq_body ext w hc hs hp
  rw [hb.2.2, writeHeaderBody_eq _ _ _ hb.1]

theorem close_data (ext : Collaborators) (w : WavAudioFormatWriter)
    (hc : w.output.capacity = none) (hs : w.output.seekable = true)
    (hp : w.headerPosition ≤ w.output.data.length) :
    (close ext w).output.data
      = overlay (if w.bytesWritten % 2 ≠ 0 then overlay w.output.data w.output.position [0]
                 else w.output.data) w.headerPosition (headerBytes ext w) := by
  rw [close_eq ext w hc hs hp]
  show overlay (headerSink w).data (headerSink w).position (headerBytes ext w) = _
  rw [headerSink_data]
  rfl

/-- A `flush` call on a seekable sink that accepts every write. -/
theorem flush_eq (ext : Collaborators) (w : WavAudioFormatWriter)
    (hc : w.output.capacity = none) (hs : w.output.seekable = true)
    (hp : w.headerPosition ≤ w.output.data.length)
    (hP : w.output.position ≤ w.output.data.length) :
    flush ext w
      = (true, { w with output := { (headerSink w).put (headerBytes ext w) with
                                    position := w.output.position },
                        chunkCollection := w.chunkCollection.map (padStoredChunks ext),
                        usesFloatingPointData := decide (w.bitsPerSample = 32) }) := by
  have hcl := close_eq ext w hc hs hp
  unfold close at hcl
  unfold flush
  dsimp only
  rw [hcl]
  dsimp only
  have hlen : w.output.position ≤ ((headerSink w).put (headerBytes ext w)).data.length := by
    show w.output.position ≤ (overlay (headerSink w).data (headerSink w).position _).length
    refine le_trans ?_ (length_overlay_ge _ _ _)
    rw [headerSink_data]
    split_ifs
    · exact le_trans hP (length_overlay_ge _ _ _)
    · exact hP
  have hseek : ((headerSink w).put (headerBytes ext w)).seekable = true := by
    rw [put_seekable]
    unfold headerSink
    split_ifs
    · show (w.output.put [0]).seekable = true
      rw [put_seekable]
      exact hs
    · exact hs
  have hset : ((headerSink w).put (headerBytes ext w)).setPosition (w.output.getPosition : Int)
      = (true, { (headerSink w).put (headerBytes ext w) with position := w.output.position }) := by
    unfold setPosition getPosition
    rw [if_pos ⟨hseek, by omega, by omega⟩]
    simp
  rw [hset]
  rfl

end WavAudioFormatWriter

end

/-! ### Overlays of header, pad byte and audio block -/

section
open WavFileHelpers

namespace OutputStream

theorem getD_singleton_zero (j : Nat) : ([0] : List Nat).getD j 0 = 0 := by
  cases j with
  | zero => rfl
  | succ k => rfl

/-- Two writes to ranges that do not meet can be made in either order. -/
theorem overlay_comm (d : List Nat) (p1 p2 : Nat) (a b : List Nat) (h : p1 + a.length ≤ p2) :
    overlay (overlay d p1 a) p2 b = overlay (overlay d p2 b) p1 a := by
  apply ext_getD
  · simp only [length_overlay]
    split_ifs <;> omega
  · intro i _
    simp only [getD_overlay]
    split_ifs <;> first | rfl | (exfalso; omega)

/-- A write covers an earlier write at the same position that was not longer. -/
theorem overlay_absorb (d : List Nat) (p : Nat) (a b : List Nat) (h : a.length ≤ b.length) :
    overlay (overlay d p a) p b = overlay d p b := by
  apply ext_getD
  · simp only [length_overlay]
    split_ifs <;> omega
  · intro i _
    simp only [getD_overlay]
    split_ifs <;> first | rfl | (exfalso; omega)

/-- A write of no bytes within the data changes nothing. -/
theorem overlay_no_bytes (d : List Nat) (p : Nat) (h : p ≤ d.length) : overlay d p [] = d := by
  apply ext_getD
  · simp only [length_overlay, List.length_nil]
    split_ifs <;> omega
  · intro i _
    simp only [getD_overlay, List.length_nil]
    split_ifs <;> first | rfl | (exfalso; omega)

/-- Writing the pad byte and the header after a block gives the same data whether or
not the pad byte and a header of the same length had been written before the block. -/
theorem overlay_block_absorbs (d : List Nat) (P hp : Nat) (hdr hdr' b : List Nat)
    (odd odd' : Prop) [Decidable odd] [Decidable odd']
    (hH : hdr.length = hdr'.length) (hbh : hp + hdr.length ≤ P) (hP : P ≤ d.length)
    (hpar : b.length = 0 → (odd ↔ odd')) :
    overlay (if odd' then overlay (overlay d P b) (P + b.length) [0] else overlay d P b) hp hdr'
      = overlay
          (if odd' then
             overlay (overlay (overlay (if odd then overlay d P [0] else d) hp hdr) P b)
               (P + b.length) [0]
           else overlay (overlay (if odd then overlay d P [0] else d) hp hdr) P b)
          hp hdr' := by
  -- the block and the pad byte lie behind the header
  have key : ∀ X : List Nat,
      overlay (if odd' then overlay (overlay (overlay X hp hdr) P b) (P + b.length) [0]
               else overlay (overlay X hp hdr) P b) hp hdr'
        = overlay (if odd' then overlay (overlay X P b) (P + b.length) [0] else overlay X P b)
            hp hdr' := by
    intro X
    rw [overlay_comm X hp P hdr b hbh]
    split_ifs
    · rw [overlay_comm _ hp (P + b.length) hdr [0] (by omega),
        overlay_absorb _ hp hdr hdr' (by omega)]
    · rw [overlay_absorb _ hp hdr hdr' (by omega)]
  rw [key]
  by_cases h1 : odd
  · rw [if_pos h1]
    rcases Nat.eq_zero_or_pos b.length with hb | hb
    · have h2 : odd' := (hpar hb).mp h1
      have hnil : b = [] := List.length_eq_zero.mp hb
      subst hnil
      rw [if_pos h2, if_pos h2, List.length_nil, Nat.add_zero,
        overlay_no_bytes _ _ hP,
        overlay_no_bytes _ _ (le_trans hP (WavAudioFormatWriter.length_overlay_ge _ _ _)),
        overlay_absorb _ _ _ _ (le_refl _)]
    · rw [overlay_absorb d P [0] b (by simpa using hb)]
  · rw [if_neg h1]

/-- Writing the pad byte and the header a second time changes nothing. -/
theorem overlay_header_again (d : List Nat) (P hp : Nat) (hdr : List Nat)
    (odd : Prop) [Decidable odd] (hbh : hp + hdr.length ≤ P) :
    overlay
        (if odd then overlay (overlay (if odd then overlay d P [0] else d) hp hdr) P [0]
         else overlay (if odd then overlay d P [0] else d) hp hdr)
        hp hdr
      = overlay (if odd then overlay d P [0] else d) hp hdr := by
  by_cases h1 : odd
  · simp only [if_pos h1]
    rw [overlay_comm _ hp P hdr [0] hbh, overlay_absorb _ hp hdr hdr (le_refl _),
      overlay_absorb _ P [0] [0] (le_refl _)]
  · simp only [if_neg h1]
    rw [overlay_absorb _ hp hdr hdr (le_refl _)]

end OutputStream

end

/-! ### The fields of a writer after a call -/

section
open WavFileHelpers

namespace WavAudioFormatWriter

open OutputStream

theorem map_padStoredChunks_idem (ext : Collaborators) (cc : Option (List MetadataChunk)) :
    (cc.map (padStoredChunks ext)).map (padStoredChunks ext) = cc.map (padStoredChunks ext) := by
  cases cc with
  | none => rfl
  | some c =>
    show some (padStoredChunks ext (padStoredChunks ext c)) = some (padStoredChunks ext c)
    rw [padStoredChunks_idem]

/-- The header depends on the configuration, the counters and the padded stored
chunks only. -/
theorem headerBytes_congr (ext : Collaborators) (w1 w2 : WavAudioFormatWriter)
    (h1 : w1.sampleRate = w2.sampleRate) (h2 : w1.numChannels = w2.numChannels)
    (h3 : w1.bitsPerSample = w2.bitsPerSample) (h4 : w1.channelLayout = w2.channelLayout)
    (h5 : w1.lengthInSamples = w2.lengthInSamples) (h6 : w1.bytesWritten = w2.bytesWritten)
    (h7 : w1.doNotPadHeaderSize = w2.doNotPadHeaderSize)
    (h8 : w1.chunkCollection.map (padStoredChunks ext)
      = w2.chunkCollection.map (padStoredChunks ext)) :
    headerBytes ext w1 = headerBytes ext w2 := by
  unfold headerBytes
  dsimp only
  rw [h1, h2, h3, h4, h5, h6, h7]
  cases hc1 : w1.chunkCollection with
  | none =>
    cases hc2 : w2.chunkCollection with
    | none => rfl
    | some c2 =>
      rw [hc1, hc2] at h8
      cases h8
  | some c1 =>
    cases hc2 : w2.chunkCollection with
    | none =>
      rw [hc1, hc2] at h8
      cases h8
    | some c2 =>
      rw [hc1, hc2] at h8
      have e : padStoredChunks ext c1 = padStoredChunks ext c2 := Option.some.inj h8
      dsimp only
      rw [e]

/-- With the padding chunk enabled the header has the same length for the same padded
stored chunks. -/
theorem length_headerBytes_congr (ext : Collaborators) (w1 w2 : WavAudioFormatWriter)
    (hp1 : w1.doNotPadHeaderSize = false) (hp2 : w2.doNotPadHeaderSize = false)
    (h8 : w1.chunkCollection.map (padStoredChunks ext)
      = w2.chunkCollection.map (padStoredChunks ext)) :
    (headerBytes ext w1).length = (headerBytes ext w2).length := by
  rw [length_headerBytes ext w1 hp1, length_headerBytes ext w2 hp2]
  cases hc1 : w1.chunkCollection with
  | none =>
    cases hc2 : w2.chunkCollection with
    | none => rfl
    | some c2 =>
      rw [hc1, hc2] at h8
      cases h8
  | some c1 =>
    cases hc2 : w2.chunkCollection with
    | none =>
      rw [hc1, hc2] at h8
      cases h8
    | some c2 =>
      rw [hc1, hc2] at h8
      have e : padStoredChunks ext c1 = padStoredChunks ext c2 := Option.some.inj h8
      dsimp only
      rw [e]

/-- The fields of the writer after an accepted `write` call. -/
theorem write_fields (ext : Collaborators) (w : WavAudioFormatWriter) (data : List (List Int))
    (n : Nat) (hf : w.writeFailed = false) (hc : w.output.capacity = none) :
    (write ext w data n).1 = true
    ∧ (write ext w data n).2.output = w.output.put (audioBlock w data n)
    ∧ (write ext w data n).2.sampleRate = w.sampleRate
    ∧ (write ext w data n).2.numChannels = w.numChannels
    ∧ (write ext w data n).2.bitsPerSample = w.bitsPerSample
    ∧ (write ext w data n).2.channelLayout = w.channelLayout
    ∧ (write ext w data n).2.lengthInSamples = w.lengthInSamples + n
    ∧ (write ext w data n).2.bytesWritten = w.bytesWritten + (audioBlock w data n).length
    ∧ (write ext w data n).2.headerPosition = w.headerPosition
    ∧ (write ext w data n).2.writeFailed = w.writeFailed
    ∧ (write ext w data n).2.chunkCollection = w.chunkCollection
    ∧ (write ext w data n).2.doNotPadHeaderSize = w.doNotPadHeaderSize := by
  rw [write_accepted ext w data n hf hc, length_audioBlock]
  exact ⟨rfl, rfl, rfl, rfl, rfl, rfl, rfl, rfl, rfl, rfl, rfl, rfl⟩

/-- The fields of the writer after a `flush` call on a seekable sink that accepts every
write. -/
theorem flush_fields (ext : Collaborators) (w : WavAudioFormatWriter)
    (hc : w.output.capacity = none) (hs : w.output.seekable = true)
    (hp : w.headerPosition ≤ w.output.data.length)
    (hP : w.output.position ≤ w.output.data.length) :
    (flush ext w).1 = true
    ∧ (flush ext w).2.output.position = w.output.position
    ∧ (flush ext w).2.output.data = (close ext w).output.data
    ∧ (flush ext w).2.output.capacity = none
    ∧ (flush ext w).2.output.seekable = true
    ∧ (flush ext w).2.sampleRate = w.sampleRate
    ∧ (flush ext w).2.numChannels = w.numChannels
    ∧ (flush ext w).2.bitsPerSample = w.bitsPerSample
    ∧ (flush ext w).2.channelLayout = w.channelLayout
    ∧ (flush ext w).2.lengthInSamples = w.lengthInSamples
    ∧ (flush ext w).2.bytesWritten = w.bytesWritten
    ∧ (flush ext w).2.headerPosition = w.headerPosition
    ∧ (flush ext w).2.writeFailed = w.writeFailed
    ∧ (flush ext w).2.chunkCollection = w.chunkCollection.map (padStoredChunks ext)
    ∧ (flush ext w).2.doNotPadHeaderSize = w.doNotPadHeaderSize := by
  have hsink : (headerSink w).capacity = none ∧ (headerSink w).seekable = true := by
    unfold headerSink
    split_ifs
    · exact ⟨by show (w.output.put [0]).capacity = none; rw [put_capacity]; exact hc,
        by show (w.output.put [0]).seekable = true; rw [put_seekable]; exact hs⟩
    · exact ⟨hc, hs⟩
  rw [flush_eq ext w hc hs hp hP, close_eq ext w hc hs hp]
  refine ⟨rfl, rfl, rfl, ?_, ?_, rfl, rfl, rfl, rfl, rfl, rfl, rfl, rfl, rfl, rfl⟩
  · show ((headerSink w).put (headerBytes ext w)).capacity = none
    rw [put_capacity]
    exact hsink.1
  · show ((headerSink w).put (headerBytes ext w)).seekable = true
    rw [put_seekable]
    exact hsink.2

theorem Steady.headerPosition_le {ext : Collaborators} {w : WavAudioFormatWriter}
    (h : Steady ext w) : w.headerPosition ≤ w.output.data.length :=
  le_trans (Nat.le_add_right _ _) (le_trans h.behindHeader h.withinData)

/-- An accepted `write` call leaves the writer in working order. -/
theorem Steady.after_write {ext : Collaborators} {w : WavAudioFormatWriter} (h : Steady ext w)
    (data : List (List Int)) (n : Nat) : Steady ext (write ext w data n).2 := by
  obtain ⟨_, fout, _, _, _, _, _, _, fhp, ffail, fcc, fpad⟩ :=
    write_fields ext w data n h.notFailed h.capacity
  have hH : (headerBytes ext (write ext w data n).2).length = (headerBytes ext w).length :=
    length_headerBytes_congr ext _ _ (fpad.trans h.padded) h.padded (by rw [fcc])
  refine ⟨?_, ?_, ffail.trans h.notFailed, fpad.trans h.padded, ?_, ?_⟩
  · rw [fout, put_capacity]
    exact h.capacity
  · rw [fout, put_seekable]
    exact h.seekable
  · rw [hH, fhp, fout, put_position]
    exact le_trans h.behindHeader (Nat.le_add_right _ _)
  · rw [fout]
    show w.output.position + (audioBlock w data n).length
      ≤ (overlay w.output.data w.output.position (audioBlock w data n)).length
    rw [length_overlay]
    split_ifs <;> omega

/-- A `flush` call returns true, restores the position and leaves the writer in working
order. -/
theorem Steady.after_flush {ext : Collaborators} {w : WavAudioFormatWriter} (h : Steady ext w) :
    (flush ext w).1 = true ∧ (flush ext w).2.output.position = w.output.position
    ∧ Steady ext (flush ext w).2 := by
  obtain ⟨fret, fpos, fdata, fcap, fseek, _, _, _, _, _, _, fhp, ffail, fcc, fpad⟩ :=
    flush_fields ext w h.capacity h.seekable h.headerPosition_le h.withinData
  have hcc : (flush ext w).2.chunkCollection.map (padStoredChunks ext)
      = w.chunkCollection.map (padStoredChunks ext) := by
    rw [fcc, map_padStoredChunks_idem]
  have hpadded := fpad.trans h.padded
  have hH : (headerBytes ext (flush ext w).2).length = (headerBytes ext w).length :=
    length_headerBytes_congr ext _ _ hpadded h.padded hcc
  refine ⟨fret, fpos, fcap, fseek, ffail.trans h.notFailed, hpadded, ?_, ?_⟩
  · rw [hH, fhp, fpos]
    exact h.behindHeader
  · rw [fpos, fdata, close_data ext w h.capacity h.seekable h.headerPosition_le]
    refine le_trans ?_ (length_overlay_ge _ _ _)
    split_ifs
    · exact le_trans h.withinData (length_overlay_ge _ _ _)
    · exact h.withinData

end WavAudioFormatWriter

end

/-! ### Sequences of calls on a writer in working order -/

section
open WavFileHelpers

namespace WavAudioFormatWriter

open OutputStream

theorem audioBlock_congr (w1 w2 : WavAudioFormatWriter) (data : List (List Int)) (n : Nat)
    (h2 : w1.numChannels = w2.numChannels) (h3 : w1.bitsPerSample = w2.bitsPerSample) :
    audioBlock w1 data n = audioBlock w2 data n := by
  unfold audioBlock
  rw [h2, h3]

/-- The data the destructor leaves after one more `write` call, from the data it
leaves without that call. -/
theorem close_data_after_write (ext : Collaborators) (w : WavAudioFormatWriter)
    (h : Steady ext w) (data : List (List Int)) (n : Nat) :
    (close ext (write ext w data n).2).output.data
      = overlay
          (if (w.bytesWritten + (audioBlock w data n).length) % 2 ≠ 0 then
             overlay (overlay (close ext w).output.data w.output.position (audioBlock w data n))
               (w.output.position + (audioBlock w data n).length) [0]
           else overlay (close ext w).output.data w.output.position (audioBlock w data n))
          w.headerPosition (headerBytes ext (write ext w data n).2) := by
  have h' := h.after_write data n
  obtain ⟨_, fout, _, _, _, _, _, fbw, fhp, _, fcc, fpad⟩ :=
    write_fields ext w data n h.notFailed h.capacity
  rw [close_data ext _ h'.capacity h'.seekable h'.headerPosition_le,
    close_data ext w h.capacity h.seekable h.headerPosition_le, fbw, fhp, fout]
  show overlay
      (if (w.bytesWritten + (audioBlock w data n).length) % 2 ≠ 0 then
         overlay (overlay w.output.data w.output.position (audioBlock w data n))
           (w.output.position + (audioBlock w data n).length) [0]
       else overlay w.output.data w.output.position (audioBlock w data n))
      w.headerPosition (headerBytes ext (write ext w data n).2) = _
  exact overlay_block_absorbs w.output.data w.output.position w.headerPosition
    (headerBytes ext w) (headerBytes ext (write ext w data n).2) (audioBlock w data n)
    (w.bytesWritten % 2 ≠ 0) ((w.bytesWritten + (audioBlock w data n).length) % 2 ≠ 0)
    (length_headerBytes_congr ext _ _ h.padded (fpad.trans h.padded) (by rw [fcc]))
    h.behindHeader h.withinData (by
      intro h0
      rw [h0, Nat.add_zero])

/-- A `flush` call does not change the data the destructor leaves. -/
theorem close_data_after_flush (ext : Collaborators) (w : WavAudioFormatWriter)
    (h : Steady ext w) :
    (close ext (flush ext w).2).output.data = (close ext w).output.data := by
  have h' := h.after_flush.2.2
  obtain ⟨_, fpos, fdata, _, _, f1, f2, f3, f4, f5, fbw, fhp, _, fcc, fpad⟩ :=
    flush_fields ext w h.capacity h.seekable h.headerPosition_le h.withinData
  have hhdr : headerBytes ext (flush ext w).2 = headerBytes ext w :=
    headerBytes_congr ext _ _ f1 f2 f3 f4 f5 fbw fpad (by rw [fcc, map_padStoredChunks_idem])
  rw [close_data ext _ h'.capacity h'.seekable h'.headerPosition_le, fbw, fhp, fpos, fdata, hhdr,
    close_data ext w h.capacity h.seekable h.headerPosition_le]
  exact overlay_header_again w.output.data w.output.position w.headerPosition (headerBytes ext w)
    (w.bytesWritten % 2 ≠ 0) h.behindHeader

theorem SameFile.same (ext : Collaborators) (w : WavAudioFormatWriter) : SameFile ext w w :=
  ⟨rfl, rfl, rfl, rfl, rfl, rfl, rfl, rfl, rfl, rfl⟩

/-- The same `write` call on both writers. -/
theorem SameFile.same_after_write {ext : Collaborators} {w1 w2 : WavAudioFormatWriter}
    (h1 : Steady ext w1) (h2 : Steady ext w2) (h : SameFile ext w1 w2)
    (data : List (List Int)) (n : Nat) :
    SameFile ext (write ext w1 data n).2 (write ext w2 data n).2 := by
  have hb := audioBlock_congr w1 w2 data n h.numChannels h.bitsPerSample
  obtain ⟨_, aout, a1, a2, a3, a4, a5, abw, ahp, _, acc, apad⟩ :=
    write_fields ext w1 data n h1.notFailed h1.capacity
  obtain ⟨_, bout, b1, b2, b3, b4, b5, bbw, bhp, _, bcc, bpad⟩ :=
    write_fields ext w2 data n h2.notFailed h2.capacity
  have e1 : (write ext w1 data n).2.sampleRate = (write ext w2 data n).2.sampleRate := by
    rw [a1, b1, h.sampleRate]
  have e2 : (write ext w1 data n).2.numChannels = (write ext w2 data n).2.numChannels := by
    rw [a2, b2, h.numChannels]
  have e3 : (write ext w1 data n).2.bitsPerSample = (write ext w2 data n).2.bitsPerSample := by
    rw [a3, b3, h.bitsPerSample]
  have e4 : (write ext w1 data n).2.channelLayout = (write ext w2 data n).2.channelLayout := by
    rw [a4, b4, h.channelLayout]
  have e5 : (write ext w1 data n).2.lengthInSamples = (write ext w2 data n).2.lengthInSamples := by
    rw [a5, b5, h.lengthInSamples]
  have e6 : (write ext w1 data n).2.bytesWritten = (write ext w2 data n).2.bytesWritten := by
    rw [abw, bbw, h.bytesWritten, hb]
  have e7 : (write ext w1 data n).2.headerPosition = (write ext w2 data n).2.headerPosition := by
    rw [ahp, bhp, h.headerPosition]
  have e8 : (write ext w1 data n).2.chunkCollection.map (padStoredChunks ext)
      = (write ext w2 data n).2.chunkCollection.map (padStoredChunks ext) := by
    rw [acc, bcc, h.chunks]
  have e9 : (write ext w1 data n).2.output.position = (write ext w2 data n).2.output.position := by
    rw [aout, bout, put_position, put_position, h.position, hb]
  have ehdr : headerBytes ext (write ext w1 data n).2 = headerBytes ext (write ext w2 data n).2 :=
    headerBytes_congr ext _ _ e1 e2 e3 e4 e5 e6 (by rw [apad, bpad, h1.padded, h2.padded]) e8
  refine ⟨e1, e2, e3, e4, e5, e6, e7, e8, e9, ?_⟩
  rw [close_data_after_write ext w1 h1, close_data_after_write ext w2 h2, ehdr, h.closed,
    h.position, h.bytesWritten, h.headerPosition, hb]

/-- A `flush` call on the first writer. -/
theorem SameFile.same_after_flush {ext : Collaborators} {w1 w2 : WavAudioFormatWriter}
    (h1 : Steady ext w1) (h : SameFile ext w1 w2) : SameFile ext (flush ext w1).2 w2 := by
  obtain ⟨_, fpos, _, _, _, f1, f2, f3, f4, f5, fbw, fhp, _, fcc, _⟩ :=
    flush_fields ext w1 h1.capacity h1.seekable h1.headerPosition_le h1.withinData
  exact ⟨f1.trans h.sampleRate, f2.trans h.numChannels, f3.trans h.bitsPerSample,
    f4.trans h.channelLayout, f5.trans h.lengthInSamples, fbw.trans h.bytesWritten,
    fhp.trans h.headerPosition, by rw [fcc, map_padStoredChunks_idem]; exact h.chunks,
    fpos.trans h.position, (close_data_after_flush ext w1 h1).trans h.closed⟩

/-- Every sequence of calls leaves the writer in working order. -/
theorem Steady.after_calls {ext : Collaborators} (cs : List WriterCall) :
    ∀ {w : WavAudioFormatWriter}, Steady ext w → Steady ext (calls ext w cs) := by
  induction cs with
  | nil => intro w h; exact h
  | cons c rest ih =>
    intro w h
    show Steady ext (calls ext (call ext w c) rest)
    cases c with
    | write data n => exact ih (h.after_write data n)
    | flush => exact ih h.after_flush.2.2

/-- A sequence of calls and the same sequence without its `flush` calls. -/
theorem SameFile.same_after_calls {ext : Collaborators} (cs : List WriterCall) :
    ∀ {w1 w2 : WavAudioFormatWriter}, Steady ext w1 → Steady ext w2 → SameFile ext w1 w2 →
      SameFile ext (calls ext w1 cs) (calls ext w2 (cs.filter WriterCall.isWrite)) := by
  induction cs with
  | nil => intro w1 w2 _ _ h; exact h
  | cons c rest ih =>
    intro w1 w2 h1 h2 h
    cases c with
    | write data n =>
      show SameFile ext (calls ext (write ext w1 data n).2 rest)
        (calls ext (write ext w2 data n).2 (rest.filter WriterCall.isWrite))
      exact ih (h1.after_write data n) (h2.after_write data n) (h.same_after_write h1 h2 data n)
    | flush =>
      show SameFile ext (calls ext (flush ext w1).2 rest)
        (calls ext w2 (rest.filter WriterCall.isWrite))
      exact ih h1.after_flush.2.2 h2 (h.same_after_flush h1)

theorem writeHeader_own_collection (ext : Collaborators) (w : WavAudioFormatWriter) :
    writeHeader ext w w.chunkCollection = writeHeader ext w none := by
  unfold writeHeader
  cases hcc : w.chunkCollection with
  | none => rfl
  | some c =>
    have e : ({ w with chunkCollection := some c } : WavAudioFormatWriter) = w := by
      rw [← hcc]
    dsimp only
    rw [e]
    simp only [hcc]

/-- A writer opened on a seekable sink that accepts every write is in working order. -/
theorem create_steady (ext : Collaborators) (out : OutputStream) (rate : Nat)
    (layout : AudioChannelSet) (bits : Nat) (md : StringPairArray)
    (cc : Option (List MetadataChunk)) (hc : out.capacity = none) (hs : out.seekable = true)
    (hp : out.position ≤ out.data.length) :
    Steady ext (create ext out rate layout bits md cc false)
    ∧ (create ext out rate layout bits md cc false).output.position
        = out.position + (headerBytes ext (create ext out rate layout bits md cc false)).length
    ∧ (create ext out rate layout bits md cc false).output.data.length
        = (if out.data.length ≤ out.position
              + (headerBytes ext (create ext out rate layout bits md cc false)).length
           then out.position
              + (headerBytes ext (create ext out rate layout bits md cc false)).length
           else out.data.length)
    ∧ (create ext out rate layout bits md cc false).headerPosition = out.position
    ∧ (create ext out rate layout bits md cc false).bytesWritten = 0
    ∧ (create ext out rate layout bits md cc false).lengthInSamples = 0
    ∧ (create ext out rate layout bits md cc false).numChannels = layout.length
    ∧ (create ext out rate layout bits md cc false).bitsPerSample = bits
    ∧ (create ext out rate layout bits md cc false).chunkCollection
        = cc.map (padStoredChunks ext) := by
  obtain ⟨w0, hw0⟩ : ∃ w0 : WavAudioFormatWriter, w0
      = { output := out, sampleRate := rate, numChannels := layout.length,
          bitsPerSample := bits, channelLayout := layout,
          headerPosition := out.getPosition, chunkCollection := cc,
          doNotPadHeaderSize := false } := ⟨_, rfl⟩
  have hcr : create ext out rate layout bits md cc false = close ext w0 := by
    unfold create close
    rw [hw0]
    exact writeHeader_own_collection ext _
  have hcl := close_eq ext w0 (by rw [hw0]; exact hc) (by rw [hw0]; exact hs)
    (by rw [hw0]; exact hp)
  have hsink : headerSink w0 = out := by rw [hw0]; rfl
  rw [hsink] at hcl
  rw [hcr, hcl]
  have hH : (headerBytes ext
      ({ w0 with output := out.put (headerBytes ext w0),
                 chunkCollection := w0.chunkCollection.map (padStoredChunks ext),
                 usesFloatingPointData := decide (w0.bitsPerSample = 32) }
        : WavAudioFormatWriter)).length
      = (headerBytes ext w0).length :=
    length_headerBytes_congr ext _ _ (by rw [hw0]) (by rw [hw0])
      (map_padStoredChunks_idem ext w0.chunkCollection)
  have g1 : w0.headerPosition = out.position := by rw [hw0]; rfl
  have g2 : w0.bytesWritten = 0 := by rw [hw0]
  have g3 : w0.lengthInSamples = 0 := by rw [hw0]
  have g4 : w0.numChannels = layout.length := by rw [hw0]
  have g5 : w0.bitsPerSample = bits := by rw [hw0]
  have g6 : w0.chunkCollection = cc := by rw [hw0]
  have g7 : w0.writeFailed = false := by rw [hw0]
  have g8 : w0.doNotPadHeaderSize = false := by rw [hw0]
  refine ⟨⟨?_, ?_, g7, g8, ?_, ?_⟩, ?_, ?_, g1, g2, g3, g4, g5, by rw [← g6]⟩
  · show (out.put _).capacity = none
    rw [put_capacity]
    exact hc
  · show (out.put _).seekable = true
    rw [put_seekable]
    exact hs
  · show w0.headerPosition + (headerBytes ext _).length ≤ (out.put _).position
    rw [hH, put_position, g1]
  · show (out.put _).position ≤ (overlay out.data out.position _).length
    rw [put_position, length_overlay]
    split_ifs <;> omega
  · show (out.put _).position = out.position + (headerBytes ext _).length
    rw [hH, put_position]
  · show (overlay out.data out.position _).length = _
    rw [hH, length_overlay]

end WavAudioFormatWriter

end

/-! ### Flush on a seekable sink -/

section
open WavFileHelpers

/-- C33: a writer is opened (with the padding chunk enabled) on a seekable sink that
accepts every write, and any sequence of `write` and `flush` calls is made, whatever
byte counts the writes leave. Then a `flush` call returns true and leaves the position
of the sink where it was, and the bytes of the sink after the destructor are those the
same sequence without its `flush` calls gives. -/
theorem C33_flush_transparent (ext : Collaborators) (out : OutputStream) (rate : Nat)
    (layout : AudioChannelSet) (bits : Nat) (cc : Option (List MetadataChunk))
    (cs : List WriterCall)
    (hcap : out.capacity = none) (hseek : out.seekable = true)
    (hpos : out.position ≤ out.data.length) :
    (WavAudioFormatWriter.flush ext
        (WavAudioFormatWriter.calls ext
          (WavAudioFormatWriter.create ext out rate layout bits [] cc false) cs)).1 = true
    ∧ (WavAudioFormatWriter.flush ext
        (WavAudioFormatWriter.calls ext
          (WavAudioFormatWriter.create ext out rate layout bits [] cc false) cs)).2.output.position
      = (WavAudioFormatWriter.calls ext
          (WavAudioFormatWriter.create ext out rate layout bits [] cc false) cs).output.position
    ∧ WavAudioFormatWriter.finalizedFile ext out rate layout bits cc cs
      = WavAudioFormatWriter.finalizedFile ext out rate layout bits cc
          (cs.filter WriterCall.isWrite) := by
  have h0 := (WavAudioFormatWriter.create_steady ext out rate layout bits [] cc hcap hseek hpos).1
  have hS := WavAudioFormatWriter.Steady.after_calls cs h0
  have hF := hS.after_flush
  exact ⟨hF.1, hF.2.1,
    (WavAudioFormatWriter.SameFile.same_after_calls cs h0 h0
      (WavAudioFormatWriter.SameFile.same ext _)).closed⟩

/-- C33, at an 8-bit mono writer on a fresh memory sink with a one-byte write, a flush
and another one-byte write: the flush at the odd byte count returns true and leaves the
position at 105, and the file ends with the two samples and no pad byte, as without
the flush. -/
theorem C33_flush_transparent_witness :
    memoryOutput.capacity = none ∧ memoryOutput.seekable = true
    ∧ memoryOutput.position ≤ memoryOutput.data.length
    ∧ (WavAudioFormatWriter.calls plainCollaborators
          (WavAudioFormatWriter.create plainCollaborators memoryOutput 8000 AudioChannelSet.mono 8
            [] none false)
          [WriterCall.write [[0]] 1, WriterCall.flush]).output.position = 105
    ∧ (WavAudioFormatWriter.finalizedFile plainCollaborators memoryOutput 8000 AudioChannelSet.mono
          8 none [WriterCall.write [[0]] 1, WriterCall.flush, WriterCall.write [[16777216]] 1]).drop
        104 = [128, 129]
    ∧ WavAudioFormatWriter.finalizedFile plainCollaborators memoryOutput 8000 AudioChannelSet.mono
          8 none [WriterCall.write [[0]] 1, WriterCall.flush, WriterCall.write [[16777216]] 1]
      = WavAudioFormatWriter.finalizedFile plainCollaborators memoryOutput 8000 AudioChannelSet.mono
          8 none
          ([WriterCall.write [[0]] 1, WriterCall.flush, WriterCall.write [[16777216]] 1].filter
            WriterCall.isWrite) :=
  ⟨rfl, rfl, by decide, by decide!, by decide!,
   (C33_flush_transparent plainCollaborators memoryOutput 8000 AudioChannelSet.mono 8 none
      [WriterCall.write [[0]] 1, WriterCall.flush, WriterCall.write [[16777216]] 1]
      rfl rfl (by decide)).2.2⟩

end

/-! ### The counters of a writer and its sink -/

section
open WavFileHelpers

namespace WavAudioFormatWriter

open OutputStream

theorem frames_step (nc n bits : Nat) (hb : bits = 8 ∨ bits = 16 ∨ bits = 24 ∨ bits = 32) :
    nc * n * bits / 8 = nc * bits / 8 * n := by
  rcases hb with h | h | h | h <;> subst h
  · rw [Nat.mul_div_cancel _ (by decide), Nat.mul_div_cancel _ (by decide)]
  · have e1 : nc * n * 16 = nc * n * 2 * 8 := by ring
    have e2 : nc * 16 = nc * 2 * 8 := by ring
    rw [e1, e2, Nat.mul_div_cancel _ (by decide), Nat.mul_div_cancel _ (by decide)]
    ring
  · have e1 : nc * n * 24 = nc * n * 3 * 8 := by ring
    have e2 : nc * 24 = nc * 3 * 8 := by ring
    rw [e1, e2, Nat.mul_div_cancel _ (by decide), Nat.mul_div_cancel _ (by decide)]
    ring
  · have e1 : nc * n * 32 = nc * n * 4 * 8 := by ring
    have e2 : nc * 32 = nc * 4 * 8 := by ring
    rw [e1, e2, Nat.mul_div_cancel _ (by decide), Nat.mul_div_cancel _ (by decide)]
    ring

/-- An accepted `write` call keeps the counters in agreement with the sink. -/
theorem Tally.tally_after_write {ext : Collaborators} {w : WavAudioFormatWriter} (h : Steady ext w)
    (t : Tally ext w) (data : List (List Int)) (n : Nat) : Tally ext (write ext w data n).2 := by
  obtain ⟨_, fout, _, fnc, fbits, _, flen, fbw, fhp, _, fcc, fpad⟩ :=
    write_fields ext w data n h.notFailed h.capacity
  have hH : (headerBytes ext (write ext w data n).2).length = (headerBytes ext w).length :=
    length_headerBytes_congr ext _ _ (fpad.trans h.padded) h.padded (by rw [fcc])
  have hb := length_audioBlock w data n
  refine ⟨by rw [fbits]; exact t.bits, fhp.trans t.atStart, ?_, ?_, ?_⟩
  · rw [hH, fbw, fout, put_position, t.position]
    omega
  · rw [fbw, fout, put_position]
    show (overlay w.output.data w.output.position (audioBlock w data n)).length ≤ _
    rw [length_overlay]
    have := t.length
    split_ifs <;> omega
  · rw [fbw, fnc, fbits, flen, hb, frames_step _ _ _ t.bits, t.frames, Nat.mul_add]

/-- A `flush` call keeps the counters in agreement with the sink. -/
theorem Tally.tally_after_flush {ext : Collaborators} {w : WavAudioFormatWriter} (h : Steady ext w)
    (t : Tally ext w) : Tally ext (flush ext w).2 := by
  obtain ⟨_, fpos, fdata, _, _, _, fnc, fbits, _, flen, fbw, fhp, _, fcc, fpad⟩ :=
    flush_fields ext w h.capacity h.seekable h.headerPosition_le h.withinData
  have hH : (headerBytes ext (flush ext w).2).length = (headerBytes ext w).length :=
    length_headerBytes_congr ext _ _ (fpad.trans h.padded) h.padded
      (by rw [fcc, map_padStoredChunks_idem])
  refine ⟨by rw [fbits]; exact t.bits, fhp.trans t.atStart, ?_, ?_, ?_⟩
  · rw [hH, fbw, fpos, t.position]
  · rw [fbw, fpos, fdata, close_data ext w h.capacity h.seekable h.headerPosition_le]
    have h1 := t.length
    have h2 := h.behindHeader
    have h3 := h.withinData
    by_cases hodd : w.bytesWritten % 2 ≠ 0
    · rw [if_pos hodd, length_overlay, length_overlay, List.length_singleton]
      split_ifs <;> omega
    · rw [if_neg hodd, length_overlay]
      split_ifs <;> omega
  · rw [fbw, fnc, fbits, flen]
    exact t.frames

/-- What a sequence of calls leaves of the configuration and the counters. -/
theorem calls_tally {ext : Collaborators} (cs : List WriterCall) :
    ∀ {w : WavAudioFormatWriter}, Steady ext w → Tally ext w →
      Tally ext (calls ext w cs)
      ∧ (calls ext w cs).numChannels = w.numChannels
      ∧ (calls ext w cs).bitsPerSample = w.bitsPerSample
      ∧ (calls ext w cs).lengthInSamples = w.lengthInSamples + WriterCall.samples cs
      ∧ (calls ext w cs).chunkCollection.map (padStoredChunks ext)
          = w.chunkCollection.map (padStoredChunks ext) := by
  induction cs with
  | nil => intro w _ t; exact ⟨t, rfl, rfl, rfl, rfl⟩
  | cons c rest ih =>
    intro w h t
    cases c with
    | write data n =>
      obtain ⟨_, _, _, fnc, fbits, _, flen, _, _, _, fcc, _⟩ :=
        write_fields ext w data n h.notFailed h.capacity
      obtain ⟨i1, i2, i3, i4, i5⟩ := ih (h.after_write data n) (t.tally_after_write h data n)
      refine ⟨i1, i2.trans fnc, i3.trans fbits, ?_, ?_⟩
      · show (calls ext (write ext w data n).2 rest).lengthInSamples = _
        rw [i4, flen]
        show _ = w.lengthInSamples + (n + WriterCall.samples rest)
        omega
      · show (calls ext (write ext w data n).2 rest).chunkCollection.map _ = _
        rw [i5, fcc]
    | flush =>
      obtain ⟨_, _, _, _, _, _, fnc, fbits, _, flen, _, _, _, fcc, _⟩ :=
        flush_fields ext w h.capacity h.seekable h.headerPosition_le h.withinData
      obtain ⟨i1, i2, i3, i4, i5⟩ := ih h.after_flush.2.2 (t.tally_after_flush h)
      refine ⟨i1, i2.trans fnc, i3.trans fbits, ?_, ?_⟩
      · show (calls ext (flush ext w).2 rest).lengthInSamples = _
        rw [i4, flen]
        rfl
      · show (calls ext (flush ext w).2 rest).chunkCollection.map _ = _
        rw [i5, fcc, map_padStoredChunks_idem]

/-- The length of the file the destructor leaves, and its first bytes. -/
theorem close_data_tally (ext : Collaborators) (w : WavAudioFormatWriter) (h : Steady ext w)
    (t : Tally ext w) :
    (close ext w).output.data.length
        = (headerBytes ext w).length + w.bytesWritten + w.bytesWritten % 2
    ∧ ∀ i, i < (headerBytes ext w).length →
        (close ext w).output.data.getD i 0 = (headerBytes ext w).getD i 0 := by
  have h1 := t.length
  have h2 := t.position
  have h3 := h.withinData
  have h4 := t.atStart
  rw [close_data ext w h.capacity h.seekable h.headerPosition_le, h4]
  constructor
  · by_cases hodd : w.bytesWritten % 2 ≠ 0
    · rw [if_pos hodd, length_overlay, length_overlay, List.length_singleton]
      split_ifs <;> omega
    · rw [if_neg hodd, length_overlay]
      split_ifs <;> omega
  · intro i hi
    rw [getD_overlay, if_pos ⟨Nat.zero_le _, by omega⟩, Nat.sub_zero]

end WavAudioFormatWriter

end

/-! ### The size fields of the header -/

section
open WavFileHelpers

theorem u32At_tag_size (a b : Nat) (rest : List Nat) :
    u32At (toLittleEndian 4 a ++ (toLittleEndian 4 b ++ rest)) 0 = a % 4294967296
    ∧ u32At (toLittleEndian 4 a ++ (toLittleEndian 4 b ++ rest)) 4 = b % 4294967296 := by
  simp only [toLittleEndian, u32At, field, List.range_succ, List.range_zero,
    List.nil_append, List.cons_append, List.map_cons, List.map_nil, littleEndian,
    List.getD_cons_zero, List.getD_cons_succ, Nat.add_zero, Nat.zero_add, Nat.reduceAdd]
  constructor <;> omega

theorem u64At_ds64 (a b c d e v : Nat) (rest : List Nat) :
    littleEndian (field (toLittleEndian 4 a ++ (toLittleEndian 4 b ++ (toLittleEndian 4 c
      ++ (toLittleEndian 4 d ++ (toLittleEndian 4 e ++ (toLittleEndian 8 v ++ rest)))))) 20 8)
      = v % 18446744073709551616 := by
  simp only [toLittleEndian, field, List.range_succ, List.range_zero,
    List.nil_append, List.cons_append, List.map_cons, List.map_nil, littleEndian,
    List.getD_cons_zero, List.getD_cons_succ, Nat.add_zero, Nat.zero_add, Nat.reduceAdd]
  omega

namespace WavAudioFormatWriter

open OutputStream

theorem chunkSize_even (data : List Nat) (h : data.length % 2 = 0) : chunkSize data % 2 = 0 := by
  unfold chunkSize
  split_ifs <;> omega

/-- The stored chunks take an even number of bytes once they are padded. -/
theorem storedChunksSize_padded_even (ext : Collaborators) (cc : List MetadataChunk) :
    storedChunksSize ext (padStoredChunks ext cc) % 2 = 0 := by
  induction cc with
  | nil => rfl
  | cons c rest ih =>
    unfold storedChunksSize padStoredChunks at ih ⊢
    rw [List.map_cons, List.map_cons, List.sum_cons, Nat.add_mod, ih, Nat.add_zero, Nat.mod_mod]
    by_cases hm : ext.isMetadataChunk c.name = true
    · by_cases hodd : c.data.length % 2 = 1
      · simp only [hm, hodd, and_self, if_true]
        apply chunkSize_even
        rw [List.length_append, List.length_singleton]
        omega
      · simp only [hm, hodd, and_false, if_false, if_true]
        exact chunkSize_even _ (by omega)
    · simp [hm]

theorem riffChunkSize_eq (a s : Nat) (ha : 60 + a + a % 2 < 9223372036854775808)
    (hs : s % 2 = 0) : riffChunkSize a s = ((96 + a + a % 2 + s : Nat) : Int) := by
  unfold riffChunkSize toInt64
  dsimp only
  rw [Nat.mod_eq_of_lt (by omega : 4 + 8 + 40 + 8 + a + a % 2 < 18446744073709551616),
    if_pos (by omega)]
  omega

/-- The tag and the size field at the start of the header, for classic framing and for
RF64 framing; the summed size of the stored chunks is the header length less 104. -/
theorem headerBytes_size_fields (ext : Collaborators) (w : WavAudioFormatWriter)
    (hpad : w.doNotPadHeaderSize = false) :
    (w.bytesWritten < 4294967296 →
      u32At (headerBytes ext w) 0 = chunkName "RIFF"
      ∧ u32At (headerBytes ext w) 4
          = toUInt32 (riffChunkSize
              (((w.numChannels * w.bitsPerSample) % 4294967296 / 8 * w.lengthInSamples)
                % 18446744073709551616)
              ((headerBytes ext w).length - 104)))
    ∧ (4294967296 ≤ w.bytesWritten →
      u32At (headerBytes ext w) 0 = chunkName "RF64"
      ∧ littleEndian (field (headerBytes ext w) 20 8)
          = toUInt64 (riffChunkSize
              (((w.numChannels * w.bitsPerSample) % 4294967296 / 8 * w.lengthInSamples)
                % 18446744073709551616)
              ((headerBytes ext w).length - 104))) := by
  have hl := length_headerBytes ext w hpad
  rw [hl, Nat.add_sub_cancel_left]
  have t1 : chunkName "RIFF" % 4294967296 = chunkName "RIFF" := by decide!
  have t2 : chunkName "RF64" % 4294967296 = chunkName "RF64" := by decide!
  have m32 : ∀ i : Int, toUInt32 i % 4294967296 = toUInt32 i := by
    intro i
    unfold toUInt32
    omega
  have m64 : ∀ i : Int, toUInt64 i % 18446744073709551616 = toUInt64 i := by
    intro i
    unfold toUInt64
    omega
  constructor
  · intro hlt
    have hd : decide (w.bytesWritten ≥ 4294967296) = false := by
      rw [decide_eq_false_iff_not]
      omega
    unfold headerBytes framingBytes
    dsimp only
    rw [hd]
    simp only [Bool.false_eq_true, if_false, List.append_assoc]
    rw [(u32At_tag_size _ _ _).1, (u32At_tag_size _ _ _).2, t1, m32]
    exact ⟨rfl, rfl⟩
  · intro hge
    have hd : decide (w.bytesWritten ≥ 4294967296) = true := by
      rw [decide_eq_true_eq]
      omega
    unfold headerBytes framingBytes
    dsimp only
    rw [hd]
    simp only [if_true, List.append_assoc]
    rw [(u32At_tag_size _ _ _).1, u64At_ds64, t2, m64]
    exact ⟨rfl, rfl⟩

end WavAudioFormatWriter

end

/-! ### The length and the size fields of a finalized file -/

section
open WavFileHelpers

theorem field_of_agree (a b : List Nat) (n off k : Nat)
    (h : ∀ i, i < n → a.getD i 0 = b.getD i 0) (hk : off + k ≤ n) :
    field a off k = field b off k := by
  unfold field
  apply List.map_congr_left
  intro i hi
  rw [List.mem_range] at hi
  exact h (off + i) (by omega)

theorem u32At_of_agree (a b : List Nat) (n off : Nat)
    (h : ∀ i, i < n → a.getD i 0 = b.getD i 0) (hk : off + 4 ≤ n) :
    u32At a off = u32At b off := by
  unfold u32At
  rw [field_of_agree a b n off 4 h hk]

namespace WavAudioFormatWriter

open OutputStream

/-- The header length in terms of the collection the writer was opened with. -/
theorem length_headerBytes_of_chunks (ext : Collaborators) (w : WavAudioFormatWriter)
    (cc : Option (List MetadataChunk)) (hpad : w.doNotPadHeaderSize = false)
    (hcc : w.chunkCollection.map (padStoredChunks ext) = cc.map (padStoredChunks ext)) :
    (headerBytes ext w).length
      = 104 + storedChunksSize ext ((cc.map (padStoredChunks ext)).getD []) := by
  rw [length_headerBytes ext w hpad]
  cases hw : w.chunkCollection with
  | none =>
    cases cc with
    | none => rfl
    | some c =>
      rw [hw] at hcc
      cases hcc
  | some c1 =>
    cases cc with
    | none =>
      rw [hw] at hcc
      cases hcc
    | some c =>
      rw [hw] at hcc
      have e : padStoredChunks ext c1 = padStoredChunks ext c := Option.some.inj hcc
      dsimp only
      rw [e]
      rfl

theorem storedChunksSize_getD_even (ext : Collaborators) (cc : Option (List MetadataChunk)) :
    storedChunksSize ext ((cc.map (padStoredChunks ext)).getD []) % 2 = 0 := by
  cases cc with
  | none => rfl
  | some c => exact storedChunksSize_padded_even ext c

/-- The length and the size fields of the file a writer leaves that was opened on a
fresh memory sink with one of the four bit depths: `A` is the number of audio bytes
and `S` the summed size of the stored chunks. -/
theorem finalizedFile_sizes (ext : Collaborators) (rate : Nat) (layout : AudioChannelSet)
    (bits : Nat) (cc : Option (List MetadataChunk)) (cs : List WriterCall) (A S : Nat)
    (hbits : bits = 8 ∨ bits = 16 ∨ bits = 24 ∨ bits = 32)
    (hframe : layout.length * bits < 4294967296)
    (hA : A = layout.length * bits / 8 * WriterCall.samples cs)
    (hS : S = storedChunksSize ext ((cc.map (padStoredChunks ext)).getD []))
    (hsmall : 104 + S + A < 9223372036854775808) :
    (finalizedFile ext memoryOutput rate layout bits cc cs).length = 104 + S + A + A % 2
    ∧ (A < 4294967296 →
        u32At (finalizedFile ext memoryOutput rate layout bits cc cs) 0 = chunkName "RIFF"
        ∧ u32At (finalizedFile ext memoryOutput rate layout bits cc cs) 4
            = (96 + S + A + A % 2) % 4294967296)
    ∧ (4294967296 ≤ A →
        u32At (finalizedFile ext memoryOutput rate layout bits cc cs) 0 = chunkName "RF64"
        ∧ littleEndian (field (finalizedFile ext memoryOutput rate layout bits cc cs) 20 8)
            = 96 + S + A + A % 2) := by
  obtain ⟨s0, p0, l0, hp0, bw0, len0, nc0, bits0, cc0⟩ :=
    create_steady ext memoryOutput rate layout bits [] cc rfl rfl (le_refl _)
  have t0 : Tally ext (create ext memoryOutput rate layout bits [] cc false) := by
    refine ⟨by rw [bits0]; exact hbits, hp0, ?_, ?_, ?_⟩
    · rw [p0, bw0]
      show 0 + _ = _ + 0
      omega
    · rw [l0, p0, bw0]
      show (if 0 ≤ 0 + _ then 0 + _ else 0) ≤ 0 + _ + 0 % 2
      rw [if_pos (Nat.zero_le _)]
      omega
    · rw [bw0, len0, Nat.mul_zero]
  obtain ⟨t, fnc, fbits, flen, fcc⟩ := calls_tally cs s0 t0
  have s := Steady.after_calls cs s0
  obtain ⟨hlen, hpre⟩ := close_data_tally ext _ s t
  have hccw : (calls ext (create ext memoryOutput rate layout bits [] cc false) cs).chunkCollection.map
      (padStoredChunks ext) = cc.map (padStoredChunks ext) := by
    rw [fcc, cc0, map_padStoredChunks_idem]
  have hH := length_headerBytes_of_chunks ext _ cc s.padded hccw
  rw [← hS] at hH
  have hSe : S % 2 = 0 := by
    rw [hS]
    exact storedChunksSize_getD_even ext cc
  have hbw : (calls ext (create ext memoryOutput rate layout bits [] cc false) cs).bytesWritten
      = A := by
    rw [t.frames, fnc, fbits, flen, nc0, bits0, len0, Nat.zero_add, hA]
  have haudio : ((calls ext (create ext memoryOutput rate layout bits [] cc false) cs).numChannels
        * (calls ext (create ext memoryOutput rate layout bits [] cc false) cs).bitsPerSample
        % 4294967296 / 8
        * (calls ext (create ext memoryOutput rate layout bits [] cc false) cs).lengthInSamples)
      % 18446744073709551616 = A := by
    rw [fnc, fbits, flen, nc0, bits0, len0, Nat.zero_add, Nat.mod_eq_of_lt hframe, ← hA]
    exact Nat.mod_eq_of_lt (by omega)
  have hF := headerBytes_size_fields ext _ s.padded
  rw [haudio, hH, Nat.add_sub_cancel_left, hbw, riffChunkSize_eq A S (by omega) hSe] at hF
  have hfile : finalizedFile ext memoryOutput rate layout bits cc cs
      = (close ext (calls ext (create ext memoryOutput rate layout bits [] cc false)
          cs)).output.data := rfl
  rw [hfile]
  refine ⟨?_, ?_, ?_⟩
  · rw [hlen, hH, hbw]
  · intro hlt
    rw [u32At_of_agree _ _ _ 0 hpre (by omega), u32At_of_agree _ _ _ 4 hpre (by omega),
      (hF.1 hlt).1, (hF.1 hlt).2]
    refine ⟨rfl, ?_⟩
    unfold toUInt32
    omega
  · intro hge
    unfold u32At at hF ⊢
    rw [field_of_agree _ _ _ 0 4 hpre (by omega), field_of_agree _ _ _ 20 8 hpre (by omega),
      (hF.2 hge).1, (hF.2 hge).2]
    refine ⟨rfl, ?_⟩
    unfold toUInt64
    omega

end WavAudioFormatWriter

end

/-! ### The declared size of a finalized file -/

section
open WavFileHelpers

/-- C37, counterexample: an 8-bit mono file with a stored `bext` chunk of two bytes and
`2^32 - 106` audio bytes (fewer than `2^32 - 104`) is finalized with `RIFF` framing,
has `2^32 + 8` bytes, and the 32-bit size written after the `RIFF` tag is 0. -/
theorem C37_counterexample :
    4294967190 < 4294967296 - 104
    ∧ (WavAudioFormatWriter.finalizedFile plainCollaborators memoryOutput 44100
        AudioChannelSet.mono 8 (some [{ name := chunkName "bext", data := [1, 2] }])
        [WriterCall.write (WaveAudioFormatTests.silence 1 4294967190) 4294967190]).length
      = 4294967304
    ∧ u32At (WavAudioFormatWriter.finalizedFile plainCollaborators memoryOutput 44100
        AudioChannelSet.mono 8 (some [{ name := chunkName "bext", data := [1, 2] }])
        [WriterCall.write (WaveAudioFormatTests.silence 1 4294967190) 4294967190]) 0
      = chunkName "RIFF"
    ∧ u32At (WavAudioFormatWriter.finalizedFile plainCollaborators memoryOutput 44100
        AudioChannelSet.mono 8 (some [{ name := chunkName "bext", data := [1, 2] }])
        [WriterCall.write (WaveAudioFormatTests.silence 1 4294967190) 4294967190]) 4
      + 8 ≠ 4294967304 := by
  have h := WavAudioFormatWriter.finalizedFile_sizes plainCollaborators 44100
    AudioChannelSet.mono 8 (some [{ name := chunkName "bext", data := [1, 2] }])
    [WriterCall.write (WaveAudioFormatTests.silence 1 4294967190) 4294967190]
    4294967190 10 (by decide) (by decide) (by decide) (by decide) (by decide)
  obtain ⟨h1, h2, -⟩ := h
  obtain ⟨h3, h4⟩ := h2 (by decide)
  refine ⟨by decide, h1, h3, ?_⟩
  rw [h4]
  decide

/-- C37, where the sizes fit: a file finalized on a fresh memory sink with one of the
four bit depths, after any sequence of `write` and `flush` calls and with any stored
chunk collection. With fewer than `2^32` audio bytes the file starts with `RIFF`, and
when header, stored chunks, audio data and pad byte together stay below `2^32 + 8`
bytes, the 32-bit size after the tag plus 8 is the length of the file; from `2^32`
audio bytes on the file starts with `RF64` and the 64-bit size in `ds64` plus 8 is
the length of the file. -/
theorem C37_declared_size_matches (ext : Collaborators) (rate : Nat) (layout : AudioChannelSet)
    (bits : Nat) (cc : Option (List MetadataChunk)) (cs : List WriterCall)
    (hbits : bits = 8 ∨ bits = 16 ∨ bits = 24 ∨ bits = 32)
    (hframe : layout.length * bits < 4294967296)
    (hsmall : 104 + WavAudioFormatWriter.storedChunksSize ext
          ((cc.map (WavAudioFormatWriter.padStoredChunks ext)).getD [])
        + layout.length * bits / 8 * WriterCall.samples cs < 9223372036854775808) :
    (layout.length * bits / 8 * WriterCall.samples cs < 4294967296 →
      (WavAudioFormatWriter.finalizedFile ext memoryOutput rate layout bits cc cs).length
          < 4294967296 + 8 →
      u32At (WavAudioFormatWriter.finalizedFile ext memoryOutput rate layout bits cc cs) 0
          = chunkName "RIFF"
      ∧ u32At (WavAudioFormatWriter.finalizedFile ext memoryOutput rate layout bits cc cs) 4 + 8
          = (WavAudioFormatWriter.finalizedFile ext memoryOutput rate layout bits cc cs).length)
    ∧ (4294967296 ≤ layout.length * bits / 8 * WriterCall.samples cs →
      u32At (WavAudioFormatWriter.finalizedFile ext memoryOutput rate layout bits cc cs) 0
          = chunkName "RF64"
      ∧ littleEndian
            (field (WavAudioFormatWriter.finalizedFile ext memoryOutput rate layout bits cc cs)
              20 8) + 8
          = (WavAudioFormatWriter.finalizedFile ext memoryOutput rate layout bits cc cs).length)
    ∧ (WavAudioFormatWriter.finalizedFile ext memoryOutput rate layout bits cc cs).length
        = 104 + WavAudioFormatWriter.storedChunksSize ext
              ((cc.map (WavAudioFormatWriter.padStoredChunks ext)).getD [])
          + layout.length * bits / 8 * WriterCall.samples cs
          + layout.length * bits / 8 * WriterCall.samples cs % 2 := by
  obtain ⟨h1, h2, h3⟩ := WavAudioFormatWriter.finalizedFile_sizes ext rate layout bits cc cs
    _ _ hbits hframe rfl rfl hsmall
  refine ⟨?_, ?_, h1⟩
  · intro hlt hlen
    obtain ⟨h4, h5⟩ := h2 hlt
    refine ⟨h4, ?_⟩
    rw [h5, h1, Nat.mod_eq_of_lt (by omega)]
    omega
  · intro hge
    obtain ⟨h4, h5⟩ := h3 hge
    refine ⟨h4, ?_⟩
    rw [h5, h1]
    omega

/-- C37, at a stereo 16-bit file with a stored chunk of three bytes (padded to four)
and three frames written in two calls with a flush between them: the file has 128
bytes and declares 120 after `RIFF`. -/
theorem C37_declared_size_matches_witness :
    (WavAudioFormatWriter.finalizedFile plainCollaborators memoryOutput 44100
        AudioChannelSet.stereo 16 (some [{ name := chunkName "bext", data := [1, 2, 3] }])
        [WriterCall.write [[0, 0], [0, 0]] 2, WriterCall.flush,
          WriterCall.write [[0], [0]] 1]).length = 128
    ∧ u32At (WavAudioFormatWriter.finalizedFile plainCollaborators memoryOutput 44100
        AudioChannelSet.stereo 16 (some [{ name := chunkName "bext", data := [1, 2, 3] }])
        [WriterCall.write [[0, 0], [0, 0]] 2, WriterCall.flush,
          WriterCall.write [[0], [0]] 1]) 4 + 8
      = (WavAudioFormatWriter.finalizedFile plainCollaborators memoryOutput 44100
        AudioChannelSet.stereo 16 (some [{ name := chunkName "bext", data := [1, 2, 3] }])
        [WriterCall.write [[0, 0], [0, 0]] 2, WriterCall.flush,
          WriterCall.write [[0], [0]] 1]).length :=
  ⟨by decide!,
   ((C37_declared_size_matches plainCollaborators 44100 AudioChannelSet.stereo 16
      (some [{ name := chunkName "bext", data := [1, 2, 3] }])
      [WriterCall.write [[0, 0], [0, 0]] 2, WriterCall.flush, WriterCall.write [[0], [0]] 1]
      (by decide) (by decide) (by decide)).1 (by decide) (by decide!)).2⟩

end

/-! ### Rejected writes and sinks that cannot seek -/

section
open WavFileHelpers

namespace OutputStream

@[simp] theorem write_seekable (out : OutputStream) (bs : List Nat) :
    (out.write bs).2.seekable = out.seekable := by
  unfold write
  dsimp only
  split_ifs <;> rfl

@[simp] theorem writeByte_seekable (out : OutputStream) (b : Nat) :
    (out.writeByte b).seekable = out.seekable := write_seekable _ _

@[simp] theorem writeShort_seekable (out : OutputStream) (v : Nat) :
    (out.writeShort v).seekable = out.seekable := write_seekable _ _

@[simp] theorem writeInt_seekable (out : OutputStream) (v : Nat) :
    (out.writeInt v).seekable = out.seekable := write_seekable _ _

@[simp] theorem writeInt64_seekable (out : OutputStream) (v : Nat) :
    (out.writeInt64 v).seekable = out.seekable := write_seekable _ _

@[simp] theorem writeRepeatedByte_seekable (out : OutputStream) (b n : Nat) :
    (out.writeRepeatedByte b n).seekable = out.seekable := write_seekable _ _

@[simp] theorem setPosition_seekable (out : OutputStream) (p : Int) :
    (out.setPosition p).2.seekable = out.seekable := by
  unfold setPosition
  split_ifs <;> rfl

theorem setPosition_unseekable (out : OutputStream) (p : Int) (h : out.seekable = false) :
    out.setPosition p = (false, out) := by
  unfold setPosition
  rw [if_neg]
  rw [h]
  simp

end OutputStream

namespace WavAudioFormatWriter

open OutputStream

@[simp] theorem writeChunkHeader_seekable (out : OutputStream) (t s : Nat) :
    (writeChunkHeader out t s).seekable = out.seekable := by
  unfold writeChunkHeader
  simp

@[simp] theorem writeChunk_seekable (out : OutputStream) (data : List Nat) (t s : Nat) :
    (writeChunk out data t s).seekable = out.seekable := by
  unfold writeChunk
  split_ifs <;> simp

@[simp] theorem writeStoredChunks_seekable (ext : Collaborators) (cs : List MetadataChunk) :
    ∀ out : OutputStream, (writeStoredChunks ext cs out).seekable = out.seekable := by
  induction cs with
  | nil => intro out; rfl
  | cons c rest ih =>
    intro out
    unfold writeStoredChunks
    split_ifs <;> simp only [ih, writeChunk_seekable]

@[simp] theorem writeFraming_seekable (out : OutputStream) (a b c : Bool) (r : Int) (s : Nat) :
    (writeFraming out a b c r s).seekable = out.seekable := by
  unfold writeFraming
  dsimp only
  split_ifs <;> simp

@[simp] theorem writeFmt_seekable (out : OutputStream) (x : Bool) (a b c d e : Nat) :
    (writeFmt out x a b c d e).seekable = out.seekable := by
  unfold writeFmt
  dsimp only
  split_ifs <;> simp

theorem writeHeaderBody_seekable (ext : Collaborators) (w : WavAudioFormatWriter)
    (out : OutputStream) : (writeHeaderBody ext w out).output.seekable = out.seekable := by
  unfold writeHeaderBody
  simp

/-- The method `writeHeader` changes neither the counters nor the failure flag. -/
theorem writeHeader_counters (ext : Collaborators) (w : WavAudioFormatWriter) :
    (writeHeader ext w none).bytesWritten = w.bytesWritten
    ∧ (writeHeader ext w none).lengthInSamples = w.lengthInSamples
    ∧ (writeHeader ext w none).writeFailed = w.writeFailed := by
  unfold writeHeader
  dsimp only
  split_ifs <;> exact ⟨rfl, rfl, rfl⟩

theorem writeHeader_seekable (ext : Collaborators) (w : WavAudioFormatWriter) :
    (writeHeader ext w none).output.seekable = w.output.seekable := by
  unfold writeHeader
  dsimp only
  split_ifs <;> simp [writeHeaderBody_seekable, getPosition]

/-- The method `flush` changes neither the counters nor the failure flag. -/
theorem flush_counters (ext : Collaborators) (w : WavAudioFormatWriter) :
    (flush ext w).2.bytesWritten = w.bytesWritten
    ∧ (flush ext w).2.lengthInSamples = w.lengthInSamples
    ∧ (flush ext w).2.writeFailed = w.writeFailed := by
  unfold flush
  dsimp only
  split_ifs <;> exact writeHeader_counters ext w

theorem flush_unseekable (ext : Collaborators) (w : WavAudioFormatWriter)
    (h : w.output.seekable = false) : flush ext w = (false, writeHeader ext w none) := by
  unfold flush
  dsimp only
  rw [setPosition_unseekable _ _ (by rw [writeHeader_seekable, h])]
  rfl

theorem write_failed (ext : Collaborators) (w : WavAudioFormatWriter) (data : List (List Int))
    (n : Nat) (h : w.writeFailed = true) : write ext w data n = (false, w) := by
  unfold write
  rw [if_pos h]

theorem write_rejected (ext : Collaborators) (w : WavAudioFormatWriter) (data : List (List Int))
    (n : Nat) (hf : w.writeFailed = false)
    (hrej : (w.output.write (audioBlock w data n)).1 = false) :
    write ext w data n = (false, { writeHeader ext w none with writeFailed := true }) := by
  have ho : (w.output.write (audioBlock w data n)).2 = w.output := by
    revert hrej
    unfold OutputStream.write
    dsimp only
    split_ifs
    · intro h
      cases h
    · intro _
      rfl
  unfold write
  rw [if_neg (by rw [hf]; decide)]
  dsimp only
  have hb : (if w.bitsPerSample = 8 ∨ w.bitsPerSample = 16 ∨ w.bitsPerSample = 24
        ∨ w.bitsPerSample = 32 then interleave w.bitsPerSample w.numChannels data n
      else List.replicate (w.numChannels * n * w.bitsPerSample / 8) 0) = audioBlock w data n := rfl
  rw [hb, if_pos (by rw [hrej]; decide), ho]

theorem write_taken (ext : Collaborators) (w : WavAudioFormatWriter) (data : List (List Int))
    (n : Nat) (hf : w.writeFailed = false)
    (hacc : (w.output.write (audioBlock w data n)).1 = true) :
    write ext w data n
      = (true, { w with output := (w.output.write (audioBlock w data n)).2,
                        bytesWritten := w.bytesWritten + w.numChannels * n * w.bitsPerSample / 8,
                        lengthInSamples := w.lengthInSamples + n }) := by
  unfold write
  rw [if_neg (by rw [hf]; decide)]
  dsimp only
  have hb : (if w.bitsPerSample = 8 ∨ w.bitsPerSample = 16 ∨ w.bitsPerSample = 24
        ∨ w.bitsPerSample = 32 then interleave w.bitsPerSample w.numChannels data n
      else List.replicate (w.numChannels * n * w.bitsPerSample / 8) 0) = audioBlock w data n := rfl
  rw [hb, if_neg (by rw [hacc]; decide)]

theorem call_failed (ext : Collaborators) (w : WavAudioFormatWriter) (c : WriterCall)
    (h : w.writeFailed = true) : (call ext w c).writeFailed = true := by
  cases c with
  | write data n =>
    show (write ext w data n).2.writeFailed = true
    rw [write_failed ext w data n h]
    exact h
  | flush =>
    show (flush ext w).2.writeFailed = true
    rw [(flush_counters ext w).2.2]
    exact h

/-- A writer with a failed write stays so through every sequence of calls. -/
theorem calls_failed (ext : Collaborators) (cs : List WriterCall) :
    ∀ w : WavAudioFormatWriter, w.writeFailed = true → (calls ext w cs).writeFailed = true := by
  induction cs with
  | nil => intro w h; exact h
  | cons c rest ih =>
    intro w h
    exact ih _ (call_failed ext w c h)

end WavAudioFormatWriter

/-- C31: when the sink rejects the bytes of a `write` call on a writer without a failed
write, the call returns false, its result is the writer after `writeHeader` (the
header patch) with the failure flag set, `bytesWritten` and `lengthInSamples` are those
of before, and after any further calls every `write` returns false and leaves writer
and sink as they are. -/
theorem C31_write_failure_sticky (ext : Collaborators) (w : WavAudioFormatWriter)
    (data : List (List Int)) (numSamples : Nat) (hok : w.writeFailed = false)
    (hrej : (w.output.write (WavAudioFormatWriter.audioBlock w data numSamples)).1 = false) :
    (WavAudioFormatWriter.write ext w data numSamples).1 = false
    ∧ (WavAudioFormatWriter.write ext w data numSamples).2
        = { WavAudioFormatWriter.writeHeader ext w none with writeFailed := true }
    ∧ (WavAudioFormatWriter.write ext w data numSamples).2.bytesWritten = w.bytesWritten
    ∧ (WavAudioFormatWriter.write ext w data numSamples).2.lengthInSamples = w.lengthInSamples
    ∧ ∀ (cs : List WriterCall) (data2 : List (List Int)) (n2 : Nat),
        WavAudioFormatWriter.write ext
            (WavAudioFormatWriter.calls ext (WavAudioFormatWriter.write ext w data numSamples).2 cs)
            data2 n2
          = (false,
              WavAudioFormatWriter.calls ext (WavAudioFormatWriter.write ext w data numSamples).2
                cs) := by
  have h := WavAudioFormatWriter.write_rejected ext w data numSamples hok hrej
  have hc := WavAudioFormatWriter.writeHeader_counters ext w
  refine ⟨by rw [h], by rw [h], ?_, ?_, ?_⟩
  · rw [h]
    exact hc.1
  · rw [h]
    exact hc.2.1
  · intro cs data2 n2
    apply WavAudioFormatWriter.write_failed
    apply WavAudioFormatWriter.calls_failed
    rw [h]

/-- C31, at an 8-bit mono writer on a sink with room for 105 bytes, after one sample:
the write of a second sample is rejected, returns false and leaves the counters at
one byte and one sample, and a write after a flush returns false. -/
theorem C31_write_failure_sticky_witness :
    (WavAudioFormatWriter.write plainCollaborators
        (WavAudioFormatWriter.create plainCollaborators
          ({ data := [], position := 0, capacity := some 105 } : OutputStream) 8000
          AudioChannelSet.mono 8 [] none false) [[0]] 1).2.writeFailed = false
    ∧ (WavAudioFormatWriter.write plainCollaborators
        (WavAudioFormatWriter.write plainCollaborators
          (WavAudioFormatWriter.create plainCollaborators
            ({ data := [], position := 0, capacity := some 105 } : OutputStream) 8000
            AudioChannelSet.mono 8 [] none false) [[0]] 1).2 [[0]] 1).1 = false
    ∧ (WavAudioFormatWriter.write plainCollaborators
        (WavAudioFormatWriter.write plainCollaborators
          (WavAudioFormatWriter.create plainCollaborators
            ({ data := [], position := 0, capacity := some 105 } : OutputStream) 8000
            AudioChannelSet.mono 8 [] none false) [[0]] 1).2 [[0]] 1).2.bytesWritten = 1
    ∧ (WavAudioFormatWriter.write plainCollaborators
        (WavAudioFormatWriter.calls plainCollaborators
          (WavAudioFormatWriter.write plainCollaborators
            (WavAudioFormatWriter.write plainCollaborators
              (WavAudioFormatWriter.create plainCollaborators
                ({ data := [], position := 0, capacity := some 105 } : OutputStream) 8000
                AudioChannelSet.mono 8 [] none false) [[0]] 1).2 [[0]] 1).2
          [WriterCall.flush]) [[0]] 1).1 = false :=
  have h := C31_write_failure_sticky plainCollaborators
    (WavAudioFormatWriter.write plainCollaborators
      (WavAudioFormatWriter.create plainCollaborators
        ({ data := [], position := 0, capacity := some 105 } : OutputStream) 8000
        AudioChannelSet.mono 8 [] none false) [[0]] 1).2 [[0]] 1 (by decide!) (by decide!)
  ⟨by decide!, h.1, h.2.2.1.trans (by decide!),
    congrArg Prod.fst (h.2.2.2.2 [WriterCall.flush] [[0]] 1)⟩

/-- C32, counterexample: an 8-bit mono writer on a sink that cannot seek, after one
sample. `flush` returns false, the failure flag stays clear, and the next `write`
returns true and counts its sample. -/
theorem C32_counterexample :
    (WavAudioFormatWriter.flush plainCollaborators
        (WavAudioFormatWriter.calls plainCollaborators
          (WavAudioFormatWriter.create plainCollaborators unseekableOutput 8000
            AudioChannelSet.mono 8 [] none false) [WriterCall.write [[0]] 1])).1 = false
    ∧ (WavAudioFormatWriter.flush plainCollaborators
        (WavAudioFormatWriter.calls plainCollaborators
          (WavAudioFormatWriter.create plainCollaborators unseekableOutput 8000
            AudioChannelSet.mono 8 [] none false) [WriterCall.write [[0]] 1])).2.writeFailed
        = false
    ∧ (WavAudioFormatWriter.write plainCollaborators
        (WavAudioFormatWriter.flush plainCollaborators
          (WavAudioFormatWriter.calls plainCollaborators
            (WavAudioFormatWriter.create plainCollaborators unseekableOutput 8000
              AudioChannelSet.mono 8 [] none false) [WriterCall.write [[0]] 1])).2 [[0]] 1).1
        = true
    ∧ (WavAudioFormatWriter.write plainCollaborators
        (WavAudioFormatWriter.flush plainCollaborators
          (WavAudioFormatWriter.calls plainCollaborators
            (WavAudioFormatWriter.create plainCollaborators unseekableOutput 8000
              AudioChannelSet.mono 8 [] none false) [WriterCall.write [[0]] 1])).2
        [[0]] 1).2.lengthInSamples = 2 := by
  decide!

/-- C32, as amended: on a sink that cannot seek, `flush` returns false and leaves the
writer as `writeHeader` left it, with the failure flag and the counters of before; on
a writer without a failed write, a `write` after it whose bytes the sink accepts
returns true and counts its samples. -/
theorem C32_unseekable_flush (ext : Collaborators) (w : WavAudioFormatWriter)
    (hseek : w.output.seekable = false) :
    (WavAudioFormatWriter.flush ext w).1 = false
    ∧ (WavAudioFormatWriter.flush ext w).2 = WavAudioFormatWriter.writeHeader ext w none
    ∧ (WavAudioFormatWriter.flush ext w).2.writeFailed = w.writeFailed
    ∧ (WavAudioFormatWriter.flush ext w).2.bytesWritten = w.bytesWritten
    ∧ (WavAudioFormatWriter.flush ext w).2.lengthInSamples = w.lengthInSamples
    ∧ ∀ (data : List (List Int)) (n : Nat), w.writeFailed = false →
        ((WavAudioFormatWriter.flush ext w).2.output.write
          (WavAudioFormatWriter.audioBlock (WavAudioFormatWriter.flush ext w).2 data n)).1 = true →
        (WavAudioFormatWriter.write ext (WavAudioFormatWriter.flush ext w).2 data n).1 = true
        ∧ (WavAudioFormatWriter.write ext (WavAudioFormatWriter.flush ext w).2 data
            n).2.lengthInSamples = w.lengthInSamples + n := by
  have h := WavAudioFormatWriter.flush_unseekable ext w hseek
  have hc := WavAudioFormatWriter.flush_counters ext w
  refine ⟨by rw [h], by rw [h], hc.2.2, hc.1, hc.2.1, ?_⟩
  intro data n hf hacc
  have hw := WavAudioFormatWriter.write_taken ext _ data n (hc.2.2.trans hf) hacc
  rw [hw]
  exact ⟨rfl, congrArg (fun x => x + n) hc.2.1⟩

/-- C32, at an 8-bit mono writer on a sink that cannot seek, after one sample: `flush`
returns false and the counters stay at one byte and one sample. -/
theorem C32_unseekable_flush_witness :
    (WavAudioFormatWriter.calls plainCollaborators
        (WavAudioFormatWriter.create plainCollaborators unseekableOutput 8000
          AudioChannelSet.mono 8 [] none false) [WriterCall.write [[0]] 1]).output.seekable
      = false
    ∧ (WavAudioFormatWriter.flush plainCollaborators
        (WavAudioFormatWriter.calls plainCollaborators
          (WavAudioFormatWriter.create plainCollaborators unseekableOutput 8000
            AudioChannelSet.mono 8 [] none false) [WriterCall.write [[0]] 1])).1 = false
    ∧ (WavAudioFormatWriter.flush plainCollaborators
        (WavAudioFormatWriter.calls plainCollaborators
          (WavAudioFormatWriter.create plainCollaborators unseekableOutput 8000
            AudioChannelSet.mono 8 [] none false) [WriterCall.write [[0]] 1])).2.bytesWritten
      = 1 :=
  have h := C32_unseekable_flush plainCollaborators
    (WavAudioFormatWriter.calls plainCollaborators
      (WavAudioFormatWriter.create plainCollaborators unseekableOutput 8000
        AudioChannelSet.mono 8 [] none false) [WriterCall.write [[0]] 1]) (by decide!)
  ⟨by decide!, h.1, h.2.2.2.1.trans (by decide!)⟩

end

/-! ### The flags and the root note of the acid chunk -/

section
open WavFileHelpers

namespace WavFileHelpers

theorem acidLayout_fields (f rn nb md mn tp : Nat) :
    u32At (toLittleEndian 4 f ++ toLittleEndian 2 rn ++ toLittleEndian 2 0 ++ toLittleEndian 4 0
        ++ toLittleEndian 4 nb ++ toLittleEndian 2 md ++ toLittleEndian 2 mn
        ++ toLittleEndian 4 tp) 0 = f % 4294967296
    ∧ u16At (toLittleEndian 4 f ++ toLittleEndian 2 rn ++ toLittleEndian 2 0 ++ toLittleEndian 4 0
        ++ toLittleEndian 4 nb ++ toLittleEndian 2 md ++ toLittleEndian 2 mn
        ++ toLittleEndian 4 tp) 4 = rn % 65536
    ∧ u32At (toLittleEndian 4 f ++ toLittleEndian 2 rn ++ toLittleEndian 2 0 ++ toLittleEndian 4 0
        ++ toLittleEndian 4 nb ++ toLittleEndian 2 md ++ toLittleEndian 2 mn
        ++ toLittleEndian 4 tp) 12 = nb % 4294967296
    ∧ u16At (toLittleEndian 4 f ++ toLittleEndian 2 rn ++ toLittleEndian 2 0 ++ toLittleEndian 4 0
        ++ toLittleEndian 4 nb ++ toLittleEndian 2 md ++ toLittleEndian 2 mn
        ++ toLittleEndian 4 tp) 16 = md % 65536
    ∧ u16At (toLittleEndian 4 f ++ toLittleEndian 2 rn ++ toLittleEndian 2 0 ++ toLittleEndian 4 0
        ++ toLittleEndian 4 nb ++ toLittleEndian 2 md ++ toLittleEndian 2 mn
        ++ toLittleEndian 4 tp) 18 = mn % 65536
    ∧ u32At (toLittleEndian 4 f ++ toLittleEndian 2 rn ++ toLittleEndian 2 0 ++ toLittleEndian 4 0
        ++ toLittleEndian 4 nb ++ toLittleEndian 2 md ++ toLittleEndian 2 mn
        ++ toLittleEndian 4 tp) 20 = tp % 4294967296 := by
  simp only [toLittleEndian, u32At, u16At, field, List.range_succ, List.range_zero,
    List.nil_append, List.cons_append, List.map_cons, List.map_nil, littleEndian,
    List.getD_cons_zero, List.getD_cons_succ, Nat.add_zero, Nat.zero_add, Nat.reduceAdd]
  refine ⟨?_, ?_, ?_, ?_, ?_, ?_⟩ <;> omega

theorem AcidChunk.flags_bits (ext : Collaborators) (values : StringPairArray) :
    AcidChunk.flags ext values < 32
    ∧ AcidChunk.boolFlag (AcidChunk.flags ext values) 1
        = (if getIntValue ext (values.getValue "acid one shot" "") ≠ 0 then "1" else "0")
    ∧ AcidChunk.boolFlag (AcidChunk.flags ext values) 2
        = (if getIntValue ext (values.getValue "acid root set" "") ≠ 0 then "1" else "0")
    ∧ AcidChunk.boolFlag (AcidChunk.flags ext values) 4
        = (if getIntValue ext (values.getValue "acid stretch" "") ≠ 0 then "1" else "0")
    ∧ AcidChunk.boolFlag (AcidChunk.flags ext values) 8
        = (if getIntValue ext (values.getValue "acid disk based" "") ≠ 0 then "1" else "0")
    ∧ AcidChunk.boolFlag (AcidChunk.flags ext values) 16
        = (if getIntValue ext (values.getValue "acidizer flag" "") ≠ 0 then "1" else "0")
    ∧ ((AcidChunk.flags ext values / 2) % 2 = 1
        ↔ getIntValue ext (values.getValue "acid root set" "") ≠ 0) := by
  unfold AcidChunk.flags AcidChunk.getFlagIfPresent AcidChunk.boolFlag
  by_cases h1 : getIntValue ext (values.getValue "acid one shot" "") = 0 <;>
  by_cases h2 : getIntValue ext (values.getValue "acid root set" "") = 0 <;>
  by_cases h3 : getIntValue ext (values.getValue "acid stretch" "") = 0 <;>
  by_cases h4 : getIntValue ext (values.getValue "acid disk based" "") = 0 <;>
  by_cases h5 : getIntValue ext (values.getValue "acidizer flag" "") = 0 <;>
  simp [h1, h2, h3, h4, h5]

/-- The fields the decoder reads from the record the encoder builds. -/
theorem AcidChunk.record_fields (ext : Collaborators) (values : StringPairArray) :
    u32At (AcidChunk.record ext values) 0 = AcidChunk.flags ext values
    ∧ u16At (AcidChunk.record ext values) 4 = AcidChunk.rootNote ext values
    ∧ u32At (AcidChunk.record ext values) 12 = AcidChunk.numBeats ext values
    ∧ u16At (AcidChunk.record ext values) 16 = AcidChunk.meterDenominator ext values
    ∧ u16At (AcidChunk.record ext values) 18 = AcidChunk.meterNumerator ext values
    ∧ u32At (AcidChunk.record ext values) 20 = AcidChunk.tempo ext values := by
  have h := acidLayout_fields (AcidChunk.flags ext values) (AcidChunk.rootNote ext values)
    (AcidChunk.numBeats ext values) (AcidChunk.meterDenominator ext values)
    (AcidChunk.meterNumerator ext values) (AcidChunk.tempo ext values)
  have b1 := (AcidChunk.flags_bits ext values).1
  have b2 : AcidChunk.rootNote ext values < 65536 := by
    unfold AcidChunk.rootNote
    split_ifs <;> omega
  have b3 : AcidChunk.numBeats ext values < 4294967296 := by
    unfold AcidChunk.numBeats toUInt32
    omega
  have b4 : AcidChunk.meterDenominator ext values < 65536 := by
    unfold AcidChunk.meterDenominator
    omega
  have b5 : AcidChunk.meterNumerator ext values < 65536 := by
    unfold AcidChunk.meterNumerator
    omega
  have b6 : AcidChunk.tempo ext values < 4294967296 := by
    unfold AcidChunk.tempo
    split_ifs
    · exact Nat.mod_lt _ (by decide)
    · decide
  unfold AcidChunk.record
  rw [h.1, h.2.1, h.2.2.1, h.2.2.2.1, h.2.2.2.2.1, h.2.2.2.2.2]
  rw [Nat.mod_eq_of_lt (by omega : AcidChunk.flags ext values < 4294967296), Nat.mod_eq_of_lt b2,
    Nat.mod_eq_of_lt b3, Nat.mod_eq_of_lt b4, Nat.mod_eq_of_lt b5, Nat.mod_eq_of_lt b6]
  exact ⟨rfl, rfl, rfl, rfl, rfl, rfl⟩

end WavFileHelpers

/-- C34: for a map whose encoded `acid` chunk is not empty, decoding the chunk into a
map `m` stores each of the five flag keys with `1` when the integer value of that key
in the encoded map is not 0 and with `0` otherwise; it stores the root note exactly
when the root-set value is not 0, as the text of the map's root note modulo `2^16`;
and it stores the beats, the meter and the tempo of the record. -/
theorem C34_acid_flags_round_trip (ext : Collaborators) (values m : StringPairArray)
    (hemit : AcidChunk.createFrom ext values ≠ []) :
    AcidChunk.addToMetadata ext m (AcidChunk.createFrom ext values)
      = m.setAll
          ([("acid one shot",
              if getIntValue ext (values.getValue "acid one shot" "") ≠ 0 then "1" else "0"),
            ("acid root set",
              if getIntValue ext (values.getValue "acid root set" "") ≠ 0 then "1" else "0"),
            ("acid stretch",
              if getIntValue ext (values.getValue "acid stretch" "") ≠ 0 then "1" else "0"),
            ("acid disk based",
              if getIntValue ext (values.getValue "acid disk based" "") ≠ 0 then "1" else "0"),
            ("acidizer flag",
              if getIntValue ext (values.getValue "acidizer flag" "") ≠ 0 then "1" else "0")]
           ++ (if getIntValue ext (values.getValue "acid root set" "") ≠ 0 then
                 [("acid root note",
                   toString ((getIntValue ext (values.getValue "acid root note" "") % 65536).toNat))]
               else [])
           ++ [("acid beats", toString (AcidChunk.numBeats ext values)),
               ("acid denominator", toString (AcidChunk.meterDenominator ext values)),
               ("acid numerator", toString (AcidChunk.meterNumerator ext values)),
               ("acid tempo", ext.floatToString (AcidChunk.tempo ext values))]) := by
  have hrec : AcidChunk.createFrom ext values = AcidChunk.record ext values := by
    unfold AcidChunk.createFrom at hemit ⊢
    split_ifs at hemit ⊢
    · rfl
    · exact absurd rfl hemit
  have hF := AcidChunk.record_fields ext values
  have hB := AcidChunk.flags_bits ext values
  rw [hrec]
  unfold AcidChunk.addToMetadata AcidChunk.entries
  rw [hF.1, hF.2.1, hF.2.2.1, hF.2.2.2.1, hF.2.2.2.2.1, hF.2.2.2.2.2,
    hB.2.1, hB.2.2.1, hB.2.2.2.1, hB.2.2.2.2.1, hB.2.2.2.2.2.1]
  by_cases hr : getIntValue ext (values.getValue "acid root set" "") ≠ 0
  · have hn : AcidChunk.rootNote ext values
        = (getIntValue ext (values.getValue "acid root note" "") % 65536).toNat := by
      unfold AcidChunk.rootNote
      rw [if_pos hr]
    simp only [if_pos (hB.2.2.2.2.2.2.mpr hr), if_pos hr, hn]
  · simp only [if_neg (fun h => hr (hB.2.2.2.2.2.2.mp h)), if_neg hr]

/-- C34, at a map with the root-set and stretch values 1 and 7 and the root note 60. -/
theorem C34_acid_flags_round_trip_witness :
    AcidChunk.createFrom plainCollaborators
        [("acid root set", "1"), ("acid stretch", "7"), ("acid root note", "60")] ≠ []
    ∧ AcidChunk.addToMetadata plainCollaborators []
        (AcidChunk.createFrom plainCollaborators
          [("acid root set", "1"), ("acid stretch", "7"), ("acid root note", "60")])
      = [("acid one shot", "0"), ("acid root set", "1"), ("acid stretch", "1"),
         ("acid disk based", "0"), ("acidizer flag", "0"), ("acid root note", "60"),
         ("acid beats", "0"), ("acid denominator", "0"), ("acid numerator", "0"),
         ("acid tempo", "0")] :=
  ⟨by decide!,
   (C34_acid_flags_round_trip plainCollaborators
      [("acid root set", "1"), ("acid stretch", "7"), ("acid root note", "60")] []
      (by decide!)).trans (by decide!)⟩

end

/-! ### The time reference of the bext chunk -/

section
open WavFileHelpers

namespace WavFileHelpers

/-- The two halves of the time reference in the block `createFrom` fills. -/
theorem BWAVChunk.filled_timeRef (ext : Collaborators) (values : StringPairArray)
    (hn : getNumBytesAsUTF8 (values.getValue "bwav coding history" "") + 606 < 4294967296) :
    u32At (BWAVChunk.filled ext values) 338
        = toUInt64 (BWAVChunk.timeReference ext values) % 4294967296
      ∧ u32At (BWAVChunk.filled ext values) 342
        = toUInt64 (BWAVChunk.timeReference ext values) / 4294967296 % 4294967296 := by
  have hr := roundUpSize_bext _ hn
  unfold BWAVChunk.filled
  dsimp only
  constructor
  · rw [u32At_store_of_disjoint _ _ _ _ (Or.inl (by omega)),
      u32At_store_of_disjoint _ _ _ _ (Or.inl (by omega)),
      u32At_store_at _ _ _ (by
        rw [length_store, length_store, length_store, length_store, length_store,
          List.length_replicate]
        omega)]
    exact Nat.mod_mod _ _
  · rw [u32At_store_of_disjoint _ _ _ _ (Or.inl (by omega)),
      u32At_store_at _ _ _ (by
        rw [length_store, length_store, length_store, length_store, length_store, length_store,
          List.length_replicate]
        omega)]
    exact Nat.mod_mod _ _

end WavFileHelpers

/-- C35: for every signed 64-bit time reference `t` (the value the map's time
reference reads as), `BWAVChunk::createFrom` stores `t & 0xffffffff` in `timeRefLow`
and `(uint32) (t >> 32)` in `timeRefHigh`, and `BWAVChunk::copyTo` on that block
reassembles `(high << 32) + low` to `t` and stores its text under the time-reference
key. (For a coding history shorter than `2^32 - 606` bytes, so that the block holds
the record.) -/
theorem C35_bext_time_reference_round_trip (ext : Collaborators) (values : StringPairArray)
    (t : Int) (totalSize : Int)
    (ht1 : -9223372036854775808 ≤ t) (ht2 : t < 9223372036854775808)
    (ht : ext.getLargeIntValue (values.getValue "bwav time reference" "") = t)
    (hn : getNumBytesAsUTF8 (values.getValue "bwav coding history" "") + 606 < 4294967296) :
    BWAVChunk.timeReference ext values = t
    ∧ (u32At (BWAVChunk.filled ext values) 338 : Int) = t % 4294967296
    ∧ (u32At (BWAVChunk.filled ext values) 342 : Int) = (t / 4294967296) % 4294967296
    ∧ toInt64 (u32At (BWAVChunk.filled ext values) 342 * 4294967296
        + u32At (BWAVChunk.filled ext values) 338) = t
    ∧ ("bwav time reference", toString t) ∈ BWAVChunk.entries (BWAVChunk.filled ext values) totalSize
    ∧ (t ≠ 0 → BWAVChunk.createFrom ext values = BWAVChunk.filled ext values) := by
  have hT : BWAVChunk.timeReference ext values = t := by
    unfold BWAVChunk.timeReference
    rw [ht]
    unfold toInt64 toUInt64
    split_ifs <;> omega
  have hF := BWAVChunk.filled_timeRef ext values hn
  rw [hT] at hF
  have hlow : (u32At (BWAVChunk.filled ext values) 338 : Int) = t % 4294967296 := by
    rw [hF.1]
    unfold toUInt64
    omega
  have hhigh : (u32At (BWAVChunk.filled ext values) 342 : Int) = (t / 4294967296) % 4294967296 := by
    rw [hF.2]
    unfold toUInt64
    omega
  have hback : toInt64 (u32At (BWAVChunk.filled ext values) 342 * 4294967296
      + u32At (BWAVChunk.filled ext values) 338) = t := by
    generalize u32At (BWAVChunk.filled ext values) 338 = lo at hlow
    generalize u32At (BWAVChunk.filled ext values) 342 = hi at hhigh
    unfold toInt64
    split_ifs <;> omega
  refine ⟨hT, hlow, hhigh, hback, ?_, ?_⟩
  · unfold BWAVChunk.entries
    rw [hback]
    simp
  · intro h0
    unfold BWAVChunk.createFrom
    dsimp only
    rw [if_pos]
    rw [hT]
    exact Or.inr (Or.inr (Or.inr (Or.inr (Or.inr h0))))

/-- C35, at the time reference -5: the low half is `0xFFFFFFFB`, the high half
`0xFFFFFFFF`, and the decoder stores the text of -5. -/
theorem C35_bext_time_reference_round_trip_witness :
    plainCollaborators.getLargeIntValue
        (StringPairArray.getValue [("bwav time reference", "-5")] "bwav time reference" "") = -5
    ∧ u32At (BWAVChunk.createFrom plainCollaborators [("bwav time reference", "-5")]) 338
        = 4294967291
    ∧ u32At (BWAVChunk.createFrom plainCollaborators [("bwav time reference", "-5")]) 342
        = 4294967295
    ∧ ("bwav time reference", toString (-5 : Int))
        ∈ BWAVChunk.entries (BWAVChunk.filled plainCollaborators [("bwav time reference", "-5")])
            604 :=
  ⟨by decide!, by decide!, by decide!,
   (C35_bext_time_reference_round_trip plainCollaborators [("bwav time reference", "-5")] (-5) 604
      (by decide) (by decide) (by decide!) (by decide!)).2.2.2.2.1⟩

end

/-! ### The loop of readSamples and the bit depths of accepted readers -/

section
open WavFileHelpers

namespace WavAudioFormatReader

theorem tdiv_bufSize_zero (b : Int) (h : 5760 < b) : Int.tdiv 5760 b = 0 :=
  Int.tdiv_eq_zero_of_lt (by decide) h

theorem tdiv_bufSize_pos (b : Int) (h1 : 0 < b) (h2 : b ≤ 5760) : 1 ≤ Int.tdiv 5760 b := by
  rw [Int.tdiv_eq_ediv (by decide) (le_of_lt h1)]
  exact Int.le_ediv_of_mul_le h1 (by omega)

/-- With more than 5760 bytes per frame a pass of the loop processes no frame, and the
loop does not end: for every number of passes allowed the result is `outOfFuel`. -/
theorem readSamplesLoop_stuck (r : WavAudioFormatReader) (numDestChannels : Int)
    (hb : 5760 < r.bytesPerFrame) :
    ∀ (fuel : Nat) (input : InputStream) (dest : List (List Int)) (off n : Int), 0 < n →
      readSamplesLoop r numDestChannels fuel input dest off n = .error .outOfFuel := by
  intro fuel
  induction fuel with
  | zero => intro input dest off n _; rfl
  | succ k ih =>
    intro input dest off n hn
    unfold readSamplesLoop
    rw [if_pos hn, if_neg (by omega)]
    dsimp only
    rw [tdiv_bufSize_zero _ hb, min_eq_left (le_of_lt hn), sub_zero]
    exact ih _ _ _ _ hn

theorem readSamples_stuck (r : WavAudioFormatReader) (dest : List (List Int))
    (numDestChannels off start n : Int) (fuel : Nat) (hb : 5760 < r.bytesPerFrame)
    (hn : 0 < n) (hav : n ≤ r.lengthInSamples - start) :
    readSamples r dest numDestChannels off start n fuel = .error .outOfFuel := by
  unfold readSamples
  have hc : clearSamplesBeyondAvailableLength dest numDestChannels off start n r.lengthInSamples
      = (dest, n) := by
    unfold clearSamplesBeyondAvailableLength
    dsimp only
    rw [if_neg (by omega)]
  dsimp only
  rw [hc]
  dsimp only
  rw [if_neg (by omega), readSamplesLoop_stuck r numDestChannels hb _ _ _ _ _ hn]

/-- With at most 5760 bytes per frame the loop ends: `numSamples + 1` passes are
enough. -/
theorem readSamplesLoop_ends (r : WavAudioFormatReader) (numDestChannels : Int)
    (h1 : 0 < r.bytesPerFrame) (h2 : r.bytesPerFrame ≤ 5760) :
    ∀ (fuel : Nat) (input : InputStream) (dest : List (List Int)) (off n : Int),
      n.toNat + 1 ≤ fuel →
      ∃ res, readSamplesLoop r numDestChannels fuel input dest off n = .ok res := by
  intro fuel
  induction fuel with
  | zero => intro input dest off n h; omega
  | succ k ih =>
    intro input dest off n h
    unfold readSamplesLoop
    by_cases hn : n > 0
    · rw [if_pos hn, if_neg (by omega)]
      dsimp only
      apply ih
      have := tdiv_bufSize_pos _ h1 h2
      have hm : 1 ≤ min (Int.tdiv 5760 r.bytesPerFrame) n := le_min this (by omega)
      omega
    · rw [if_neg hn]
      exact ⟨_, rfl⟩

end WavAudioFormatReader

/-- C36, counterexample: `createReaderFor` accepts a stream with 5761 bytes per frame
and one frame; for it `5760 / bytesPerFrame` is 0, and `readSamples` for one sample
does not return: for every number of passes allowed to its loop the result is
`outOfFuel`. -/
theorem C36_counterexample :
    ∃ r, WavAudioFormat.createReaderFor plainCollaborators (memoryInput wideFrameStream) 4
        = .ok (some r)
      ∧ r.sampleRate > 0 ∧ r.numChannels > 0 ∧ r.bytesPerFrame = 5761 ∧ r.bitsPerSample = 8
      ∧ r.lengthInSamples = 1
      ∧ Int.tdiv 5760 r.bytesPerFrame = 0
      ∧ ∀ fuel : Nat,
          WavAudioFormatReader.readSamples r [[7, 7], [7, 7]] 2 0 0 1 fuel = .error .outOfFuel := by
  have hdec : (WavAudioFormat.createReaderFor plainCollaborators (memoryInput wideFrameStream)
        4).map (Option.map (fun r =>
          (decide (r.sampleRate > 0), decide (r.numChannels > 0), r.bytesPerFrame,
            r.bitsPerSample, r.lengthInSamples)))
      = .ok (some (true, true, 5761, 8, 1)) := by decide!
  rcases hr : WavAudioFormat.createReaderFor plainCollaborators (memoryInput wideFrameStream) 4
    with e | o
  · rw [hr] at hdec
    cases hdec
  · rw [hr] at hdec
    cases o with
    | none => cases hdec
    | some r =>
      have h := Option.some.inj (Except.ok.inj hdec)
      simp only [Prod.mk.injEq, decide_eq_true_eq] at h
      obtain ⟨a, b, c, d, e⟩ := h
      refine ⟨r, rfl, a, b, c, d, e, ?_, ?_⟩
      · rw [c]
        rfl
      · intro fuel
        exact WavAudioFormatReader.readSamples_stuck r _ _ _ _ _ fuel (by rw [c]; decide)
          (by decide) (by rw [e]; decide)

/-- C36, for frames that fit the buffer: a reader with between 1 and 5760 bytes per
frame. `5760 / bytesPerFrame` is at least 1, so a pass of the loop with `numSamples > 0`
processes at least one frame, and `readSamples` returns true once its loop is allowed
one pass more than the number of samples left by `clearSamplesBeyondAvailableLength`. -/
theorem C36_readSamples_terminates (r : WavAudioFormatReader) (destSamples : List (List Int))
    (numDestChannels startOffsetInDestBuffer startSampleInFile numSamples : Int) (fuel : Nat)
    (h1 : 0 < r.bytesPerFrame) (h2 : r.bytesPerFrame ≤ 5760)
    (hfuel : (clearSamplesBeyondAvailableLength destSamples numDestChannels
        startOffsetInDestBuffer startSampleInFile numSamples r.lengthInSamples).2.toNat + 1
      ≤ fuel) :
    1 ≤ Int.tdiv 5760 r.bytesPerFrame
    ∧ (∀ n : Int, 0 < n → 1 ≤ min (Int.tdiv 5760 r.bytesPerFrame) n)
    ∧ ∃ dest r2, WavAudioFormatReader.readSamples r destSamples numDestChannels
        startOffsetInDestBuffer startSampleInFile numSamples fuel = .ok (true, dest, r2) := by
  have hp := WavAudioFormatReader.tdiv_bufSize_pos _ h1 h2
  refine ⟨hp, fun n hn => le_min hp (by omega), ?_⟩
  unfold WavAudioFormatReader.readSamples
  dsimp only
  split_ifs with hc
  · exact ⟨_, _, rfl⟩
  · obtain ⟨res, hres⟩ := WavAudioFormatReader.readSamplesLoop_ends r numDestChannels h1 h2 fuel
      (r.input.setPosition ((r.dataChunkStart : Int) + startSampleInFile * r.bytesPerFrame))
      (clearSamplesBeyondAvailableLength destSamples numDestChannels
        startOffsetInDestBuffer startSampleInFile numSamples r.lengthInSamples).1
      startOffsetInDestBuffer _ hfuel
    rw [hres]
    exact ⟨_, _, rfl⟩

/-- C36, at the reader of the 8-bit mono stream of two frames: one byte per frame, and
`readSamples` for two samples returns true within three passes. -/
theorem C36_readSamples_terminates_witness :
    ∃ r, WavAudioFormat.createReaderFor plainCollaborators (memoryInput (riffFile 38 pcmChunks)) 4
        = .ok (some r)
      ∧ r.bytesPerFrame = 1
      ∧ ∃ dest r2, WavAudioFormatReader.readSamples r [[7, 7], [7, 7]] 2 0 0 2 3
          = .ok (true, dest, r2) := by
  have hdec : (WavAudioFormat.createReaderFor plainCollaborators
        (memoryInput (riffFile 38 pcmChunks)) 4).map (Option.map (fun r =>
          (r.bytesPerFrame, r.lengthInSamples)))
      = .ok (some (1, 2)) := by decide!
  rcases hr : WavAudioFormat.createReaderFor plainCollaborators
      (memoryInput (riffFile 38 pcmChunks)) 4 with e | o
  · rw [hr] at hdec
    cases hdec
  · rw [hr] at hdec
    cases o with
    | none => cases hdec
    | some r =>
      have h := Option.some.inj (Except.ok.inj hdec)
      simp only [Prod.mk.injEq] at h
      obtain ⟨c, e⟩ := h
      refine ⟨r, rfl, c, ?_⟩
      have hcl : (clearSamplesBeyondAvailableLength [[7, 7], [7, 7]] 2 0 0 2
          r.lengthInSamples).2.toNat + 1 ≤ 3 := by
        rw [e]
        decide
      exact (C36_readSamples_terminates r [[7, 7], [7, 7]] 2 0 0 2 3 (by rw [c]; decide)
        (by rw [c]; decide) hcl).2.2

/-- C38: `createReaderFor` accepts a stream whose `fmt ` chunk declares 12 bits per
sample and returns a reader with `bitsPerSample = 12`; for that depth `copySampleData`
takes its `default` branch and returns the destination as it was, and `readSamples`
for the two frames of the file returns true with the destination untouched. -/
theorem C38_undecodable_depth_accepted :
    (WavAudioFormat.createReaderFor plainCollaborators (memoryInput twelveBitStream) 4).map
        (Option.map (fun r => (r.bitsPerSample, r.bytesPerFrame, r.lengthInSamples)))
      = .ok (some (12, 3, 2))
    ∧ (WavAudioFormat.createReaderFor plainCollaborators (memoryInput twelveBitStream) 4).map
        (Option.map (fun r =>
          (WavAudioFormatReader.readSamples r [[7, 7], [7, 7]] 2 0 0 2 8).map
            (fun x => (x.1, x.2.1))))
      = .ok (some (.ok (true, [[7, 7], [7, 7]])))
    ∧ ∀ (usesFloatingPointData : Bool) (destSamples : List (List Int))
        (startOffsetInDestBuffer numDestChannels : Int) (sourceData : List Nat)
        (numChannels numSamples : Int),
        WavAudioFormatReader.copySampleData 12 usesFloatingPointData destSamples
          startOffsetInDestBuffer numDestChannels sourceData numChannels numSamples
          = destSamples := by
  refine ⟨by decide!, by decide!, ?_⟩
  intro f d o n s c k
  unfold WavAudioFormatReader.copySampleData
  rw [if_neg (by decide), if_neg (by decide), if_neg (by decide), if_neg (by decide)]

end

/-! ### The stored chunks in the header -/

section
open WavFileHelpers

namespace WavAudioFormatWriter

/-- The bytes the writer emits for the stored chunks of a collection: for each
metadata chunk with a body that is not empty, the tag, the declared length (7 for an
`inst` chunk, else the body length rounded up to even), the body, and a zero byte
when the body length is odd. -/
theorem storedChunksBytes_padStoredChunks (ext : Collaborators) (cc : List MetadataChunk) :
    storedChunksBytes ext (padStoredChunks ext cc)
      = cc.flatMap (fun c =>
          if ext.isMetadataChunk c.name = true ∧ c.data.length > 0 then
            rawChunk c.name
              (if c.name = chunkName "inst" then 7 else c.data.length + c.data.length % 2)
              (c.data.map (fun b => b % 256) ++ (if c.data.length % 2 = 1 then [0] else []))
          else []) := by
  induction cc with
  | nil => rfl
  | cons c rest ih =>
    unfold padStoredChunks at ih ⊢
    rw [List.map_cons, storedChunksBytes, ih, List.flatMap_cons]
    congr 1
    by_cases hm : ext.isMetadataChunk c.name = true
    · by_cases hodd : c.data.length % 2 = 1
      · have hpos : c.data.length > 0 := by omega
        have e : c.data.length + c.data.length % 2 = c.data.length + 1 := by omega
        simp only [hm, hodd, hpos, e, and_self, if_true, chunkBytes, rawChunk, List.length_append,
          List.length_singleton, List.map_append, List.map_cons, List.map_nil]
        rw [if_pos (by omega)]
        by_cases hi : c.name = chunkName "inst"
        · simp [hi]
        · simp [hi]
      · have e : c.data.length + c.data.length % 2 = c.data.length := by omega
        simp only [hm, hodd, e, and_false, if_false, if_true, true_and, chunkBytes, rawChunk,
          List.append_nil]
        by_cases hpos : c.data.length > 0
        · rw [if_pos hpos, if_pos hpos]
          by_cases hi : c.name = chunkName "inst"
          · simp [hi]
          · simp [hi]
        · rw [if_neg hpos, if_neg hpos]
    · simp [hm]

end WavAudioFormatWriter

/-- C39, counterexample: a writer opened with a collection that holds a `bext` chunk of
three bytes writes, after the 96 bytes of framing and `fmt ` chunk, the tag `bext`, the
declared length 4 and the bytes 1, 2, 3, 0: the pad byte is counted in the declared
length. For an `inst` chunk of eight bytes the declared length is 7. -/
theorem C39_counterexample :
    (((WavAudioFormatWriter.writeHeader plainCollaborators storedChunkWriter none).output.data.drop
        96).take 12 = rawChunk (chunkName "bext") 4 [1, 2, 3, 0])
    ∧ ([1, 2, 3] : List Nat).length = 3
    ∧ (((WavAudioFormatWriter.writeHeader plainCollaborators
          { storedChunkWriter with
            chunkCollection := some [{ name := chunkName "inst",
                                       data := [1, 2, 3, 4, 5, 6, 7, 8] }] }
          none).output.data.drop 96).take 16
        = rawChunk (chunkName "inst") 7 [1, 2, 3, 4, 5, 6, 7, 8]) := by
  decide!

/-- C39 (amended): on a sink that accepts every write, the header `writeHeaderBody`
writes holds, between the `fmt ` chunk and the `data` chunk header, one chunk for each
stored metadata chunk whose body is not empty, in the order of the collection: the tag
`T`, the declared length, the `L` body bytes, and one zero byte when `L` is odd. The
declared length is `L` for even `L` and `L + 1` for odd `L` (the pad byte is part of
the declared body), and 7 for the tag `inst`, whatever `L` is. A stored chunk that is
not a metadata chunk, or whose body is empty, is not written. -/
theorem C39_stored_chunks_emitted (ext : Collaborators) (w : WavAudioFormatWriter)
    (out : OutputStream) (cc : List MetadataChunk) (hcap : out.capacity = none)
    (hcc : w.chunkCollection = some cc) :
    ∃ framing : List Nat,
      (WavAudioFormatWriter.writeHeaderBody ext w out).output
        = out.put (framing
            ++ cc.flatMap (fun c =>
                if ext.isMetadataChunk c.name = true ∧ c.data.length > 0 then
                  rawChunk c.name
                    (if c.name = chunkName "inst" then 7 else c.data.length + c.data.length % 2)
                    (c.data.map (fun b => b % 256)
                      ++ (if c.data.length % 2 = 1 then [0] else []))
                else [])
            ++ (toLittleEndian 4 (chunkName "data")
                ++ toLittleEndian 4 (if w.bytesWritten ≥ 4294967296 then 4294967295
                    else w.lengthInSamples * ((w.numChannels * w.bitsPerSample) % 4294967296 / 8))))
      ∧ (w.doNotPadHeaderSize = false → framing.length = 96) := by
  refine ⟨WavAudioFormatWriter.framingBytes (decide (w.bytesWritten ≥ 4294967296))
      (decide (w.bytesWritten ≥ 4294967296)
        || decide (WavAudioFormatWriter.getChannelMaskFromChannelLayout w.channelLayout ≠ 0))
      w.doNotPadHeaderSize
      (WavAudioFormatWriter.riffChunkSize
        (((w.numChannels * w.bitsPerSample) % 4294967296 / 8 * w.lengthInSamples)
          % 18446744073709551616)
        (WavAudioFormatWriter.storedChunksSize ext (WavAudioFormatWriter.padStoredChunks ext cc)))
      (((w.numChannels * w.bitsPerSample) % 4294967296 / 8 * w.lengthInSamples)
        % 18446744073709551616)
    ++ WavAudioFormatWriter.fmtBytes
      (decide (w.bytesWritten ≥ 4294967296)
        || decide (WavAudioFormatWriter.getChannelMaskFromChannelLayout w.channelLayout ≠ 0))
      w.numChannels w.sampleRate w.bitsPerSample ((w.numChannels * w.bitsPerSample) % 4294967296 / 8)
      (WavAudioFormatWriter.getChannelMaskFromChannelLayout w.channelLayout), ?_, ?_⟩
  · rw [WavAudioFormatWriter.writeHeaderBody_output ext w out hcap, WavAudioFormatWriter.headerBytes,
      hcc]
    dsimp only
    rw [WavAudioFormatWriter.storedChunksBytes_padStoredChunks]
    simp only [decide_eq_true_eq, List.append_assoc]
  · intro hpad
    rw [hpad, List.length_append]
    exact WavAudioFormatWriter.length_framing_fmt _ _ _ _ _ _ _ _ _

/-- C39 (amended), at a collection with a `bext` chunk of two bytes: it is written
with the declared length 2 and no pad byte. -/
theorem C39_stored_chunks_emitted_witness :
    memoryOutput.capacity = none
    ∧ (((WavAudioFormatWriter.writeHeaderBody plainCollaborators
          { storedChunkWriter with
            chunkCollection := some [{ name := chunkName "bext", data := [1, 2] }] }
          memoryOutput).output.data.drop 96).take 10 = rawChunk (chunkName "bext") 2 [1, 2])
    ∧ ∃ framing : List Nat,
        (WavAudioFormatWriter.writeHeaderBody plainCollaborators
          { storedChunkWriter with
            chunkCollection := some [{ name := chunkName "bext", data := [1, 2] }] }
          memoryOutput).output
          = memoryOutput.put (framing
              ++ [({ name := chunkName "bext", data := [1, 2] } : MetadataChunk)].flatMap (fun c =>
                  if plainCollaborators.isMetadataChunk c.name = true ∧ c.data.length > 0 then
                    rawChunk c.name
                      (if c.name = chunkName "inst" then 7 else c.data.length + c.data.length % 2)
                      (c.data.map (fun b => b % 256)
                        ++ (if c.data.length % 2 = 1 then [0] else []))
                  else [])
              ++ (toLittleEndian 4 (chunkName "data")
                  ++ toLittleEndian 4 (if (0 : Nat) ≥ 4294967296 then 4294967295
                      else 0 * ((2 * 16) % 4294967296 / 8))))
          ∧ ((false : Bool) = false → framing.length = 96) :=
  ⟨rfl, by decide!,
   C39_stored_chunks_emitted plainCollaborators
      { storedChunkWriter with
        chunkCollection := some [{ name := chunkName "bext", data := [1, 2] }] }
      memoryOutput [{ name := chunkName "bext", data := [1, 2] }] rfl rfl⟩

end

/-! ### The sample-format tag of the fmt chunk -/

section
open WavFileHelpers

end

/-! ### A decode that leaves through the Ogg-Vorbis return -/

section
open WavFileHelpers

/-- C29, counterexample: a decode that leaves `doRead` through the return of the
Ogg-Vorbis branch. The stream holds a `LIST`/`adtl` chunk with one label in front of
a `fmt ` chunk with the tag `0x674F`: the constructor of the reader decodes the label
under `CueLabel0Identifier` and `CueLabel0Text`, sets the Ogg-Vorbis flag and returns
before the closing statements, so the map holds no `NumCueLabels` key although one
`labl` sub-chunk was met. -/
theorem C29_counterexample :
    (WavAudioFormatReader.adtlSubChunks plainCollaborators
        { input := memoryInput adtlThenOggStream } false 8).map WavAudioFormatReader.adtlTag
      = [chunkName "labl"]
    ∧ (WavAudioFormatReader.create plainCollaborators (memoryInput adtlThenOggStream) 8).map
        (fun r => (r.isSubformatOggVorbis, r.metadataValues))
      = .ok (true, [("CueLabel0Identifier", "1"), ("CueLabel0Text", "a")])
    ∧ (WavAudioFormatReader.create plainCollaborators (memoryInput adtlThenOggStream) 8).map
        (fun r => r.metadataValues.containsKey "NumCueLabels")
      = .ok false := by
  decide!

end

/-! ### The decision on the format tag -/

section
open WavFileHelpers

namespace WavAudioFormatReader

theorem field_full (bs : List Nat) : field bs 0 bs.length = bs := by
  unfold field
  apply List.ext_getElem
  · simp
  · intro i h1 h2
    simp only [List.getElem_map, List.getElem_range, Nat.zero_add]
    rw [List.getD_eq_getElem _ _ h2]

theorem map_mod_of_lt (bs : List Nat) (h : ∀ b ∈ bs, b < 256) :
    bs.map (fun b => b % 256) = bs := by
  induction bs with
  | nil => rfl
  | cons a t ih =>
    rw [List.map_cons, ih (fun b hb => h b (List.mem_cons_of_mem _ hb)),
      Nat.mod_eq_of_lt (h a (List.mem_cons_self _ _))]

/-- The extensible branch reads the sub-format GUID from the sixteen bytes at the
position: `data1` as a little-endian `uint32`, `data2` and `data3` as little-endian
`uint16`, and the eight bytes of `data4`. -/
theorem readSubFormat_at (d pre post : List Nat) (g : ExtensibleWavSubFormat)
    (hd : d = pre ++ subFormatBytes g ++ post)
    (h1 : g.data1 < 4294967296) (h2 : g.data2 < 65536) (h3 : g.data3 < 65536)
    (h4 : g.data4.length = 8) (hb : ∀ b ∈ g.data4, b < 256) :
    (readSubFormat { data := d, position := pre.length }).1 = g := by
  have e1 := InputStream.readInt_at d pre.length g.data1 pre
    (toLittleEndian 2 g.data2 ++ toLittleEndian 2 g.data3 ++ g.data4 ++ post)
    (by rw [hd]; simp only [subFormatBytes, List.append_assoc]) rfl h1
  have e2 := InputStream.readShort_at d (pre.length + 4) g.data2 (pre ++ toLittleEndian 4 g.data1)
    (toLittleEndian 2 g.data3 ++ g.data4 ++ post)
    (by rw [hd]; simp only [subFormatBytes, List.append_assoc])
    (by rw [List.length_append, length_toLittleEndian]) h2
  have e3 := InputStream.readShort_at d (pre.length + 4 + 2) g.data3
    (pre ++ toLittleEndian 4 g.data1 ++ toLittleEndian 2 g.data2)
    (g.data4 ++ post)
    (by rw [hd]; simp only [subFormatBytes, List.append_assoc])
    (by simp only [List.length_append, length_toLittleEndian]) h3
  have e4 := InputStream.read_at d
    (pre ++ toLittleEndian 4 g.data1 ++ toLittleEndian 2 g.data2 ++ toLittleEndian 2 g.data3)
    g.data4 post (pre.length + 4 + 2 + 2)
    (by rw [hd]; simp only [subFormatBytes, List.append_assoc])
    (by simp only [List.length_append, length_toLittleEndian])
  rw [h4] at e4
  unfold readSubFormat
  dsimp only
  rw [e1]
  dsimp only
  rw [e2]
  dsimp only
  rw [e3]
  dsimp only
  have e4' : InputStream.read { data := d, position := pre.length + 4 + 2 + 2 } 8
      = (g.data4.map (fun b => b % 256), { data := d, position := pre.length + 4 + 2 + 2 + 8 }) := e4
  rw [e4']
  dsimp only
  rw [map_mod_of_lt _ hb]
  have hf := field_full g.data4
  rw [h4] at hf
  rw [hf]

/-- The two calls in front of the GUID, `skipNextBytes (4)` and `readInt()`, advance
a stream that holds eight more bytes by eight. -/
theorem skip_readInt_position (s : InputStream) (h : s.position + 8 ≤ s.data.length) :
    ((s.skipNextBytes 4).readInt).2 = { data := s.data, position := s.position + 8 } := by
  simp only [InputStream.skipNextBytes, InputStream.readInt, InputStream.read, List.length_map,
    List.length_take, List.length_drop]
  congr 1
  have : (4 : Int).toNat = 4 := rfl
  omega

end WavAudioFormatReader

/-- C10, counterexample: a `fmt ` chunk with format tag 1 does not give integer PCM when
a `fmt ` chunk with format tag 3 was decoded before it: the stream with both is
accepted with the floating-point flag set, the stream with the second chunk alone is
accepted with the flag clear. -/
theorem C10_counterexample :
    (floatThenPcmStream.drop 36).take 24
        = rawChunk (chunkName "fmt ") 16 (fmtChunkBody 1 1 8000 32000 4 32)
    ∧ (WavAudioFormat.createReaderFor plainCollaborators (memoryInput floatThenPcmStream) 8).map
          (Option.map (fun r => (r.usesFloatingPointData, r.bitsPerSample, r.bytesPerFrame)))
        = .ok (some (true, 32, 4))
    ∧ (WavAudioFormat.createReaderFor plainCollaborators (memoryInput pcm32Stream) 8).map
          (Option.map (fun r => (r.usesFloatingPointData, r.bitsPerSample, r.bytesPerFrame)))
        = .ok (some (false, 32, 4)) := by
  decide!

/-- C10 (amended): the decision of the `fmt ` branch on the 16-bit format tag, for any
reader state `r` the branch is entered with. Tag 1 leaves the floating-point flag as it
was and keeps `bytesPerFrame`; tag 3 sets the flag and keeps `bytesPerFrame`; tag
0xFFFE with a chunk shorter than 40 bytes gives `bytesPerFrame = 0`. For tag 0xFFFE
with 40 bytes or more, and the GUID read behind the channel mask: the IEEE-float GUID
sets the flag, the PCM and ambisonic GUIDs leave it as it was, both keep
`bytesPerFrame`, and any other GUID gives `bytesPerFrame = 0`; the GUID read is the
one whose sixteen bytes the stream holds eight bytes after the position. Every other
tag except the six Ogg-Vorbis ones gives `bytesPerFrame = 0`, and `createReaderFor`
returns no reader when the decoded `bytesPerFrame` is 0. -/
theorem C10_format_decision_table (r : WavAudioFormatReader) (format length streamStartPos : Nat) :
    (format = 1 →
        (WavAudioFormatReader.fmtFormat r format length streamStartPos).1.usesFloatingPointData
          = r.usesFloatingPointData
        ∧ (WavAudioFormatReader.fmtFormat r format length streamStartPos).1.bytesPerFrame = r.bytesPerFrame)
    ∧ (format = 3 →
        (WavAudioFormatReader.fmtFormat r format length streamStartPos).1.usesFloatingPointData = true
        ∧ (WavAudioFormatReader.fmtFormat r format length streamStartPos).1.bytesPerFrame = r.bytesPerFrame)
    ∧ (format = 65534 → length < 40 →
        (WavAudioFormatReader.fmtFormat r format length streamStartPos).1.bytesPerFrame = 0)
    ∧ (format = 65534 → 40 ≤ length →
        ((WavAudioFormatReader.readSubFormat ((r.input.skipNextBytes 4).readInt).2).1
            = IEEEFloatFormat →
          (WavAudioFormatReader.fmtFormat r format length streamStartPos).1.usesFloatingPointData = true
          ∧ (WavAudioFormatReader.fmtFormat r format length streamStartPos).1.bytesPerFrame = r.bytesPerFrame)
        ∧ ((WavAudioFormatReader.readSubFormat ((r.input.skipNextBytes 4).readInt).2).1 = pcmFormat
            ∨ (WavAudioFormatReader.readSubFormat ((r.input.skipNextBytes 4).readInt).2).1
              = ambisonicFormat →
          (WavAudioFormatReader.fmtFormat r format length streamStartPos).1.usesFloatingPointData
            = r.usesFloatingPointData
          ∧ (WavAudioFormatReader.fmtFormat r format length streamStartPos).1.bytesPerFrame = r.bytesPerFrame)
        ∧ ((WavAudioFormatReader.readSubFormat ((r.input.skipNextBytes 4).readInt).2).1
              ≠ IEEEFloatFormat →
            (WavAudioFormatReader.readSubFormat ((r.input.skipNextBytes 4).readInt).2).1 ≠ pcmFormat →
            (WavAudioFormatReader.readSubFormat ((r.input.skipNextBytes 4).readInt).2).1
              ≠ ambisonicFormat →
          (WavAudioFormatReader.fmtFormat r format length streamStartPos).1.bytesPerFrame = 0))
    ∧ (∀ (g : ExtensibleWavSubFormat) (pre post : List Nat),
        r.input.data = pre ++ subFormatBytes g ++ post →
        pre.length = r.input.position + 8 →
        g.data1 < 4294967296 → g.data2 < 65536 → g.data3 < 65536 →
        g.data4.length = 8 → (∀ b ∈ g.data4, b < 256) →
        (WavAudioFormatReader.readSubFormat ((r.input.skipNextBytes 4).readInt).2).1 = g)
    ∧ (format ≠ 1 → format ≠ 3 → format ≠ 65534 →
        format ≠ 26447 → format ≠ 26448 → format ≠ 26449 →
        format ≠ 26479 → format ≠ 26480 → format ≠ 26481 →
        (WavAudioFormatReader.fmtFormat r format length streamStartPos).1.bytesPerFrame = 0)
    ∧ (∀ (ext : Collaborators) (s : InputStream) (fuel : Nat) (rd : WavAudioFormatReader),
        WavAudioFormatReader.create ext s fuel = .ok rd → rd.bytesPerFrame = 0 →
        WavAudioFormat.createReaderFor ext s fuel = .ok none) := by
  refine ⟨?_, ?_, ?_, ?_, ?_, ?_, ?_⟩
  · intro h; subst h; simp [WavAudioFormatReader.fmtFormat]
  · intro h; subst h; simp [WavAudioFormatReader.fmtFormat]
  · intro h hl; subst h; simp [WavAudioFormatReader.fmtFormat, hl]
  · intro h hl
    subst h
    have hl' : ¬ length < 40 := by omega
    refine ⟨?_, ?_, ?_⟩
    · intro hg
      simp [WavAudioFormatReader.fmtFormat, hl', hg]
    · intro e
      have n1 : pcmFormat ≠ IEEEFloatFormat := by decide
      have n2 : ambisonicFormat ≠ IEEEFloatFormat := by decide
      rcases e with hg | hg <;> simp [WavAudioFormatReader.fmtFormat, hl', hg, n1, n2]
    · intro e1 e2 e3
      simp [WavAudioFormatReader.fmtFormat, hl', e1, e2, e3]
  · intro g pre post hd hp h1 h2 h3 h4 hb
    have hlen : r.input.position + 8 ≤ r.input.data.length := by
      rw [hd, List.append_assoc, List.length_append]
      omega
    have hs := WavAudioFormatReader.skip_readInt_position r.input hlen
    rw [hs, ← hp]
    exact WavAudioFormatReader.readSubFormat_at r.input.data pre post g hd h1 h2 h3 h4 hb
  · intro h1 h3 h4 o1 o2 o3 o4 o5 o6
    simp [WavAudioFormatReader.fmtFormat, h1, h3, h4, o1, o2, o3, o4, o5, o6]
  · intro ext s fuel rd hrd hb
    simp [WavAudioFormat.createReaderFor, hrd, WavAudioFormat.isAcceptable, hb]

/-- C10 (amended), at the extensible `fmt ` chunk of a stream with the IEEE-float GUID,
entered after the geometry part at offset 36 (the GUID lies at offset 44): the GUID
read is the IEEE-float one and the flag is set. Decoded as whole streams, the
IEEE-float GUID gives a reader with the flag set, the PCM and ambisonic GUIDs give
readers with the flag clear, and another GUID gives no reader. -/
theorem C10_format_decision_table_witness :
    (WavAudioFormatReader.readSubFormat
        (((InputStream.mk (extensibleStreamOf IEEEFloatFormat) 36).skipNextBytes 4).readInt).2).1
      = IEEEFloatFormat
    ∧ (WavAudioFormatReader.fmtFormat
        { input := { data := extensibleStreamOf IEEEFloatFormat, position := 36 } }
        65534 40 0).1.usesFloatingPointData = true
    ∧ [IEEEFloatFormat, pcmFormat, ambisonicFormat, { pcmFormat with data1 := 7 }].map
        (fun g => (WavAudioFormat.createReaderFor plainCollaborators
            (memoryInput (extensibleStreamOf g)) 8).map
          (Option.map (fun r => (r.usesFloatingPointData, r.bytesPerFrame))))
      = [.ok (some (true, 8)), .ok (some (false, 8)), .ok (some (false, 8)), .ok none] :=
  ⟨(C10_format_decision_table
        { input := { data := extensibleStreamOf IEEEFloatFormat, position := 36 } }
        65534 40 0).2.2.2.2.1 IEEEFloatFormat
        ((extensibleStreamOf IEEEFloatFormat).take 44)
        ((extensibleStreamOf IEEEFloatFormat).drop 60)
        (by decide!) (by decide!) (by decide) (by decide) (by decide) (by decide)
        (by decide),
   (((C10_format_decision_table
        { input := { data := extensibleStreamOf IEEEFloatFormat, position := 36 } }
        65534 40 0).2.2.2.1 rfl (by decide)).1 (by decide!)).1,
   by decide!⟩

end

/-! ### The decode of a list sub-chunk under its dictionary key -/

section
open WavFileHelpers

/-- C25: the dictionary entries are pairwise distinct codes of four characters, each
an upper-case letter or a digit. For a dictionary entry `T` and a sub-tag `t` whose
four bytes, upper-cased, are the characters of `T`, `isMatchingTypeIgnoringCase (t, T)`
holds, `t` matches no other dictionary entry, and the search through the dictionary
finds `T`. A pass of the loop of `addToMetadata` that reads the tag `t` and a positive
length stores the body under the key `T` and goes on with the next pass; and the
decode of a list body that holds one sub-chunk with the tag `t`, a length `L` from 1
to `2^31 - 1` and `L` body bytes returns, from two passes on, with the text of the
body stored under the key `T` and the stream at the end of the sub-chunk. -/
theorem C25_info_case_insensitive_match (T : String) (t : Nat)
    (hT : T ∈ ListInfoChunk.types)
    (hup : ∀ i, i < 4 → toUpperCase ((t / 256 ^ i) % 256) = (T.toList.getD i (Char.ofNat 0)).toNat) :
    (ListInfoChunk.types.Nodup
      ∧ ∀ T' ∈ ListInfoChunk.types,
          T'.length = 4 ∧ T'.toList.all (fun c => c.isUpper || c.isDigit) = true)
    ∧ ListInfoChunk.isMatchingTypeIgnoringCase t T = true
    ∧ (∀ T' ∈ ListInfoChunk.types, ListInfoChunk.isMatchingTypeIgnoringCase t T' = true → T' = T)
    ∧ ListInfoChunk.types.find? (fun x => ListInfoChunk.isMatchingTypeIgnoringCase t x) = some T
    ∧ (∀ (chunkEnd : Int) (fuel : Nat) (values : StringPairArray) (input : InputStream),
        input.readInt.1 = t →
        (input.getPosition : Int) < chunkEnd →
        chunkEnd - (input.readInt.2.getPosition : Int) > 0 →
        min (chunkEnd - (input.readInt.2.getPosition : Int)) (toInt32 input.readInt.2.readInt.1) > 0 →
        ListInfoChunk.addToMetadata chunkEnd (fuel + 1) values input
          = ListInfoChunk.addToMetadata chunkEnd fuel
              (values.setAll [(T, stringFromBytes
                (input.readInt.2.readInt.2.readIntoMemoryBlock
                  (min (chunkEnd - (input.readInt.2.getPosition : Int))
                    (toInt32 input.readInt.2.readInt.1))).1)])
              (input.readInt.2.readInt.2.readIntoMemoryBlock
                (min (chunkEnd - (input.readInt.2.getPosition : Int))
                  (toInt32 input.readInt.2.readInt.1))).2)
    ∧ (∀ (values : StringPairArray) (pre body post : List Nat) (L fuel : Nat),
        t < 4294967296 → 0 < L → L < 2147483648 → body.length = L →
        ListInfoChunk.addToMetadata ((pre.length + 8 + L : Nat) : Int) (fuel + 2) values
            { data := pre ++ rawChunk t L body ++ post, position := pre.length }
          = .ok (values.setAll [(T, stringFromBytes (body.map (fun b => b % 256)))],
              { data := pre ++ rawChunk t L body ++ post, position := pre.length + 8 + L })) := by
  have hmatch : ListInfoChunk.isMatchingTypeIgnoringCase t T = true :=
    (ListInfoChunk.isMatching_iff t T).mpr (fun i hi => (hup i hi).symm)
  have huniq : ∀ T' ∈ ListInfoChunk.types,
      ListInfoChunk.isMatchingTypeIgnoringCase t T' = true → T' = T := by
    intro T' hT' hm
    have h1 := (ListInfoChunk.isMatching_iff t T').mp hm
    apply List.inj_on_of_nodup_map ListInfoChunk.types_codes_nodup hT' hT
    apply List.map_congr_left
    intro i hi
    rw [List.mem_range] at hi
    rw [h1 i hi, hup i hi]
  have hfind : ListInfoChunk.types.find? (fun x => ListInfoChunk.isMatchingTypeIgnoringCase t x)
      = some T := by
    cases hf : ListInfoChunk.types.find? (fun x => ListInfoChunk.isMatchingTypeIgnoringCase t x) with
    | none =>
      rw [List.find?_eq_none] at hf
      exact absurd hmatch (hf T hT)
    | some T' =>
      have hp := List.find?_some hf
      have hmem := List.mem_of_find?_eq_some hf
      rw [huniq T' hmem hp]
  refine ⟨⟨by decide!, by decide!⟩, hmatch, huniq, hfind, ?_, ?_⟩
  · intro chunkEnd fuel values input htag hpos hlen hmin
    rw [ListInfoChunk.addToMetadata]
    dsimp only
    rw [if_pos hpos, if_pos hlen, if_neg (not_le.mpr hmin), htag, hfind]
  · intro values pre body post L fuel ht hL0 hL hbody
    have e1 := InputStream.readInt_at (pre ++ rawChunk t L body ++ post) pre.length t pre
      (toLittleEndian 4 L ++ body ++ post)
      (by simp only [rawChunk, List.append_assoc]) rfl ht
    have e2 := InputStream.readInt_at (pre ++ rawChunk t L body ++ post) (pre.length + 4) L
      (pre ++ toLittleEndian 4 t) (body ++ post)
      (by simp only [rawChunk, List.append_assoc])
      (by rw [List.length_append, length_toLittleEndian]) (by omega)
    have e3 := InputStream.read_at (pre ++ rawChunk t L body ++ post)
      (pre ++ toLittleEndian 4 t ++ toLittleEndian 4 L) body post (pre.length + 4 + 4)
      (by simp only [rawChunk, List.append_assoc])
      (by simp only [List.length_append, length_toLittleEndian])
    rw [hbody] at e3
    have hti : toInt32 L = (L : Int) := by
      unfold toInt32
      omega
    rw [ListInfoChunk.addToMetadata]
    dsimp only
    rw [if_pos (by simp only [InputStream.getPosition]; omega), e1]
    dsimp only
    rw [if_pos (by simp only [InputStream.getPosition]; omega), e2]
    dsimp only
    simp only [InputStream.getPosition, hti]
    have hmin : min (((pre.length + 8 + L : Nat) : Int) - ((pre.length + 4 : Nat) : Int)) (L : Int)
        = (L : Int) := min_eq_right (by omega)
    rw [hmin, if_neg (by omega), hfind]
    dsimp only
    have e3' : InputStream.readIntoMemoryBlock
        { data := pre ++ rawChunk t L body ++ post, position := pre.length + 4 + 4 } (L : Int)
        = (body.map (fun b => b % 256),
            { data := pre ++ rawChunk t L body ++ post, position := pre.length + 4 + 4 + L }) := by
      unfold InputStream.readIntoMemoryBlock
      rw [if_neg (by omega)]
      exact e3
    rw [e3', ListInfoChunk.addToMetadata]
    dsimp only
    rw [if_neg (by simp only [InputStream.getPosition]; omega)]
    all_goals (rw [show pre.length + 4 + 4 + L = pre.length + 8 + L by omega])


/-- C25, at the entry `INAM` and the sub-tag `inam`: the tag matches, the search finds
`INAM`, the decode of a list body with the one sub-chunk `inam` of four bytes returns
with the text `ab` under `INAM`, and so does the decode of a whole stream with that
list. -/
theorem C25_info_case_insensitive_match_witness :
    ListInfoChunk.isMatchingTypeIgnoringCase (chunkName "inam") "INAM" = true
    ∧ ListInfoChunk.types.find?
        (fun x => ListInfoChunk.isMatchingTypeIgnoringCase (chunkName "inam") x) = some "INAM"
    ∧ ListInfoChunk.addToMetadata 12 2 []
        { data := rawChunk (chunkName "inam") 4 [97, 98, 0, 0], position := 0 }
      = .ok ([("INAM", "ab")],
          { data := rawChunk (chunkName "inam") 4 [97, 98, 0, 0], position := 12 })
    ∧ (WavAudioFormat.createReaderFor plainCollaborators (memoryInput lowerCaseInfoStream) 8).map
          (Option.map (fun r => r.metadataValues.getValue "INAM" "?")) = .ok (some "ab") :=
  ⟨(C25_info_case_insensitive_match "INAM" (chunkName "inam") (by decide!) (by decide!)).2.1,
   (C25_info_case_insensitive_match "INAM" (chunkName "inam") (by decide!) (by decide!)).2.2.2.1,
   ((C25_info_case_insensitive_match "INAM" (chunkName "inam") (by decide!)
      (by decide!)).2.2.2.2.2 [] [] [97, 98, 0, 0] [] 4 0 (by decide) (by decide) (by decide)
      rfl).trans (by decide!),
   by decide!⟩

end

/-! ### The fields of the fmt chunk for every configuration -/

section
open WavFileHelpers

/-- C40, counterexample: `createWriterFor` accepts a discrete layout of 16384 channels
at 32 bits, for which `numChannels * bitsPerSample / 8` is 65536; the header it writes
holds a plain `fmt ` chunk with format tag 3 and 16384 channels whose block-align
field, at offset 92, is 0, and whose byte-rate field is `0x80000000`. -/
theorem C40_counterexample :
    (WavAudioFormat.createWriterForLayout plainCollaborators memoryOutput 44100
        (AudioChannelSet.discreteChannels 16384) 32 [] none).map
      (fun w => (w.numChannels * w.bitsPerSample / 8, (w.output.data.drop 72).take 24,
        u16At w.output.data 92))
      = some (65536,
          rawChunk (chunkName "fmt ") 16 (fmtChunkBody 3 16384 44100 2147483648 0 32), 0) := by
  decide!

/-- C40 (amended): for a writer with one of the bit depths 8, 16, 24 and 32, the header
`writeHeaderBody` writes holds, after the framing, the `fmt ` chunk in its extensible
form (when the writer has passed `2^32` bytes or has a non-zero channel mask) with the
IEEE-float sub-format for 32 bits and the PCM sub-format otherwise, or in its plain
form with format tag 3 for 32 bits and 1 otherwise. In both forms the block-align field
is written from `bytesPerFrame = numChannels * bitsPerSample / 8` (the product taken
modulo `2^32`) and holds it modulo `2^16`, and the byte-rate field holds
`(int) (bytesPerFrame * sampleRate)`, which is the product below `2^31` and
`0x80000000` from there on. The two sub-formats are distinct, and
`usesFloatingPointData` is set exactly for 32 bits. -/
theorem C40_sample_format_tag (ext : Collaborators) (w : WavAudioFormatWriter)
    (out : OutputStream) (hcap : out.capacity = none)
    (hbits : w.bitsPerSample = 8 ∨ w.bitsPerSample = 16 ∨ w.bitsPerSample = 24
      ∨ w.bitsPerSample = 32) :
    (∃ framing rest : List Nat,
      (WavAudioFormatWriter.writeHeaderBody ext w out).output
        = out.put (framing
            ++ (if w.bytesWritten ≥ 4294967296
                  ∨ WavAudioFormatWriter.getChannelMaskFromChannelLayout w.channelLayout ≠ 0 then
                rawChunk (chunkName "fmt ") 40
                  (extensibleFmtChunkBody w.numChannels (WavAudioFormatWriter.doubleToInt w.sampleRate)
                    (WavAudioFormatWriter.doubleToInt
                      ((w.numChannels * w.bitsPerSample) % 4294967296 / 8 * w.sampleRate))
                    ((w.numChannels * w.bitsPerSample) % 4294967296 / 8) w.bitsPerSample
                    (WavAudioFormatWriter.getChannelMaskFromChannelLayout w.channelLayout)
                    (if w.bitsPerSample = 32 then IEEEFloatFormat else pcmFormat))
              else
                rawChunk (chunkName "fmt ") 16
                  (fmtChunkBody (if w.bitsPerSample = 32 then 3 else 1) w.numChannels
                    (WavAudioFormatWriter.doubleToInt w.sampleRate)
                    (WavAudioFormatWriter.doubleToInt
                      ((w.numChannels * w.bitsPerSample) % 4294967296 / 8 * w.sampleRate))
                    ((w.numChannels * w.bitsPerSample) % 4294967296 / 8) w.bitsPerSample))
            ++ rest)
      ∧ framing = WavAudioFormatWriter.framingBytes (decide (w.bytesWritten ≥ 4294967296))
          (decide (w.bytesWritten ≥ 4294967296)
            || decide (WavAudioFormatWriter.getChannelMaskFromChannelLayout w.channelLayout ≠ 0))
          w.doNotPadHeaderSize
          (WavAudioFormatWriter.riffChunkSize
            (((w.numChannels * w.bitsPerSample) % 4294967296 / 8 * w.lengthInSamples)
              % 18446744073709551616)
            (WavAudioFormatWriter.storedChunksSize ext
              ((w.chunkCollection.map (WavAudioFormatWriter.padStoredChunks ext)).getD [])))
          (((w.numChannels * w.bitsPerSample) % 4294967296 / 8 * w.lengthInSamples)
            % 18446744073709551616))
    ∧ pcmFormat ≠ IEEEFloatFormat
    ∧ littleEndian (toLittleEndian 2 ((w.numChannels * w.bitsPerSample) % 4294967296 / 8))
        = (w.numChannels * w.bitsPerSample) % 4294967296 / 8 % 65536
    ∧ littleEndian (toLittleEndian 4 (WavAudioFormatWriter.doubleToInt
          ((w.numChannels * w.bitsPerSample) % 4294967296 / 8 * w.sampleRate)))
        = (if (w.numChannels * w.bitsPerSample) % 4294967296 / 8 * w.sampleRate < 2147483648 then
            (w.numChannels * w.bitsPerSample) % 4294967296 / 8 * w.sampleRate
          else 2147483648)
    ∧ (w.numChannels * w.bitsPerSample / 8 < 65536 →
        (w.numChannels * w.bitsPerSample) % 4294967296 / 8 % 65536
          = w.numChannels * w.bitsPerSample / 8)
    ∧ ((WavAudioFormatWriter.writeHeaderBody ext w out).usesFloatingPointData = true
        ↔ w.bitsPerSample = 32) := by
  refine ⟨⟨_,
    WavAudioFormatWriter.storedChunksBytes ext
        ((w.chunkCollection.map (WavAudioFormatWriter.padStoredChunks ext)).getD [])
      ++ toLittleEndian 4 (chunkName "data")
      ++ toLittleEndian 4 (if decide (w.bytesWritten ≥ 4294967296) = true then 4294967295
          else w.lengthInSamples * ((w.numChannels * w.bitsPerSample) % 4294967296 / 8)),
    ?_, rfl⟩, by decide, ?_, ?_, ?_, ?_⟩
  · rw [WavAudioFormatWriter.writeHeaderBody_output ext w out hcap, WavAudioFormatWriter.headerBytes,
      WavAudioFormatWriter.fmtBytes_eq]
    simp only [Bool.or_eq_true, decide_eq_true_eq, List.append_assoc]
    by_cases hb : w.bitsPerSample = 32
    · have hlt : ¬ w.bitsPerSample < 32 := by omega
      simp only [if_neg hlt, if_pos hb]
      cases w.chunkCollection <;> rfl
    · have hlt : w.bitsPerSample < 32 := by omega
      simp only [if_pos hlt, if_neg hb]
      cases w.chunkCollection <;> rfl
  · generalize (w.numChannels * w.bitsPerSample) % 4294967296 / 8 = b
    simp only [toLittleEndian, littleEndian]
    omega
  · unfold WavAudioFormatWriter.doubleToInt
    generalize (w.numChannels * w.bitsPerSample) % 4294967296 / 8 * w.sampleRate = b
    split_ifs <;> simp only [toLittleEndian, littleEndian] <;> omega
  · intro h
    omega
  · unfold WavAudioFormatWriter.writeHeaderBody
    dsimp only
    rw [decide_eq_true_eq]


/-- C40 (amended), at a stereo writer of 32 bits and 44100 Hz on a fresh memory sink: the header
holds the plain `fmt ` chunk at offset 72, with format tag 3, block align 8 and byte
rate 352800. -/
theorem C40_sample_format_tag_witness :
    memoryOutput.capacity = none
    ∧ (((WavAudioFormatWriter.writeHeaderBody plainCollaborators
          { output := memoryOutput, sampleRate := 44100, numChannels := 2, bitsPerSample := 32,
            channelLayout := AudioChannelSet.stereo } memoryOutput).output.data.drop 72).take 24
        = rawChunk (chunkName "fmt ") 16 (fmtChunkBody 3 2 44100 352800 8 32))
    ∧ ((WavAudioFormatWriter.writeHeaderBody plainCollaborators
          { output := memoryOutput, sampleRate := 44100, numChannels := 2, bitsPerSample := 32,
            channelLayout := AudioChannelSet.stereo } memoryOutput).usesFloatingPointData = true
        ↔ (32 : Nat) = 32) :=
  ⟨rfl, by decide!,
   (C40_sample_format_tag plainCollaborators
      { output := memoryOutput, sampleRate := 44100, numChannels := 2, bitsPerSample := 32,
        channelLayout := AudioChannelSet.stereo } memoryOutput rfl
      (by decide)).2.2.2.2.2⟩

end

/-! ### The stream after a pass of the chunk loop -/

section
open WavFileHelpers

namespace InputStream

theorem data_read (s : InputStream) (n : Int) : (s.read n).2.data = s.data := rfl

theorem data_readShort (s : InputStream) : (s.readShort).2.data = s.data := rfl

theorem data_readInt64 (s : InputStream) : (s.readInt64).2.data = s.data := rfl

theorem data_skipNextBytes (s : InputStream) (n : Int) : (s.skipNextBytes n).data = s.data := rfl

theorem data_setPosition (s : InputStream) (p : Int) : (s.setPosition p).data = s.data := rfl

theorem data_readIntoMemoryBlock (s : InputStream) (n : Int) :
    (s.readIntoMemoryBlock n).2.data = s.data := by
  unfold readIntoMemoryBlock
  split_ifs <;> rfl

theorem setPosition_eq (s : InputStream) (p : Nat) :
    s.setPosition (p : Int) = { data := s.data, position := min p s.data.length } := by
  simp only [setPosition, Int.toNat_ofNat]

end InputStream

namespace WavAudioFormatReader

theorem readChunkHeader_input_data (storeChunks : Bool) (r : WavAudioFormatReader) :
    (readChunkHeader storeChunks r).reader.input.data = r.input.data := by
  unfold readChunkHeader
  dsimp only
  split_ifs
  · exact (InputStream.data_setPosition _ _).trans (InputStream.data_readIntoMemoryBlock _ _)
  · rfl

theorem readSubFormat_data (s : InputStream) : (readSubFormat s).2.data = s.data := by
  simp only [readSubFormat, InputStream.readInt, InputStream.readShort, InputStream.read]

theorem readFmtGeometry_input_data (r : WavAudioFormatReader) (g : Nat × WavAudioFormatReader)
    (h : readFmtGeometry r = .ok g) : g.2.input.data = r.input.data := by
  unfold readFmtGeometry at h
  dsimp only at h
  split_ifs at h
  all_goals
    injection h with h
    subst h
    simp only [InputStream.data_read, InputStream.data_readInt, InputStream.data_readShort,
      InputStream.data_readInt64, InputStream.data_skipNextBytes, InputStream.data_setPosition,
      InputStream.data_readIntoMemoryBlock, readBlock_data]

theorem fmtFormat_input_data (r : WavAudioFormatReader) (format length ssp : Nat) :
    (fmtFormat r format length ssp).1.input.data = r.input.data := by
  unfold fmtFormat
  dsimp only
  split_ifs
  all_goals
    simp only [readSubFormat_data, InputStream.data_read, InputStream.data_readInt, InputStream.data_readShort,
      InputStream.data_readInt64, InputStream.data_skipNextBytes, InputStream.data_setPosition,
      InputStream.data_readIntoMemoryBlock, readBlock_data]

theorem adtlSubChunk_input_data (st : ChunkLoopState) :
    (adtlSubChunk st).reader.input.data = st.reader.input.data := by
  unfold adtlSubChunk
  dsimp only
  split_ifs
  all_goals
    simp only [InputStream.data_read, InputStream.data_readInt, InputStream.data_readShort,
      InputStream.data_readInt64, InputStream.data_skipNextBytes, InputStream.data_setPosition,
      InputStream.data_readIntoMemoryBlock, readBlock_data]

theorem adtlLoop_input_data (chunkEnd : Nat) :
    ∀ (fuel : Nat) (st st1 : ChunkLoopState), adtlLoop chunkEnd fuel st = .ok st1 →
      st1.reader.input.data = st.reader.input.data := by
  intro fuel
  induction fuel with
  | zero => intro st st1 h; rw [adtlLoop] at h; cases h
  | succ n ih =>
    intro st st1 h
    rw [adtlLoop] at h
    split_ifs at h
    · exact (ih _ _ h).trans (adtlSubChunk_input_data st)
    · rw [← Except.ok.inj h]

theorem addToMetadata_input_data (chunkEnd : Int) :
    ∀ (fuel : Nat) (values : StringPairArray) (input : InputStream)
      (res : StringPairArray × InputStream),
      ListInfoChunk.addToMetadata chunkEnd fuel values input = .ok res →
      res.2.data = input.data := by
  intro fuel
  induction fuel with
  | zero => intro values input res h; rw [ListInfoChunk.addToMetadata] at h; cases h
  | succ n ih =>
    intro values input res h
    rw [ListInfoChunk.addToMetadata] at h
    dsimp only at h
    split_ifs at h
    · rw [← Except.ok.inj h]
      rfl
    · split at h
      · have h1 := ih _ _ _ h
        exact h1.trans (InputStream.data_readIntoMemoryBlock _ _)
      · have h1 := ih _ _ _ h
        exact h1
    · have h1 := ih _ _ _ h
      exact h1
    · rw [← Except.ok.inj h]

theorem metadataChunk_input_data (ext : Collaborators) (storeChunks : Bool) (h : ChunkHeader)
    (r : WavAudioFormatReader) (hm : metadataChunk ext storeChunks h = some r) :
    r.input.data = h.reader.input.data := by
  unfold metadataChunk at hm
  dsimp only at hm
  split_ifs at hm
  all_goals (rw [← Option.some.inj hm])
  all_goals (try simp only [InputStream.data_read, InputStream.data_readInt, InputStream.data_readShort,
      InputStream.data_readInt64, InputStream.data_skipNextBytes, InputStream.data_setPosition,
      InputStream.data_readIntoMemoryBlock, readBlock_data])

/-- A `LIST` pass that returns goes on to the next pass, with the stream at the end
offset of the chunk (or at the end of the stream). -/
theorem listChunk_next_input (fuel : Nat) (st : ChunkLoopState) (h : ChunkHeader) (fl : Flow)
    (hl : listChunk fuel st h = .ok fl) :
    ∃ st1, fl = .next st1
      ∧ st1.reader.input
          = { data := h.reader.input.data, position := min h.chunkEnd h.reader.input.data.length } := by
  unfold listChunk at hl
  dsimp only at hl
  split_ifs at hl
  · split at hl
    · cases hl
    · rename_i v hv
      have hd := addToMetadata_input_data _ _ _ _ _ hv
      refine ⟨_, (Except.ok.inj hl).symm, ?_⟩
      show InputStream.setPosition v.2 (h.chunkEnd : Int) = _
      rw [InputStream.setPosition_eq, hd]
      rfl
  · split at hl
    · cases hl
    · rename_i st1 hst1
      have hd := adtlLoop_input_data _ _ _ _ hst1
      refine ⟨_, (Except.ok.inj hl).symm, ?_⟩
      show InputStream.setPosition st1.reader.input (h.chunkEnd : Int) = _
      rw [InputStream.setPosition_eq, hd]
      rfl
  · refine ⟨_, (Except.ok.inj hl).symm, ?_⟩
    show InputStream.setPosition (h.reader.input.readInt).2 (h.chunkEnd : Int) = _
    rw [InputStream.setPosition_eq]
    rfl

/-- A pass of the loop body that goes on to the next pass leaves the stream at the end
offset of its chunk, `chunkEnd`, or at the end of the stream when `chunkEnd` lies
beyond it, whatever the decoder of the chunk has read. -/
theorem chunk_next_input (ext : Collaborators) (storeChunks : Bool) (ssp n : Nat)
    (st st1 : ChunkLoopState) (hc : chunk ext storeChunks ssp n st = .ok (.next st1)) :
    st1.reader.input
      = { data := st.reader.input.data,
          position := min (readChunkHeader storeChunks st.reader).chunkEnd
            st.reader.input.data.length } := by
  have hH := readChunkHeader_input_data storeChunks st.reader
  unfold chunk at hc
  dsimp only at hc
  split_ifs at hc with h1 h2 h3
  · -- fmt
    unfold fmtChunk at hc
    split at hc
    · cases hc
    · rename_i g hg
      have hG := readFmtGeometry_input_data _ _ hg
      have hF := fmtFormat_input_data g.2 g.1 (readChunkHeader storeChunks st.reader).length ssp
      dsimp only at hc
      split_ifs at hc
      · cases Except.ok.inj hc
      · have e := Flow.next.inj (Except.ok.inj hc)
        rw [← e]
        show InputStream.setPosition _ ((readChunkHeader storeChunks st.reader).chunkEnd : Int) = _
        rw [InputStream.setPosition_eq, hF, hG, hH]
  · -- data
    have e := Flow.next.inj (Except.ok.inj hc)
    rw [← e]
    show InputStream.setPosition (readChunkHeader storeChunks st.reader).reader.input
      ((readChunkHeader storeChunks st.reader).chunkEnd : Int) = _
    rw [InputStream.setPosition_eq, hH]
  · -- LIST
    obtain ⟨st2, e, hi⟩ := listChunk_next_input _ _ _ _ hc
    rw [Flow.next.inj e, hi, hH]
  · split at hc
    · rename_i r hr
      have hM := metadataChunk_input_data _ _ _ _ hr
      have e := Flow.next.inj (Except.ok.inj hc)
      rw [← e]
      show InputStream.setPosition r.input ((readChunkHeader storeChunks st.reader).chunkEnd : Int) = _
      rw [InputStream.setPosition_eq, hM, hH]
    · cases Except.ok.inj hc
  · split at hc
    · rename_i r hr
      have hM := metadataChunk_input_data _ _ _ _ hr
      have e := Flow.next.inj (Except.ok.inj hc)
      rw [← e]
      show InputStream.setPosition r.input ((readChunkHeader storeChunks st.reader).chunkEnd : Int) = _
      rw [InputStream.setPosition_eq, hM, hH]
    · have e := Flow.next.inj (Except.ok.inj hc)
      rw [← e]
      show InputStream.setPosition (readChunkHeader storeChunks st.reader).reader.input
        ((readChunkHeader storeChunks st.reader).chunkEnd : Int) = _
      rw [InputStream.setPosition_eq, hH]

end WavAudioFormatReader

end

/-! ### The pass at a smpl or cue chunk -/

section
open WavFileHelpers

namespace WavAudioFormatReader

/-- The end offset of a chunk whose eight header bytes the stream holds: the body
start plus the declared length plus the pad byte of an odd length. -/
theorem readChunkHeader_chunkEnd (storeChunks : Bool) (r : WavAudioFormatReader)
    (h : r.input.position + 8 ≤ r.input.data.length) :
    (readChunkHeader storeChunks r).chunkEnd
      = r.input.position + 8 + (readChunkHeader storeChunks r).length
        + (readChunkHeader storeChunks r).length % 2 := by
  have p1 := InputStream.position_readInt r.input
  have p2 := InputStream.position_readInt (r.input.readInt).2
  have d1 := InputStream.data_readInt r.input
  rw [d1] at p2
  simp only [readChunkHeader, InputStream.getPosition, p2, p1]
  omega

theorem readChunkHeader_reader (r : WavAudioFormatReader) :
    (readChunkHeader false r).reader = { r with input := (r.input.readInt).2.readInt.2 } := by
  simp only [readChunkHeader, Bool.false_eq_true, and_false, if_false]

end WavAudioFormatReader

namespace WavAudioFormatReader

end WavAudioFormatReader

end

/-! ### Reads within a window of two streams -/

section
open WavFileHelpers

theorem SameWindow.mono {p q : Nat} {d1 d2 : List Nat} (h : SameWindow p q d1 d2) (p1 : Nat)
    (hp : p ≤ p1) : SameWindow p1 q d1 d2 :=
  ⟨h.le_left, h.le_right, fun i h1 h2 => h.same i (by omega) h2⟩

namespace InputStream

/-- A read that starts in the window and ends within it returns the same bytes from
the other stream. -/
theorem read_window (s : InputStream) (d2 : List Nat) (p q : Nat) (n : Int)
    (hw : SameWindow p q s.data d2) (hp : p ≤ s.position) (hn : s.position + n.toNat ≤ q) :
    InputStream.read { data := d2, position := s.position } n
      = ((s.read n).1, { data := d2, position := (s.read n).2.position }) := by
  have hl := hw.le_left
  have hr := hw.le_right
  have key : (d2.drop s.position).take n.toNat = (s.data.drop s.position).take n.toNat := by
    apply List.ext_getElem
    · simp only [List.length_take, List.length_drop]
      omega
    · intro i h1 h2
      simp only [List.length_take, List.length_drop] at h1 h2
      simp only [List.getElem_take, List.getElem_drop]
      have := hw.same (s.position + i) (by omega) (by omega)
      rw [List.getD_eq_getElem d2 0 (by omega), List.getD_eq_getElem s.data 0 (by omega)] at this
      exact this
  simp only [InputStream.read, key]

theorem read_position_of_le (s : InputStream) (n : Int) (h : s.position + n.toNat ≤ s.data.length) :
    (s.read n).2.position = s.position + n.toNat := by
  rw [InputStream.position_read]
  omega

theorem readInt_window (s : InputStream) (d2 : List Nat) (p q : Nat)
    (hw : SameWindow p q s.data d2) (hp : p ≤ s.position) (hn : s.position + 4 ≤ q) :
    InputStream.readInt { data := d2, position := s.position }
      = ((s.readInt).1, { data := d2, position := (s.readInt).2.position }) := by
  have h := read_window s d2 p q 4 hw hp (by simpa using hn)
  simp only [InputStream.readInt, h]

theorem readShort_window (s : InputStream) (d2 : List Nat) (p q : Nat)
    (hw : SameWindow p q s.data d2) (hp : p ≤ s.position) (hn : s.position + 2 ≤ q) :
    InputStream.readShort { data := d2, position := s.position }
      = ((s.readShort).1, { data := d2, position := (s.readShort).2.position }) := by
  have h := read_window s d2 p q 2 hw hp (by simpa using hn)
  simp only [InputStream.readShort, h]

theorem skipNextBytes_window (s : InputStream) (d2 : List Nat) (p q : Nat) (n : Int)
    (hw : SameWindow p q s.data d2) (hp : p ≤ s.position) (hn : s.position + n.toNat ≤ q) :
    InputStream.skipNextBytes { data := d2, position := s.position } n
      = { data := d2, position := (s.skipNextBytes n).position } := by
  have h := read_window s d2 p q n hw hp hn
  simp only [InputStream.skipNextBytes, h]

theorem readIntoMemoryBlock_window (s : InputStream) (d2 : List Nat) (p q : Nat) (n : Nat)
    (hw : SameWindow p q s.data d2) (hp : p ≤ s.position) (hn : s.position + n ≤ q) :
    InputStream.readIntoMemoryBlock { data := d2, position := s.position } (n : Int)
      = ((s.readIntoMemoryBlock (n : Int)).1,
          { data := d2, position := (s.readIntoMemoryBlock (n : Int)).2.position }) := by
  have h := read_window s d2 p q (n : Int) hw hp (by simpa using hn)
  simp only [InputStream.readIntoMemoryBlock, if_neg (show ¬ ((n : Int) < 0) by omega), h]

theorem position_readInt_eq (s : InputStream) (h : s.position + 4 ≤ s.data.length) :
    (s.readInt).2.position = s.position + 4 := by
  rw [InputStream.position_readInt]
  omega

theorem position_readShort_eq (s : InputStream) (h : s.position + 2 ≤ s.data.length) :
    (s.readShort).2.position = s.position + 2 :=
  read_position_of_le s 2 (by simpa using h)

theorem position_skipNextBytes_eq (s : InputStream) (n : Nat) (h : s.position + n ≤ s.data.length) :
    (s.skipNextBytes (n : Int)).position = s.position + n :=
  (read_position_of_le s (n : Int) (by simpa using h)).trans (by simp)

end InputStream

namespace WavAudioFormatReader

theorem toNat_toInt32_le (n : Nat) : (toInt32 n).toNat ≤ n := by
  unfold toInt32
  split_ifs <;> omega

theorem readBlock_window (s : InputStream) (d2 : List Nat) (p q : Nat) (n : Nat)
    (hw : SameWindow p q s.data d2) (hp : p ≤ s.position) (hn : s.position + n ≤ q) :
    readBlock { data := d2, position := s.position } n
      = ((readBlock s n).1, { data := d2, position := (readBlock s n).2.position }) := by
  have := toNat_toInt32_le n
  exact InputStream.read_window s d2 p q _ hw hp (by omega)

end WavAudioFormatReader

end

section
open WavFileHelpers

namespace WavAudioFormatReader

/-- The head of the loop body reads the same header from a stream that agrees in the
window, when chunks are not stored. -/
theorem readChunkHeader_window (r : WavAudioFormatReader) (d2 : List Nat) (p q : Nat)
    (hw : SameWindow p q r.input.data d2) (hp : p ≤ r.input.position)
    (hq : r.input.position + 8 ≤ q) :
    readChunkHeader false { r with input := { data := d2, position := r.input.position } }
      = { chunkType := (readChunkHeader false r).chunkType,
          length := (readChunkHeader false r).length,
          chunkEnd := (readChunkHeader false r).chunkEnd,
          reader := { (readChunkHeader false r).reader with
            input := { data := d2, position := (readChunkHeader false r).reader.input.position } } } := by
  have hl := hw.le_left
  have t := InputStream.readInt_window r.input d2 p q hw hp (by omega)
  have p1 := InputStream.position_readInt_eq r.input (by omega)
  have l := InputStream.readInt_window (r.input.readInt).2 d2 p q hw (by omega) (by omega)
  simp only [readChunkHeader, t, l, InputStream.getPosition, Bool.false_eq_true, and_false, if_false]

theorem readChunkHeader_position (r : WavAudioFormatReader)
    (h : r.input.position + 8 ≤ r.input.data.length) :
    (readChunkHeader false r).reader.input.position = r.input.position + 8 := by
  have p1 := InputStream.position_readInt_eq r.input (by omega)
  have p2 := InputStream.position_readInt_eq (r.input.readInt).2
    (by rw [p1]; exact (by omega : r.input.position + 4 + 4 ≤ r.input.data.length))
  rw [readChunkHeader_reader]
  show ((r.input.readInt).2.readInt).2.position = _
  rw [p2, p1]

theorem readSubFormat_window (s : InputStream) (d2 : List Nat) (p q : Nat)
    (hw : SameWindow p q s.data d2) (hp : p ≤ s.position) (hq : s.position + 16 ≤ q) :
    readSubFormat { data := d2, position := s.position }
      = ((readSubFormat s).1, { data := d2, position := (readSubFormat s).2.position }) := by
  have hl := hw.le_left
  have e1 := InputStream.readInt_window s d2 p q hw hp (by omega)
  have p1 := InputStream.position_readInt_eq s (by omega)
  have e2 := InputStream.readShort_window (s.readInt).2 d2 p q hw (by omega) (by omega)
  have p2 := InputStream.position_readShort_eq (s.readInt).2
    (by rw [p1]; exact (by omega : s.position + 4 + 2 ≤ s.data.length))
  have e3 := InputStream.readShort_window ((s.readInt).2.readShort).2 d2 p q hw (by omega)
    (by omega)
  have p3 := InputStream.position_readShort_eq ((s.readInt).2.readShort).2
    (by rw [p2, p1]; exact (by omega : s.position + 4 + 2 + 2 ≤ s.data.length))
  have e4 := InputStream.read_window (((s.readInt).2.readShort).2.readShort).2 d2 p q 8 hw
    (by omega) (by rw [p3, p2, p1]; exact (by omega : s.position + 4 + 2 + 2 + 8 ≤ q))
  simp only [readSubFormat, e1, e2, e3, e4]

theorem readSubFormat_position (s : InputStream) (h : s.position + 16 ≤ s.data.length) :
    (readSubFormat s).2.position = s.position + 16 := by
  have p1 := InputStream.position_readInt_eq s (by omega)
  have p2 := InputStream.position_readShort_eq (s.readInt).2
    (by rw [p1]; exact (by omega : s.position + 4 + 2 ≤ s.data.length))
  have p3 := InputStream.position_readShort_eq ((s.readInt).2.readShort).2
    (by rw [p2, p1]; exact (by omega : s.position + 4 + 2 + 2 ≤ s.data.length))
  have p4 := InputStream.read_position_of_le (((s.readInt).2.readShort).2.readShort).2 8
    (by rw [p3, p2, p1]; exact (by omega : s.position + 4 + 2 + 2 + 8 ≤ s.data.length))
  show ((((s.readInt).2.readShort).2.readShort).2.read 8).2.position = _
  rw [p4, p3, p2, p1]
  rfl

end WavAudioFormatReader

end

section
open WavFileHelpers

namespace InputStream

theorem read_step (s : InputStream) (d1 d2 : List Nat) (p q a : Nat) (n : Nat)
    (hd : s.data = d1) (ha : s.position = a) (hw : SameWindow p q d1 d2) (hp : p ≤ a)
    (hn : a + n ≤ q) :
    InputStream.read { data := d2, position := s.position } (n : Int)
        = ((s.read (n : Int)).1, { data := d2, position := (s.read (n : Int)).2.position })
    ∧ (s.read (n : Int)).2.data = d1 ∧ (s.read (n : Int)).2.position = a + n := by
  subst hd
  subst ha
  have hl := hw.le_left
  exact ⟨read_window s d2 p q (n : Int) hw hp (by simpa using hn), rfl,
    (read_position_of_le s (n : Int) (by simp only [Int.toNat_ofNat]; omega)).trans (by simp)⟩

theorem readInt_step (s : InputStream) (d1 d2 : List Nat) (p q a : Nat)
    (hd : s.data = d1) (ha : s.position = a) (hw : SameWindow p q d1 d2) (hp : p ≤ a)
    (hn : a + 4 ≤ q) :
    InputStream.readInt { data := d2, position := s.position }
        = ((s.readInt).1, { data := d2, position := (s.readInt).2.position })
    ∧ (s.readInt).2.data = d1 ∧ (s.readInt).2.position = a + 4 := by
  subst hd
  subst ha
  have hl := hw.le_left
  exact ⟨readInt_window s d2 p q hw hp hn, rfl, position_readInt_eq s (by omega)⟩

theorem readShort_step (s : InputStream) (d1 d2 : List Nat) (p q a : Nat)
    (hd : s.data = d1) (ha : s.position = a) (hw : SameWindow p q d1 d2) (hp : p ≤ a)
    (hn : a + 2 ≤ q) :
    InputStream.readShort { data := d2, position := s.position }
        = ((s.readShort).1, { data := d2, position := (s.readShort).2.position })
    ∧ (s.readShort).2.data = d1 ∧ (s.readShort).2.position = a + 2 := by
  subst hd
  subst ha
  have hl := hw.le_left
  exact ⟨readShort_window s d2 p q hw hp hn, rfl, position_readShort_eq s (by omega)⟩

theorem skipNextBytes_step (s : InputStream) (d1 d2 : List Nat) (p q a : Nat) (n : Nat)
    (hd : s.data = d1) (ha : s.position = a) (hw : SameWindow p q d1 d2) (hp : p ≤ a)
    (hn : a + n ≤ q) :
    InputStream.skipNextBytes { data := d2, position := s.position } (n : Int)
        = { data := d2, position := (s.skipNextBytes (n : Int)).position }
    ∧ (s.skipNextBytes (n : Int)).data = d1 ∧ (s.skipNextBytes (n : Int)).position = a + n := by
  subst hd
  subst ha
  have hl := hw.le_left
  exact ⟨skipNextBytes_window s d2 p q (n : Int) hw hp (by simpa using hn), rfl,
    position_skipNextBytes_eq s n (by omega)⟩

end InputStream

namespace WavAudioFormatReader

/-- The geometry part of the `fmt ` branch reads the same sixteen bytes from a stream
that agrees in the window. -/
theorem readFmtGeometry_window (r : WavAudioFormatReader) (d2 : List Nat) (p q : Nat)
    (hw : SameWindow p q r.input.data d2) (hp : p ≤ r.input.position)
    (hq : r.input.position + 16 ≤ q) :
    readFmtGeometry { r with input := { data := d2, position := r.input.position } }
      = (readFmtGeometry r).map
          (fun g => (g.1, { g.2 with input := { data := d2, position := g.2.input.position } })) := by
  obtain ⟨e1, d1, q1⟩ := InputStream.readShort_step r.input _ d2 p q _ rfl rfl hw hp (by omega)
  obtain ⟨e2, d2', q2⟩ := InputStream.readShort_step (r.input.readShort).2 _ d2 p q _ d1 q1 hw
    (by omega) (by omega)
  obtain ⟨e3, d3, q3⟩ := InputStream.readInt_step ((r.input.readShort).2.readShort).2 _ d2 p q _
    d2' q2 hw (by omega) (by omega)
  obtain ⟨e4, d4, q4⟩ := InputStream.readInt_step
    (((r.input.readShort).2.readShort).2.readInt).2 _ d2 p q _ d3 q3 hw (by omega) (by omega)
  obtain ⟨e5, d5, q5⟩ := InputStream.skipNextBytes_step
    ((((r.input.readShort).2.readShort).2.readInt).2.readInt).2 _ d2 p q _ 2 d4 q4 hw (by omega)
    (by omega)
  obtain ⟨e6, d6, q6⟩ := InputStream.readShort_step
    (((((r.input.readShort).2.readShort).2.readInt).2.readInt).2.skipNextBytes ((2 : Nat) : Int))
    _ d2 p q _ d5 q5 hw (by omega) (by omega)
  rw [show ((2 : Nat) : Int) = 2 from rfl] at e5 e6
  unfold readFmtGeometry
  dsimp only
  rw [e1]
  dsimp only
  rw [e2]
  dsimp only
  rw [e3]
  dsimp only
  rw [e4]
  dsimp only
  rw [e5, e6]
  dsimp only
  split_ifs <;> simp only [Except.map]

theorem readFmtGeometry_format (r : WavAudioFormatReader) (g : Nat × WavAudioFormatReader)
    (h : readFmtGeometry r = .ok g) (hl : r.input.position + 16 ≤ r.input.data.length) :
    g.1 = (r.input.readShort).1 ∧ g.2.input.position = r.input.position + 16 := by
  have hw : SameWindow 0 r.input.data.length r.input.data r.input.data :=
    ⟨Nat.le_refl _, Nat.le_refl _, fun _ _ _ => rfl⟩
  obtain ⟨-, d1, q1⟩ := InputStream.readShort_step r.input _ r.input.data 0 _ _ rfl rfl hw
    (Nat.zero_le _) (by omega)
  obtain ⟨-, d2', q2⟩ := InputStream.readShort_step (r.input.readShort).2 _ r.input.data 0 _ _
    d1 q1 hw (Nat.zero_le _) (by omega)
  obtain ⟨-, d3, q3⟩ := InputStream.readInt_step ((r.input.readShort).2.readShort).2 _
    r.input.data 0 _ _ d2' q2 hw (Nat.zero_le _) (by omega)
  obtain ⟨-, d4, q4⟩ := InputStream.readInt_step
    (((r.input.readShort).2.readShort).2.readInt).2 _ r.input.data 0 _ _ d3 q3 hw
    (Nat.zero_le _) (by omega)
  obtain ⟨-, d5, q5⟩ := InputStream.skipNextBytes_step
    ((((r.input.readShort).2.readShort).2.readInt).2.readInt).2 _ r.input.data 0 _ _ 2 d4 q4 hw
    (Nat.zero_le _) (by omega)
  obtain ⟨-, d6, q6⟩ := InputStream.readShort_step
    (((((r.input.readShort).2.readShort).2.readInt).2.readInt).2.skipNextBytes ((2 : Nat) : Int))
    _ r.input.data 0 _ _ d5 q5 hw (Nat.zero_le _) (by omega)
  rw [show ((2 : Nat) : Int) = 2 from rfl] at q6
  unfold readFmtGeometry at h
  dsimp only at h
  split_ifs at h
  all_goals
    injection h with h
    subst h
    refine ⟨rfl, ?_⟩
    dsimp only
    rw [q6]

end WavAudioFormatReader

end

section
open WavFileHelpers

namespace WavAudioFormatReader

theorem readSubFormat_step (s : InputStream) (d1 d2 : List Nat) (p q a : Nat)
    (hd : s.data = d1) (ha : s.position = a) (hw : SameWindow p q d1 d2) (hp : p ≤ a)
    (hn : a + 16 ≤ q) :
    readSubFormat { data := d2, position := s.position }
      = ((readSubFormat s).1, { data := d2, position := (readSubFormat s).2.position }) := by
  subst hd
  subst ha
  exact readSubFormat_window s d2 p q hw hp hn

/-- The decision on the format tag reads the same bytes from a stream that agrees in
the window, when it does not return for an Ogg-Vorbis tag. -/
theorem fmtFormat_window (r : WavAudioFormatReader) (d2 : List Nat) (p q : Nat)
    (format length ssp : Nat)
    (hw : SameWindow p q r.input.data d2) (hp : p ≤ r.input.position)
    (hnogg : (fmtFormat r format length ssp).2 = false)
    (hext : format = 65534 → 40 ≤ length → r.input.position + 24 ≤ q) :
    fmtFormat { r with input := { data := d2, position := r.input.position } } format length ssp
      = ({ (fmtFormat r format length ssp).1 with
            input := { data := d2, position := (fmtFormat r format length ssp).1.input.position } },
         false) := by
  by_cases h3 : format = 3
  · simp only [fmtFormat, if_pos h3]
  by_cases he : format = 65534
  · by_cases hl : length < 40
    · simp only [fmtFormat, if_neg h3, if_pos he, if_pos hl]
    · have hq := hext he (by omega)
      obtain ⟨e1, d1, q1⟩ := InputStream.skipNextBytes_step r.input _ d2 p q _ 4 rfl rfl hw hp
        (by omega)
      rw [show ((4 : Nat) : Int) = 4 from rfl] at e1 d1 q1
      obtain ⟨e2, d2', q2⟩ := InputStream.readInt_step (r.input.skipNextBytes 4) _ d2 p q _ d1 q1
        hw (by omega) (by omega)
      have e3 := readSubFormat_step ((r.input.skipNextBytes 4).readInt).2 _ d2 p q _ d2' q2 hw
        (by omega) (by omega)
      unfold fmtFormat
      rw [if_neg h3, if_pos he, if_neg hl, if_neg h3, if_pos he, if_neg hl]
      dsimp only
      rw [e1, e2, e3]
      split_ifs <;> rfl
  · by_cases hogg : format = 26447 ∨ format = 26448 ∨ format = 26449
        ∨ format = 26479 ∨ format = 26480 ∨ format = 26481
    · exfalso
      simp only [fmtFormat, if_neg h3, if_neg he, if_pos hogg] at hnogg
      exact absurd hnogg (by decide)
    · by_cases h1 : format ≠ 1
      · simp only [fmtFormat, if_neg h3, if_neg he, if_neg hogg, if_pos h1]
      · simp only [fmtFormat, if_neg h3, if_neg he, if_neg hogg, if_neg h1]

/-- The decoders of the metadata chunks read the same body from a stream that agrees
in the window, when chunks are not stored. -/
theorem metadataChunk_window (ext : Collaborators) (h : ChunkHeader) (d2 : List Nat) (p q : Nat)
    (hw : SameWindow p q h.reader.input.data d2) (hp : p ≤ h.reader.input.position)
    (hn : h.reader.input.position + h.length ≤ q) :
    metadataChunk ext false
        { h with reader := { h.reader with
            input := { data := d2, position := h.reader.input.position } } }
      = (metadataChunk ext false h).map
          (fun r => { r with input := { data := d2, position := r.input.position } }) := by
  have e1 := InputStream.readIntoMemoryBlock_window h.reader.input d2 p q h.length hw hp hn
  have e2 := readBlock_window h.reader.input d2 p q h.length hw hp hn
  have e3 := InputStream.read_window h.reader.input d2 p q ((min 24 h.length : Nat) : Int) hw hp
    (by simp only [Int.toNat_ofNat]; omega)
  unfold metadataChunk
  dsimp only
  rw [e1, e2, e3]
  dsimp only
  by_cases c0 : h.chunkType = chunkName "ID3 "
  · simp only [if_pos c0]
    by_cases t : h.reader.thumbnailOnly = true ∨ false = true
    · simp only [if_pos t]
      simp only [Option.map_some', InputStream.getPosition]
    · simp only [if_neg t]
      simp only [Option.map_some', InputStream.getPosition]
  by_cases c1 : h.chunkType = chunkName "iXML"
  · simp only [if_neg c0, if_pos c1]
    by_cases t : (h.reader.input.readIntoMemoryBlock (h.length : Int)).1 ≠ []
    · simp only [if_pos t]
      simp only [Option.map_some', InputStream.getPosition]
    · simp only [if_neg t]
      simp only [Option.map_some', InputStream.getPosition]
  by_cases c2 : h.chunkType = chunkName "bext"
  · simp only [if_neg c0, if_neg c1, if_pos c2]
    simp only [Option.map_some', InputStream.getPosition]
  by_cases c3 : h.chunkType = chunkName "smpl"
  · simp only [if_neg c0, if_neg c1, if_neg c2, if_pos c3]
    simp only [Option.map_some', InputStream.getPosition]
  by_cases c4 : h.chunkType = chunkName "inst" ∨ h.chunkType = chunkName "INST"
  · simp only [if_neg c0, if_neg c1, if_neg c2, if_neg c3, if_pos c4]
    simp only [Option.map_some', InputStream.getPosition]
  by_cases c5 : h.chunkType = chunkName "cue "
  · simp only [if_neg c0, if_neg c1, if_neg c2, if_neg c3, if_neg c4, if_pos c5]
    simp only [Option.map_some', InputStream.getPosition]
  by_cases c6 : h.chunkType = chunkName "axml"
  · simp only [if_neg c0, if_neg c1, if_neg c2, if_neg c3, if_neg c4, if_neg c5, if_pos c6]
    simp only [Option.map_some', InputStream.getPosition]
  by_cases c7 : h.chunkType = chunkName "acid"
  · simp only [if_neg c0, if_neg c1, if_neg c2, if_neg c3, if_neg c4, if_neg c5, if_neg c6, if_pos c7]
    simp only [Option.map_some', InputStream.getPosition]
  by_cases c8 : h.chunkType = chunkName "Trkn"
  · simp only [if_neg c0, if_neg c1, if_neg c2, if_neg c3, if_neg c4, if_neg c5, if_neg c6, if_neg c7, if_pos c8]
    simp only [Option.map_some', InputStream.getPosition]
  simp only [if_neg c0, if_neg c1, if_neg c2, if_neg c3, if_neg c4, if_neg c5, if_neg c6, if_neg c7, if_neg c8]
  simp only [Option.map_none']

end WavAudioFormatReader

end

/-! ### A pass of the chunk loop within a window -/

section
open WavFileHelpers

namespace WavAudioFormatReader

theorem position_le_read (s : InputStream) (n : Int) : s.position ≤ (s.read n).2.position := by
  simp only [InputStream.read]
  omega

theorem position_le_readIntoMemoryBlock (s : InputStream) (n : Int) :
    s.position ≤ (s.readIntoMemoryBlock n).2.position := by
  unfold InputStream.readIntoMemoryBlock
  split_ifs
  · exact position_le_read s _
  · exact position_le_read s _

/-- The loop of `ListInfoChunk::addToMetadata` whose reads end in front of `q` does the
same on a stream that agrees in the window. -/
theorem addToMetadata_window (p q : Nat) (chunkEnd : Int) (d1 d2 : List Nat)
    (hw : SameWindow p q d1 d2) :
    ∀ (fuel : Nat) (values : StringPairArray) (input : InputStream),
      input.data = d1 → p ≤ input.position → infoWithin q chunkEnd fuel input = true →
      ListInfoChunk.addToMetadata chunkEnd fuel values { data := d2, position := input.position }
        = (ListInfoChunk.addToMetadata chunkEnd fuel values input).map
            (fun v => (v.1, { data := d2, position := v.2.position })) := by
  intro fuel
  induction fuel with
  | zero =>
    intro values input hd hp hin
    rfl
  | succ n ih =>
    intro values input hd hp hin
    rw [ListInfoChunk.addToMetadata, ListInfoChunk.addToMetadata]
    rw [infoWithin] at hin
    simp only [InputStream.getPosition] at hin ⊢
    by_cases c1 : (input.position : Int) < chunkEnd
    · rw [if_pos c1] at hin ⊢
      rw [if_pos c1]
      try dsimp only at hin
      rw [Bool.and_eq_true, decide_eq_true_eq] at hin
      obtain ⟨h4, hin⟩ := hin
      obtain ⟨e1, hd1, hq1⟩ := InputStream.readInt_step input d1 d2 p q _ hd rfl hw hp h4
      rw [e1]
      dsimp only
      obtain ⟨r1, hr1⟩ : ∃ r1, r1 = input.readInt := ⟨_, rfl⟩
      rw [← hr1] at hin hd1 hq1 ⊢
      by_cases c2 : chunkEnd - (r1.2.position : Int) > 0
      · rw [if_pos c2] at hin ⊢
        rw [if_pos c2]
        try dsimp only at hin
        rw [Bool.and_eq_true, decide_eq_true_eq] at hin
        obtain ⟨h8, hin⟩ := hin
        obtain ⟨e2, hd2, hq2⟩ := InputStream.readInt_step r1.2 d1 d2 p q _ hd1 hq1 hw
          (by omega) (by omega)
        rw [e2]
        dsimp only
        obtain ⟨r2, hr2⟩ : ∃ r2, r2 = r1.2.readInt := ⟨_, rfl⟩
        rw [← hr2] at hin hd2 hq2 ⊢
        by_cases c3 : min (chunkEnd - (r1.2.position : Int)) (toInt32 r2.1) ≤ 0
        · rw [if_pos c3, if_pos c3]
          rfl
        · rw [if_neg c3] at hin ⊢
          rw [if_neg c3]
          cases hf : ListInfoChunk.types.find?
              (fun t => ListInfoChunk.isMatchingTypeIgnoringCase r1.1 t) with
          | none =>
            rw [hf] at hin
            dsimp only at hin ⊢
            have := ih values r2.2 hd2 (by omega) hin
            rw [this]
          | some t =>
            rw [hf] at hin
            dsimp only at hin ⊢
            rw [Bool.and_eq_true, decide_eq_true_eq] at hin
            obtain ⟨hb, hin⟩ := hin
            obtain ⟨L, hL⟩ : ∃ L : Nat, min (chunkEnd - (r1.2.position : Int)) (toInt32 r2.1) = (L : Int) :=
              ⟨_, (Int.toNat_of_nonneg (by omega)).symm⟩
            rw [hL] at hin hb ⊢
            simp only [Int.toNat_ofNat] at hb
            have e3 := InputStream.readIntoMemoryBlock_window r2.2 d2 p q L (by rw [hd2]; exact hw)
              (by omega) hb
            rw [e3]
            dsimp only
            have hd3 : (r2.2.readIntoMemoryBlock (L : Int)).2.data = d1 := by
              rw [InputStream.data_readIntoMemoryBlock, hd2]
            have hp3 := position_le_readIntoMemoryBlock r2.2 (L : Int)
            have := ih (values.setAll [(t, stringFromBytes (r2.2.readIntoMemoryBlock (L : Int)).1)])
              (r2.2.readIntoMemoryBlock (L : Int)).2 hd3 (by omega) hin
            rw [this]
      · rw [if_neg c2] at hin ⊢
        rw [if_neg c2]
        have := ih values r1.2 hd1 (by omega) hin
        rw [this]
    · rw [if_neg c1, if_neg c1]
      rfl

theorem toInt32_sub_of_le (len k : Nat) (hk : k ≤ len) (h31 : len < 2147483648) (hk4 : k ≤ 2147483648) :
    toInt32 (toUInt32 ((len : Int) - (k : Int))) = ((len - k : Nat) : Int) := by
  have h1 : toUInt32 ((len : Int) - (k : Int)) = len - k := by
    unfold toUInt32
    omega
  rw [h1]
  unfold toInt32
  split_ifs <;> omega

/-- The reads of the `ltxt` record (three `readInt`, four `readShort` and the text) on a
stream that agrees in the window. -/
theorem ltxt_reads_window (s : InputStream) (d1 d2 : List Nat) (p q a n : Nat)
    (hd : s.data = d1) (ha : s.position = a) (hw : SameWindow p q d1 d2) (hp : p ≤ a)
    (hn : a + 20 + n ≤ q) :
    InputStream.readInt { data := d2, position := s.position }
        = (s.readInt.1, { data := d2, position := s.readInt.2.position })
    ∧ InputStream.readInt { data := d2, position := s.readInt.2.position }
        = (s.readInt.2.readInt.1, { data := d2, position := s.readInt.2.readInt.2.position })
    ∧ InputStream.readInt { data := d2, position := s.readInt.2.readInt.2.position }
        = (s.readInt.2.readInt.2.readInt.1,
            { data := d2, position := s.readInt.2.readInt.2.readInt.2.position })
    ∧ InputStream.readShort { data := d2, position := s.readInt.2.readInt.2.readInt.2.position }
        = (s.readInt.2.readInt.2.readInt.2.readShort.1,
            { data := d2, position := s.readInt.2.readInt.2.readInt.2.readShort.2.position })
    ∧ InputStream.readShort
          { data := d2, position := s.readInt.2.readInt.2.readInt.2.readShort.2.position }
        = (s.readInt.2.readInt.2.readInt.2.readShort.2.readShort.1,
            { data := d2,
              position := s.readInt.2.readInt.2.readInt.2.readShort.2.readShort.2.position })
    ∧ InputStream.readShort
          { data := d2,
            position := s.readInt.2.readInt.2.readInt.2.readShort.2.readShort.2.position }
        = (s.readInt.2.readInt.2.readInt.2.readShort.2.readShort.2.readShort.1,
            { data := d2,
              position :=
                s.readInt.2.readInt.2.readInt.2.readShort.2.readShort.2.readShort.2.position })
    ∧ InputStream.readShort
          { data := d2,
            position :=
              s.readInt.2.readInt.2.readInt.2.readShort.2.readShort.2.readShort.2.position }
        = (s.readInt.2.readInt.2.readInt.2.readShort.2.readShort.2.readShort.2.readShort.1,
            { data := d2,
              position :=
                s.readInt.2.readInt.2.readInt.2.readShort.2.readShort.2.readShort.2.readShort.2.position })
    ∧ InputStream.readIntoMemoryBlock
          { data := d2,
            position :=
              s.readInt.2.readInt.2.readInt.2.readShort.2.readShort.2.readShort.2.readShort.2.position }
          (n : Int)
        = ((s.readInt.2.readInt.2.readInt.2.readShort.2.readShort.2.readShort.2.readShort.2.readIntoMemoryBlock
              (n : Int)).1,
            { data := d2,
              position :=
                (s.readInt.2.readInt.2.readInt.2.readShort.2.readShort.2.readShort.2.readShort.2.readIntoMemoryBlock
                  (n : Int)).2.position })
    ∧ s.readInt.2.readInt.2.readInt.2.readShort.2.readShort.2.readShort.2.readShort.2.data = d1 := by
  obtain ⟨e3, hd3, hq3⟩ := InputStream.readInt_step s d1 d2 p q a hd ha hw hp (by omega)
  obtain ⟨i1, hi1⟩ : ∃ i1, i1 = s.readInt := ⟨_, rfl⟩
  rw [← hi1] at e3 hd3 hq3 ⊢
  obtain ⟨e4, hd4, hq4⟩ := InputStream.readInt_step i1.2 d1 d2 p q _ hd3 hq3 hw
    (by omega) (by omega)
  obtain ⟨i2, hi2⟩ : ∃ i2, i2 = i1.2.readInt := ⟨_, rfl⟩
  rw [← hi2] at e4 hd4 hq4 ⊢
  obtain ⟨e5, hd5, hq5⟩ := InputStream.readInt_step i2.2 d1 d2 p q _ hd4 hq4 hw
    (by omega) (by omega)
  obtain ⟨i3, hi3⟩ : ∃ i3, i3 = i2.2.readInt := ⟨_, rfl⟩
  rw [← hi3] at e5 hd5 hq5 ⊢
  obtain ⟨e6, hd6, hq6⟩ := InputStream.readShort_step i3.2 d1 d2 p q _ hd5 hq5 hw
    (by omega) (by omega)
  obtain ⟨i4, hi4⟩ : ∃ i4, i4 = i3.2.readShort := ⟨_, rfl⟩
  rw [← hi4] at e6 hd6 hq6 ⊢
  obtain ⟨e7, hd7, hq7⟩ := InputStream.readShort_step i4.2 d1 d2 p q _ hd6 hq6 hw
    (by omega) (by omega)
  obtain ⟨i5, hi5⟩ : ∃ i5, i5 = i4.2.readShort := ⟨_, rfl⟩
  rw [← hi5] at e7 hd7 hq7 ⊢
  obtain ⟨e8, hd8, hq8⟩ := InputStream.readShort_step i5.2 d1 d2 p q _ hd7 hq7 hw
    (by omega) (by omega)
  obtain ⟨i6, hi6⟩ : ∃ i6, i6 = i5.2.readShort := ⟨_, rfl⟩
  rw [← hi6] at e8 hd8 hq8 ⊢
  obtain ⟨e9, hd9, hq9⟩ := InputStream.readShort_step i6.2 d1 d2 p q _ hd8 hq8 hw
    (by omega) (by omega)
  obtain ⟨i7, hi7⟩ : ∃ i7, i7 = i6.2.readShort := ⟨_, rfl⟩
  rw [← hi7] at e9 hd9 hq9 ⊢
  have e10 := InputStream.readIntoMemoryBlock_window i7.2 d2 p q n
    (by rw [hd9]; exact hw) (by omega) (by omega)
  exact ⟨e3, e4, e5, e6, e7, e8, e9, e10, hd9⟩

/-- A pass of the `adtl` loop at a sub-chunk that lies in front of `q` does the same on
a stream that agrees in the window, and ends at the end of the sub-chunk. -/
theorem adtlSubChunk_window (st : ChunkLoopState) (d2 : List Nat) (p q : Nat)
    (hw : SameWindow p q st.reader.input.data d2) (hp : p ≤ st.reader.input.position)
    (hin : adtlSubChunkWithin q st) :
    adtlSubChunk (st.withData d2) = (adtlSubChunk st).withData d2 := by
  obtain ⟨h8, hce, h31, hlab, hltxt⟩ := hin
  have hl1 := hw.le_left
  have hl2 := hw.le_right
  obtain ⟨e1, hd1, hq1⟩ := InputStream.readInt_step st.reader.input _ d2 p q _ rfl rfl hw hp
    (by omega)
  obtain ⟨e2, hd2, hq2⟩ := InputStream.readInt_step st.reader.input.readInt.2 _ d2 p q _ hd1 hq1 hw
    (by omega) (by omega)
  unfold adtlSubChunk
  dsimp only [ChunkLoopState.withData]
  rw [e1]
  dsimp only
  rw [e2]
  dsimp only
  obtain ⟨t, ht⟩ : ∃ t, t = st.reader.input.readInt := ⟨_, rfl⟩
  rw [← ht] at e1 e2 hd1 hd2 hq1 hq2 hce h31 hlab hltxt ⊢
  obtain ⟨l, hl⟩ : ∃ l, l = t.2.readInt := ⟨_, rfl⟩
  rw [← hl] at e2 hd2 hq2 hce h31 hlab hltxt ⊢
  have hmod : (l.1 + l.1 % 2) % 4294967296 = l.1 + l.1 % 2 := Nat.mod_eq_of_lt (by omega)
  simp only [InputStream.getPosition, hmod]
  by_cases c1 : t.1 = chunkName "labl" ∨ t.1 = chunkName "note"
  · have h4 := hlab c1
    rw [if_pos c1, if_pos c1]
    obtain ⟨e3, hd3, hq3⟩ := InputStream.readInt_step l.2 _ d2 p q _ hd2 hq2 hw
      (by omega) (by omega)
    have hs : toInt32 (toUInt32 (toInt32 l.1 - 4)) = ((l.1 - 4 : Nat) : Int) := by
      rw [toInt32_of_lt l.1 h31]
      exact toInt32_sub_of_le l.1 4 h4 h31 (by omega)
    rw [hs]
    dsimp only
    rw [e3]
    dsimp only
    have e4 := InputStream.readIntoMemoryBlock_window l.2.readInt.2 d2 p q (l.1 - 4)
      (by rw [hd3]; exact hw) (by omega) (by omega)
    rw [e4]
    simp only [InputStream.setPosition, Int.toNat_ofNat, InputStream.data_readIntoMemoryBlock,
      hd3, Nat.min_eq_left (show l.2.position + (l.1 + l.1 % 2) ≤ d2.length by omega),
      Nat.min_eq_left (show l.2.position + (l.1 + l.1 % 2) ≤ st.reader.input.data.length by omega)]
  · rw [if_neg c1, if_neg c1]
    by_cases c2 : t.1 = chunkName "ltxt"
    · have h20 := hltxt c2
      rw [if_pos c2, if_pos c2]
      have hs : toInt32 (toUInt32 ((l.1 : Int) - 20)) = ((l.1 - 20 : Nat) : Int) :=
        toInt32_sub_of_le l.1 20 h20 h31 (by omega)
      obtain ⟨e3, e4, e5, e6, e7, e8, e9, e10, hd9⟩ := ltxt_reads_window l.2 _ d2 p q _ (l.1 - 20)
        hd2 hq2 hw (by omega) (by omega)
      rw [hs]
      simp only [e3, e4, e5, e6, e7, e8, e9, e10, InputStream.setPosition, Int.toNat_ofNat,
        InputStream.data_readIntoMemoryBlock, hd9,
        Nat.min_eq_left (show l.2.position + (l.1 + l.1 % 2) ≤ d2.length by omega),
        Nat.min_eq_left (show l.2.position + (l.1 + l.1 % 2) ≤ st.reader.input.data.length by omega)]
    · rw [if_neg c2, if_neg c2]
      simp only [InputStream.setPosition, Int.toNat_ofNat, hd2,
        Nat.min_eq_left (show l.2.position + (l.1 + l.1 % 2) ≤ d2.length by omega),
        Nat.min_eq_left (show l.2.position + (l.1 + l.1 % 2) ≤ st.reader.input.data.length by omega)]

theorem seekToChunkEnd_withData (st : ChunkLoopState) (r : WavAudioFormatReader) (ce : Nat)
    (d2 : List Nat) (h1 : ce ≤ r.input.data.length) (h2 : ce ≤ d2.length) :
    seekToChunkEnd (st.withData d2)
        { r with input := { data := d2, position := r.input.position } } ce
      = .next ((seekToChunkEnd st r ce).state.withData d2) := by
  simp only [seekToChunkEnd, ChunkLoopState.withData, Flow.state, InputStream.setPosition,
    Int.toNat_ofNat, Nat.min_eq_left h1, Nat.min_eq_left h2]

theorem dataChunk_withData (r : WavAudioFormatReader) (length : Nat) (d2 : List Nat) :
    dataChunk { r with input := { data := d2, position := r.input.position } } length
      = { dataChunk r length with
          input := { data := d2, position := (dataChunk r length).input.position } } := by
  simp only [dataChunk, InputStream.getPosition]

theorem adtlSubChunk_position (st : ChunkLoopState) :
    (adtlSubChunk st).reader.input.position
      = min (st.reader.input.readInt.2.readInt.2.position
          + (st.reader.input.readInt.2.readInt.1 + st.reader.input.readInt.2.readInt.1 % 2) % 4294967296)
        st.reader.input.data.length := by
  unfold adtlSubChunk
  dsimp only
  split_ifs
  all_goals
    simp only [InputStream.setPosition, Int.toNat_ofNat, InputStream.getPosition,
      InputStream.data_read, InputStream.data_readInt, InputStream.data_readShort,
      InputStream.data_readIntoMemoryBlock]

/-- The loop of the `adtl` branch over sub-chunks that lie in front of `q` does the same
on a stream that agrees in the window. -/
theorem adtlLoop_window (p q chunkEnd : Nat) (d2 : List Nat) :
    ∀ (fuel : Nat) (st : ChunkLoopState),
      SameWindow p q st.reader.input.data d2 → p ≤ st.reader.input.position →
      (∀ s ∈ adtlStates chunkEnd fuel st, adtlSubChunkWithin q s) →
      adtlLoop chunkEnd fuel (st.withData d2)
        = (adtlLoop chunkEnd fuel st).map (fun x => x.withData d2) := by
  intro fuel
  induction fuel with
  | zero =>
    intro st hw hp hin
    rfl
  | succ n ih =>
    intro st hw hp hin
    rw [adtlLoop, adtlLoop]
    rw [adtlStates] at hin
    have hpos : (st.withData d2).reader.input.getPosition = st.reader.input.getPosition := rfl
    rw [hpos]
    by_cases c : st.reader.input.getPosition < chunkEnd
    · rw [if_pos c] at hin ⊢
      rw [if_pos c]
      have hs := hin st (List.mem_cons_self _ _)
      rw [adtlSubChunk_window st d2 p q hw hp hs]
      have hl1 := hw.le_left
      obtain ⟨h8, hce, h31, -, -⟩ := hs
      have hq1 := InputStream.position_readInt_eq st.reader.input (by omega)
      have hq2 := InputStream.position_readInt_eq st.reader.input.readInt.2
        (by rw [InputStream.data_readInt]; omega)
      have hge : p ≤ (adtlSubChunk st).reader.input.position := by
        rw [adtlSubChunk_position, hq2, hq1]
        omega
      exact ih (adtlSubChunk st) (by rw [adtlSubChunk_input_data]; exact hw) hge
        (fun s hs => hin s (List.mem_cons_of_mem _ hs))
    · rw [if_neg c, if_neg c]
      rfl

/-- The branch of a `LIST` chunk whose sub-chunk decoders stay in front of `q` does the
same on a stream that agrees in the window. -/
theorem listChunk_window (n p q : Nat) (st st1 : ChunkLoopState) (h h2 : ChunkHeader)
    (d2 : List Nat) (hw : SameWindow p q h.reader.input.data d2)
    (hp : p ≤ h.reader.input.position) (hce : h.chunkEnd ≤ q)
    (he2 : h2.chunkEnd = h.chunkEnd)
    (hr2 : h2.reader = { h.reader with input := { data := d2, position := h.reader.input.position } })
    (hin : listWithin q n st h)
    (hc : listChunk n st h = .ok (.next st1)) :
    listChunk n (st.withData d2) h2 = .ok (.next (st1.withData d2)) := by
  obtain ⟨h4, hinfo, hadtl⟩ := hin
  have hl1 := hw.le_left
  have hl2 := hw.le_right
  obtain ⟨e1, hd1, hq1⟩ := InputStream.readInt_step h.reader.input _ d2 p q _ rfl rfl hw hp h4
  unfold listChunk at hc ⊢
  dsimp only at hc ⊢
  rw [hr2, he2]
  dsimp only
  rw [e1]
  dsimp only
  obtain ⟨sub, hsub⟩ : ∃ sub, sub = h.reader.input.readInt := ⟨_, rfl⟩
  rw [← hsub] at hc hinfo hadtl hd1 hq1 ⊢
  by_cases c1 : sub.1 = chunkName "info" ∨ sub.1 = chunkName "INFO"
  · rw [if_pos c1] at hc ⊢
    have hW := addToMetadata_window p q (h.chunkEnd : Int) _ d2 hw n h.reader.metadataValues sub.2
      hd1 (by omega) (hinfo c1)
    cases hres : ListInfoChunk.addToMetadata (h.chunkEnd : Int) n h.reader.metadataValues sub.2 with
    | error e =>
      rw [hres] at hc
      cases hc
    | ok v =>
      rw [hres] at hc hW
      dsimp only at hc
      rw [hW]
      simp only [Except.map]
      have hvd := addToMetadata_input_data (h.chunkEnd : Int) n _ _ _ hres
      have e : seekToChunkEnd st { h.reader with input := v.2, metadataValues := v.1 } h.chunkEnd
          = Flow.next st1 := Except.ok.inj hc
      have hK := seekToChunkEnd_withData st { h.reader with input := v.2, metadataValues := v.1 }
        h.chunkEnd d2 (by show h.chunkEnd ≤ v.2.data.length; rw [hvd, hd1]; omega) (by omega)
      rw [e] at hK
      exact congrArg Except.ok hK
  · rw [if_neg c1] at hc ⊢
    by_cases c2 : sub.1 = chunkName "adtl"
    · rw [if_pos c2] at hc ⊢
      have hW := adtlLoop_window p q h.chunkEnd d2 n
        { st with reader := { h.reader with input := sub.2 } }
        (by rw [hd1]; exact hw) (by show p ≤ sub.2.position; omega) (hadtl c2)
      cases hres : adtlLoop h.chunkEnd n { st with reader := { h.reader with input := sub.2 } } with
      | error e =>
        rw [hres] at hc
        cases hc
      | ok s =>
        rw [hres] at hc hW
        dsimp only at hc
        have hS : adtlLoop h.chunkEnd n
            { st.withData d2 with reader := { h.reader with
                input := { data := d2, position := sub.2.position } } }
            = .ok (s.withData d2) := hW
        simp only [ChunkLoopState.withData] at hS ⊢
        rw [hS]
        dsimp only
        have hsd := adtlLoop_input_data h.chunkEnd n _ _ hres
        have e : seekToChunkEnd s s.reader h.chunkEnd = Flow.next st1 := Except.ok.inj hc
        have hK := seekToChunkEnd_withData s s.reader h.chunkEnd d2
          (by rw [hsd]; show h.chunkEnd ≤ sub.2.data.length; rw [hd1]; omega) (by omega)
        rw [e] at hK
        exact congrArg Except.ok hK
    · rw [if_neg c2] at hc ⊢
      have e : seekToChunkEnd st { h.reader with input := sub.2 } h.chunkEnd = Flow.next st1 :=
        Except.ok.inj hc
      have hK := seekToChunkEnd_withData st { h.reader with input := sub.2 } h.chunkEnd d2
        (by show h.chunkEnd ≤ sub.2.data.length; rw [hd1]; omega) (by omega)
      rw [e] at hK
      exact congrArg Except.ok hK

/-- A pass of the loop body that stays within the window and goes on to the next pass
does the same on a stream that agrees in the window. -/
theorem chunk_window (ext : Collaborators) (ssp n p q : Nat) (st st1 : ChunkLoopState)
    (d2 : List Nat)
    (hw : SameWindow p q st.reader.input.data d2) (hp : p ≤ st.reader.input.position)
    (hin : passWithin q n st)
    (hc : chunk ext false ssp n st = .ok (.next st1)) :
    chunk ext false ssp n (st.withData d2) = .ok (.next (st1.withData d2)) := by
  obtain ⟨h8, hce, hlist, hfmt⟩ := hin
  have hl := hw.le_left
  have hr := hw.le_right
  have hh := readChunkHeader_window st.reader d2 p q hw hp h8
  have hpos := readChunkHeader_position st.reader (by omega)
  have hdat := readChunkHeader_input_data false st.reader
  have hend := readChunkHeader_chunkEnd false st.reader (by omega)
  have hst : (st.withData d2).reader
      = { st.reader with input := { data := d2, position := st.reader.input.position } } := rfl
  unfold chunk at hc ⊢
  dsimp only at hc ⊢
  rw [hst, hh]
  dsimp only
  obtain ⟨hdr, hhdr⟩ : ∃ hdr, hdr = readChunkHeader false st.reader := ⟨_, rfl⟩
  rw [← hhdr] at hc hce hlist hfmt hpos hdat hend ⊢
  have hw1 : SameWindow p q hdr.reader.input.data d2 := by
    rw [hdat]
    exact hw
  have hdl : hdr.reader.input.data.length = st.reader.input.data.length := by rw [hdat]
  by_cases c1 : hdr.chunkType = chunkName "fmt "
  · rw [if_pos c1] at hc ⊢
    obtain ⟨h16, h40⟩ := hfmt c1
    unfold fmtChunk at hc ⊢
    dsimp only at hc ⊢
    rw [readFmtGeometry_window hdr.reader d2 p q hw1 (by omega) (by omega)]
    cases hg : readFmtGeometry hdr.reader with
    | error e =>
      rw [hg] at hc
      cases hc
    | ok g =>
      rw [hg] at hc
      dsimp only at hc
      obtain ⟨gf, gp⟩ := readFmtGeometry_format hdr.reader g hg (by omega)
      have gd := readFmtGeometry_input_data hdr.reader g hg
      have hw2 : SameWindow p q g.2.input.data d2 := by
        rw [gd]
        exact hw1
      by_cases hd2 : (fmtFormat g.2 g.1 hdr.length ssp).2 = true
      · rw [if_pos hd2] at hc
        cases Except.ok.inj hc
      · rw [if_neg hd2] at hc
        have hd2' : (fmtFormat g.2 g.1 hdr.length ssp).2 = false := by
          revert hd2
          cases (fmtFormat g.2 g.1 hdr.length ssp).2 <;> simp
        have hF := fmtFormat_window g.2 d2 p q g.1 hdr.length ssp hw2 (by omega) hd2'
          (fun he hl40 => by omega)
        have hFd := fmtFormat_input_data g.2 g.1 hdr.length ssp
        simp only [Except.map]
        rw [hF]
        dsimp only
        rw [if_neg (by decide)]
        have e := Except.ok.inj hc
        rw [seekToChunkEnd_withData st _ hdr.chunkEnd d2 (by rw [hFd, gd, hdat]; omega) (by omega), e]
        rfl
  · rw [if_neg c1] at hc ⊢
    by_cases c2 : hdr.chunkType = chunkName "data"
    · rw [if_pos c2] at hc ⊢
      have e := Except.ok.inj hc
      rw [dataChunk_withData, seekToChunkEnd_withData st _ hdr.chunkEnd d2
        (by show hdr.chunkEnd ≤ hdr.reader.input.data.length; rw [hdat]; omega) (by omega), e]
      rfl
    · rw [if_neg c2] at hc ⊢
      by_cases hnl : hdr.chunkType = chunkName "LIST"
      · rw [if_pos hnl] at hc ⊢
        exact listChunk_window n p q st st1 hdr _ d2 hw1 (by omega) hce rfl rfl (hlist hnl) hc
      rw [if_neg hnl] at hc ⊢
      have hM := metadataChunk_window ext hdr d2 p q hw1 (by omega) (by omega)
      rw [hM]
      cases hm : metadataChunk ext false hdr with
      | some r =>
        rw [hm] at hc
        dsimp only at hc
        have hMd := metadataChunk_input_data ext false hdr r hm
        have e := Except.ok.inj hc
        simp only [Option.map_some']
        rw [seekToChunkEnd_withData st _ hdr.chunkEnd d2 (by rw [hMd, hdat]; omega) (by omega), e]
        rfl
      | none =>
        rw [hm] at hc
        dsimp only at hc
        simp only [Option.map_none', InputStream.getPosition] at hc ⊢
        by_cases c3 : hdr.chunkEnd ≤ hdr.reader.input.position
        · rw [if_pos c3] at hc
          cases Except.ok.inj hc
        · rw [if_neg c3] at hc ⊢
          have e := Except.ok.inj hc
          rw [seekToChunkEnd_withData st _ hdr.chunkEnd d2 (by rw [hdat]; omega) (by omega), e]
          rfl

/-- A pass of the loop body that stays within the window and goes on to the next pass
does the same, with one more unit of fuel, on a stream that agrees in the window. -/
theorem chunk_within (ext : Collaborators) (ssp n p q : Nat) (st st1 : ChunkLoopState)
    (d2 : List Nat)
    (hw : SameWindow p q st.reader.input.data d2) (hp : p ≤ st.reader.input.position)
    (hin : passWithin q n st)
    (hc : chunk ext false ssp n st = .ok (.next st1)) :
    chunk ext false ssp (n + 1) (st.withData d2) = .ok (.next (st1.withData d2)) :=
  chunk_succ ext false ssp n (st.withData d2) _ (chunk_window ext ssp n p q st st1 d2 hw hp hin hc)
    (by intro h; cases h)

end WavAudioFormatReader

end

/-! ### The chunk loop over a stream with an inserted chunk -/

section
open WavFileHelpers

namespace WavAudioFormatReader

/-- The chunk loop over a stream with a chunk of an unrecognised tag inserted at offset
`q`, started before `q` in a state from which the loop over the original stream
reaches `q` by passes that stay within the first `q` bytes: the loop over the longer
stream makes the same passes, skips the inserted chunk, and goes on in step with the
loop over the original stream. -/
theorem chunkLoop_insert (ext : Collaborators) (ssp end1 n p q tag L : Nat)
    (d1 d2 front body back : List Nat) (stA stQ : ChunkLoopState)
    (hpass : PassesWithin ext ssp n q stA stQ)
    (htag : tag ∉ knownChunkTypes) (htag32 : tag < 4294967296) (hL0 : 0 < L)
    (hL : L < 4294967296) (hbody : body.length = L + L % 2)
    (hd2 : d2 = front ++ rawChunk tag L body ++ back) (hfront : front.length = q)
    (hal : Aligned (8 + L + L % 2) q d1 d2) (hw : SameWindow p q d1 d2) (hend : q ≤ end1)
    (hQ : stQ.reader.input.position = q) :
    ∀ fuel : Nat, stA.reader.input.data = d1 → p ≤ stA.reader.input.position →
      chunkLoop ext false ssp end1 n fuel stA ≠ .error .outOfFuel →
      LoopResult.Agree Eq (8 + L + L % 2) (chunkLoop ext false ssp end1 n fuel stA)
        (chunkLoop ext false ssp (end1 + (8 + L + L % 2)) (n + 1) (fuel + 1)
          (stA.withData d2)) := by
  induction hpass with
  | done st =>
    intro fuel hd hp hne
    have hlen2 : q + (8 + L + L % 2) ≤ d2.length := hal.2.1
    have hhead := readChunkHeader_at (st.withData d2).reader d2 front back body q tag L
      (by simp only [ChunkLoopState.withData, hQ]) hd2 hfront.symm htag32 hL
    have hstep : chunk ext false ssp (n + 1) (st.withData d2)
        = .ok (.next { st with reader := { st.reader with
            input := { data := d2, position := q + (8 + L + L % 2) } } }) := by
      rw [chunk_of_unknown ext false ssp (n + 1) _ (by rw [hhead]; exact htag)
        (by rw [hhead]; simp only [InputStream.getPosition]; omega), hhead]
      simp only [seekToChunkEnd, InputStream.setPosition, Int.toNat_ofNat, ChunkLoopState.withData]
      rw [Nat.min_eq_left (by omega)]
      simp only [Nat.add_assoc]
    have hsim := chunkLoop_agree ext false metadataRelation_eq ssp end1 n fuel st
      { st with reader := { st.reader with
          input := { data := d2, position := q + (8 + L + L % 2) } } }
      ⟨⟨rfl, rfl, Or.inl rfl, Or.inl rfl⟩, rfl⟩
      ⟨by rw [hd]; exact hal, by rw [hQ], by rw [hQ, hd]; exact hal.1, by
        show q + (8 + L + L % 2) = st.reader.input.position + (8 + L + L % 2)
        rw [hQ]⟩
    have hY : chunkLoop ext false ssp (end1 + (8 + L + L % 2)) n fuel
        { st with reader := { st.reader with
            input := { data := d2, position := q + (8 + L + L % 2) } } }
        ≠ .error .outOfFuel := by
      intro hc
      rw [hc] at hsim
      generalize chunkLoop ext false ssp end1 n fuel st = x1 at hsim hne
      cases hsim
      exact hne rfl
    have hloop2 : chunkLoop ext false ssp (end1 + (8 + L + L % 2)) (n + 1) (fuel + 1)
        (st.withData d2)
        = chunkLoop ext false ssp (end1 + (8 + L + L % 2)) (n + 1) fuel
          { st with reader := { st.reader with
              input := { data := d2, position := q + (8 + L + L % 2) } } } := by
      rw [chunkLoop, if_pos, hstep]
      refine ⟨?_, ?_⟩
      · simp only [InputStream.getPosition, ChunkLoopState.withData, hQ]
        omega
      · simp only [InputStream.isExhausted, ChunkLoopState.withData, hQ, decide_eq_true_eq]
        omega
    rw [hloop2, chunkLoop_succ ext false ssp _ n fuel _ _ rfl hY]
    exact hsim
  | pass st st1 st2 within next rest ih =>
    intro fuel hd hp hne
    have hwl := hw.le_left
    have hwr := hw.le_right
    have h8 := within.1
    have hin := chunk_next_input ext false ssp n st st1 next
    have hce := readChunkHeader_chunkEnd false st.reader (by rw [hd]; omega)
    cases fuel with
    | zero => exact absurd rfl hne
    | succ f =>
      have hc1 : st.reader.input.getPosition < end1 ∧ ¬ st.reader.input.isExhausted = true := by
        refine ⟨?_, ?_⟩
        · simp only [InputStream.getPosition]
          omega
        · simp only [InputStream.isExhausted, hd, decide_eq_true_eq]
          omega
      have hc2 : (st.withData d2).reader.input.getPosition < end1 + (8 + L + L % 2)
          ∧ ¬ (st.withData d2).reader.input.isExhausted = true := by
        refine ⟨?_, ?_⟩
        · simp only [InputStream.getPosition, ChunkLoopState.withData]
          omega
        · simp only [InputStream.isExhausted, ChunkLoopState.withData, decide_eq_true_eq]
          omega
      have hstep2 := chunk_within ext ssp n p q st st1 d2 (by rw [hd]; exact hw) hp
        within next
      have e1 : chunkLoop ext false ssp end1 n (f + 1) st = chunkLoop ext false ssp end1 n f st1 := by
        rw [chunkLoop, if_pos hc1, next]
      have e2 : chunkLoop ext false ssp (end1 + (8 + L + L % 2)) (n + 1) (f + 1 + 1)
          (st.withData d2)
          = chunkLoop ext false ssp (end1 + (8 + L + L % 2)) (n + 1) (f + 1) (st1.withData d2) := by
        rw [chunkLoop, if_pos hc2, hstep2]
      rw [e1] at hne ⊢
      rw [e2]
      apply ih hQ f
      · rw [hin]
        exact hd
      · rw [hin]
        show p ≤ min _ _
        rw [hce, hd]
        omega
      · exact hne

end WavAudioFormatReader

end

/-! ### An unrecognised chunk inserted at a chunk boundary -/

section
open WavFileHelpers

theorem aligned_riffFile_insert_at (size1 size2 : Nat) (pre ins rest : List Nat) :
    Aligned ins.length (12 + pre.length) (riffFile size1 (pre ++ rest))
      (riffFile size2 (pre ++ ins ++ rest)) := by
  refine ⟨?_, ?_, ?_⟩
  · rw [length_riffFile, List.length_append]
    omega
  · rw [length_riffFile, List.length_append, List.length_append]
    omega
  · rw [← List.drop_drop, drop_riffFile, List.drop_left, Nat.add_assoc, ← List.drop_drop,
      drop_riffFile, ← List.length_append, List.drop_left]

theorem getD_riffFile (size : Nat) (chunks : List Nat) (i : Nat) (h : 12 ≤ i) :
    (riffFile size chunks).getD i 0 = chunks.getD (i - 12) 0 := by
  have hlen : (toLittleEndian 4 (chunkName "RIFF") ++ toLittleEndian 4 size
      ++ toLittleEndian 4 (chunkName "WAVE")).length = 12 := by
    simp only [List.length_append, length_toLittleEndian]
  unfold riffFile
  rw [List.getD_append_right _ _ _ _ (by rw [hlen]; exact h), hlen]

theorem sameWindow_riffFile_insert_at (size1 size2 : Nat) (pre ins rest : List Nat) :
    SameWindow 12 (12 + pre.length) (riffFile size1 (pre ++ rest))
      (riffFile size2 (pre ++ ins ++ rest)) := by
  refine ⟨?_, ?_, ?_⟩
  · rw [length_riffFile, List.length_append]
    omega
  · rw [length_riffFile, List.length_append, List.length_append]
    omega
  · intro i h1 h2
    rw [getD_riffFile _ _ _ h1, getD_riffFile _ _ _ h1, List.append_assoc,
      List.getD_append _ _ _ _ (by omega), List.getD_append _ _ _ _ (by omega)]

/-- C8 (amended): a chunk with a tag the chunk loop does not test for, a declared
length `length` from 1 to `2^32 - 1` and a body of `length` bytes plus the pad byte of
an odd length, inserted at a chunk boundary of the stream: after the chunks `pre`
that follow the `WAVE` tag (none, for an insertion in front of every chunk) and in
front of the chunks `rest`, within the extent the size field declares, and with the
size field raised by its `8 + length + length % 2` bytes. The chunks of `pre` are ones
the chunk loop passes through within `pre` (`PassesWithin`: each lies with its
declared body in `pre`, a `fmt ` chunk declares the bytes its decoder reads, and the
sub-chunks of a `LIST` chunk lie within `pre` and declare the bytes their decoders
read). Then the inserted chunk is skipped: whenever decoding the original stream does
not exhaust its fuel, decoding the longer stream with one more unit of fuel fails with
the same error, is rejected as well, or yields a reader with the same geometry, data
length, sample count and metadata, whose offsets into the stream are the same or moved
by the inserted bytes. -/
theorem C8_unknown_chunk_skipped (ext : Collaborators) (size tag length : Nat)
    (body pre rest : List Nat) (fuel : Nat) (stQ : ChunkLoopState)
    (htag : tag ∉ knownChunkTypes) (htag32 : tag < 4294967296) (hpos : 0 < length)
    (hbody : body.length = length + length % 2)
    (hsize : size + (8 + length + length % 2) < 4294967296)
    (hinside : 12 + pre.length ≤ size + 8)
    (hpasses : WavAudioFormatReader.PassesWithin ext 0 fuel (12 + pre.length)
      { reader := { input := { data := riffFile size (pre ++ rest), position := 12 } } } stQ)
    (hQ : stQ.reader.input.position = 12 + pre.length)
    (hret : WavAudioFormat.createReaderFor ext (memoryInput (riffFile size (pre ++ rest))) fuel
      ≠ .error .outOfFuel) :
    ExceptAgree (OptionAgree (WavAudioFormatReader.Agree Eq (8 + length + length % 2)))
      (WavAudioFormat.createReaderFor ext (memoryInput (riffFile size (pre ++ rest))) fuel)
      (WavAudioFormat.createReaderFor ext
        (memoryInput (riffFile (size + (8 + length + length % 2))
          (pre ++ rawChunk tag length body ++ rest))) (fuel + 1)) := by
  have hins : (rawChunk tag length body).length = 8 + length + length % 2 := by
    rw [length_rawChunk, hbody]
    omega
  have hX1 : WavAudioFormatReader.chunkLoop ext false 0 (size + 8) fuel fuel
      { reader := { input := { data := riffFile size (pre ++ rest), position := 12 } } }
      ≠ .error .outOfFuel := by
    intro hc
    apply hret
    apply WavAudioFormat.createReaderFor_error_of
    rw [WavAudioFormatReader.create_riffFile ext size (pre ++ rest) fuel (by omega)]
    exact WavAudioFormatReader.runChunkLoop_error_of _ _ _ _ _ _ _ hc
  have hal := aligned_riffFile_insert_at size (size + (8 + length + length % 2)) pre
    (rawChunk tag length body) rest
  rw [hins] at hal
  have hw := sameWindow_riffFile_insert_at size (size + (8 + length + length % 2)) pre
    (rawChunk tag length body) rest
  have hfront : (toLittleEndian 4 (chunkName "RIFF")
      ++ toLittleEndian 4 (size + (8 + length + length % 2))
      ++ toLittleEndian 4 (chunkName "WAVE") ++ pre).length = 12 + pre.length := by
    simp only [List.length_append, length_toLittleEndian]
  have hsim := WavAudioFormatReader.chunkLoop_insert ext 0 (size + 8) fuel 12 (12 + pre.length) tag
    length (riffFile size (pre ++ rest))
    (riffFile (size + (8 + length + length % 2)) (pre ++ rawChunk tag length body ++ rest))
    (toLittleEndian 4 (chunkName "RIFF") ++ toLittleEndian 4 (size + (8 + length + length % 2))
      ++ toLittleEndian 4 (chunkName "WAVE") ++ pre)
    body rest _ stQ hpasses htag htag32 hpos (by omega) hbody
    (by simp only [riffFile, List.append_assoc]) hfront hal hw hinside hQ fuel rfl
    (Nat.le_refl 12) hX1
  apply WavAudioFormat.createReaderFor_agree_of
  rw [WavAudioFormatReader.create_riffFile ext size (pre ++ rest) fuel (by omega),
    WavAudioFormatReader.create_riffFile ext (size + (8 + length + length % 2)) _ (fuel + 1) hsize]
  apply WavAudioFormatReader.runChunkLoop_agree_of metadataRelation_eq
  rw [show size + (8 + length + length % 2) + 8 = size + 8 + (8 + length + length % 2) by omega]
  exact hsim

/-- C8 (amended), at an 8-bit mono stream with a `fmt ` chunk, a `LIST`/`INFO` chunk, a
`LIST`/`adtl` chunk and a `data` chunk, with a chunk `junk` of declared length 1
inserted in front of the `data` chunk: the passes through the first three chunks stay
within the first 86 bytes, the decodes agree, and both give 8000 Hz, one channel,
8 bits, two samples and the same metadata, with the data chunk found 10 bytes later. -/
theorem C8_unknown_chunk_skipped_witness :
    ExceptAgree (OptionAgree (WavAudioFormatReader.Agree Eq (8 + 1 + 1 % 2)))
      (WavAudioFormat.createReaderFor plainCollaborators
        (memoryInput (riffFile 88 (pcmFmtChunk ++ infoListChunk ++ adtlListChunk ++ pcmDataChunk))) 6)
      (WavAudioFormat.createReaderFor plainCollaborators
        (memoryInput (riffFile (88 + (8 + 1 + 1 % 2))
          (pcmFmtChunk ++ infoListChunk ++ adtlListChunk ++ rawChunk (chunkName "junk") 1 [0, 0]
            ++ pcmDataChunk))) (6 + 1))
    ∧ (WavAudioFormat.createReaderFor plainCollaborators
        (memoryInput (riffFile 88 (pcmFmtChunk ++ infoListChunk ++ adtlListChunk ++ pcmDataChunk))) 6).map
        (Option.map (fun r =>
          (r.sampleRate, r.numChannels, r.bitsPerSample, r.lengthInSamples, r.dataChunkStart)))
      = .ok (some (8000, 1, 8, 2, 94))
    ∧ (WavAudioFormat.createReaderFor plainCollaborators
        (memoryInput (riffFile (88 + (8 + 1 + 1 % 2))
          (pcmFmtChunk ++ infoListChunk ++ adtlListChunk ++ rawChunk (chunkName "junk") 1 [0, 0]
            ++ pcmDataChunk))) (6 + 1)).map
        (Option.map (fun r =>
          (r.sampleRate, r.numChannels, r.bitsPerSample, r.lengthInSamples, r.dataChunkStart)))
      = .ok (some (8000, 1, 8, 2, 104))
    ∧ (WavAudioFormat.createReaderFor plainCollaborators
        (memoryInput (riffFile (88 + (8 + 1 + 1 % 2))
          (pcmFmtChunk ++ infoListChunk ++ adtlListChunk ++ rawChunk (chunkName "junk") 1 [0, 0]
            ++ pcmDataChunk))) (6 + 1)).map
        (Option.map (fun r => r.metadataValues))
      = .ok (some [("INAM", "ab"), ("CueLabel0Identifier", "1"), ("CueLabel0Text", "a"),
          ("NumCueLabels", "1"), ("MetaDataSource", "WAV")]) := by
  refine ⟨?_, by decide!, by decide!, by decide!⟩
  have hin0 : WavAudioFormatReader.passWithin (12 + (pcmFmtChunk ++ infoListChunk ++ adtlListChunk).length) 6
      windowState := by
    unfold WavAudioFormatReader.passWithin WavAudioFormatReader.listWithin
      WavAudioFormatReader.adtlSubChunkWithin
    decide!
  have hin1 : WavAudioFormatReader.passWithin (12 + (pcmFmtChunk ++ infoListChunk ++ adtlListChunk).length) 6
      (WavAudioFormatReader.passEnd plainCollaborators 0 6 windowState) := by
    unfold WavAudioFormatReader.passWithin WavAudioFormatReader.listWithin
      WavAudioFormatReader.adtlSubChunkWithin
    decide!
  have hin2 : WavAudioFormatReader.passWithin (12 + (pcmFmtChunk ++ infoListChunk ++ adtlListChunk).length) 6
      (WavAudioFormatReader.passEnd plainCollaborators 0 6
        (WavAudioFormatReader.passEnd plainCollaborators 0 6 windowState)) := by
    unfold WavAudioFormatReader.passWithin WavAudioFormatReader.listWithin
      WavAudioFormatReader.adtlSubChunkWithin
    decide!
  exact C8_unknown_chunk_skipped plainCollaborators 88 (chunkName "junk") 1 [0, 0]
    (pcmFmtChunk ++ infoListChunk ++ adtlListChunk) pcmDataChunk 6
    (WavAudioFormatReader.passEnd plainCollaborators 0 6
      (WavAudioFormatReader.passEnd plainCollaborators 0 6
        (WavAudioFormatReader.passEnd plainCollaborators 0 6 windowState)))
    (by decide) (by decide) (by decide) (by decide) (by decide) (by decide)
    (.pass _ _ _ hin0 (by decide!) (.pass _ _ _ hin1 (by decide!) (.pass _ _ _ hin2 (by decide!) (.done _))))
    (by decide!) (by decide!)

end

/-! ### A smpl or cue chunk behind chunks that lie in front of it -/

section
open WavFileHelpers

namespace WavAudioFormatReader

end WavAudioFormatReader

end

end juce
